import Mathlib

/-!
# HoudiniUsdBridge: unpack SOP and packed USD primitive

A shallow embedding of `SOP_UnpackUSD.C` (array remapping, the two-phase
traversal of `_Cook`, `_Traverse`, the deletion of the old elements and the
name/path post-pass), of `GU_PackedUSD.cpp` (the packed primitive handle, its
setters and lazily computed caches, load and save, unpacking) and of
`HUSD_PythonConverter::getSourceLayer`, followed by the properties established
for them.

Conventions of the embedding:

* `UT_Array<T>` is a `List T`; `exint` is `Int`.  Reading `arr(i)` outside
  `[0, size)` is undefined behaviour in the source and is `none` here; a run of
  `_Cook` that performs such a read ends in `Outcome.fault`, naming the read.
* `mutable` members and by-reference out-parameters are returned explicitly.
* Services that live outside the translated files (stage cache, transform
  cache, traversal table, attribute transfer) are fields of an environment
  record that every theorem quantifies over.
-/

namespace HoudiniUsdBridge

/-! ## Basic types -/

abbrev exint := Int

/-- `fpreal`: Houdini's floating-point scalar; only stored, compared and passed on here. -/
abbrev fpreal := Rat

/-- `SdfPath`, identified by its text; the empty text is `SdfPath::EmptyPath()`. -/
structure SdfPath where
  text : String
  deriving DecidableEq, Repr

def SdfPath.EmptyPath : SdfPath := ⟨""⟩

/-- `UsdTimeCode`: either the `Default` sentinel or a numeric time.  Its `operator==`
compares the sentinel flag first and the values second, which is structural equality here. -/
inductive UsdTimeCode where
  | Default
  | Numeric (value : fpreal)
  deriving DecidableEq, Repr

/-- Modelled from the spec: `GusdPurposeSet` (gusd/purpose.h), the "visibility-purpose
bitset (render/proxy/guide/default, combinable)"; each purpose below is a bit of its own. -/
abbrev GusdPurposeSet := Nat

def GUSD_PURPOSE_NONE : GusdPurposeSet := 0
def GUSD_PURPOSE_DEFAULT : GusdPurposeSet := 1
def GUSD_PURPOSE_PROXY : GusdPurposeSet := 2
def GUSD_PURPOSE_RENDER : GusdPurposeSet := 4
def GUSD_PURPOSE_GUIDE : GusdPurposeSet := 8

/-- `UsdPrim`: the facts about a stage primitive that the translated code inspects.
`valid` is `operator bool` / `IsValid()`; `stage` stands for the stage pointer. -/
structure UsdPrim where
  valid : Bool
  stage : Nat
  path : SdfPath
  typeName : String
  isXformable : Bool
  isImageable : Bool
  isInstance : Bool
  isInstanceProxy : Bool
  isInMaster : Bool
  masterPath : SdfPath
  primInMasterPath : SdfPath
  deriving DecidableEq, Repr

/-- The default-constructed `UsdPrim()`, which is invalid. -/
def UsdPrim.empty : UsdPrim :=
  { valid := false, stage := 0, path := SdfPath.EmptyPath, typeName := "",
    isXformable := false, isImageable := false, isInstance := false,
    isInstanceProxy := false, isInMaster := false,
    masterPath := SdfPath.EmptyPath, primInMasterPath := SdfPath.EmptyPath }

/-- `GusdUSD_Traverse::PrimIndexPair`: a selected prim and the index of the root it came from. -/
abbrev PrimIndexPair := UsdPrim × exint

/-- `UT_Array<T>::operator()(exint)`: defined only inside `[0, size)`. -/
def UT_Array_at {T : Type} (arr : List T) (i : exint) : Option T :=
  if 0 ≤ i then arr[i.toNat]? else none

/-! ## `RemapArray` (SOP_UnpackUSD.C) -/

/-- One iteration of the loop of `RemapArray`: the value stored in `dstArray(i)`. -/
def RemapArray_elem {T : Type} (size : exint) (srcArray : List T) (defaultValue : T)
    (pair : PrimIndexPair) : Option T :=
  let index : exint := pair.2
  if index ≥ 0 ∧ index < size then UT_Array_at srcArray index else some defaultValue

/-- The loop of `RemapArray` over the pairs still to be visited. -/
def RemapArray_loop {T : Type} (size : exint) (srcArray : List T) (defaultValue : T) :
    List PrimIndexPair → Option (List T)
  | [] => some []
  | pair :: rest =>
    match RemapArray_elem size srcArray defaultValue pair with
    | none => none
    | some v =>
      match RemapArray_loop size srcArray defaultValue rest with
      | none => none
      | some vs => some (v :: vs)

/-- `RemapArray(pairs, srcArray, defaultValue, dstArray)`: the resulting `dstArray`.
`size` is the size of `pairs`, as in the source. -/
def RemapArray {T : Type} (pairs : List PrimIndexPair) (srcArray : List T)
    (defaultValue : T) : Option (List T) :=
  let size : exint := pairs.length
  RemapArray_loop size srcArray defaultValue pairs

/-! ## The packed USD primitive (GU_PackedUSD.cpp) -/

/-- `UT_ErrorSeverity`, in increasing order of severity. -/
inductive UT_ErrorSeverity where
  | UT_ERROR_NONE
  | UT_ERROR_MESSAGE
  | UT_ERROR_PROMPT
  | UT_ERROR_WARNING
  | UT_ERROR_ABORT
  | UT_ERROR_FATAL
  deriving DecidableEq, Repr

open UT_ErrorSeverity

abbrev UT_Matrix4D := Matrix (Fin 4) (Fin 4) fpreal
abbrev UT_Matrix3D := Matrix (Fin 3) (Fin 3) fpreal
abbrev UT_Vector3D := Fin 3 → fpreal

/-- `UT_Matrix4D::getTranslates`: the first three entries of the last row. -/
def UT_Matrix4D_getTranslates (mx : UT_Matrix4D) : UT_Vector3D :=
  fun j => mx 3 j.castSucc

/-- `UT_Matrix3D(mx)`: the upper-left 3x3 block. -/
def UT_Matrix3D_of (mx : UT_Matrix4D) : UT_Matrix3D :=
  Matrix.of fun i j => mx i.castSucc j.castSucc

/-- `UT_BoundingBox`, either made invalid or holding its two corners. -/
inductive UT_BoundingBox where
  | invalid
  | box (vmin vmax : UT_Vector3D)
  deriving DecidableEq

/-- `GT_PrimitiveHandle`: a possibly null reference to a converted primitive. -/
abbrev GT_PrimitiveHandle := Option Nat

/-- `GusdStageEditPtr`: the variant edit split off a prim path, possibly null. -/
abbrev GusdStageEditPtr := Option String

/-- Observable calls into services outside the handle, in program order. -/
inductive Event where
  | stageCacheGetPrim (fileName : String) (primPath : SdfPath) (edit : GusdStageEditPtr)
      (sev : UT_ErrorSeverity)
  | xformCacheGet (prim : UsdPrim) (frame : UsdTimeCode)
  | tfWarn (msg : String)
  | boundsCacheCompute (prim : UsdPrim) (frame : UsdTimeCode) (purposes : List String)
  | gtPrimCacheGet (prim : UsdPrim) (frame : UsdTimeCode) (purposes : GusdPurposeSet)
  | utAssert (msg : String)
  deriving DecidableEq

/-- Services used by the handle that are defined outside GU_PackedUSD.cpp. -/
structure UsdEnv where
  /-- `GusdStageEdit::GetPrimPathAndEditFromVariantsPath`. -/
  GetPrimPathAndEditFromVariantsPath : SdfPath → SdfPath × GusdStageEditPtr
  /-- `GusdStageCacheReader::GetPrim(file, path, edit, LoadAll, sev).first`. -/
  GetPrim : String → SdfPath → GusdStageEditPtr → UT_ErrorSeverity → UsdPrim
  /-- `GusdUSD_XformCache::GetLocalToWorldTransform(prim, time, xform)`: the matrix written. -/
  GetLocalToWorldTransform : UsdPrim → UsdTimeCode → UT_Matrix4D
  /-- `GusdUSD_Utils::CreateSdfPath(str, path)`: the value of the in-out `path` afterwards. -/
  CreateSdfPath : String → SdfPath → SdfPath
  /-- `GusdUSD_Utils::GetNumericTime(time)`. -/
  GetNumericTime : UsdTimeCode → fpreal
  /-- `GusdPurposeSetToTokens(purposes)`. -/
  GusdPurposeSetToTokens : GusdPurposeSet → List String
  /-- `GusdBoundsCache::ComputeUntransformedBound(prim, time, purposes, box)`: the box
  written, `none` when it returns false. -/
  ComputeUntransformedBound : UsdPrim → UsdTimeCode → List String → Option UT_BoundingBox
  /-- `GusdGT_PrimCache::GetPrim(prim, time, purposes)`. -/
  GetGTPrim : UsdPrim → UsdTimeCode → GusdPurposeSet → GT_PrimitiveHandle

/-- A value held by `UT_Options` under a key. -/
inductive UT_OptionEntry where
  | S (value : String)
  | I (value : Int)
  | F (value : fpreal)
  | SArray (value : List String)
  deriving DecidableEq, Repr

/-- `UT_Options`: a flat record of typed values by key, in the order the keys were set. -/
abbrev UT_Options := List (String × UT_OptionEntry)

namespace UT_Options

/-- Set the entry of `name`, in place when the key exists and at the end otherwise. -/
def setOption (options : UT_Options) (name : String) (entry : UT_OptionEntry) : UT_Options :=
  if (options.lookup name).isSome then
    options.map (fun e => if e.1 = name then (name, entry) else e)
  else options ++ [(name, entry)]

def setOptionS (options : UT_Options) (name : String) (value : String) : UT_Options :=
  setOption options name (UT_OptionEntry.S value)

def setOptionI (options : UT_Options) (name : String) (value : Int) : UT_Options :=
  setOption options name (UT_OptionEntry.I value)

def setOptionF (options : UT_Options) (name : String) (value : fpreal) : UT_Options :=
  setOption options name (UT_OptionEntry.F value)

def setOptionSArray (options : UT_Options) (name : String) (value : List String) :
    UT_Options :=
  setOption options name (UT_OptionEntry.SArray value)

/-- `importOption(name, UT_StringHolder&)`: the value imported, `none` when it returns false. -/
def importOptionS (options : UT_Options) (name : String) : Option String :=
  match options.lookup name with
  | some (UT_OptionEntry.S value) => some value
  | _ => none

/-- `importOption(name, exint&)`. -/
def importOptionI (options : UT_Options) (name : String) : Option Int :=
  match options.lookup name with
  | some (UT_OptionEntry.I value) => some value
  | _ => none

/-- `importOption(name, fpreal&)`; an integer entry is converted. -/
def importOptionF (options : UT_Options) (name : String) : Option fpreal :=
  match options.lookup name with
  | some (UT_OptionEntry.F value) => some value
  | some (UT_OptionEntry.I value) => some (value : fpreal)
  | _ => none

/-- `importOption(name, UT_StringArray&)`. -/
def importOptionSArray (options : UT_Options) (name : String) : Option (List String) :=
  match options.lookup name with
  | some (UT_OptionEntry.SArray value) => some value
  | _ => none

end UT_Options

/-- The owning `GU_PrimPacked`, as far as the handle writes to it.  `topologyDirtyCount`
counts the calls of `topologyDirty()`. -/
structure GU_PrimPacked where
  localTransform : UT_Matrix3D
  pos : UT_Vector3D
  topologyDirtyCount : Nat
  deriving DecidableEq

/-- `GusdGU_PackedUSD`: the data members, with `boxCache` standing for the bounding box
cached by the base class `GU_PackedImpl`. -/
structure GusdGU_PackedUSD where
  m_fileName : String
  m_altFileName : String
  m_primPath : SdfPath
  m_srcPrimPath : SdfPath
  m_index : exint
  m_frame : UsdTimeCode
  m_purposes : GusdPurposeSet
  m_usdPrim : UsdPrim
  m_transformCacheValid : Bool
  m_transformCache : UT_Matrix4D
  m_masterPathCacheValid : Bool
  m_masterPathCache : String
  m_gtPrimCache : GT_PrimitiveHandle
  boxCache : UT_BoundingBox
  deriving DecidableEq

namespace GusdGU_PackedUSD

/-- `resetCaches()`. -/
def resetCaches (self : GusdGU_PackedUSD) : GusdGU_PackedUSD :=
  { self with
    boxCache := UT_BoundingBox.invalid
    m_usdPrim := UsdPrim.empty
    m_transformCacheValid := false
    m_gtPrimCache := none }

/-- Modelled from the spec: the severity `getUsdPrim()` uses when called without an
argument (declared in GU_PackedUSD.h); resolution "on failure returns empty and reports
(does not throw) a severity-tagged diagnostic". -/
def getUsdPrim_sev : UT_ErrorSeverity := UT_ERROR_ABORT

/-- `getUsdPrim(sev)`: the prim returned, the handle afterwards, the calls made. -/
def getUsdPrim (env : UsdEnv) (self : GusdGU_PackedUSD) (sev : UT_ErrorSeverity) :
    UsdPrim × GusdGU_PackedUSD × List Event :=
  if self.m_usdPrim.valid then
    (self.m_usdPrim, self, [])
  else
    let self1 := { self with m_masterPathCacheValid := false }
    let split := env.GetPrimPathAndEditFromVariantsPath self1.m_primPath
    let prim := env.GetPrim self1.m_fileName split.1 split.2 sev
    let self2 := { self1 with m_usdPrim := prim }
    (self2.m_usdPrim, self2,
      [Event.stageCacheGetPrim self1.m_fileName split.1 split.2 sev])

/-- `getUsdTransform()`: the matrix returned, the handle afterwards, the calls made. -/
def getUsdTransform (env : UsdEnv) (self : GusdGU_PackedUSD) :
    UT_Matrix4D × GusdGU_PackedUSD × List Event :=
  if self.m_transformCacheValid then
    (self.m_transformCache, self, [])
  else
    match getUsdPrim env self getUsdPrim_sev with
    | (prim, self1, ev) =>
      if !prim.valid then
        let self2 := { self1 with m_transformCache := 1 }
        (self2.m_transformCache, self2,
          ev ++ [Event.tfWarn ("Invalid prim! " ++ self1.m_primPath.text)])
      else if prim.isXformable then
        let self2 := { self1 with
          m_transformCache := env.GetLocalToWorldTransform prim self1.m_frame
          m_transformCacheValid := true }
        (self2.m_transformCache, self2, ev ++ [Event.xformCacheGet prim self1.m_frame])
      else
        let self2 := { self1 with m_transformCache := 1 }
        (self2.m_transformCache, self2, ev)

/-- `setTransform(prim, mx)`: the owning primitive afterwards. -/
def setTransform (prim : GU_PrimPacked) (mx : UT_Matrix4D) : GU_PrimPacked :=
  let p := UT_Matrix4D_getTranslates mx
  { prim with localTransform := UT_Matrix3D_of mx, pos := p }

/-- `updateTransform(prim)`. -/
def updateTransform (env : UsdEnv) (self : GusdGU_PackedUSD) (prim : GU_PrimPacked) :
    GusdGU_PackedUSD × GU_PrimPacked × List Event :=
  match getUsdTransform env self with
  | (mx, self1, ev) => (self1, setTransform prim mx, ev)

/-- `GU_PrimPacked::topologyDirty()`. -/
def topologyDirty (prim : GU_PrimPacked) : GU_PrimPacked :=
  { prim with topologyDirtyCount := prim.topologyDirtyCount + 1 }

/-- `setFileName(prim, fileName)`. -/
def setFileName (env : UsdEnv) (self : GusdGU_PackedUSD) (prim : GU_PrimPacked)
    (fileName : String) : GusdGU_PackedUSD × GU_PrimPacked × List Event :=
  if fileName ≠ self.m_fileName then
    let self1 := { self with m_fileName := fileName }
    let self2 := resetCaches self1
    let prim1 := topologyDirty prim
    updateTransform env self2 prim1
  else
    (self, prim, [])

/-- `setAltFileName(fileName)`. -/
def setAltFileName (self : GusdGU_PackedUSD) (fileName : String) : GusdGU_PackedUSD :=
  if fileName ≠ self.m_altFileName then { self with m_altFileName := fileName } else self

/-- `setPrimPath(prim, const SdfPath&)`. -/
def setPrimPath (env : UsdEnv) (self : GusdGU_PackedUSD) (prim : GU_PrimPacked)
    (path : SdfPath) : GusdGU_PackedUSD × GU_PrimPacked × List Event :=
  if path ≠ self.m_primPath then
    let self1 := { self with m_primPath := path }
    let self2 := resetCaches self1
    let prim1 := topologyDirty prim
    updateTransform env self2 prim1
  else
    (self, prim, [])

/-- `setPrimPath(prim, const UT_StringHolder&)`. -/
def setPrimPathS (env : UsdEnv) (self : GusdGU_PackedUSD) (prim : GU_PrimPacked)
    (p : String) : GusdGU_PackedUSD × GU_PrimPacked × List Event :=
  let path := env.CreateSdfPath p SdfPath.EmptyPath
  setPrimPath env self prim path

/-- `setSrcPrimPath(const SdfPath&)`. -/
def setSrcPrimPath (self : GusdGU_PackedUSD) (path : SdfPath) : GusdGU_PackedUSD :=
  if path ≠ self.m_srcPrimPath then { self with m_srcPrimPath := path } else self

/-- `setSrcPrimPath(const UT_StringHolder&)`. -/
def setSrcPrimPathS (env : UsdEnv) (self : GusdGU_PackedUSD) (p : String) :
    GusdGU_PackedUSD :=
  let path := env.CreateSdfPath p SdfPath.EmptyPath
  setSrcPrimPath self path

/-- `setIndex(index)`. -/
def setIndex (self : GusdGU_PackedUSD) (index : exint) : GusdGU_PackedUSD :=
  if index ≠ self.m_index then { self with m_index := index } else self

/-- `setFrame(prim, UsdTimeCode)`. -/
def setFrame (env : UsdEnv) (self : GusdGU_PackedUSD) (prim : GU_PrimPacked)
    (frame : UsdTimeCode) : GusdGU_PackedUSD × GU_PrimPacked × List Event :=
  if frame ≠ self.m_frame then
    let self1 := { self with m_frame := frame }
    let self2 := resetCaches self1
    let prim1 := topologyDirty prim
    updateTransform env self2 prim1
  else
    (self, prim, [])

/-- `setFrame(prim, fpreal)`. -/
def setFrameF (env : UsdEnv) (self : GusdGU_PackedUSD) (prim : GU_PrimPacked)
    (frame : fpreal) : GusdGU_PackedUSD × GU_PrimPacked × List Event :=
  setFrame env self prim (UsdTimeCode.Numeric frame)

/-- `setPurposes(prim, purposes)`; `prim` may be null. -/
def setPurposes (self : GusdGU_PackedUSD) (prim : Option GU_PrimPacked)
    (purposes : GusdPurposeSet) : GusdGU_PackedUSD × Option GU_PrimPacked :=
  let self1 := { self with m_purposes := purposes }
  let prim1 := match prim with
    | some p => some (topologyDirty p)
    | none => none
  (resetCaches self1, prim1)

/-- `primPath()`. -/
def primPath (self : GusdGU_PackedUSD) : SdfPath := self.m_primPath

/-- `GusdGU_PackedUSD()`: the default-constructed handle.  The frame is
`std::numeric_limits<float>::min()`, the smallest positive normal float `2^-126`. -/
def init : GusdGU_PackedUSD :=
  { m_fileName := "", m_altFileName := "", m_primPath := SdfPath.EmptyPath,
    m_srcPrimPath := SdfPath.EmptyPath, m_index := -1,
    m_frame := UsdTimeCode.Numeric (1 / 2 ^ 126),
    m_purposes := GUSD_PURPOSE_DEFAULT ||| GUSD_PURPOSE_PROXY,
    m_usdPrim := UsdPrim.empty, m_transformCacheValid := false, m_transformCache := 1,
    m_masterPathCacheValid := false, m_masterPathCache := "", m_gtPrimCache := none,
    boxCache := UT_BoundingBox.invalid }

/-- `getNumPurposes()`. -/
def getNumPurposes (self : GusdGU_PackedUSD) : exint :=
  let rv0 : exint := 0
  let rv1 := if self.m_purposes &&& GUSD_PURPOSE_PROXY ≠ 0 then rv0 + 1 else rv0
  let rv2 := if self.m_purposes &&& GUSD_PURPOSE_RENDER ≠ 0 then rv1 + 1 else rv1
  let rv3 := if self.m_purposes &&& GUSD_PURPOSE_GUIDE ≠ 0 then rv2 + 1 else rv2
  rv3

/-- `getIntrinsicPurposes(purposes)`: the array written. -/
def getIntrinsicPurposes (self : GusdGU_PackedUSD) : List String :=
  let p0 : List String := []
  let p1 := if self.m_purposes &&& GUSD_PURPOSE_PROXY ≠ 0 then p0 ++ ["proxy"] else p0
  let p2 := if self.m_purposes &&& GUSD_PURPOSE_RENDER ≠ 0 then p1 ++ ["render"] else p1
  let p3 := if self.m_purposes &&& GUSD_PURPOSE_GUIDE ≠ 0 then p2 ++ ["guide"] else p2
  p3

/-- Modelled from the spec: `GusdPurposeSetFromArray` (gusd/purpose.h), the purpose set
named by an array of the tokens "default", "proxy", "render", "guide" ("visibility-purpose
bitset (render/proxy/guide/default, combinable)"). -/
def GusdPurposeSetFromArray (purposes : List String) : GusdPurposeSet :=
  purposes.foldl
    (fun p s =>
      if s = "default" then p ||| GUSD_PURPOSE_DEFAULT
      else if s = "proxy" then p ||| GUSD_PURPOSE_PROXY
      else if s = "render" then p ||| GUSD_PURPOSE_RENDER
      else if s = "guide" then p ||| GUSD_PURPOSE_GUIDE
      else p)
    GUSD_PURPOSE_NONE

/-- `setIntrinsicPurposes(prim, purposes)`. -/
def setIntrinsicPurposes (self : GusdGU_PackedUSD) (prim : Option GU_PrimPacked)
    (purposes : List String) : GusdGU_PackedUSD × Option GU_PrimPacked :=
  setPurposes self prim (GusdPurposeSetFromArray purposes ||| GUSD_PURPOSE_DEFAULT)

/-- `isValid()`. -/
def isValid (self : GusdGU_PackedUSD) : Bool := self.m_usdPrim.valid

/-- Lines 583-587 of `update`: the file name, from "usdFileName" or else "fileName". -/
def update_fileName (self : GusdGU_PackedUSD) (options : UT_Options) : GusdGU_PackedUSD :=
  let imported := match options.importOptionS "usdFileName" with
    | some fileName => some fileName
    | none => options.importOptionS "fileName"
  match imported with
  | some fileName => { self with m_fileName := fileName }
  | none => self

/-- Lines 589-593 of `update`: the alternate file name. -/
def update_altFileName (self : GusdGU_PackedUSD) (options : UT_Options) : GusdGU_PackedUSD :=
  let imported := match options.importOptionS "usdAltFileName" with
    | some altFileName => some altFileName
    | none => options.importOptionS "altFileName"
  match imported with
  | some altFileName => setAltFileName self altFileName
  | none => self

/-- Lines 595-599 of `update`: the prim path, from "usdPrimPath" or else "nodePath". -/
def update_primPath (env : UsdEnv) (self : GusdGU_PackedUSD) (options : UT_Options) :
    GusdGU_PackedUSD :=
  let imported := match options.importOptionS "usdPrimPath" with
    | some primPath => some primPath
    | none => options.importOptionS "nodePath"
  match imported with
  | some primPath => { self with m_primPath := env.CreateSdfPath primPath self.m_primPath }
  | none => self

/-- Lines 601-604 of `update`: the source prim path. -/
def update_srcPrimPath (env : UsdEnv) (self : GusdGU_PackedUSD) (options : UT_Options) :
    GusdGU_PackedUSD :=
  match options.importOptionS "usdSrcPrimPath" with
  | some primPath =>
    { self with m_srcPrimPath := env.CreateSdfPath primPath self.m_srcPrimPath }
  | none => self

/-- Lines 606-610 of `update`: the index. -/
def update_index (self : GusdGU_PackedUSD) (options : UT_Options) : GusdGU_PackedUSD :=
  match options.importOptionI "usdIndex" with
  | some index => { self with m_index := index }
  | none => self

/-- Lines 612-617 of `update`: the frame, from "usdFrame" or else "frame". -/
def update_frame (self : GusdGU_PackedUSD) (options : UT_Options) : GusdGU_PackedUSD :=
  let imported := match options.importOptionF "usdFrame" with
    | some frame => some frame
    | none => options.importOptionF "frame"
  match imported with
  | some frame => { self with m_frame := UsdTimeCode.Numeric frame }
  | none => self

/-- Lines 619-623 of `update`: the purposes. -/
def update_purposes (self : GusdGU_PackedUSD) (prim : Option GU_PrimPacked)
    (options : UT_Options) : GusdGU_PackedUSD × Option GU_PrimPacked :=
  match options.importOptionSArray "usdViewportPurpose" with
  | some purposes => setIntrinsicPurposes self prim purposes
  | none => (self, prim)

/-- `update(prim, options)`. -/
def update (env : UsdEnv) (self : GusdGU_PackedUSD) (prim : Option GU_PrimPacked)
    (options : UT_Options) : GusdGU_PackedUSD × Option GU_PrimPacked :=
  let self1 := update_fileName self options
  let self2 := update_altFileName self1 options
  let self3 := update_primPath env self2 options
  let self4 := update_srcPrimPath env self3 options
  let self5 := update_index self4 options
  let self6 := update_frame self5 options
  let set := update_purposes self6 prim options
  (resetCaches set.1, set.2)

/-- `load(prim, options, map)`: always true. -/
def load (env : UsdEnv) (self : GusdGU_PackedUSD) (prim : Option GU_PrimPacked)
    (options : UT_Options) : Bool × GusdGU_PackedUSD × Option GU_PrimPacked :=
  let updated := update env self prim options
  (true, updated.1, updated.2)

/-- `save(options, map)`: always true, with the options written. -/
def save (env : UsdEnv) (self : GusdGU_PackedUSD) (options : UT_Options) :
    Bool × UT_Options :=
  let o1 := options.setOptionS "usdFileName" self.m_fileName
  let o2 := o1.setOptionS "usdAltFileName" self.m_altFileName
  let o3 := o2.setOptionS "usdPrimPath" self.m_primPath.text
  let o4 := o3.setOptionS "usdSrcPrimPath" self.m_srcPrimPath.text
  let o5 := o4.setOptionI "usdIndex" self.m_index
  let o6 := o5.setOptionF "usdFrame" (env.GetNumericTime self.m_frame)
  let purposes := getIntrinsicPurposes self
  let o7 := o6.setOptionSArray "usdViewportPurpose" purposes
  (true, o7)

/-- `UsdGeomImageable(prim)` converted to bool: a valid prim that is imageable. -/
def isImageablePrim (prim : UsdPrim) : Bool := prim.valid && prim.isImageable

/-- `getBounds(box)`: the return value, the box written, the handle afterwards, the
calls made.  `UT_ASSERT_MSG` is recorded as a call and does not end the function. -/
def getBounds (env : UsdEnv) (self : GusdGU_PackedUSD) :
    Bool × UT_BoundingBox × GusdGU_PackedUSD × List Event :=
  match getUsdPrim env self getUsdPrim_sev with
  | (prim, self1, ev) =>
    let ev1 := if ¬ prim.valid then ev ++ [Event.utAssert "Invalid USD prim"] else ev
    if isImageablePrim prim then
      let purposes := env.GusdPurposeSetToTokens self1.m_purposes
      match env.ComputeUntransformedBound prim self1.m_frame purposes with
      | some box =>
        (true, box, self1, ev1 ++ [Event.boundsCacheCompute prim self1.m_frame purposes])
      | none =>
        (false, UT_BoundingBox.invalid, self1,
          ev1 ++ [Event.boundsCacheCompute prim self1.m_frame purposes])
    else
      (false, UT_BoundingBox.invalid, self1, ev1)

/-- The text a stage pointer is printed as by `ost << (void const *)ptr`. -/
def stagePtrString (stage : Nat) : String :=
  "0x" ++ String.mk (Nat.toDigits 16 stage)

/-- Lines 1073-1077 of `getInstanceKey`: a non-empty master key replaces the prim path. -/
def getInstanceKey_finish (self : GusdGU_PackedUSD) (key : UT_Options) : UT_Options :=
  if self.m_masterPathCache ≠ "" then key.setOptionS "n" self.m_masterPathCache else key

/-- `getInstanceKey(key)`: the return value, the key written, the handle afterwards, the
calls made. -/
def getInstanceKey (env : UsdEnv) (self : GusdGU_PackedUSD) (key : UT_Options) :
    Bool × UT_Options × GusdGU_PackedUSD × List Event :=
  let key1 := key.setOptionS "f" self.m_fileName
  let key2 := key1.setOptionS "n" self.m_primPath.text
  let key3 := key2.setOptionF "t" (env.GetNumericTime self.m_frame)
  let key4 := key3.setOptionI "p" (self.m_purposes : Int)
  if ¬ self.m_masterPathCacheValid then
    match getUsdPrim env self getUsdPrim_sev with
    | (usdPrim, self1, ev) =>
      if ¬ usdPrim.valid then
        (true, key4, self1, ev)
      else
        let stagePtr := stagePtrString usdPrim.stage
        let masterPath :=
          if usdPrim.valid ∧ usdPrim.isInstance then stagePtr ++ usdPrim.masterPath.text
          else if usdPrim.valid ∧ usdPrim.isInstanceProxy then
            stagePtr ++ usdPrim.primInMasterPath.text
          else ""
        let self2 := { self1 with m_masterPathCache := masterPath,
                                  m_masterPathCacheValid := true }
        (true, getInstanceKey_finish self2 key4, self2, ev)
  else
    (true, getInstanceKey_finish self key4, self, [])

/-- `fullGT()`: the handle returned, the packed handle afterwards, the calls made. -/
def fullGT (env : UsdEnv) (self : GusdGU_PackedUSD) :
    GT_PrimitiveHandle × GusdGU_PackedUSD × List Event :=
  if self.m_gtPrimCache.isSome then
    (self.m_gtPrimCache, self, [])
  else
    match getUsdPrim env self getUsdPrim_sev with
    | (usdPrim, self1, ev) =>
      if usdPrim.valid then
        let self2 := { self1 with
          m_gtPrimCache := env.GetGTPrim self1.m_usdPrim self1.m_frame self1.m_purposes }
        (self2.m_gtPrimCache, self2,
          ev ++ [Event.gtPrimCacheGet self1.m_usdPrim self1.m_frame self1.m_purposes])
      else
        (self1.m_gtPrimCache, self1, ev)

end GusdGU_PackedUSD

/-! ## Geometry container, as far as `_Cook` touches it -/

abbrev GA_Offset := Int
abbrev GA_StringIndexType := Int

def GA_INVALID_STRING_INDEX : GA_StringIndexType := -1

/-- Modelled from the spec: the name of the "path attribute (source file identity)"
stamped on unpacked geometry (`GUSD_PATH_ATTR`, GU_USD.h). -/
def GUSD_PATH_ATTR : String := "usdpath"

/-- Modelled from the spec: the name of the "prim-path attribute (source scene path)"
stamped on unpacked geometry (`GUSD_PRIMPATH_ATTR`, GU_USD.h). -/
def GUSD_PRIMPATH_ATTR : String := "usdprimpath"

inductive GA_AttributeOwner where
  | GA_ATTRIB_POINT
  | GA_ATTRIB_PRIMITIVE
  deriving DecidableEq, Repr

open GA_AttributeOwner

/-- A string attribute: its table of shared strings and, per element, the index held. -/
structure GA_ATIString where
  strings : List String
  handles : List (GA_Offset × GA_StringIndexType)
  deriving DecidableEq

namespace GA_ATIString

/-- `getStringIndex(offset)`. -/
def getStringIndex (a : GA_ATIString) (offset : GA_Offset) : GA_StringIndexType :=
  match a.handles.lookup offset with
  | some idx => idx
  | none => GA_INVALID_STRING_INDEX

/-- `lookupString(idx)`: null for an index that names no string. -/
def lookupString (a : GA_ATIString) (idx : GA_StringIndexType) : Option String :=
  UT_Array_at a.strings idx

/-- `setStringIndex(offset, idx)`. -/
def setStringIndex (a : GA_ATIString) (offset : GA_Offset) (idx : GA_StringIndexType) :
    GA_ATIString :=
  { a with handles := (offset, idx) :: a.handles.filter (fun h => h.1 ≠ offset) }

/-- `setString(offset, str)`: an equal string already in the table is shared, a new one
is added, and the empty string clears the element. -/
def setString (a : GA_ATIString) (offset : GA_Offset) (str : String) : GA_ATIString :=
  if str = "" then
    a.setStringIndex offset GA_INVALID_STRING_INDEX
  else
    let i := a.strings.indexOf str
    if i < a.strings.length then
      a.setStringIndex offset (i : Int)
    else
      { a with strings := a.strings ++ [str] }.setStringIndex offset (a.strings.length : Int)

/-- `get(offset)`: the string held by an element, empty when unset. -/
def get (a : GA_ATIString) (offset : GA_Offset) : String :=
  match a.lookupString (a.getStringIndex offset) with
  | some str => str
  | none => ""

end GA_ATIString

/-- A primitive of the detail; `packedUSD` is its implementation when its type id is
`GusdGU_PackedUSD::typeId()`. -/
structure GA_Primitive where
  offset : GA_Offset
  packedUSD : Option GusdGU_PackedUSD
  deriving DecidableEq

/-- A point attribute holding a 4x4 matrix per element (a float tuple of size 16), with
its type info and its non-transforming flag. -/
structure GA_ATIMatrix4 where
  typeInfoTransform : Bool
  nonTransforming : Bool
  values : List (GA_Offset × UT_Matrix4D)
  deriving DecidableEq

/-- `GU_Detail`: its point offsets, its primitives and its primitive string attributes
by name; further the detail string attributes by name, each with the value it holds at
`GA_DETAIL_OFFSET`, and the point matrix attributes by name. -/
structure GU_Detail where
  points : List GA_Offset
  primitives : List GA_Primitive
  primitiveStrings : List (String × GA_ATIString)
  detailStrings : List (String × String) := []
  pointMatrices : List (String × GA_ATIMatrix4) := []
  deriving DecidableEq

/-- `GA_Range`: the offsets it runs over, in index order, as found when it was built. -/
structure GA_Range where
  owner : GA_AttributeOwner
  offsets : List GA_Offset
  deriving DecidableEq

namespace GU_Detail

/-- The offsets of an index map, in index order. -/
def getIndexMap (gdp : GU_Detail) (owner : GA_AttributeOwner) : List GA_Offset :=
  match owner with
  | GA_ATTRIB_POINT => gdp.points
  | GA_ATTRIB_PRIMITIVE => gdp.primitives.map (fun prim => prim.offset)

/-- `GA_Range(indexMap, group)`: the elements of the group, all of them for a null group. -/
def range (gdp : GU_Detail) (owner : GA_AttributeOwner) (group : Option (List GA_Offset)) :
    GA_Range :=
  match group with
  | none => { owner := owner, offsets := gdp.getIndexMap owner }
  | some members =>
    { owner := owner, offsets := (gdp.getIndexMap owner).filter (fun o => o ∈ members) }

/-- `findStringTuple(GA_ATTRIB_PRIMITIVE, name, 1)`. -/
def findStringTuple (gdp : GU_Detail) (name : String) : Option GA_ATIString :=
  gdp.primitiveStrings.lookup name

/-- Replace the primitive string attribute called `name`. -/
def putStringTuple (gdp : GU_Detail) (name : String) (a : GA_ATIString) : GU_Detail :=
  { gdp with primitiveStrings :=
      if (gdp.primitiveStrings.lookup name).isSome then
        gdp.primitiveStrings.map (fun e => if e.1 = name then (name, a) else e)
      else gdp.primitiveStrings ++ [(name, a)] }

/-- `addStringTuple(GA_ATTRIB_PRIMITIVE, name, 1)`: the attribute of that name, created
when missing; null when the name cannot be used for an attribute. -/
def addStringTuple (validName : String → Bool) (gdp : GU_Detail) (name : String) :
    GU_Detail × Option String :=
  match gdp.findStringTuple name with
  | some _ => (gdp, some name)
  | none =>
    if validName name then (gdp.putStringTuple name { strings := [], handles := [] }, some name)
    else (gdp, none)

end GU_Detail

/-! ## Traversals and `_Traverse` (SOP_UnpackUSD.C) -/

def _NOTRAVERSE_NAME : String := "none"
def _GPRIMTRAVERSE_NAME : String := "std:boundables"

/-- A diagnostic held by the error manager. -/
abbrev Diag := UT_ErrorSeverity × String

def UT_ErrorSeverity.rank : UT_ErrorSeverity → Nat
  | UT_ERROR_NONE => 0
  | UT_ERROR_MESSAGE => 1
  | UT_ERROR_PROMPT => 2
  | UT_ERROR_WARNING => 3
  | UT_ERROR_ABORT => 4
  | UT_ERROR_FATAL => 5

/-- Modelled from the spec: the severity with which `GUSD_ERR()` (gusd/error.h) reports,
"operation aborts, diagnostic reported". -/
def GUSD_ERR : UT_ErrorSeverity := UT_ERROR_ABORT

/-- `error()`: the highest severity among the diagnostics reported so far. -/
def error (errors : List Diag) : UT_ErrorSeverity :=
  errors.foldl (fun sev d => if sev.rank < d.1.rank then d.1 else sev) UT_ERROR_NONE

/-- Modelled from the spec: `GusdDefaultArray<T>` (gusd/defaultArray.h), "a single constant
broadcast to all roots, or a per-element sequence"; it varies when the sequence is non-empty. -/
structure GusdDefaultArray (T : Type) where
  _array : List T
  _default : T
  deriving DecidableEq

namespace GusdDefaultArray

def IsVarying {T : Type} (a : GusdDefaultArray T) : Bool := decide (0 < a._array.length)
def GetDefault {T : Type} (a : GusdDefaultArray T) : T := a._default
def GetArray {T : Type} (a : GusdDefaultArray T) : List T := a._array
def SetConstant {T : Type} (_a : GusdDefaultArray T) (value : T) : GusdDefaultArray T :=
  { _array := [], _default := value }
/-- `GusdDefaultArray(defaultValue)`. -/
def ofDefault {T : Type} (value : T) : GusdDefaultArray T :=
  { _array := [], _default := value }

end GusdDefaultArray

/-- What a call of `FindPrims` leaves behind: its return value, the out-array, and the
diagnostics it reported. -/
structure FindPrimsResult where
  ok : Bool
  traversed : List PrimIndexPair
  errors : List Diag

/-- Modelled from the spec: a registered traversal policy `GusdUSD_Traverse`
(gusd/USD_Traverse.h), exposing `createOptions` and `findPrims`.  `Configure` yields the
configured options, or `none` when it returns false. -/
structure GusdUSD_Traverse (Opts : Type) where
  CreateOpts : Option Opts
  Configure : Opts → fpreal → Option Opts × List Diag
  FindPrims : List UsdPrim → GusdDefaultArray UsdTimeCode → GusdDefaultArray GusdPurposeSet →
    List PrimIndexPair → Bool → Option Opts → FindPrimsResult

/-- What `_Traverse` leaves behind; `findPrims` tells whether `FindPrims` was reached. -/
structure TraverseResult where
  ok : Bool
  traversed : List PrimIndexPair
  errors : List Diag
  findPrims : Bool

/-- `SOP_UnpackUSD::_Traverse`, over the traversal table `FindTraversal`. -/
def _Traverse {Opts : Type} (FindTraversal : String → Option (GusdUSD_Traverse Opts))
    (traversal : String) (time : fpreal) (prims : List UsdPrim)
    (times : GusdDefaultArray UsdTimeCode) (purposes : GusdDefaultArray GusdPurposeSet)
    (skipRoot : Bool) (traversed : List PrimIndexPair) : TraverseResult :=
  match FindTraversal traversal with
  | none =>
    { ok := false, traversed := traversed,
      errors := [(GUSD_ERR, "Failed locating traversal '" ++ traversal ++ "'")],
      findPrims := false }
  | some traverse =>
    match traverse.CreateOpts with
    | some opts =>
      match traverse.Configure opts time with
      | (none, posted) =>
        { ok := false, traversed := traversed, errors := posted, findPrims := false }
      | (some configured, posted) =>
        let found := traverse.FindPrims prims times purposes traversed skipRoot (some configured)
        { ok := found.ok, traversed := found.traversed, errors := posted ++ found.errors,
          findPrims := true }
    | none =>
      let found := traverse.FindPrims prims times purposes traversed skipRoot none
      { ok := found.ok, traversed := found.traversed, errors := found.errors,
        findPrims := true }

/-! ## `SOP_UnpackUSD::_Cook` -/

/-- The node's parameters as evaluated at the cook time. -/
structure Parms where
  unpack_traversal : String
  unpack_geomtype : String
  unpack_class : Int
  unpack_time : fpreal
  unpack_delold : Int
  unpack_pathattrib : String
  unpack_nameattrib : String
  transfer_attrs : String
  import_primvars : String
  translatesttouv : Int
  nontransformingprimvars : String

/-- The out-parameters of a successful `GusdGU_USD::BindPrims`. -/
structure BoundPrims where
  rootPrims : List UsdPrim
  variants : List SdfPath
  purposes : GusdDefaultArray GusdPurposeSet
  times : GusdDefaultArray UsdTimeCode

/-- Collaborators of `_Cook` defined outside SOP_UnpackUSD.C. -/
structure CookEnv (Opts : Type) where
  /-- `GusdUSD_TraverseTable::GetInstance().FindTraversal(name)`. -/
  FindTraversal : String → Option (GusdUSD_Traverse Opts)
  /-- `GusdGU_USD::BindPrims`: the bound prims (`none` when it returns false) and the
  diagnostics it reported. -/
  BindPrims : GU_Detail → GA_Range → Option BoundPrims × List Diag
  /-- `GusdGU_USD::AppendExpandedRefPoints(gd, gd, rng, prims, filter, pathAttr, primPathAttr)`. -/
  AppendExpandedRefPoints : GU_Detail → GA_Range → List PrimIndexPair → String → String →
    String → GU_Detail × List Diag
  /-- `GusdGU_USD::AppendExpandedPackedPrims(gd, gd, rng, prims, variants, times, filter,
  unpackToPolygons, primvarPattern, translateSTtoUV, nonTransformingPrimvarPattern)`. -/
  AppendExpandedPackedPrims : GU_Detail → GA_Range → List PrimIndexPair → List SdfPath →
    GusdDefaultArray UsdTimeCode → String → Bool → String → Bool → String →
    GU_Detail × List Diag
  /-- `GU_Detail::destroyPrimitives(range, and_points)`. -/
  destroyPrimitives : GU_Detail → List GA_Offset → Bool → GU_Detail
  /-- `GU_Detail::destroyPoints(range)`. -/
  destroyPoints : GU_Detail → List GA_Offset → GU_Detail
  /-- Whether a name can be given to a new attribute. -/
  validAttribName : String → Bool
  /-- `SdfPath::GetName()`. -/
  GetName : SdfPath → String

/-- An array read outside its bounds, by the expression that performs it. -/
inductive Fault where
  | srcArrayRead
  | indicesRead
  | rootPrimsRead
  deriving DecidableEq, Repr

/-- How a run of `_Cook` ends: by a `return`, or in an out-of-bounds read. -/
inductive Outcome where
  | returned (sev : UT_ErrorSeverity)
  | fault (f : Fault)
  deriving DecidableEq, Repr

/-- A call `_Traverse(traversal, t, prims, times, purposes, skipRoot, traversed)` made by
`_Cook`, with what it left behind. -/
structure TraverseCall where
  traversal : String
  prims : List UsdPrim
  times : GusdDefaultArray UsdTimeCode
  purposes : GusdDefaultArray GusdPurposeSet
  skipRoot : Bool
  result : TraverseResult

/-- The state `_Cook` leaves behind.  `calls` lists its `_Traverse` calls in order;
`traversedPrims` is the local of that name once the traversal part (up to line 420) is
complete; `delOffsets` is the list handed to `destroyPrimitives` / `destroyPoints`. -/
structure CookResult where
  outcome : Outcome
  gdp : GU_Detail
  errors : List Diag
  calls : List TraverseCall
  traversedPrims : Option (List PrimIndexPair)
  delOffsets : Option (List GA_Offset)

/-- `UT_String::lastChar('/')` followed by the pointer adjustment of lines 552-556: the
text after the last slash, the whole text when there is none. -/
def afterLastSlash (path : String) : String :=
  String.mk ((path.toList.reverse.takeWhile (fun c => c ≠ '/')).reverse)

/-- `pathAttrib->copy(primrange, *primPathAttrib, primrange)` (line 526). -/
def _Cook_copyPath (gdp : GU_Detail) (pathAttrib : String) (primrange : List GA_Offset) :
    GU_Detail :=
  if pathAttrib = GUSD_PRIMPATH_ATTR then gdp
  else
    match gdp.findStringTuple GUSD_PRIMPATH_ATTR, gdp.findStringTuple pathAttrib with
    | some src, some dst =>
      gdp.putStringTuple pathAttrib
        (primrange.foldl (fun d offset => d.setString offset (src.get offset)) dst)
    | _, _ => gdp

/-- The loop of lines 532-564, with `pathidxmap` as an association list. -/
def _Cook_nameLoop (nameAttrib : String) :
    List GA_Offset → List (GA_StringIndexType × GA_StringIndexType) → GU_Detail → GU_Detail
  | [], _, gdp => gdp
  | offset :: rest, pathidxmap, gdp =>
    match gdp.findStringTuple GUSD_PRIMPATH_ATTR, gdp.findStringTuple nameAttrib with
    | some hprimpath, some hname =>
      let pathidx := hprimpath.getStringIndex offset
      if pathidx = GA_INVALID_STRING_INDEX then
        _Cook_nameLoop nameAttrib rest pathidxmap gdp
      else
        match pathidxmap.lookup pathidx with
        | none =>
          let path : String := (hprimpath.lookupString pathidx).getD ""
          let lastslash := afterLastSlash path
          let hname1 := hname.setString offset lastslash
          _Cook_nameLoop nameAttrib rest
            ((pathidx, hname1.getStringIndex offset) :: pathidxmap)
            (gdp.putStringTuple nameAttrib hname1)
        | some nameidx =>
          _Cook_nameLoop nameAttrib rest pathidxmap
            (gdp.putStringTuple nameAttrib (hname.setStringIndex offset nameidx))
    | _, _ => gdp

/-- `hpath.set(offset, str)` through a possibly invalid handle. -/
def _Cook_set (gdp : GU_Detail) (attrib : Option String) (offset : GA_Offset) (str : String) :
    GU_Detail :=
  match attrib with
  | none => gdp
  | some name =>
    match gdp.findStringTuple name with
    | some a => gdp.putStringTuple name (a.setString offset str)
    | none => gdp

/-- The loop of lines 568-593 over the primitives of the detail. -/
def _Cook_packedLoop (GetName : SdfPath → String) (pathAttrib nameAttrib : Option String) :
    List GA_Primitive → GU_Detail → GU_Detail
  | [], gdp => gdp
  | prim :: rest, gdp =>
    match prim.packedUSD with
    | none => _Cook_packedLoop GetName pathAttrib nameAttrib rest gdp
    | some packedUsd =>
      let sdfpath := packedUsd.primPath
      let gdp1 := _Cook_set gdp pathAttrib prim.offset sdfpath.text
      let gdp2 := _Cook_set gdp1 nameAttrib prim.offset (GetName sdfpath)
      _Cook_packedLoop GetName pathAttrib nameAttrib rest gdp2

/-- Lines 485-595 of `_Cook`: the name and path attributes. -/
def _Cook_postPass {Opts : Type} (env : CookEnv Opts) (parms : Parms) (gdp : GU_Detail) :
    GU_Detail :=
  let pathAttribName := parms.unpack_pathattrib
  let nameAttribName := parms.unpack_nameattrib
  let added1 :=
    if pathAttribName ≠ "" then gdp.addStringTuple env.validAttribName pathAttribName
    else (gdp, none)
  let pathAttrib := added1.2
  let added2 :=
    if nameAttribName ≠ "" then added1.1.addStringTuple env.validAttribName nameAttribName
    else (added1.1, none)
  let nameAttrib := added2.2
  let gdp2 := added2.1
  let primPathAttrib := gdp2.findStringTuple GUSD_PRIMPATH_ATTR
  if pathAttrib.isSome ∨ nameAttrib.isSome then
    let primrange := gdp2.getIndexMap GA_ATTRIB_PRIMITIVE
    let gdp3 :=
      if primPathAttrib.isSome then
        let gdpA := match pathAttrib with
          | some name => _Cook_copyPath gdp2 name primrange
          | none => gdp2
        match nameAttrib with
        | some name => _Cook_nameLoop name primrange [] gdpA
        | none => gdpA
      else gdp2
    _Cook_packedLoop env.GetName pathAttrib nameAttrib gdp3.primitives gdp3
  else gdp2

/-- The loop of lines 471-476: the offsets of the range whose root prim is valid. -/
def _Cook_delOffsets (rootPrims : List UsdPrim) :
    List GA_Offset → exint → List GA_Offset → Option (List GA_Offset)
  | [], _, delOffsets => some delOffsets
  | offset :: rest, i, delOffsets =>
    match UT_Array_at rootPrims i with
    | none => none
    | some root =>
      _Cook_delOffsets rootPrims rest (i + 1)
        (if root.valid then delOffsets ++ [offset] else delOffsets)

/-- Lines 465-597 of `_Cook`: deleting the old elements, the post-pass, `return error()`. -/
def _Cook_finish {Opts : Type} (env : CookEnv Opts) (parms : Parms) (packedPrims : Bool)
    (rng : GA_Range) (rootPrims : List UsdPrim) (traversedPrims : List PrimIndexPair)
    (calls : List TraverseCall) (gdp : GU_Detail) (errors : List Diag) : CookResult :=
  if parms.unpack_delold ≠ 0 then
    match _Cook_delOffsets rootPrims rng.offsets 0 [] with
    | none =>
      { outcome := Outcome.fault Fault.rootPrimsRead, gdp := gdp, errors := errors,
        calls := calls, traversedPrims := some traversedPrims, delOffsets := none }
    | some delOffsets =>
      let gdp1 :=
        if packedPrims then env.destroyPrimitives gdp delOffsets true
        else env.destroyPoints gdp delOffsets
      { outcome := Outcome.returned (error errors), gdp := _Cook_postPass env parms gdp1,
        errors := errors, calls := calls, traversedPrims := some traversedPrims,
        delOffsets := some delOffsets }
  else
    { outcome := Outcome.returned (error errors), gdp := _Cook_postPass env parms gdp,
      errors := errors, calls := calls, traversedPrims := some traversedPrims,
      delOffsets := none }

/-- Lines 422-463 of `_Cook`, then the rest: appending the expanded points or prims. -/
def _Cook_append {Opts : Type} (env : CookEnv Opts) (parms : Parms) (unpackToPolygons : Bool)
    (packedPrims : Bool) (rng : GA_Range) (rootPrims : List UsdPrim)
    (variants : List SdfPath) (times : GusdDefaultArray UsdTimeCode)
    (traversedPrims : List PrimIndexPair) (calls : List TraverseCall) (gdp : GU_Detail)
    (errors : List Diag) : CookResult :=
  let transferAttrs := parms.transfer_attrs
  if ¬ packedPrims then
    let appended := env.AppendExpandedRefPoints gdp rng traversedPrims transferAttrs
      GUSD_PATH_ATTR GUSD_PRIMPATH_ATTR
    _Cook_finish env parms packedPrims rng rootPrims traversedPrims calls appended.1
      (errors ++ appended.2)
  else
    match RemapArray traversedPrims variants SdfPath.EmptyPath with
    | none =>
      { outcome := Outcome.fault Fault.srcArrayRead, gdp := gdp, errors := errors,
        calls := calls, traversedPrims := some traversedPrims, delOffsets := none }
    | some expandedVariants =>
      let remapped :=
        if times.IsVarying then RemapArray traversedPrims times.GetArray times.GetDefault
        else some []
      match remapped with
      | none =>
        { outcome := Outcome.fault Fault.srcArrayRead, gdp := gdp, errors := errors,
          calls := calls, traversedPrims := some traversedPrims, delOffsets := none }
      | some timesArray =>
        let traversedTimes : GusdDefaultArray UsdTimeCode :=
          { _array := timesArray, _default := times.GetDefault }
        let importPrimvars := parms.import_primvars
        let translateSTtoUV := decide (parms.translatesttouv ≠ 0)
        let nonTransformingPrimvarPattern := parms.nontransformingprimvars
        let appended := env.AppendExpandedPackedPrims gdp rng traversedPrims expandedVariants
          traversedTimes transferAttrs unpackToPolygons importPrimvars translateSTtoUV
          nonTransformingPrimvarPattern
        _Cook_finish env parms packedPrims rng rootPrims traversedPrims calls appended.1
          (errors ++ appended.2)

/-- The loop of lines 416-419: each origin index is looked up in `indices`. -/
def _Cook_composeIndices (indices : List exint) :
    List PrimIndexPair → Option (List PrimIndexPair)
  | [] => some []
  | pair :: rest =>
    let primsIndex := pair.2
    match UT_Array_at indices primsIndex with
    | none => none
    | some origin =>
      match _Cook_composeIndices indices rest with
      | none => none
      | some composed => some ((pair.1, origin) :: composed)

/-- Lines 373-420 of `_Cook`, then the rest: the second traversal down to the gprims. -/
def _Cook_secondPass {Opts : Type} (env : CookEnv Opts) (parms : Parms) (t : fpreal)
    (traversal : String) (unpackToPolygons : Bool) (packedPrims : Bool) (rng : GA_Range)
    (rootPrims : List UsdPrim) (variants : List SdfPath)
    (purposes : GusdDefaultArray GusdPurposeSet) (times : GusdDefaultArray UsdTimeCode)
    (traversedPrims : List PrimIndexPair) (calls : List TraverseCall) (gdp : GU_Detail)
    (errors : List Diag) : CookResult :=
  if unpackToPolygons ∧ traversal ≠ _GPRIMTRAVERSE_NAME then
    let prims := traversedPrims.map (fun pair => pair.1)
    let indices := traversedPrims.map (fun pair => pair.2)
    let remappedPurposes :=
      if purposes.IsVarying then
        RemapArray traversedPrims purposes.GetArray GUSD_PURPOSE_DEFAULT
      else some []
    match remappedPurposes with
    | none =>
      { outcome := Outcome.fault Fault.srcArrayRead, gdp := gdp, errors := errors,
        calls := calls, traversedPrims := none, delOffsets := none }
    | some purposesArray =>
      let traversedPurposes : GusdDefaultArray GusdPurposeSet :=
        { _array := purposesArray, _default := purposes.GetDefault }
      let remappedTimes :=
        if times.IsVarying then RemapArray traversedPrims times.GetArray times.GetDefault
        else some []
      match remappedTimes with
      | none =>
        { outcome := Outcome.fault Fault.srcArrayRead, gdp := gdp, errors := errors,
          calls := calls, traversedPrims := none, delOffsets := none }
      | some timesArray =>
        let traversedTimes : GusdDefaultArray UsdTimeCode :=
          { _array := timesArray, _default := times.GetDefault }
        let skipRoot := false
        let result := _Traverse env.FindTraversal _GPRIMTRAVERSE_NAME t prims traversedTimes
          traversedPurposes skipRoot []
        let call : TraverseCall :=
          { traversal := _GPRIMTRAVERSE_NAME, prims := prims, times := traversedTimes,
            purposes := traversedPurposes, skipRoot := skipRoot, result := result }
        let errors1 := errors ++ result.errors
        if ¬ result.ok then
          { outcome := Outcome.returned (error errors1), gdp := gdp, errors := errors1,
            calls := calls ++ [call], traversedPrims := none, delOffsets := none }
        else
          match _Cook_composeIndices indices result.traversed with
          | none =>
            { outcome := Outcome.fault Fault.indicesRead, gdp := gdp, errors := errors1,
              calls := calls ++ [call], traversedPrims := none, delOffsets := none }
          | some composed =>
            _Cook_append env parms unpackToPolygons packedPrims rng rootPrims variants times
              composed (calls ++ [call]) gdp errors1
  else
    _Cook_append env parms unpackToPolygons packedPrims rng rootPrims variants times
      traversedPrims calls gdp errors

/-- The loop of lines 368-370: the pairs `(rootPrims(i), i)`. -/
def _Cook_identityPairs (rootPrims : List UsdPrim) : List PrimIndexPair :=
  (List.range rootPrims.length).zipWith (fun (i : Nat) root => (root, Int.ofNat i)) rootPrims

/-- Lines 325-330 of `_Cook`: the range over the points or primitives of the group. -/
def _Cook_rng (parms : Parms) (_group : Option (List GA_Offset)) (gdp : GU_Detail) : GA_Range :=
  let packedPrims : Bool := decide (parms.unpack_class = 0)
  let owner := if packedPrims then GA_ATTRIB_PRIMITIVE else GA_ATTRIB_POINT
  gdp.range owner _group

/-- Lines 344-345 of `_Cook`: a constant time is replaced by the `unpack_time` parameter. -/
def _Cook_times (parms : Parms) (times : GusdDefaultArray UsdTimeCode) :
    GusdDefaultArray UsdTimeCode :=
  if ¬ times.IsVarying then times.SetConstant (UsdTimeCode.Numeric parms.unpack_time)
  else times

/-- `SOP_UnpackUSD::_Cook(ctx)` at cook time `t`, on the detail `gdp` with the group
`_group` (null for all elements) and the diagnostics `errors` already reported. -/
def _Cook {Opts : Type} (env : CookEnv Opts) (parms : Parms) (t : fpreal)
    (_group : Option (List GA_Offset)) (gdp : GU_Detail) (errors : List Diag) : CookResult :=
  let traversal := parms.unpack_traversal
  let geomType := parms.unpack_geomtype
  let unpackToPolygons : Bool := decide (geomType = "polygons")
  let packedPrims : Bool := decide (parms.unpack_class = 0)
  if traversal = _NOTRAVERSE_NAME ∧ ¬ unpackToPolygons then
    { outcome := Outcome.returned UT_ERROR_NONE, gdp := gdp, errors := errors, calls := [],
      traversedPrims := none, delOffsets := none }
  else
    let rng := _Cook_rng parms _group gdp
    match env.BindPrims gdp rng with
    | (none, posted) =>
      { outcome := Outcome.returned (error (errors ++ posted)), gdp := gdp,
        errors := errors ++ posted, calls := [], traversedPrims := none, delOffsets := none }
    | (some bound, posted) =>
      let errors1 := errors ++ posted
      let rootPrims := bound.rootPrims
      let purposes := bound.purposes
      let times := _Cook_times parms bound.times
      if traversal ≠ _NOTRAVERSE_NAME then
        let skipRoot : Bool := decide (traversal ≠ _GPRIMTRAVERSE_NAME)
        let result := _Traverse env.FindTraversal traversal t rootPrims times purposes
          skipRoot []
        let call : TraverseCall :=
          { traversal := traversal, prims := rootPrims, times := times, purposes := purposes,
            skipRoot := skipRoot, result := result }
        let errors2 := errors1 ++ result.errors
        if ¬ result.ok then
          { outcome := Outcome.returned (error errors2), gdp := gdp, errors := errors2,
            calls := [call], traversedPrims := none, delOffsets := none }
        else
          _Cook_secondPass env parms t traversal unpackToPolygons packedPrims rng rootPrims
            bound.variants purposes times result.traversed [call] gdp errors2
      else if unpackToPolygons then
        _Cook_secondPass env parms t traversal unpackToPolygons packedPrims rng rootPrims
          bound.variants purposes times (_Cook_identityPairs rootPrims) [] gdp errors1
      else
        _Cook_secondPass env parms t traversal unpackToPolygons packedPrims rng rootPrims
          bound.variants purposes times [] [] gdp errors1

/-! ## The unpack pipeline (GU_PackedUSD.cpp) -/

/-- Modelled from the spec: the names of the refine settings used by the unpack pipeline
(the `GUSD_REFINE_*` names of gusd/GT_Utils.h and the setting behind
`GT_RefineParms::setAllowPolySoup`), "each independently toggle-able via refineConfig
flags"; `other` stands for every setting name apart from these. -/
inductive GT_RefineKey where
  | allowPolySoup
  | GUSD_REFINE_NONTRANSFORMINGPATTERN
  | GUSD_REFINE_TRANSLATESTTOUV
  | GUSD_REFINE_PRIMVARPATTERN
  | GUSD_REFINE_ADDPATHATTRIB
  | GUSD_REFINE_ADDPRIMPATHATTRIB
  | GUSD_REFINE_ADDXFORMATTRIB
  | GUSD_REFINE_ADDVISIBILITYATTRIB
  | other (name : String)
  deriving DecidableEq, Repr

/-- A value held by `GT_RefineParms` under a name. -/
inductive GT_RefineValue where
  | B (value : Bool)
  | I (value : Int)
  | F (value : fpreal)
  | S (value : String)
  deriving DecidableEq, Repr

/-- `GT_RefineParms`: the settings by name. -/
structure GT_RefineParms where
  settings : List (GT_RefineKey × GT_RefineValue)
  deriving DecidableEq, Repr

namespace GT_RefineParms

/-- `GT_RefineParms()`: no setting. -/
def init : GT_RefineParms := { settings := [] }

/-- The value held under `key`, if any. -/
def find (parms : GT_RefineParms) (key : GT_RefineKey) : Option GT_RefineValue :=
  parms.settings.lookup key

/-- `set(name, value)`: in place when the name is held and at the end otherwise. -/
def set (parms : GT_RefineParms) (key : GT_RefineKey) (value : GT_RefineValue) :
    GT_RefineParms :=
  if (parms.settings.lookup key).isSome then
    { settings := parms.settings.map (fun e => if e.1 = key then (key, value) else e) }
  else { settings := parms.settings ++ [(key, value)] }

/-- `setAllowPolySoup(v)`. -/
def setAllowPolySoup (parms : GT_RefineParms) (v : Bool) : GT_RefineParms :=
  parms.set GT_RefineKey.allowPolySoup (GT_RefineValue.B v)

/-- `import(name, UT_String&)`: the string imported, `none` when it returns false. -/
def importS (parms : GT_RefineParms) (key : GT_RefineKey) : Option String :=
  match parms.find key with
  | some (GT_RefineValue.S value) => some value
  | _ => none

/-- `GT_RefineParms::getBool(parms, name, def)`: the default for null parameters and for
a name that holds no boolean. -/
def getBool (parms : Option GT_RefineParms) (key : GT_RefineKey) (defValue : Bool) : Bool :=
  match parms with
  | none => defValue
  | some p =>
    match p.find key with
    | some (GT_RefineValue.B value) => value
    | some (GT_RefineValue.I value) => decide (value ≠ 0)
    | _ => defValue

/-- `GT_RefineParms::getAllowPolySoup(parms)`: polygon soups are allowed unless set off. -/
def getAllowPolySoup (parms : Option GT_RefineParms) : Bool :=
  getBool parms GT_RefineKey.allowPolySoup true

end GT_RefineParms

/-- Services used by the unpack pipeline that are defined outside GU_PackedUSD.cpp. -/
structure UnpackEnv where
  /-- `GusdPrimWrapper::defineForRead(prim, frame, purposes)`. -/
  defineForRead : UsdPrim → UsdTimeCode → GusdPurposeSet → GT_PrimitiveHandle
  /-- `wrapper->unpack(destgdp, fileName, primPath, xform, frame, viewportLod, purposes)`
  on the wrapper of a converted primitive: the return value and the destination afterwards. -/
  wrapperUnpack : Nat → GU_Detail → String → SdfPath → UT_Matrix4D → fpreal → String →
    GusdPurposeSet → Bool × GU_Detail
  /-- `GT_Util::makeGEO(details, gtPrim, &rparms)`: the details produced; the matrix is the
  primitive transform given to `gtPrim` beforehand, if any. -/
  makeGEO : Nat → Option UT_Matrix4D → GT_RefineParms → List GU_Detail
  /-- `getAttributes().matchAttributes(filter, owners, 4, attribs)` with the filter
  `GA_AttributeFilter::selectByPattern(pattern)` over the point, vertex, primitive and detail
  attributes: the attributes selected. -/
  matchAttributes : GU_Detail → String → List String
  /-- `attrib->setNonTransforming(true)` on an attribute of a detail. -/
  setNonTransforming : GU_Detail → String → GU_Detail
  /-- `copyPrimitiveGroups(dest, src, srcprimoff, false)`: `dest` afterwards. -/
  copyPrimitiveGroups : GU_Detail → GU_Detail → GA_Offset → GU_Detail
  /-- `unpackToDetail(destgdp, gdp, &xform)`: `destgdp` afterwards. -/
  unpackToDetail : GU_Detail → GU_Detail → UT_Matrix4D → GU_Detail
  /-- `intrinsicViewportLOD(prim)` of the packed primitive at an offset of a detail. -/
  intrinsicViewportLOD : GU_Detail → GA_Offset → String
  /-- Whether an attribute of this name can be created. -/
  validAttribName : String → Bool
  /-- `vis_attr && vis_attr.IsAuthored()` for `usdprim.GetVisibilityAttr()`. -/
  visibilityAuthored : UsdPrim → Bool
  /-- The text of the token read by `vis_attr.Get(&visibility_token, timecode)`. -/
  getVisibility : UsdPrim → UsdTimeCode → String
  /-- The order `UT_StringArray::sort()` sorts by: whether the first string may stand
  before the second. -/
  sortLE : String → String → Bool

/-- `theConstantAttribsName`. -/
def theConstantAttribsName : String := "usdconfigconstantattribs"

/-- The tokens of a character sequence: the maximal runs without a separator; `cur`
holds the run being read. -/
def UT_String_tokenizeChars (sep : Char) : List Char → List Char → List (List Char)
  | [], cur => if cur = [] then [] else [cur]
  | c :: cs, cur =>
    if c = sep then
      if cur = [] then UT_String_tokenizeChars sep cs []
      else cur :: UT_String_tokenizeChars sep cs []
    else UT_String_tokenizeChars sep cs (cur ++ [c])

/-- `UT_String::tokenize(list, " ")`: the words between blanks, none of them empty. -/
def UT_String_tokenize (pattern : String) : List String :=
  (UT_String_tokenizeChars ' ' pattern.data []).map String.mk

/-- `UT_StringSet`: the strings held, each once (the order they are kept in is not
observable through `insert`, `empty` and `size`). -/
abbrev UT_StringSet := List String

/-- `unique_names.insert(begin, end)`. -/
def UT_StringSet_insert (set : UT_StringSet) (names : List String) : UT_StringSet :=
  names.foldl (fun acc name => if name ∈ acc then acc else acc ++ [name]) set

namespace GU_Detail

/-- `findStringTuple(GA_ATTRIB_DETAIL, name, 1)` followed by `get(GA_DETAIL_OFFSET)`: the
string held, `none` when the handle is not valid. -/
def findDetailString (gdp : GU_Detail) (name : String) : Option String :=
  gdp.detailStrings.lookup name

/-- `destroyAttribute(GA_ATTRIB_DETAIL, name)`. -/
def destroyDetailAttribute (gdp : GU_Detail) (name : String) : GU_Detail :=
  { gdp with detailStrings := gdp.detailStrings.filter (fun e => e.1 ≠ name) }

/-- `addStringTuple(GA_ATTRIB_DETAIL, name, 1)` followed by `set(GA_DETAIL_OFFSET, value)`
on the handle returned. -/
def setDetailString (gdp : GU_Detail) (name : String) (value : String) : GU_Detail :=
  { gdp with detailStrings :=
      if (gdp.detailStrings.lookup name).isSome then
        gdp.detailStrings.map (fun e => if e.1 = name then (name, value) else e)
      else gdp.detailStrings ++ [(name, value)] }

end GU_Detail

/-- `Gusd_GetConstantAttribNames(gdp, unique_names)`: the detail and the set afterwards. -/
def Gusd_GetConstantAttribNames (gdp : GU_Detail) (unique_names : UT_StringSet) :
    GU_Detail × UT_StringSet :=
  match gdp.findDetailString theConstantAttribsName with
  | none => (gdp, unique_names)
  | some pattern =>
    let attrib_names := UT_String_tokenize pattern
    let unique_names1 := UT_StringSet_insert unique_names attrib_names
    (gdp.destroyDetailAttribute theConstantAttribsName, unique_names1)

/-- The loop of `Gusd_AccumulateConstantAttribs` over `details`. -/
def Gusd_AccumulateConstantAttribs_loop :
    List GU_Detail → UT_StringSet → List GU_Detail × UT_StringSet
  | [], unique_names => ([], unique_names)
  | gdp :: rest, unique_names =>
    let got := Gusd_GetConstantAttribNames gdp unique_names
    let more := Gusd_AccumulateConstantAttribs_loop rest got.2
    (got.1 :: more.1, more.2)

/-- `Gusd_AccumulateConstantAttribs(destgdp, details)`: the pattern returned, the
destination and the details afterwards.  `sortLE` is the order of `attrib_names.sort()`. -/
def Gusd_AccumulateConstantAttribs (sortLE : String → String → Bool) (destgdp : GU_Detail)
    (details : List GU_Detail) : String × GU_Detail × List GU_Detail :=
  let got := Gusd_GetConstantAttribNames destgdp []
  let more := Gusd_AccumulateConstantAttribs_loop details got.2
  let unique_names := more.2
  let pattern :=
    if unique_names ≠ [] then
      let attrib_names := List.insertionSort (fun a b => sortLE a b = true) unique_names
      String.intercalate " " attrib_names
    else ""
  (pattern, got.1, more.1)

/-- `Gusd_MarkNonTransformingAttribs(details, non_transforming_primvars)`: the details
afterwards. -/
def Gusd_MarkNonTransformingAttribs (uenv : UnpackEnv) (details : List GU_Detail)
    (non_transforming_primvars : String) : List GU_Detail :=
  details.map (fun gdp =>
    let attribs := uenv.matchAttributes gdp non_transforming_primvars
    attribs.foldl (fun g attrib => uenv.setNonTransforming g attrib) gdp)

/-- `GA_IndexMap::offsetSize()`: one past the largest offset in use. -/
def GA_IndexMap_offsetSize (offsets : List GA_Offset) : GA_Offset :=
  offsets.foldl (fun size o => max size (o + 1)) 0

/-- `GA_IndexMap::Marker`: the offset size of the index map when the marker was made. -/
structure GA_IndexMap_Marker where
  begin : GA_Offset
  deriving DecidableEq, Repr

namespace GA_IndexMap_Marker

/-- `Marker(map)`. -/
def make (offsets : List GA_Offset) : GA_IndexMap_Marker :=
  { begin := GA_IndexMap_offsetSize offsets }

def getBegin (marker : GA_IndexMap_Marker) : GA_Offset := marker.begin

/-- `getEnd()`, on the index map as it is now. -/
def getEnd (_marker : GA_IndexMap_Marker) (offsets : List GA_Offset) : GA_Offset :=
  GA_IndexMap_offsetSize offsets

/-- `getRange()`: the elements added since the marker was made, in index order. -/
def getRange (marker : GA_IndexMap_Marker) (offsets : List GA_Offset) : List GA_Offset :=
  offsets.filter (fun o => marker.begin ≤ o)

end GA_IndexMap_Marker

/-- `Gusd_RecordXformAttrib(destgdp, ptrange, xform)`: the destination afterwards, `none`
when the attribute could not be added and the null handle is dereferenced. -/
def Gusd_RecordXformAttrib (uenv : UnpackEnv) (destgdp : GU_Detail)
    (ptrange : List GA_Offset) (xform : UT_Matrix4D) : Option GU_Detail :=
  let theUsdXformAttrib := "usdxform"
  let found : Option GA_ATIMatrix4 :=
    match destgdp.pointMatrices.lookup theUsdXformAttrib with
    | some a => some a
    | none =>
      if uenv.validAttribName theUsdXformAttrib then
        some { typeInfoTransform := true, nonTransforming := true, values := [] }
      else none
  match found with
  | none => none
  | some xform_attrib =>
    let written := ptrange.foldl
      (fun (a : GA_ATIMatrix4) offset =>
        { a with values := (offset, xform) :: a.values.filter (fun v => v.1 ≠ offset) })
      xform_attrib
    let matrices :=
      if (destgdp.pointMatrices.lookup theUsdXformAttrib).isSome then
        destgdp.pointMatrices.map
          (fun e => if e.1 = theUsdXformAttrib then (theUsdXformAttrib, written) else e)
      else destgdp.pointMatrices ++ [(theUsdXformAttrib, written)]
    some { destgdp with pointMatrices := matrices }

/-- Set a primitive string attribute to `str` on every element of `range`. -/
def GU_Detail.setStringRange (gdp : GU_Detail) (name : String) (range : List GA_Offset)
    (str : String) : GU_Detail :=
  match gdp.findStringTuple name with
  | some a => gdp.putStringTuple name (range.foldl (fun b offset => b.setString offset str) a)
  | none => gdp

/-- `Gusd_RecordVisibilityAttrib(destgdp, primrange, usdprim, timecode)`. -/
def Gusd_RecordVisibilityAttrib (uenv : UnpackEnv) (destgdp : GU_Detail)
    (primrange : List GA_Offset) (usdprim : UsdPrim) (timecode : UsdTimeCode) : GU_Detail :=
  let theUsdVisibilityAttribName := "usdvisibility"
  if ¬ uenv.visibilityAuthored usdprim then destgdp
  else
    let visibility_str := uenv.getVisibility usdprim timecode
    match destgdp.addStringTuple uenv.validAttribName theUsdVisibilityAttribName with
    | (_, none) => destgdp
    | (gdp1, some attrib) => gdp1.setStringRange attrib primrange visibility_str

namespace GusdGU_PackedUSD

/-- Modelled from the spec: `fileName()` (GU_PackedUSD.h), the "file identifier" of the
handle. -/
def fileName (self : GusdGU_PackedUSD) : String := self.m_fileName

/-- Modelled from the spec: `intrinsicFrame()` (GU_PackedUSD.h), the "time code" of the
handle as a number. -/
def intrinsicFrame (env : UsdEnv) (self : GusdGU_PackedUSD) : fpreal :=
  env.GetNumericTime self.m_frame

/-- The loop of lines 880-886 of `unpackPrim`: each detail is merged into the destination. -/
def unpackPrim_merge (uenv : UnpackEnv) (srcgdp : Option GU_Detail) (srcprimoff : GA_Offset)
    (xform : UT_Matrix4D) : List GU_Detail → GU_Detail → GU_Detail
  | [], destgdp => destgdp
  | gdp :: rest, destgdp =>
    let gdp1 :=
      match srcgdp with
      | some src => uenv.copyPrimitiveGroups gdp src srcprimoff
      | none => gdp
    unpackPrim_merge uenv srcgdp srcprimoff xform rest (uenv.unpackToDetail destgdp gdp1 xform)

/-- Lines 889-904 and 906-921 of `unpackPrim`: when the setting `key` is on and
primitives were added, the attribute `name` is added and set to `str` on the primitives
added; `none` when the attribute could not be added and the null handle is dereferenced. -/
def unpackPrim_stamp (uenv : UnpackEnv) (rparms : GT_RefineParms) (key : GT_RefineKey)
    (primmarker : GA_IndexMap_Marker) (name : String) (str : String) (destgdp : GU_Detail) :
    Option GU_Detail :=
  if GT_RefineParms.getBool (some rparms) key true ∧
      primmarker.getBegin ≠ primmarker.getEnd (destgdp.getIndexMap GA_ATTRIB_PRIMITIVE) then
    match destgdp.addStringTuple uenv.validAttribName name with
    | (_, none) => none
    | (gdp1, some attrib) =>
      let range := primmarker.getRange (gdp1.getIndexMap GA_ATTRIB_PRIMITIVE)
      some (gdp1.setStringRange attrib range str)
  else some destgdp

/-- Lines 923-929 of `unpackPrim`: the accumulated pattern is attached to the destination. -/
def unpackPrim_constantAttribs (constant_attribs_pattern : String) (destgdp : GU_Detail) :
    GU_Detail :=
  if constant_attribs_pattern ≠ "" then
    destgdp.setDetailString theConstantAttribsName constant_attribs_pattern
  else destgdp

/-- Lines 931-935 of `unpackPrim`. -/
def unpackPrim_xform (uenv : UnpackEnv) (rparms : GT_RefineParms)
    (ptmarker : GA_IndexMap_Marker) (xform : UT_Matrix4D) (destgdp : GU_Detail) :
    Option GU_Detail :=
  if GT_RefineParms.getBool (some rparms) GT_RefineKey.GUSD_REFINE_ADDXFORMATTRIB true ∧
      ptmarker.getBegin ≠ ptmarker.getEnd (destgdp.getIndexMap GA_ATTRIB_POINT) then
    Gusd_RecordXformAttrib uenv destgdp
      (ptmarker.getRange (destgdp.getIndexMap GA_ATTRIB_POINT)) xform
  else some destgdp

/-- Lines 937-943 of `unpackPrim`. -/
def unpackPrim_visibility (uenv : UnpackEnv) (self : GusdGU_PackedUSD)
    (rparms : GT_RefineParms) (primmarker : GA_IndexMap_Marker) (prim : UsdPrim)
    (destgdp : GU_Detail) : GU_Detail :=
  if GT_RefineParms.getBool (some rparms) GT_RefineKey.GUSD_REFINE_ADDVISIBILITYATTRIB true ∧
      primmarker.getBegin ≠ primmarker.getEnd (destgdp.getIndexMap GA_ATTRIB_PRIMITIVE) then
    Gusd_RecordVisibilityAttrib uenv destgdp
      (primmarker.getRange (destgdp.getIndexMap GA_ATTRIB_PRIMITIVE)) prim self.m_frame
  else destgdp

/-- Lines 863-876 of `unpackPrim`, the markers apart: the details made of the converted
primitive, with the non-transforming attributes marked. -/
def unpackPrim_details (uenv : UnpackEnv) (prim : UsdPrim) (xform : UT_Matrix4D)
    (rparms : GT_RefineParms) (gtPrim : Nat) : List GU_Detail :=
  let primitiveTransform := if prim.isInMaster then some xform else none
  let details := uenv.makeGEO gtPrim primitiveTransform rparms
  let non_transforming_primvars :=
    match rparms.importS GT_RefineKey.GUSD_REFINE_NONTRANSFORMINGPATTERN with
    | some pattern => pattern
    | none => ""
  Gusd_MarkNonTransformingAttribs uenv details non_transforming_primvars

/-- Lines 868-886 of `unpackPrim`: the destination once the details made of the converted
primitive are merged into it. -/
def unpackPrim_merged (uenv : UnpackEnv) (destgdp : GU_Detail) (srcgdp : Option GU_Detail)
    (srcprimoff : GA_Offset) (prim : UsdPrim) (xform : UT_Matrix4D) (rparms : GT_RefineParms)
    (gtPrim : Nat) : GU_Detail :=
  let details1 := unpackPrim_details uenv prim xform rparms gtPrim
  let accumulated := Gusd_AccumulateConstantAttribs uenv.sortLE destgdp details1
  unpackPrim_merge uenv srcgdp srcprimoff xform accumulated.2.2 accumulated.2.1

/-- Lines 860-944 of `unpackPrim`: the unpack done here when the wrapper does not do it;
the destination afterwards. -/
def unpackPrim_generic (uenv : UnpackEnv) (self : GusdGU_PackedUSD) (destgdp : GU_Detail)
    (srcgdp : Option GU_Detail) (srcprimoff : GA_Offset) (prim : UsdPrim)
    (xform : UT_Matrix4D) (rparms : GT_RefineParms) (gtPrim : Nat) : Option GU_Detail :=
  let ptmarker := GA_IndexMap_Marker.make (destgdp.getIndexMap GA_ATTRIB_POINT)
  let primmarker := GA_IndexMap_Marker.make (destgdp.getIndexMap GA_ATTRIB_PRIMITIVE)
  let details1 := unpackPrim_details uenv prim xform rparms gtPrim
  let accumulated := Gusd_AccumulateConstantAttribs uenv.sortLE destgdp details1
  let constant_attribs_pattern := accumulated.1
  let destgdp1 := unpackPrim_merge uenv srcgdp srcprimoff xform accumulated.2.2 accumulated.2.1
  match unpackPrim_stamp uenv rparms GT_RefineKey.GUSD_REFINE_ADDPATHATTRIB primmarker
      GUSD_PATH_ATTR (fileName self) destgdp1 with
  | none => none
  | some destgdp2 =>
    match unpackPrim_stamp uenv rparms GT_RefineKey.GUSD_REFINE_ADDPRIMPATHATTRIB primmarker
        GUSD_PRIMPATH_ATTR prim.path.text destgdp2 with
    | none => none
    | some destgdp3 =>
      let destgdp4 := unpackPrim_constantAttribs constant_attribs_pattern destgdp3
      match unpackPrim_xform uenv rparms ptmarker xform destgdp4 with
      | none => none
      | some destgdp5 => some (unpackPrim_visibility uenv self rparms primmarker prim destgdp5)

/-- `unpackPrim(destgdp, srcgdp, srcprimoff, prim, primPath, xform, rparms)`: the return
value, the destination afterwards and the calls made; `none` when a null attribute handle
is dereferenced. -/
def unpackPrim (uenv : UnpackEnv) (env : UsdEnv) (self : GusdGU_PackedUSD)
    (destgdp : GU_Detail) (srcgdp : Option GU_Detail) (srcprimoff : GA_Offset)
    (prim : UsdPrim) (primPath : SdfPath) (xform : UT_Matrix4D) (rparms : GT_RefineParms) :
    Option (Bool × GU_Detail × List Event) :=
  match uenv.defineForRead prim self.m_frame self.m_purposes with
  | none =>
    let type := prim.typeName
    if type ≠ "PxHairman" ∧ type ≠ "PxProcArgs" then
      some (false, destgdp,
        [Event.tfWarn ("Can't convert prim for unpack. " ++ prim.path.text ++ ". Type = "
          ++ type ++ ".")])
    else some (false, destgdp, [])
  | some gtPrim =>
    let viewportLod :=
      match srcgdp with
      | some src => uenv.intrinsicViewportLOD src srcprimoff
      | none => "full"
    let unpacked := uenv.wrapperUnpack gtPrim destgdp (fileName self) primPath xform
      (intrinsicFrame env self) viewportLod self.m_purposes
    if ¬ unpacked.1 then
      match unpackPrim_generic uenv self unpacked.2 srcgdp srcprimoff prim xform rparms
          gtPrim with
      | none => none
      | some destgdp1 => some (true, destgdp1, [])
    else some (true, unpacked.2, [])

/-- Lines 968-980 of `unpackGeometry`: the refine parameters handed to `unpackPrim`. -/
def unpackGeometry_rparms (primvarPattern : Option String) (translateSTtoUV : Bool)
    (nonTransformingPrimvarPattern : String) (refineParms : Option GT_RefineParms) :
    GT_RefineParms :=
  let rparms0 :=
    match refineParms with
    | some parms => parms
    | none => GT_RefineParms.init
  let rparms1 := rparms0.setAllowPolySoup false
  let rparms2 := rparms1.set GT_RefineKey.GUSD_REFINE_NONTRANSFORMINGPATTERN
    (GT_RefineValue.S nonTransformingPrimvarPattern)
  let rparms3 := rparms2.set GT_RefineKey.GUSD_REFINE_TRANSLATESTTOUV
    (GT_RefineValue.B translateSTtoUV)
  match primvarPattern with
  | some pattern =>
    rparms3.set GT_RefineKey.GUSD_REFINE_PRIMVARPATTERN (GT_RefineValue.S pattern)
  | none => rparms3

/-- `unpackGeometry(destgdp, srcgdp, srcprimoff, primvarPattern, translateSTtoUV,
nonTransformingPrimvarPattern, transform, refineParms)`: the return value, the destination
and the handle afterwards, and the calls made; `none` when a null attribute handle is
dereferenced.  `transform` is dereferenced without a check. -/
def unpackGeometry (uenv : UnpackEnv) (env : UsdEnv) (self : GusdGU_PackedUSD)
    (destgdp : GU_Detail) (srcgdp : Option GU_Detail) (srcprimoff : GA_Offset)
    (primvarPattern : Option String) (translateSTtoUV : Bool)
    (nonTransformingPrimvarPattern : String) (transform : UT_Matrix4D)
    (refineParms : Option GT_RefineParms) :
    Option (Bool × GU_Detail × GusdGU_PackedUSD × List Event) :=
  match getUsdPrim env self getUsdPrim_sev with
  | (usdPrim, self1, ev) =>
    if ¬ usdPrim.valid then
      some (false, destgdp, self1, ev ++ [Event.tfWarn "Invalid prim found"])
    else
      let rparms := unpackGeometry_rparms primvarPattern translateSTtoUV
        nonTransformingPrimvarPattern refineParms
      match unpackPrim uenv env self1 destgdp srcgdp srcprimoff usdPrim self1.m_primPath
          transform rparms with
      | none => none
      | some (ok, destgdp1, ev1) => some (ok, destgdp1, self1, ev ++ ev1)

end GusdGU_PackedUSD

namespace GusdGU_PackedUSD

/-- `GusdGU_PackedUSD(const GusdGU_PackedUSD &src)`: every member is initialised from
`src`, the converted primitive apart, which starts null; the base class `GU_PackedImpl(src)`
is taken to copy what it holds. -/
def initCopy (src : GusdGU_PackedUSD) : GusdGU_PackedUSD :=
  { m_fileName := src.m_fileName
    m_altFileName := src.m_altFileName
    m_primPath := src.m_primPath
    m_srcPrimPath := src.m_srcPrimPath
    m_index := src.m_index
    m_frame := src.m_frame
    m_purposes := src.m_purposes
    m_usdPrim := src.m_usdPrim
    m_transformCacheValid := src.m_transformCacheValid
    m_transformCache := src.m_transformCache
    m_masterPathCacheValid := src.m_masterPathCacheValid
    m_masterPathCache := src.m_masterPathCache
    m_gtPrimCache := none
    boxCache := src.boxCache }

/-- `copy()`: `new GusdGU_PackedUSD(*this)`. -/
def copy (self : GusdGU_PackedUSD) : GusdGU_PackedUSD := initCopy self

end GusdGU_PackedUSD

/-! ## `HUSD_PythonConverter` (HUSD_PythonConverter.C) -/

/-- `SdfLayerRefPtr`, by the identity of the layer it refers to. -/
abbrev SdfLayerRefPtr := Nat

/-- An entry of `XUSD_Data::sourceLayers()`. -/
structure XUSD_LayerAtPath where
  myLayer : SdfLayerRefPtr
  deriving DecidableEq, Repr

/-- `XUSD_Data`, as far as the converter reads it. -/
structure XUSD_Data where
  isStageValid : Bool
  sourceLayers : List XUSD_LayerAtPath
  deriving DecidableEq, Repr

/-- `HUSD_AutoAnyLock`: `constData()` may be null. -/
structure HUSD_AutoAnyLock where
  constData : Option XUSD_Data
  deriving DecidableEq, Repr

/-- `HUSD_PythonConverter`: `myAnyLock` is null when it was built from overrides. -/
structure HUSD_PythonConverter where
  myAnyLock : Option HUSD_AutoAnyLock
  deriving DecidableEq, Repr

/-- The conversion of an `exint` to the `int` a function returns: the value modulo `2^32`,
read as a signed number. -/
def exint_to_int (n : exint) : Int := (n + 2 ^ 31) % 2 ^ 32 - 2 ^ 31

namespace HUSD_PythonConverter

/-- `getSourceLayer(layerindex)`: `some none` for `nullptr`, `some (some p)` for the object
`TfMakePyPtr<SdfLayerHandle>::Execute(ptr).first` (given by `pyPtr`), and `none` when
`layers(layerindex)` reads outside the array.  The comparison `layerindex < layers.size()`
is between an `int` and the signed `exint` that `UT_Array::size()` returns. -/
def getSourceLayer (pyPtr : SdfLayerRefPtr → Nat) (self : HUSD_PythonConverter)
    (layerindex : Int) : Option (Option Nat) :=
  match self.myAnyLock with
  | none => some none
  | some lock =>
    match lock.constData with
    | none => some none
    | some outdata =>
      if outdata.isStageValid then
        let layers := outdata.sourceLayers
        if layerindex < (layers.length : Int) then
          match UT_Array_at layers layerindex with
          | none => none
          | some entry => some (some (pyPtr entry.myLayer))
        else some none
      else some none

/-- `getSourceLayerCount()`. -/
def getSourceLayerCount (self : HUSD_PythonConverter) : Int :=
  match self.myAnyLock with
  | none => 0
  | some lock =>
    match lock.constData with
    | none => 0
    | some outdata =>
      if outdata.isStageValid then
        let layers := outdata.sourceLayers
        exint_to_int (layers.length : Int)
      else 0

end HUSD_PythonConverter

/-! ## A small concrete scene

Two roots bound from a detail with two packed primitives, a traversal table with two
policies, and a resolved handle; used to evaluate the definitions above. -/

def demoPrim (path : String) : UsdPrim :=
  { UsdPrim.empty with valid := true, stage := 1, path := ⟨path⟩, isXformable := true,
                       isImageable := true }

/-- A policy without options that reports, for the roots taken in reverse order, the child
`geo` of each root together with the index of that root. -/
def demoTraverse : GusdUSD_Traverse Unit :=
  { CreateOpts := none
    Configure := fun opts _ => (some opts, [])
    FindPrims := fun prims _ _ traversed _ _ =>
      { ok := true
        traversed := traversed ++
          ((List.range prims.length).zipWith
            (fun (i : Nat) root => (demoPrim (root.path.text ++ "/geo"), Int.ofNat i))
            prims).reverse
        errors := [] } }

def demoHandle : GusdGU_PackedUSD :=
  { m_fileName := "a.usd", m_altFileName := "", m_primPath := ⟨"/geo"⟩,
    m_srcPrimPath := SdfPath.EmptyPath, m_index := -1, m_frame := UsdTimeCode.Numeric 1,
    m_purposes := 3, m_usdPrim := demoPrim "/geo", m_transformCacheValid := true,
    m_transformCache := 1, m_masterPathCacheValid := true, m_masterPathCache := "",
    m_gtPrimCache := some 7, boxCache := UT_BoundingBox.invalid }

def demoPacked : GU_PrimPacked :=
  { localTransform := 1, pos := fun _ => 0, topologyDirtyCount := 0 }

def demoDetail : GU_Detail :=
  { points := [0, 1]
    primitives := [{ offset := 0, packedUSD := some demoHandle },
                   { offset := 1, packedUSD := some demoHandle }]
    primitiveStrings := [] }

def demoBound : BoundPrims :=
  { rootPrims := [demoPrim "/a", demoPrim "/b"]
    variants := [SdfPath.EmptyPath, SdfPath.EmptyPath]
    purposes := { _array := [1, 3], _default := 1 }
    times := { _array := [UsdTimeCode.Numeric 1, UsdTimeCode.Numeric 2],
               _default := UsdTimeCode.Default } }

def demoEnv : CookEnv Unit :=
  { FindTraversal := fun name =>
      if name = "std:boundables" ∨ name = "std:components" then some demoTraverse else none
    BindPrims := fun _ _ => (some demoBound, [])
    AppendExpandedRefPoints := fun gdp _ prims _ _ _ =>
      ({ gdp with points := gdp.points ++ ((List.range prims.length).map
          (fun (i : Nat) => Int.ofNat i + 100)) }, [])
    AppendExpandedPackedPrims := fun gdp _ prims _ _ _ _ _ _ _ =>
      ({ gdp with primitives := gdp.primitives ++ ((List.range prims.length).map
          (fun (i : Nat) => { offset := Int.ofNat i + 100, packedUSD := none })) }, [])
    destroyPrimitives := fun gdp offsets _ =>
      { gdp with primitives := gdp.primitives.filter (fun prim => prim.offset ∉ offsets) }
    destroyPoints := fun gdp offsets =>
      { gdp with points := gdp.points.filter (fun o => o ∉ offsets) }
    validAttribName := fun name => name ≠ ""
    GetName := fun path => afterLastSlash path.text }

def demoParms (traversal geomtype : String) : Parms :=
  { unpack_traversal := traversal, unpack_geomtype := geomtype, unpack_class := 0,
    unpack_time := 1, unpack_delold := 1, unpack_pathattrib := "path",
    unpack_nameattrib := "name", transfer_attrs := "", import_primvars := "*",
    translatesttouv := 1, nontransformingprimvars := "rest" }

/-- A stage with three prims in the file `a.usd`: the transformable `/geo`, the instance
`/inst` of the master `/__Master_1`, and `/scope`, which supports no transform. -/
def demoInstance : UsdPrim :=
  { demoPrim "/inst" with isInstance := true, masterPath := ⟨"/__Master_1"⟩ }

def demoScope : UsdPrim :=
  { demoPrim "/scope" with isXformable := false }

def demoUsdEnv : UsdEnv :=
  { GetPrimPathAndEditFromVariantsPath := fun path => (path, none)
    GetPrim := fun file path _ _ =>
      if file = "a.usd" then
        if path.text = "/geo" then demoPrim "/geo"
        else if path.text = "/inst" then demoInstance
        else if path.text = "/scope" then demoScope
        else UsdPrim.empty
      else UsdPrim.empty
    GetLocalToWorldTransform := fun _ _ => 2
    CreateSdfPath := fun str path => if str = "" then path else ⟨str⟩
    GetNumericTime := fun time =>
      match time with
      | UsdTimeCode.Default => 0
      | UsdTimeCode.Numeric value => value
    GusdPurposeSetToTokens := fun purposes =>
      (if purposes &&& GUSD_PURPOSE_DEFAULT ≠ 0 then ["default"] else []) ++
      (if purposes &&& GUSD_PURPOSE_PROXY ≠ 0 then ["proxy"] else []) ++
      (if purposes &&& GUSD_PURPOSE_RENDER ≠ 0 then ["render"] else []) ++
      (if purposes &&& GUSD_PURPOSE_GUIDE ≠ 0 then ["guide"] else [])
    ComputeUntransformedBound := fun prim _ _ =>
      if prim.path.text = "/geo" then some (UT_BoundingBox.box (fun _ => 0) (fun _ => 1))
      else none
    GetGTPrim := fun _ _ _ => some 1 }

/-- A handle on `path` in `file` with no cache filled in. -/
def demoFresh (file path : String) : GusdGU_PackedUSD :=
  { GusdGU_PackedUSD.init with m_fileName := file, m_primPath := ⟨path⟩,
                               m_frame := UsdTimeCode.Numeric 1 }

/-- `strcmp(a, b) < 0` on the characters of two strings. -/
def demoStrcmpLt : List Char → List Char → Bool
  | [], [] => false
  | [], _ :: _ => true
  | _ :: _, [] => false
  | a :: as, b :: bs =>
    if a.toNat < b.toNat then true
    else if b.toNat < a.toNat then false
    else demoStrcmpLt as bs

/-- The order of `strcmp`: `a` may stand before `b` unless `b` compares less than `a`. -/
def demoSortLE (a b : String) : Bool := !demoStrcmpLt b.data a.data

/-- A detail of one point and one primitive, with the constant-attribute pattern given. -/
def demoFragment (constant : Option String) : GU_Detail :=
  { points := [0]
    primitives := [{ offset := 0, packedUSD := none }]
    primitiveStrings := []
    detailStrings :=
      match constant with
      | some pattern => [(theConstantAttribsName, pattern)]
      | none => [] }

/-- A converter that refines every prim into three details (no converter exists for the
types `PxHairman`, `PxProcArgs` and `Unknown`), wrappers that leave the unpack to the
caller, and a merge that appends the points and primitives of a detail at fresh offsets
and promotes the detail attributes the destination does not have. -/
def demoUnpackEnv : UnpackEnv :=
  { defineForRead := fun prim _ _ =>
      if prim.typeName = "PxHairman" ∨ prim.typeName = "PxProcArgs"
        ∨ prim.typeName = "Unknown" then none
      else some 1
    wrapperUnpack := fun _ destgdp _ _ _ _ _ _ => (false, destgdp)
    makeGEO := fun _ _ _ =>
      [demoFragment (some "width Cd"), demoFragment none, demoFragment (some "Cd  Alpha")]
    matchAttributes := fun _ _ => []
    setNonTransforming := fun gdp _ => gdp
    copyPrimitiveGroups := fun gdp _ _ => gdp
    unpackToDetail := fun destgdp gdp _ =>
      let ptBase := GA_IndexMap_offsetSize destgdp.points
      let primBase := GA_IndexMap_offsetSize (destgdp.primitives.map (fun prim => prim.offset))
      { destgdp with
        points := destgdp.points ++ gdp.points.map (fun o => o + ptBase)
        primitives := destgdp.primitives ++
          gdp.primitives.map (fun prim => { prim with offset := prim.offset + primBase })
        detailStrings := destgdp.detailStrings ++
          gdp.detailStrings.filter (fun e => (destgdp.detailStrings.lookup e.1).isNone) }
    intrinsicViewportLOD := fun _ _ => "full"
    validAttribName := fun name => name ≠ ""
    visibilityAuthored := fun _ => false
    getVisibility := fun _ _ => "inherited"
    sortLE := demoSortLE }

/-- A destination that already holds one primitive and a constant-attribute pattern. -/
def demoDest : GU_Detail :=
  { points := [0, 1]
    primitives := [{ offset := 0, packedUSD := none }]
    primitiveStrings := []
    detailStrings := [(theConstantAttribsName, "P Cd")] }

/-- A converter holding a lock on a valid stage with two source layers. -/
def demoConverter : HUSD_PythonConverter :=
  { myAnyLock := some { constData := some { isStageValid := true,
                                            sourceLayers := [{ myLayer := 11 },
                                                             { myLayer := 12 }] } } }

/-- The collaborators of the concrete scene, except that the second element of the range
fails to bind: its root prim is invalid. -/
def demoEnvPartial : CookEnv Unit :=
  { demoEnv with
    BindPrims := fun _ _ =>
      (some { demoBound with rootPrims := [demoPrim "/a", UsdPrim.empty] }, []) }

/-- A detail of polygons unpacked from two prims: the primitives 0 and 1 came from
`/a/b` and share its string index, the primitive 2 came from `top`, the primitive 3 has no
prim path; the primitive 4 is a packed USD primitive. -/
def demoUnpacked : GU_Detail :=
  { points := [0, 1, 2, 3, 4]
    primitives := [{ offset := 0, packedUSD := none }, { offset := 1, packedUSD := none },
                   { offset := 2, packedUSD := none }, { offset := 3, packedUSD := none },
                   { offset := 4, packedUSD := some demoHandle }]
    primitiveStrings :=
      [(GUSD_PRIMPATH_ATTR,
        { strings := ["/a/b", "top"], handles := [(0, 0), (1, 0), (2, 1)] })] }

end HoudiniUsdBridge

/-! ## Properties -/

namespace HoudiniUsdBridge

open UT_ErrorSeverity GA_AttributeOwner

/-! ### `RemapArray` -/

/-- C1 (evaluation at the failing input): with one pair whose origin index is 1 and a source
array of two elements, index 1 is valid for the source array, yet `RemapArray` stores the
default value 0 instead of `srcArray(1) = 20`, because the index is compared with the
number of pairs. -/
theorem C1_RemapArray_shorter_pairs_yields_default :
    RemapArray [(UsdPrim.empty, 1)] [10, 20] (0 : Nat) = some [0] ∧
      UT_Array_at [10, 20] (1 : Int) = some (20 : Nat) := by
  decide

/-- C2 (evaluation at the failing input): with two pairs and a source array of one element,
the origin index 1 of the first pair lies outside the source array but below the number of
pairs, so `RemapArray` reads `srcArray(1)` out of range instead of storing the default. -/
theorem C2_RemapArray_longer_pairs_reads_out_of_range :
    RemapArray [(UsdPrim.empty, 1), (UsdPrim.empty, 0)] [10] (0 : Nat) = none ∧
      UT_Array_at [10] (1 : Int) = (none : Option Nat) := by
  decide

/-! ### `_Cook`: the pass-through case -/

/-- C5: when the traversal parameter is "none" and the geometry type is not "polygons",
`_Cook` returns `UT_ERROR_NONE`, makes no traversal call, and leaves the detail and the
reported diagnostics as they were (nothing appended, deleted or given attributes). -/
theorem C5_no_traversal_passthrough {Opts : Type} (env : CookEnv Opts) (parms : Parms)
    (t : fpreal) (group : Option (List GA_Offset)) (gdp : GU_Detail) (errors : List Diag)
    (hnone : parms.unpack_traversal = "none") (hgeom : parms.unpack_geomtype ≠ "polygons") :
    (_Cook env parms t group gdp errors).outcome = Outcome.returned UT_ERROR_NONE ∧
      (_Cook env parms t group gdp errors).calls = [] ∧
      (_Cook env parms t group gdp errors).gdp = gdp ∧
      (_Cook env parms t group gdp errors).errors = errors ∧
      (_Cook env parms t group gdp errors).delOffsets = none := by
  simp [_Cook, hnone, hgeom, _NOTRAVERSE_NAME]

theorem C5_no_traversal_passthrough_witness :
    (_Cook demoEnv (demoParms "none" "packedprims") 1 none demoDetail []).outcome
        = Outcome.returned UT_ERROR_NONE ∧
      (_Cook demoEnv (demoParms "none" "packedprims") 1 none demoDetail []).calls = [] ∧
      (_Cook demoEnv (demoParms "none" "packedprims") 1 none demoDetail []).gdp = demoDetail ∧
      (_Cook demoEnv (demoParms "none" "packedprims") 1 none demoDetail []).errors = [] ∧
      (_Cook demoEnv (demoParms "none" "packedprims") 1 none demoDetail []).delOffsets = none :=
  C5_no_traversal_passthrough demoEnv (demoParms "none" "packedprims") 1 none demoDetail []
    rfl (by decide)

/-! ### Setters of the packed primitive -/

/-- C9: `setFileName`, `setPrimPath` and `setFrame` called with the value the handle
already holds change neither the handle (identifying attributes, resolved prim, cache
flags, converted primitive) nor the owning primitive (topology not dirtied, transform not
rewritten), and call no outside service. -/
theorem C9_setters_same_value_noop (env : UsdEnv) (self : GusdGU_PackedUSD)
    (prim : GU_PrimPacked) :
    self.setFileName env prim self.m_fileName = (self, prim, []) ∧
      self.setPrimPath env prim self.m_primPath = (self, prim, []) ∧
      self.setFrame env prim self.m_frame = (self, prim, []) := by
  simp [GusdGU_PackedUSD.setFileName, GusdGU_PackedUSD.setPrimPath,
    GusdGU_PackedUSD.setFrame]

/-- C10 (evaluation at the failing input): on a handle with a resolved prim and a valid
transform cache, `setPurposes` with the purpose set already held still drops the resolved
prim, clears the transform-cache flag and the converted primitive, and dirties the
topology of the owning primitive. -/
theorem C10_setPurposes_same_value_resets :
    (demoHandle.setPurposes (some demoPacked) demoHandle.m_purposes).1.m_purposes
        = demoHandle.m_purposes ∧
      demoHandle.m_usdPrim.valid = true ∧
      (demoHandle.setPurposes (some demoPacked) demoHandle.m_purposes).1.m_usdPrim.valid
        = false ∧
      demoHandle.m_transformCacheValid = true ∧
      (demoHandle.setPurposes (some demoPacked)
        demoHandle.m_purposes).1.m_transformCacheValid = false ∧
      demoHandle.m_gtPrimCache = some 7 ∧
      (demoHandle.setPurposes (some demoPacked) demoHandle.m_purposes).1.m_gtPrimCache
        = none ∧
      ((demoHandle.setPurposes (some demoPacked) demoHandle.m_purposes).2.map
        (fun p => p.topologyDirtyCount)) = some (demoPacked.topologyDirtyCount + 1) := by
  refine ⟨rfl, rfl, rfl, rfl, rfl, rfl, rfl, rfl⟩

/-! ### Helper lemmas on arrays -/

theorem UT_Array_at_eq_some {T : Type} (arr : List T) (i : Int) (v : T)
    (h : UT_Array_at arr i = some v) : 0 ≤ i ∧ i < (arr.length : Int) ∧ arr[i.toNat]? = some v := by
  unfold UT_Array_at at h
  split at h
  · next h0 =>
    refine ⟨h0, ?_, h⟩
    have hlt : i.toNat < arr.length := by
      rcases List.getElem?_eq_some_iff.mp h with ⟨hlt, _⟩
      exact hlt
    have := Int.toNat_of_nonneg h0
    omega
  · exact absurd h (by simp)

theorem UT_Array_at_isSome {T : Type} (arr : List T) (i : Int) (h0 : 0 ≤ i)
    (h1 : i < (arr.length : Int)) : ∃ v, UT_Array_at arr i = some v := by
  have hlt : i.toNat < arr.length := by
    have := Int.toNat_of_nonneg h0
    omega
  exact ⟨arr[i.toNat], by simp [UT_Array_at, h0, List.getElem?_eq_getElem hlt]⟩

theorem UT_Array_at_map {T U : Type} (f : T → U) (arr : List T) (i : Int) (u : U)
    (h : UT_Array_at (arr.map f) i = some u) : ∃ v, UT_Array_at arr i = some v ∧ f v = u := by
  unfold UT_Array_at at h ⊢
  split at h
  · next h0 =>
    rw [if_pos h0]
    rw [List.getElem?_map] at h
    cases hv : arr[i.toNat]? with
    | none => rw [hv] at h; exact absurd h (by simp)
    | some v => rw [hv] at h; exact ⟨v, rfl, by simpa using h⟩
  · exact absurd h (by simp)

theorem RemapArray_loop_isSome {T : Type} (size : exint) (srcArray : List T) (defaultValue : T)
    (pairs : List PrimIndexPair)
    (h : ∀ p ∈ pairs, 0 ≤ p.2 → p.2 < size → p.2 < (srcArray.length : Int)) :
    ∃ dst, RemapArray_loop size srcArray defaultValue pairs = some dst := by
  induction pairs with
  | nil => exact ⟨[], rfl⟩
  | cons pair rest ih =>
    obtain ⟨vs, hvs⟩ := ih (fun p hp => h p (List.mem_cons_of_mem _ hp))
    have helem : ∃ v, RemapArray_elem size srcArray defaultValue pair = some v := by
      unfold RemapArray_elem
      simp only []
      split
      · next hc => exact UT_Array_at_isSome _ _ hc.1 (h pair (List.mem_cons_self _ _) hc.1 hc.2)
      · exact ⟨defaultValue, rfl⟩
    obtain ⟨v, hv⟩ := helem
    exact ⟨v :: vs, by simp [RemapArray_loop, hv, hvs]⟩

theorem RemapArray_isSome {T : Type} (pairs : List PrimIndexPair) (srcArray : List T)
    (defaultValue : T)
    (h : ∀ p ∈ pairs, 0 ≤ p.2 → p.2 < (pairs.length : Int) → p.2 < (srcArray.length : Int)) :
    ∃ dst, RemapArray pairs srcArray defaultValue = some dst :=
  RemapArray_loop_isSome _ srcArray defaultValue pairs h

theorem _Cook_composeIndices_some (indices : List exint) (l composed : List PrimIndexPair)
    (h : _Cook_composeIndices indices l = some composed) :
    composed.length = l.length ∧
      ∀ (k : Nat) (p : PrimIndexPair), l[k]? = some p →
        ∃ origin, UT_Array_at indices p.2 = some origin ∧ composed[k]? = some (p.1, origin) := by
  induction l generalizing composed with
  | nil =>
    simp only [_Cook_composeIndices, Option.some.injEq] at h
    subst h
    simp
  | cons pair rest ih =>
    unfold _Cook_composeIndices at h
    simp only [] at h
    cases ho : UT_Array_at indices pair.2 with
    | none => rw [ho] at h; exact absurd h (by simp)
    | some origin =>
      rw [ho] at h
      cases hr : _Cook_composeIndices indices rest with
      | none => rw [hr] at h; exact absurd h (by simp)
      | some tail =>
        rw [hr] at h
        simp only [Option.some.injEq] at h
        subst h
        obtain ⟨hlen, hall⟩ := ih tail hr
        refine ⟨by simp [hlen], ?_⟩
        intro k p hk
        cases k with
        | zero =>
          simp only [List.getElem?_cons_zero, Option.some.injEq] at hk
          subst hk
          exact ⟨origin, ho, by simp⟩
        | succ k =>
          simp only [List.getElem?_cons_succ] at hk ⊢
          exact hall k p hk

theorem _Cook_composeIndices_isSome (indices : List exint) (l : List PrimIndexPair)
    (h : ∀ p ∈ l, 0 ≤ p.2 ∧ p.2 < (indices.length : Int)) :
    ∃ composed, _Cook_composeIndices indices l = some composed := by
  induction l with
  | nil => exact ⟨[], rfl⟩
  | cons pair rest ih =>
    obtain ⟨tail, ht⟩ := ih (fun p hp => h p (List.mem_cons_of_mem _ hp))
    obtain ⟨origin, ho⟩ := UT_Array_at_isSome indices pair.2
      (h pair (List.mem_cons_self _ _)).1 (h pair (List.mem_cons_self _ _)).2
    exact ⟨(pair.1, origin) :: tail, by simp [_Cook_composeIndices, ho, ht]⟩

theorem _Cook_composeIndices_mem (indices : List exint) (l composed : List PrimIndexPair)
    (h : _Cook_composeIndices indices l = some composed) :
    ∀ q ∈ composed, q.2 ∈ indices := by
  intro q hq
  obtain ⟨k, hk, hqk⟩ := List.getElem_of_mem hq
  obtain ⟨hlen, hall⟩ := _Cook_composeIndices_some indices l composed h
  have hk' : k < l.length := by omega
  obtain ⟨origin, ho, hc⟩ := hall k l[k] (List.getElem?_eq_getElem hk')
  rw [List.getElem?_eq_getElem hk, Option.some.injEq] at hc
  obtain ⟨_, _, hget⟩ := UT_Array_at_eq_some _ _ _ ho
  have : q.2 = origin := by rw [← hqk, hc]
  rw [this]
  exact List.getElem?_mem hget

theorem _Cook_identityPairs_length (rootPrims : List UsdPrim) :
    (_Cook_identityPairs rootPrims).length = rootPrims.length := by
  simp [_Cook_identityPairs]

theorem _Cook_identityPairs_getElem? (rootPrims : List UsdPrim) (k : Nat) :
    (_Cook_identityPairs rootPrims)[k]? = rootPrims[k]?.map (fun root => (root, Int.ofNat k)) := by
  unfold _Cook_identityPairs
  rw [List.getElem?_zipWith]
  by_cases hk : k < rootPrims.length
  · simp [List.getElem?_eq_getElem hk, List.getElem?_range hk]
  · have hk' : rootPrims.length ≤ k := by omega
    simp [List.getElem?_eq_none hk']

theorem _Cook_identityPairs_fst (rootPrims : List UsdPrim) :
    (_Cook_identityPairs rootPrims).map (fun pair => pair.1) = rootPrims := by
  apply List.ext_getElem?
  intro k
  rw [List.getElem?_map, _Cook_identityPairs_getElem?]
  cases rootPrims[k]? <;> rfl

theorem _Cook_identityPairs_snd (rootPrims : List UsdPrim) (p : PrimIndexPair)
    (hp : p ∈ _Cook_identityPairs rootPrims) : 0 ≤ p.2 ∧ p.2 < (rootPrims.length : Int) := by
  obtain ⟨k, hk, hpk⟩ := List.getElem_of_mem hp
  have hk' : k < rootPrims.length := by
    rw [_Cook_identityPairs_length] at hk
    exact hk
  have h1 := _Cook_identityPairs_getElem? rootPrims k
  rw [List.getElem?_eq_getElem hk, hpk, List.getElem?_eq_getElem hk'] at h1
  simp only [Option.map_some', Option.some.injEq] at h1
  rw [h1]
  show (0 : Int) ≤ Int.ofNat k ∧ Int.ofNat k < (rootPrims.length : Int)
  constructor
  · exact Int.ofNat_nonneg k
  · exact Int.ofNat_lt.mpr hk'

theorem error_rank_ge_aux (errors : List Diag) (init : UT_ErrorSeverity) :
    init.rank ≤ (errors.foldl (fun sev d => if sev.rank < d.1.rank then d.1 else sev) init).rank ∧
      ∀ d ∈ errors,
        d.1.rank ≤ (errors.foldl (fun sev d => if sev.rank < d.1.rank then d.1 else sev)
          init).rank := by
  induction errors generalizing init with
  | nil => simp
  | cons e rest ih =>
    simp only [List.foldl_cons, List.mem_cons, forall_eq_or_imp]
    obtain ⟨h1, h2⟩ := ih (if init.rank < e.1.rank then e.1 else init)
    refine ⟨?_, ?_, h2⟩
    · by_cases hlt : init.rank < e.1.rank
      · rw [if_pos hlt] at h1 ⊢
        omega
      · rw [if_neg hlt] at h1 ⊢
        omega
    · by_cases hlt : init.rank < e.1.rank
      · rw [if_pos hlt] at h1 ⊢
        omega
      · rw [if_neg hlt] at h1 ⊢
        omega

theorem error_rank_ge (errors : List Diag) (d : Diag) (hd : d ∈ errors) :
    d.1.rank ≤ (error errors).rank :=
  (error_rank_ge_aux errors UT_ERROR_NONE).2 d hd

/-! ### Helper lemmas on the continuation of `_Cook` -/

theorem _Cook_finish_calls {Opts : Type} (env : CookEnv Opts) (parms : Parms)
    (packedPrims : Bool) (rng : GA_Range) (rootPrims : List UsdPrim)
    (traversedPrims : List PrimIndexPair) (calls : List TraverseCall) (gdp : GU_Detail)
    (errors : List Diag) :
    (_Cook_finish env parms packedPrims rng rootPrims traversedPrims calls gdp errors).calls
        = calls ∧
      (_Cook_finish env parms packedPrims rng rootPrims traversedPrims calls gdp
        errors).traversedPrims = some traversedPrims := by
  unfold _Cook_finish
  split
  · split <;> simp
  · simp

theorem _Cook_append_calls {Opts : Type} (env : CookEnv Opts) (parms : Parms)
    (unpackToPolygons packedPrims : Bool) (rng : GA_Range) (rootPrims : List UsdPrim)
    (variants : List SdfPath) (times : GusdDefaultArray UsdTimeCode)
    (traversedPrims : List PrimIndexPair) (calls : List TraverseCall) (gdp : GU_Detail)
    (errors : List Diag) :
    (_Cook_append env parms unpackToPolygons packedPrims rng rootPrims variants times
        traversedPrims calls gdp errors).calls = calls ∧
      (_Cook_append env parms unpackToPolygons packedPrims rng rootPrims variants times
        traversedPrims calls gdp errors).traversedPrims = some traversedPrims := by
  unfold _Cook_append
  simp only []
  split
  · exact _Cook_finish_calls _ _ _ _ _ _ _ _ _
  · split
    · simp
    · split
      · simp
      · exact _Cook_finish_calls _ _ _ _ _ _ _ _ _

/-- Every way `_Cook_secondPass` can run, by the branch taken. -/
theorem _Cook_secondPass_cases {Opts : Type} (env : CookEnv Opts) (parms : Parms) (t : fpreal)
    (traversal : String) (unpackToPolygons packedPrims : Bool) (rng : GA_Range)
    (rootPrims : List UsdPrim) (variants : List SdfPath)
    (purposes : GusdDefaultArray GusdPurposeSet) (times : GusdDefaultArray UsdTimeCode)
    (tp : List PrimIndexPair) (calls : List TraverseCall) (gdp : GU_Detail)
    (errors : List Diag) (r : CookResult)
    (hr : r = _Cook_secondPass env parms t traversal unpackToPolygons packedPrims rng rootPrims
      variants purposes times tp calls gdp errors) :
    (¬ (unpackToPolygons = true ∧ traversal ≠ _GPRIMTRAVERSE_NAME) ∧
        r = _Cook_append env parms unpackToPolygons packedPrims rng rootPrims variants times
          tp calls gdp errors) ∨
    (unpackToPolygons = true ∧ traversal ≠ _GPRIMTRAVERSE_NAME ∧
        ((if purposes.IsVarying then RemapArray tp purposes.GetArray GUSD_PURPOSE_DEFAULT
            else some []) = none ∨
          (if times.IsVarying then RemapArray tp times.GetArray times.GetDefault
            else some []) = none) ∧
        r.outcome = Outcome.fault Fault.srcArrayRead ∧ r.calls = calls ∧ r.gdp = gdp ∧
        r.traversedPrims = none ∧ r.delOffsets = none) ∨
    (unpackToPolygons = true ∧ traversal ≠ _GPRIMTRAVERSE_NAME ∧
      ∃ pa ta, (if purposes.IsVarying then RemapArray tp purposes.GetArray GUSD_PURPOSE_DEFAULT
            else some []) = some pa ∧
        (if times.IsVarying then RemapArray tp times.GetArray times.GetDefault
            else some []) = some ta ∧
      ∃ c : TraverseCall, c.traversal = _GPRIMTRAVERSE_NAME ∧
        c.prims = tp.map (fun pair => pair.1) ∧ c.skipRoot = false ∧
        c.times = { _array := ta, _default := times.GetDefault } ∧
        c.purposes = { _array := pa, _default := purposes.GetDefault } ∧
        c.result = _Traverse env.FindTraversal _GPRIMTRAVERSE_NAME t
          (tp.map (fun pair => pair.1)) { _array := ta, _default := times.GetDefault }
          { _array := pa, _default := purposes.GetDefault } false [] ∧
        r.calls = calls ++ [c] ∧
        ((c.result.ok = false ∧ r.gdp = gdp ∧ r.traversedPrims = none ∧ r.delOffsets = none ∧
            r.errors = errors ++ c.result.errors ∧
            r.outcome = Outcome.returned (error (errors ++ c.result.errors))) ∨
          (c.result.ok = true ∧
            _Cook_composeIndices (tp.map (fun pair => pair.2)) c.result.traversed = none ∧
            r.outcome = Outcome.fault Fault.indicesRead ∧ r.gdp = gdp ∧
            r.traversedPrims = none ∧ r.delOffsets = none) ∨
          (c.result.ok = true ∧ ∃ composed,
            _Cook_composeIndices (tp.map (fun pair => pair.2)) c.result.traversed
              = some composed ∧
            r = _Cook_append env parms unpackToPolygons packedPrims rng rootPrims variants
              times composed (calls ++ [c]) gdp (errors ++ c.result.errors)))) := by
  subst hr
  unfold _Cook_secondPass
  by_cases hc : unpackToPolygons = true ∧ traversal ≠ _GPRIMTRAVERSE_NAME
  · rw [if_pos hc]
    right
    simp only []
    generalize (if purposes.IsVarying = true then
      RemapArray tp purposes.GetArray GUSD_PURPOSE_DEFAULT else some []) = rp
    generalize (if times.IsVarying = true then
      RemapArray tp times.GetArray times.GetDefault else some []) = rt
    cases rp with
    | none =>
      left
      exact ⟨hc.1, hc.2, Or.inl rfl, rfl, rfl, rfl, rfl, rfl⟩
    | some pa =>
      cases rt with
      | none =>
        left
        exact ⟨hc.1, hc.2, Or.inr rfl, rfl, rfl, rfl, rfl, rfl⟩
      | some ta =>
        right
        refine ⟨hc.1, hc.2, pa, ta, rfl, rfl, ?_⟩
        simp only []
        split
        · next hok =>
          refine ⟨_, rfl, rfl, rfl, rfl, rfl, rfl, rfl, ?_⟩
          left
          simp only [Bool.not_eq_true] at hok
          exact ⟨hok, rfl, rfl, rfl, rfl, rfl⟩
        · next hok =>
          simp only [Bool.not_eq_true, Bool.not_eq_false] at hok
          split
          · next hcomp =>
            refine ⟨_, rfl, rfl, rfl, rfl, rfl, rfl, rfl, ?_⟩
            right; left
            exact ⟨hok, hcomp, rfl, rfl, rfl, rfl⟩
          · next composed hcomp =>
            refine ⟨TraverseCall.mk _GPRIMTRAVERSE_NAME (tp.map (fun pair => pair.1))
              (GusdDefaultArray.mk ta times.GetDefault)
              (GusdDefaultArray.mk pa purposes.GetDefault) false
              (_Traverse env.FindTraversal _GPRIMTRAVERSE_NAME t
                (tp.map (fun pair => pair.1)) (GusdDefaultArray.mk ta times.GetDefault)
                (GusdDefaultArray.mk pa purposes.GetDefault) false []),
              rfl, rfl, rfl, rfl, rfl, rfl, ?_, ?_⟩
            · exact (_Cook_append_calls _ _ _ _ _ _ _ _ _ _ _ _).1
            · right; right
              exact ⟨hok, composed, hcomp, rfl⟩
  · rw [if_neg hc]
    left
    exact ⟨hc, rfl⟩

/-- Every way `_Cook` can run up to the second pass, by the branch taken. -/
theorem _Cook_cases {Opts : Type} (env : CookEnv Opts) (parms : Parms) (t : fpreal)
    (group : Option (List GA_Offset)) (gdp : GU_Detail) (errors : List Diag) (r : CookResult)
    (hr : r = _Cook env parms t group gdp errors) :
    (parms.unpack_traversal = _NOTRAVERSE_NAME ∧ parms.unpack_geomtype ≠ "polygons" ∧
        r.outcome = Outcome.returned UT_ERROR_NONE ∧ r.gdp = gdp ∧ r.errors = errors ∧
        r.calls = [] ∧ r.traversedPrims = none ∧ r.delOffsets = none) ∨
    (∃ posted, env.BindPrims gdp (_Cook_rng parms group gdp) = (none, posted) ∧
        r.outcome = Outcome.returned (error (errors ++ posted)) ∧ r.gdp = gdp ∧
        r.errors = errors ++ posted ∧ r.calls = [] ∧ r.traversedPrims = none ∧
        r.delOffsets = none) ∨
    (∃ bound posted, env.BindPrims gdp (_Cook_rng parms group gdp) = (some bound, posted) ∧
        parms.unpack_traversal ≠ _NOTRAVERSE_NAME ∧
        ∃ c : TraverseCall, c.traversal = parms.unpack_traversal ∧ c.prims = bound.rootPrims ∧
          c.skipRoot = decide (parms.unpack_traversal ≠ _GPRIMTRAVERSE_NAME) ∧
          c.times = _Cook_times parms bound.times ∧ c.purposes = bound.purposes ∧
          c.result = _Traverse env.FindTraversal parms.unpack_traversal t bound.rootPrims
            (_Cook_times parms bound.times) bound.purposes
            (decide (parms.unpack_traversal ≠ _GPRIMTRAVERSE_NAME)) [] ∧
          ((c.result.ok = false ∧ r.outcome =
              Outcome.returned (error (errors ++ posted ++ c.result.errors)) ∧
              r.gdp = gdp ∧ r.errors = errors ++ posted ++ c.result.errors ∧ r.calls = [c] ∧
              r.traversedPrims = none ∧ r.delOffsets = none) ∨
            (c.result.ok = true ∧
              r = _Cook_secondPass env parms t parms.unpack_traversal
                (decide (parms.unpack_geomtype = "polygons")) (decide (parms.unpack_class = 0))
                (_Cook_rng parms group gdp) bound.rootPrims bound.variants bound.purposes
                (_Cook_times parms bound.times) c.result.traversed [c] gdp
                (errors ++ posted ++ c.result.errors)))) ∨
    (∃ bound posted, env.BindPrims gdp (_Cook_rng parms group gdp) = (some bound, posted) ∧
        parms.unpack_traversal = _NOTRAVERSE_NAME ∧ parms.unpack_geomtype = "polygons" ∧
        r = _Cook_secondPass env parms t parms.unpack_traversal
          (decide (parms.unpack_geomtype = "polygons")) (decide (parms.unpack_class = 0))
          (_Cook_rng parms group gdp) bound.rootPrims bound.variants bound.purposes
          (_Cook_times parms bound.times) (_Cook_identityPairs bound.rootPrims) [] gdp
          (errors ++ posted)) := by
  subst hr
  unfold _Cook
  simp only []
  by_cases h0 : parms.unpack_traversal = _NOTRAVERSE_NAME ∧
      ¬ (decide (parms.unpack_geomtype = "polygons")) = true
  · rw [if_pos h0]
    left
    refine ⟨h0.1, ?_, rfl, rfl, rfl, rfl, rfl, rfl⟩
    simpa using h0.2
  · rw [if_neg h0]
    right
    generalize hb : env.BindPrims gdp (_Cook_rng parms group gdp) = bp
    rcases bp with ⟨ob, posted⟩
    cases ob with
    | none =>
      left
      exact ⟨posted, rfl, rfl, rfl, rfl, rfl, rfl, rfl⟩
    | some bound =>
      right
      simp only []
      by_cases hn : parms.unpack_traversal ≠ _NOTRAVERSE_NAME
      · rw [if_pos hn]
        left
        refine ⟨bound, posted, rfl, hn, ?_⟩
        split
        · next hok =>
          simp only [Bool.not_eq_true] at hok
          exact ⟨_, rfl, rfl, rfl, rfl, rfl, rfl, Or.inl ⟨hok, rfl, rfl, rfl, rfl, rfl, rfl⟩⟩
        · next hok =>
          simp only [Bool.not_eq_true, Bool.not_eq_false] at hok
          exact ⟨TraverseCall.mk parms.unpack_traversal bound.rootPrims
            (_Cook_times parms bound.times) bound.purposes
            (decide (parms.unpack_traversal ≠ _GPRIMTRAVERSE_NAME))
            (_Traverse env.FindTraversal parms.unpack_traversal t bound.rootPrims
              (_Cook_times parms bound.times) bound.purposes
              (decide (parms.unpack_traversal ≠ _GPRIMTRAVERSE_NAME)) []),
            rfl, rfl, rfl, rfl, rfl, rfl, Or.inr ⟨hok, rfl⟩⟩
      · rw [if_neg hn]
        right
        have hn' : parms.unpack_traversal = _NOTRAVERSE_NAME := by simpa using hn
        have hp : parms.unpack_geomtype = "polygons" := by
          by_contra hp
          exact h0 ⟨hn', by simpa using hp⟩
        refine ⟨bound, posted, rfl, hn', hp, ?_⟩
        simp [hp]

theorem _Cook_secondPass_calls {Opts : Type} (env : CookEnv Opts) (parms : Parms) (t : fpreal)
    (traversal : String) (unpackToPolygons packedPrims : Bool) (rng : GA_Range)
    (rootPrims : List UsdPrim) (variants : List SdfPath)
    (purposes : GusdDefaultArray GusdPurposeSet) (times : GusdDefaultArray UsdTimeCode)
    (tp : List PrimIndexPair) (calls : List TraverseCall) (gdp : GU_Detail)
    (errors : List Diag) :
    (_Cook_secondPass env parms t traversal unpackToPolygons packedPrims rng rootPrims
        variants purposes times tp calls gdp errors).calls = calls ∨
      ∃ c : TraverseCall,
        (_Cook_secondPass env parms t traversal unpackToPolygons packedPrims rng rootPrims
          variants purposes times tp calls gdp errors).calls = calls ++ [c] ∧
        c.traversal = _GPRIMTRAVERSE_NAME ∧ c.skipRoot = false ∧
        c.prims = tp.map (fun pair => pair.1) ∧
        unpackToPolygons = true ∧ traversal ≠ _GPRIMTRAVERSE_NAME := by
  rcases _Cook_secondPass_cases env parms t traversal unpackToPolygons packedPrims rng rootPrims
    variants purposes times tp calls gdp errors _ rfl with h | h | h
  · left
    rw [h.2]
    exact (_Cook_append_calls _ _ _ _ _ _ _ _ _ _ _ _).1
  · left
    exact h.2.2.2.2.1
  · right
    obtain ⟨hp, hne, _, _, _, _, c, hc1, hc2, hc3, _, _, _, hcalls, _⟩ := h
    exact ⟨c, hcalls, hc1, hc3, hc2, hp, hne⟩

/-- The `_Traverse` calls of `_Cook`: none, one, or two, with their policy and `skipRoot`. -/
theorem _Cook_calls_shape {Opts : Type} (env : CookEnv Opts) (parms : Parms) (t : fpreal)
    (group : Option (List GA_Offset)) (gdp : GU_Detail) (errors : List Diag) :
    (_Cook env parms t group gdp errors).calls = [] ∨
    (∃ c1 : TraverseCall, (_Cook env parms t group gdp errors).calls = [c1] ∧
        parms.unpack_traversal ≠ _NOTRAVERSE_NAME ∧
        c1.traversal = parms.unpack_traversal ∧
        c1.skipRoot = decide (parms.unpack_traversal ≠ _GPRIMTRAVERSE_NAME)) ∨
    (∃ c2 : TraverseCall, (_Cook env parms t group gdp errors).calls = [c2] ∧
        parms.unpack_traversal = _NOTRAVERSE_NAME ∧ parms.unpack_geomtype = "polygons" ∧
        c2.traversal = _GPRIMTRAVERSE_NAME ∧ c2.skipRoot = false) ∨
    (∃ c1 c2 : TraverseCall, (_Cook env parms t group gdp errors).calls = [c1, c2] ∧
        parms.unpack_traversal ≠ _NOTRAVERSE_NAME ∧ parms.unpack_geomtype = "polygons" ∧
        parms.unpack_traversal ≠ _GPRIMTRAVERSE_NAME ∧
        c1.traversal = parms.unpack_traversal ∧
        c1.skipRoot = decide (parms.unpack_traversal ≠ _GPRIMTRAVERSE_NAME) ∧
        c2.traversal = _GPRIMTRAVERSE_NAME ∧ c2.skipRoot = false) := by
  rcases _Cook_cases env parms t group gdp errors _ rfl with h | h | h | h
  · exact Or.inl h.2.2.2.2.2.1
  · obtain ⟨posted, _, _, _, _, hcalls, _⟩ := h
    exact Or.inl hcalls
  · obtain ⟨bound, posted, _, hn, c, hc1, _, hc3, _, _, _, hrest⟩ := h
    rcases hrest with hfail | hok
    · exact Or.inr (Or.inl ⟨c, hfail.2.2.2.2.1, hn, hc1, hc3⟩)
    · rw [hok.2]
      rcases _Cook_secondPass_calls env parms t parms.unpack_traversal
        (decide (parms.unpack_geomtype = "polygons")) (decide (parms.unpack_class = 0))
        (_Cook_rng parms group gdp) bound.rootPrims bound.variants bound.purposes
        (_Cook_times parms bound.times) c.result.traversed [c] gdp
        (errors ++ posted ++ c.result.errors) with h2 | ⟨c2, h2, hg, hs, _, hp, hne⟩
      · exact Or.inr (Or.inl ⟨c, h2, hn, hc1, hc3⟩)
      · refine Or.inr (Or.inr (Or.inr ⟨c, c2, h2, hn, ?_, hne, hc1, hc3, hg, hs⟩))
        simpa using hp
  · obtain ⟨bound, posted, _, hn, hp, hr⟩ := h
    rw [hr]
    rcases _Cook_secondPass_calls env parms t parms.unpack_traversal
      (decide (parms.unpack_geomtype = "polygons")) (decide (parms.unpack_class = 0))
      (_Cook_rng parms group gdp) bound.rootPrims bound.variants bound.purposes
      (_Cook_times parms bound.times) (_Cook_identityPairs bound.rootPrims) [] gdp
      (errors ++ posted) with h2 | ⟨c2, h2, hg, hs, _, _, _⟩
    · exact Or.inl h2
    · exact Or.inr (Or.inr (Or.inl ⟨c2, h2, hn, hp, hg, hs⟩))

/-! ### `_Cook`: the traversal calls -/

/-- C7: in every `_Traverse` call made by `_Cook`, `skipRoot` is false exactly when the
policy being run is "std:boundables", in the first pass as well as in the second. -/
theorem C7_skipRoot_false_iff_boundables {Opts : Type} (env : CookEnv Opts) (parms : Parms)
    (t : fpreal) (group : Option (List GA_Offset)) (gdp : GU_Detail) (errors : List Diag)
    (c : TraverseCall) (hc : c ∈ (_Cook env parms t group gdp errors).calls) :
    c.skipRoot = false ↔ c.traversal = "std:boundables" := by
  have hshape := _Cook_calls_shape env parms t group gdp errors
  have hfirst : ∀ c1 : TraverseCall, c1.traversal = parms.unpack_traversal →
      c1.skipRoot = decide (parms.unpack_traversal ≠ _GPRIMTRAVERSE_NAME) →
      (c1.skipRoot = false ↔ c1.traversal = "std:boundables") := by
    intro c1 h1 h2
    rw [h1, h2]
    simp [_GPRIMTRAVERSE_NAME]
  have hsecond : ∀ c2 : TraverseCall, c2.traversal = _GPRIMTRAVERSE_NAME →
      c2.skipRoot = false → (c2.skipRoot = false ↔ c2.traversal = "std:boundables") := by
    intro c2 h1 h2
    rw [h1, h2]
    simp [_GPRIMTRAVERSE_NAME]
  rcases hshape with h | ⟨c1, h, _, h1, h2⟩ | ⟨c2, h, _, _, h1, h2⟩ |
      ⟨c1, c2, h, _, _, _, h1, h2, h3, h4⟩
  · rw [h] at hc
    exact absurd hc (List.not_mem_nil c)
  · rw [h, List.mem_singleton] at hc
    subst hc
    exact hfirst c h1 h2
  · rw [h, List.mem_singleton] at hc
    subst hc
    exact hsecond c h1 h2
  · rw [h] at hc
    simp only [List.mem_cons, List.mem_singleton, List.not_mem_nil, or_false] at hc
    rcases hc with hc | hc
    · subst hc
      exact hfirst c h1 h2
    · subst hc
      exact hsecond c h3 h4

theorem C7_skipRoot_false_iff_boundables_witness :
    (((_Cook demoEnv (demoParms "std:components" "polygons") 1 none demoDetail []).calls.get
        ⟨1, by decide⟩).skipRoot = false ↔
      ((_Cook demoEnv (demoParms "std:components" "polygons") 1 none demoDetail []).calls.get
        ⟨1, by decide⟩).traversal = "std:boundables") :=
  C7_skipRoot_false_iff_boundables demoEnv (demoParms "std:components" "polygons") 1 none
    demoDetail [] _ (List.get_mem _ _ _)

/-- What `_Cook_secondPass` guarantees about each recorded call, given it of the calls
recorded before: the record is that of a `_Traverse` call, and a call that returned false
ended the run with the detail untouched. -/
theorem _Cook_secondPass_call_inv {Opts : Type} (env : CookEnv Opts) (parms : Parms)
    (t : fpreal) (traversal : String) (unpackToPolygons packedPrims : Bool) (rng : GA_Range)
    (rootPrims : List UsdPrim) (variants : List SdfPath)
    (purposes : GusdDefaultArray GusdPurposeSet) (times : GusdDefaultArray UsdTimeCode)
    (tp : List PrimIndexPair) (calls : List TraverseCall) (gdp : GU_Detail)
    (errors : List Diag)
    (hres : ∀ c ∈ calls, c.result = _Traverse env.FindTraversal c.traversal t c.prims c.times
      c.purposes c.skipRoot [])
    (hok : ∀ c ∈ calls, c.result.ok = true) :
    ∀ c ∈ (_Cook_secondPass env parms t traversal unpackToPolygons packedPrims rng rootPrims
        variants purposes times tp calls gdp errors).calls,
      c.result = _Traverse env.FindTraversal c.traversal t c.prims c.times c.purposes
          c.skipRoot [] ∧
        (c.result.ok = false →
          (_Cook_secondPass env parms t traversal unpackToPolygons packedPrims rng rootPrims
            variants purposes times tp calls gdp errors).gdp = gdp ∧
          (_Cook_secondPass env parms t traversal unpackToPolygons packedPrims rng rootPrims
            variants purposes times tp calls gdp errors).delOffsets = none ∧
          (_Cook_secondPass env parms t traversal unpackToPolygons packedPrims rng rootPrims
            variants purposes times tp calls gdp errors).traversedPrims = none ∧
          (_Cook_secondPass env parms t traversal unpackToPolygons packedPrims rng rootPrims
            variants purposes times tp calls gdp errors).errors = errors ++ c.result.errors ∧
          (_Cook_secondPass env parms t traversal unpackToPolygons packedPrims rng rootPrims
            variants purposes times tp calls gdp errors).outcome =
              Outcome.returned (error (errors ++ c.result.errors))) := by
  intro c hc
  have hold : ∀ c ∈ calls, c.result = _Traverse env.FindTraversal c.traversal t c.prims
      c.times c.purposes c.skipRoot [] ∧
      (c.result.ok = false →
        (_Cook_secondPass env parms t traversal unpackToPolygons packedPrims rng rootPrims
          variants purposes times tp calls gdp errors).gdp = gdp ∧
        (_Cook_secondPass env parms t traversal unpackToPolygons packedPrims rng rootPrims
          variants purposes times tp calls gdp errors).delOffsets = none ∧
        (_Cook_secondPass env parms t traversal unpackToPolygons packedPrims rng rootPrims
          variants purposes times tp calls gdp errors).traversedPrims = none ∧
        (_Cook_secondPass env parms t traversal unpackToPolygons packedPrims rng rootPrims
          variants purposes times tp calls gdp errors).errors = errors ++ c.result.errors ∧
        (_Cook_secondPass env parms t traversal unpackToPolygons packedPrims rng rootPrims
          variants purposes times tp calls gdp errors).outcome =
            Outcome.returned (error (errors ++ c.result.errors))) := by
    intro c hc
    refine ⟨hres c hc, fun hfalse => ?_⟩
    rw [hok c hc] at hfalse
    exact absurd hfalse (by simp)
  rcases _Cook_secondPass_cases env parms t traversal unpackToPolygons packedPrims rng rootPrims
    variants purposes times tp calls gdp errors _ rfl with h | h | h
  · have hcalls : (_Cook_secondPass env parms t traversal unpackToPolygons packedPrims rng
        rootPrims variants purposes times tp calls gdp errors).calls = calls := by
      rw [h.2]
      exact (_Cook_append_calls _ _ _ _ _ _ _ _ _ _ _ _).1
    rw [hcalls] at hc
    exact hold c hc
  · rw [h.2.2.2.2.1] at hc
    exact hold c hc
  · obtain ⟨_, _, pa, ta, _, _, c2, h1, h2, h3, h4, h5, h6, hcalls, hrest⟩ := h
    rw [hcalls, List.mem_append, List.mem_singleton] at hc
    rcases hc with hc | hc
    · exact hold c hc
    · subst hc
      refine ⟨?_, fun hfalse => ?_⟩
      · rw [h6, h1, h2, h3, h4, h5]
      · rcases hrest with hf | hf | hf
        · exact ⟨hf.2.1, hf.2.2.2.1, hf.2.2.1, hf.2.2.2.2.1, hf.2.2.2.2.2⟩
        · rw [hf.1] at hfalse
          exact absurd hfalse (by simp)
        · rw [hf.1] at hfalse
          exact absurd hfalse (by simp)

/-- What `_Cook` guarantees about each recorded call: the record is that of a `_Traverse`
call with an empty output list, and a call that returned false ended the run by
`return error()` with the detail untouched, its diagnostics being the last reported. -/
theorem _Cook_call_inv {Opts : Type} (env : CookEnv Opts) (parms : Parms) (t : fpreal)
    (group : Option (List GA_Offset)) (gdp : GU_Detail) (errors : List Diag) :
    ∀ c ∈ (_Cook env parms t group gdp errors).calls,
      c.result = _Traverse env.FindTraversal c.traversal t c.prims c.times c.purposes
          c.skipRoot [] ∧
        (c.result.ok = false →
          (_Cook env parms t group gdp errors).gdp = gdp ∧
          (_Cook env parms t group gdp errors).delOffsets = none ∧
          (_Cook env parms t group gdp errors).traversedPrims = none ∧
          (∃ before, (_Cook env parms t group gdp errors).errors = before ++ c.result.errors) ∧
          (_Cook env parms t group gdp errors).outcome =
            Outcome.returned (error (_Cook env parms t group gdp errors).errors)) := by
  intro c hc
  rcases _Cook_cases env parms t group gdp errors _ rfl with h | h | h | h
  · rw [h.2.2.2.2.2.1] at hc
    exact absurd hc (List.not_mem_nil c)
  · obtain ⟨posted, _, _, _, _, hcalls, _⟩ := h
    rw [hcalls] at hc
    exact absurd hc (List.not_mem_nil c)
  · obtain ⟨bound, posted, _, hn, c1, h1, h2, h3, h4, h5, h6, hrest⟩ := h
    have hrec : c1.result = _Traverse env.FindTraversal c1.traversal t c1.prims c1.times
        c1.purposes c1.skipRoot [] := by
      rw [h6, h1, h2, h3, h4, h5]
    rcases hrest with ⟨hok, hout, hgdp, herr, hcalls, htp, hdel⟩ | ⟨hok, hr⟩
    · rw [hcalls, List.mem_singleton] at hc
      subst hc
      refine ⟨hrec, fun _ => ⟨hgdp, hdel, htp, ⟨errors ++ posted, herr⟩, ?_⟩⟩
      rw [hout, herr]
    · rw [hr] at hc ⊢
      have hinv := _Cook_secondPass_call_inv env parms t parms.unpack_traversal
        (decide (parms.unpack_geomtype = "polygons")) (decide (parms.unpack_class = 0))
        (_Cook_rng parms group gdp) bound.rootPrims bound.variants bound.purposes
        (_Cook_times parms bound.times) c1.result.traversed [c1] gdp
        (errors ++ posted ++ c1.result.errors)
        (by intro x hx; rw [List.mem_singleton] at hx; subst hx; exact hrec)
        (by intro x hx; rw [List.mem_singleton] at hx; subst hx; exact hok) c hc
      refine ⟨hinv.1, fun hfalse => ?_⟩
      obtain ⟨g1, g2, g3, g4, g5⟩ := hinv.2 hfalse
      refine ⟨g1, g2, g3, ⟨_, g4⟩, ?_⟩
      rw [g5, g4]
  · obtain ⟨bound, posted, _, hn, hp, hr⟩ := h
    rw [hr] at hc ⊢
    have hinv := _Cook_secondPass_call_inv env parms t parms.unpack_traversal
      (decide (parms.unpack_geomtype = "polygons")) (decide (parms.unpack_class = 0))
      (_Cook_rng parms group gdp) bound.rootPrims bound.variants bound.purposes
      (_Cook_times parms bound.times) (_Cook_identityPairs bound.rootPrims) [] gdp
      (errors ++ posted)
      (by intro x hx; exact absurd hx (List.not_mem_nil x))
      (by intro x hx; exact absurd hx (List.not_mem_nil x)) c hc
    refine ⟨hinv.1, fun hfalse => ?_⟩
    obtain ⟨g1, g2, g3, g4, g5⟩ := hinv.2 hfalse
    refine ⟨g1, g2, g3, ⟨_, g4⟩, ?_⟩
    rw [g5, g4]

/-! ### `_Traverse` and `_Cook`: an unregistered traversal -/

/-- C8: for every traversal name that is not registered, `_Traverse` returns false, reports
the diagnostic "Failed locating traversal" with severity abort, does not reach `FindPrims`
and leaves the output pair list as it was; whenever `_Cook` runs that name (in either
pass) it then ends by `return error()` at abort severity with the detail unchanged, nothing
deleted and the diagnostic held by the error manager; and `_Cook` does run the name when
it is the traversal parameter (other than "none", which is never looked up) and the roots
were bound. -/
theorem C8_unregistered_traversal_aborts {Opts : Type} (env : CookEnv Opts) (name : String)
    (hunreg : env.FindTraversal name = none) :
    (∀ (time : fpreal) (prims : List UsdPrim) (times : GusdDefaultArray UsdTimeCode)
        (purposes : GusdDefaultArray GusdPurposeSet) (skipRoot : Bool)
        (traversed : List PrimIndexPair),
        (_Traverse env.FindTraversal name time prims times purposes skipRoot traversed).ok
            = false ∧
          (_Traverse env.FindTraversal name time prims times purposes skipRoot
            traversed).errors = [(UT_ERROR_ABORT, "Failed locating traversal '" ++ name ++ "'")] ∧
          (_Traverse env.FindTraversal name time prims times purposes skipRoot
            traversed).traversed = traversed ∧
          (_Traverse env.FindTraversal name time prims times purposes skipRoot
            traversed).findPrims = false) ∧
      (∀ (parms : Parms) (t : fpreal) (group : Option (List GA_Offset)) (gdp : GU_Detail)
        (errors : List Diag),
        ∀ c ∈ (_Cook env parms t group gdp errors).calls, c.traversal = name →
          c.result.ok = false ∧ c.result.findPrims = false ∧
          (_Cook env parms t group gdp errors).gdp = gdp ∧
          (_Cook env parms t group gdp errors).delOffsets = none ∧
          (_Cook env parms t group gdp errors).traversedPrims = none ∧
          (UT_ERROR_ABORT, "Failed locating traversal '" ++ name ++ "'")
            ∈ (_Cook env parms t group gdp errors).errors ∧
          (_Cook env parms t group gdp errors).outcome =
            Outcome.returned (error (_Cook env parms t group gdp errors).errors) ∧
          UT_ERROR_ABORT.rank ≤ (error (_Cook env parms t group gdp errors).errors).rank) ∧
      (∀ (parms : Parms) (t : fpreal) (group : Option (List GA_Offset)) (gdp : GU_Detail)
        (errors : List Diag) (bound : BoundPrims) (posted : List Diag),
        parms.unpack_traversal = name → name ≠ "none" →
        env.BindPrims gdp (_Cook_rng parms group gdp) = (some bound, posted) →
          ∃ c : TraverseCall, (_Cook env parms t group gdp errors).calls = [c] ∧
            c.traversal = name) := by
  have htrav : ∀ (time : fpreal) (prims : List UsdPrim) (times : GusdDefaultArray UsdTimeCode)
      (purposes : GusdDefaultArray GusdPurposeSet) (skipRoot : Bool)
      (traversed : List PrimIndexPair),
      _Traverse env.FindTraversal name time prims times purposes skipRoot traversed =
        { ok := false, traversed := traversed,
          errors := [(UT_ERROR_ABORT, "Failed locating traversal '" ++ name ++ "'")],
          findPrims := false } := by
    intro time prims times purposes skipRoot traversed
    unfold _Traverse
    rw [hunreg]
    rfl
  refine ⟨fun time prims times purposes skipRoot traversed => ?_, ?_, ?_⟩
  · rw [htrav]
    exact ⟨rfl, rfl, rfl, rfl⟩
  · intro parms t group gdp errors c hc hcn
    obtain ⟨hrec, hfail⟩ := _Cook_call_inv env parms t group gdp errors c hc
    rw [hcn, htrav] at hrec
    have hok : c.result.ok = false := by rw [hrec]
    obtain ⟨g1, g2, g3, ⟨before, g4⟩, g5⟩ := hfail hok
    have hmem : (UT_ERROR_ABORT, "Failed locating traversal '" ++ name ++ "'")
        ∈ (_Cook env parms t group gdp errors).errors := by
      rw [g4, hrec]
      simp
    refine ⟨hok, by rw [hrec], g1, g2, g3, hmem, g5, ?_⟩
    exact error_rank_ge _ _ hmem
  · intro parms t group gdp errors bound posted hp hname hb
    rcases _Cook_cases env parms t group gdp errors _ rfl with h | h | h | h
    · rw [hp] at h
      exact absurd h.1 hname
    · obtain ⟨posted2, hb2, _⟩ := h
      rw [hb] at hb2
      exact absurd hb2 (by simp)
    · obtain ⟨bound2, posted2, _, _, c, hc1, _, _, _, _, hres, hrest⟩ := h
      rw [hp, htrav] at hres
      rcases hrest with hf | ⟨hok, _⟩
      · exact ⟨c, hf.2.2.2.2.1, by rw [hc1, hp]⟩
      · rw [hres] at hok
        exact absurd hok (by simp)
    · obtain ⟨_, _, _, hn, _⟩ := h
      rw [hp] at hn
      exact absurd hn hname

theorem C8_unregistered_traversal_aborts_witness :
    demoEnv.FindTraversal "bogus" = none ∧
      (_Traverse demoEnv.FindTraversal "bogus" 1 demoBound.rootPrims demoBound.times
        demoBound.purposes true []).ok = false ∧
      (_Cook demoEnv (demoParms "bogus" "polygons") 1 none demoDetail []).gdp = demoDetail ∧
      (_Cook demoEnv (demoParms "bogus" "polygons") 1 none demoDetail []).delOffsets = none ∧
      (_Cook demoEnv (demoParms "bogus" "polygons") 1 none demoDetail []).outcome =
        Outcome.returned
          (error (_Cook demoEnv (demoParms "bogus" "polygons") 1 none demoDetail []).errors) ∧
      UT_ERROR_ABORT.rank ≤
        (error (_Cook demoEnv (demoParms "bogus" "polygons") 1 none demoDetail []).errors).rank :=
  ⟨rfl,
    ((C8_unregistered_traversal_aborts demoEnv "bogus" rfl).1 1 demoBound.rootPrims
      demoBound.times demoBound.purposes true []).1,
    ((C8_unregistered_traversal_aborts demoEnv "bogus" rfl).2.1
      (demoParms "bogus" "polygons") 1 none demoDetail [] _
      (List.get_mem _ 0 (by decide)) rfl).2.2.1,
    ((C8_unregistered_traversal_aborts demoEnv "bogus" rfl).2.1
      (demoParms "bogus" "polygons") 1 none demoDetail [] _
      (List.get_mem _ 0 (by decide)) rfl).2.2.2.1,
    ((C8_unregistered_traversal_aborts demoEnv "bogus" rfl).2.1
      (demoParms "bogus" "polygons") 1 none demoDetail [] _
      (List.get_mem _ 0 (by decide)) rfl).2.2.2.2.2.2.1,
    ((C8_unregistered_traversal_aborts demoEnv "bogus" rfl).2.1
      (demoParms "bogus" "polygons") 1 none demoDetail [] _
      (List.get_mem _ 0 (by decide)) rfl).2.2.2.2.2.2.2⟩

theorem _Cook_times_IsVarying (parms : Parms) (times : GusdDefaultArray UsdTimeCode) :
    (_Cook_times parms times).IsVarying = times.IsVarying ∧
      ((_Cook_times parms times).IsVarying = true →
        (_Cook_times parms times).GetArray = times.GetArray) := by
  unfold _Cook_times
  by_cases hv : times.IsVarying = true
  · simp [hv]
  · rw [if_pos hv]
    simp only [Bool.not_eq_true] at hv
    rw [hv]
    constructor
    · rfl
    · intro h
      exact absurd h (by simp [GusdDefaultArray.SetConstant, GusdDefaultArray.IsVarying])

theorem _Cook_identityPairs_at (rootPrims : List UsdPrim) (i : Int) (pair : PrimIndexPair)
    (h : UT_Array_at (_Cook_identityPairs rootPrims) i = some pair) : pair.2 = i := by
  obtain ⟨h0, _, hget⟩ := UT_Array_at_eq_some _ _ _ h
  rw [_Cook_identityPairs_getElem?] at hget
  cases hroot : rootPrims[i.toNat]? with
  | none => rw [hroot] at hget; exact absurd hget (by simp)
  | some root =>
    rw [hroot] at hget
    simp only [Option.map_some', Option.some.injEq] at hget
    rw [← hget]
    exact Int.toNat_of_nonneg h0

theorem _Cook_composeIndices_identity (rootPrims : List UsdPrim)
    (l composed : List PrimIndexPair)
    (h : _Cook_composeIndices ((_Cook_identityPairs rootPrims).map (fun pair => pair.2)) l
      = some composed) : composed = l := by
  obtain ⟨hlen, hall⟩ := _Cook_composeIndices_some _ l composed h
  apply List.ext_getElem?
  intro k
  by_cases hk : k < l.length
  · obtain ⟨origin, ho, hc⟩ := hall k l[k] (List.getElem?_eq_getElem hk)
    obtain ⟨v, hv, hvo⟩ := UT_Array_at_map _ _ _ _ ho
    have := _Cook_identityPairs_at rootPrims _ v hv
    rw [hc, List.getElem?_eq_getElem hk, ← hvo, this]
  · have h1 : l.length ≤ k := by omega
    have h2 : composed.length ≤ k := by omega
    rw [List.getElem?_eq_none h1, List.getElem?_eq_none h2]

/-- C6: with the traversal parameter "none" and the geometry type "polygons", once the
roots are bound (each per-root array holding an entry for every root) `_Cook` makes exactly
one `_Traverse` call, for the policy "std:boundables" with `skipRoot` false, on the prims
of the identity pairing `(rootPrims(i), i)`, so that the origin indices it reports are
final; and in general `_Cook` makes at most two calls, two of them only when the geometry
type is "polygons" and the traversal is neither "none" nor "std:boundables". -/
theorem C6_none_polygons_single_boundable_pass {Opts : Type} (env : CookEnv Opts)
    (parms : Parms) (t : fpreal) (group : Option (List GA_Offset)) (gdp : GU_Detail)
    (errors : List Diag) :
    (parms.unpack_traversal = "none" → parms.unpack_geomtype = "polygons" →
      ∀ bound posted, env.BindPrims gdp (_Cook_rng parms group gdp) = (some bound, posted) →
        (bound.purposes.IsVarying = true →
          bound.rootPrims.length ≤ bound.purposes.GetArray.length) →
        (bound.times.IsVarying = true →
          bound.rootPrims.length ≤ bound.times.GetArray.length) →
        ∃ c : TraverseCall, (_Cook env parms t group gdp errors).calls = [c] ∧
          c.traversal = "std:boundables" ∧ c.skipRoot = false ∧
          c.prims = (_Cook_identityPairs bound.rootPrims).map (fun pair => pair.1) ∧
          c.prims = bound.rootPrims ∧
          c.result = _Traverse env.FindTraversal "std:boundables" t bound.rootPrims c.times
            c.purposes false [] ∧
          (∀ (k : Nat) (root : UsdPrim), bound.rootPrims[k]? = some root →
            (_Cook_identityPairs bound.rootPrims)[k]? = some (root, Int.ofNat k)) ∧
          (∀ final, (_Cook env parms t group gdp errors).traversedPrims = some final →
            final = c.result.traversed)) ∧
      (_Cook env parms t group gdp errors).calls.length ≤ 2 ∧
      ((_Cook env parms t group gdp errors).calls.length = 2 →
        parms.unpack_geomtype = "polygons" ∧ parms.unpack_traversal ≠ "none" ∧
        parms.unpack_traversal ≠ "std:boundables") := by
  refine ⟨?_, ?_, ?_⟩
  · intro hnone hpoly bound posted hb hpur htim
    rcases _Cook_cases env parms t group gdp errors _ rfl with h | h | h | h
    · exact absurd hpoly h.2.1
    · obtain ⟨posted2, hb2, _⟩ := h
      rw [hb] at hb2
      exact absurd hb2 (by simp)
    · obtain ⟨_, _, _, hn, _⟩ := h
      exact absurd hnone hn
    · obtain ⟨bound2, posted2, hb2, _, _, hr⟩ := h
      rw [hb] at hb2
      simp only [Prod.mk.injEq, Option.some.injEq] at hb2
      obtain ⟨hbb, hpp⟩ := hb2
      subst hbb
      subst hpp
      have hvalid : ∀ (T : Type) (src : List T) (d : T), bound.rootPrims.length ≤ src.length →
          ∃ dst, RemapArray (_Cook_identityPairs bound.rootPrims) src d = some dst := by
        intro T src d hlen
        apply RemapArray_isSome
        intro p hp _ _
        have := (_Cook_identityPairs_snd bound.rootPrims p hp).2
        have hlen' : (bound.rootPrims.length : Int) ≤ (src.length : Int) := by exact_mod_cast hlen
        exact lt_of_lt_of_le this hlen'
      have hP : ∃ pa, (if bound.purposes.IsVarying = true then
          RemapArray (_Cook_identityPairs bound.rootPrims) bound.purposes.GetArray
            GUSD_PURPOSE_DEFAULT else some []) = some pa := by
        by_cases hv : bound.purposes.IsVarying = true
        · rw [if_pos hv]
          exact hvalid _ _ _ (hpur hv)
        · rw [if_neg hv]
          exact ⟨[], rfl⟩
      have hT : ∃ ta, (if (_Cook_times parms bound.times).IsVarying = true then
          RemapArray (_Cook_identityPairs bound.rootPrims)
            (_Cook_times parms bound.times).GetArray (_Cook_times parms bound.times).GetDefault
          else some []) = some ta := by
        by_cases hv : (_Cook_times parms bound.times).IsVarying = true
        · rw [if_pos hv]
          have hv2 : bound.times.IsVarying = true := by
            rw [← (_Cook_times_IsVarying parms bound.times).1]
            exact hv
          rw [(_Cook_times_IsVarying parms bound.times).2 hv]
          exact hvalid _ _ _ (htim hv2)
        · rw [if_neg hv]
          exact ⟨[], rfl⟩
      rcases _Cook_secondPass_cases env parms t parms.unpack_traversal
        (decide (parms.unpack_geomtype = "polygons")) (decide (parms.unpack_class = 0))
        (_Cook_rng parms group gdp) bound.rootPrims bound.variants bound.purposes
        (_Cook_times parms bound.times) (_Cook_identityPairs bound.rootPrims) [] gdp
        (errors ++ posted) _ hr with h2 | h2 | h2
      · exfalso
        apply h2.1
        refine ⟨by simpa using hpoly, ?_⟩
        rw [hnone]
        decide
      · exfalso
        obtain ⟨pa, hpa⟩ := hP
        obtain ⟨ta, hta⟩ := hT
        rcases h2.2.2.1 with hx | hx
        · rw [hpa] at hx
          exact absurd hx (by simp)
        · rw [hta] at hx
          exact absurd hx (by simp)
      · obtain ⟨_, _, pa, ta, _, _, c, hc1, hc2, hc3, hc4, hc5, hc6, hcalls, hrest⟩ := h2
        refine ⟨c, by simpa using hcalls, hc1, hc3, hc2, ?_, ?_, ?_, ?_⟩
        · rw [hc2, _Cook_identityPairs_fst]
        · rw [hc6, hc4, hc5, _Cook_identityPairs_fst]
          rfl
        · intro k root hk
          rw [_Cook_identityPairs_getElem?, hk]
          rfl
        · intro final hfinal
          rcases hrest with hf | hf | ⟨_, composed, hcomp, hrr⟩
          · rw [hf.2.2.1] at hfinal
            exact absurd hfinal (by simp)
          · rw [hf.2.2.2.2.1] at hfinal
            exact absurd hfinal (by simp)
          · rw [hrr, (_Cook_append_calls _ _ _ _ _ _ _ _ _ _ _ _).2] at hfinal
            simp only [Option.some.injEq] at hfinal
            rw [← hfinal]
            exact _Cook_composeIndices_identity bound.rootPrims _ _ hcomp
  · rcases _Cook_calls_shape env parms t group gdp errors with h | ⟨_, h, _⟩ | ⟨_, h, _⟩ |
      ⟨_, _, h, _⟩ <;> rw [h] <;> simp
  · intro hlen
    rcases _Cook_calls_shape env parms t group gdp errors with h | ⟨_, h, _⟩ | ⟨_, h, _⟩ |
      ⟨_, _, h, hn, hp, hne, _⟩
    · rw [h] at hlen
      exact absurd hlen (by simp)
    · rw [h] at hlen
      exact absurd hlen (by simp)
    · rw [h] at hlen
      exact absurd hlen (by simp)
    · exact ⟨hp, hn, hne⟩

theorem C6_none_polygons_single_boundable_pass_witness :
    ∃ c : TraverseCall,
      (_Cook demoEnv (demoParms "none" "polygons") 1 none demoDetail []).calls = [c] ∧
        c.traversal = "std:boundables" ∧ c.skipRoot = false ∧ c.prims = demoBound.rootPrims :=
  match (C6_none_polygons_single_boundable_pass demoEnv (demoParms "none" "polygons") 1 none
      demoDetail []).1 rfl rfl demoBound [] rfl (fun _ => by decide) (fun _ => by decide) with
  | ⟨c, h1, h2, h3, _, h5, _⟩ => ⟨c, h1, h2, h3, h5⟩

/-! ### `_Cook`: the two-phase traversal -/

/-- C3: when unpacking to polygons with a traversal other than "std:boundables", the final
`traversedPrims` are obtained from what the second pass (the last `_Traverse` call, run for
"std:boundables" on the prims of the intermediate list) reported: element `k` keeps the prim
reported for `k` and takes as origin index the origin index of the intermediate element that
the second pass named, `final[k].second = first[second[k].second].second`.  The intermediate
list `first` is the result of the first call, or the identity pairing of the roots when the
traversal is "none"; every recorded call holds what `_Traverse` returned for it. -/
theorem C3_origin_index_composition {Opts : Type} (env : CookEnv Opts) (parms : Parms)
    (t : fpreal) (group : Option (List GA_Offset)) (gdp : GU_Detail) (errors : List Diag)
    (final : List PrimIndexPair)
    (hpoly : parms.unpack_geomtype = "polygons")
    (hne : parms.unpack_traversal ≠ "std:boundables")
    (hfinal : (_Cook env parms t group gdp errors).traversedPrims = some final) :
    ∃ (first : List PrimIndexPair) (c2 : TraverseCall),
      c2.traversal = "std:boundables" ∧ c2.result.ok = true ∧
      c2.prims = first.map (fun pair => pair.1) ∧
      ((parms.unpack_traversal = "none" ∧
          (_Cook env parms t group gdp errors).calls = [c2] ∧
          ∃ bound posted,
            env.BindPrims gdp (_Cook_rng parms group gdp) = (some bound, posted) ∧
            first = _Cook_identityPairs bound.rootPrims) ∨
        (parms.unpack_traversal ≠ "none" ∧
          ∃ c1 : TraverseCall, (_Cook env parms t group gdp errors).calls = [c1, c2] ∧
            c1.traversal = parms.unpack_traversal ∧ c1.result.ok = true ∧
            first = c1.result.traversed)) ∧
      (∀ c ∈ (_Cook env parms t group gdp errors).calls,
        c.result = _Traverse env.FindTraversal c.traversal t c.prims c.times c.purposes
          c.skipRoot []) ∧
      final.length = c2.result.traversed.length ∧
      ∀ (k : Nat) (second : PrimIndexPair), c2.result.traversed[k]? = some second →
        ∃ inter : PrimIndexPair, UT_Array_at first second.2 = some inter ∧
          final[k]? = some (second.1, inter.2) := by
  have hne' : parms.unpack_traversal ≠ _GPRIMTRAVERSE_NAME := hne
  have hrec := fun c hc => (_Cook_call_inv env parms t group gdp errors c hc).1
  have hcond : decide (parms.unpack_geomtype = "polygons") = true ∧
      parms.unpack_traversal ≠ _GPRIMTRAVERSE_NAME := ⟨by simpa using hpoly, hne'⟩
  -- the second pass, run on the intermediate list `tp` after the calls `calls`
  have key : ∀ (bound : BoundPrims) (tp : List PrimIndexPair) (calls : List TraverseCall)
      (errs : List Diag),
      (_Cook_secondPass env parms t parms.unpack_traversal
        (decide (parms.unpack_geomtype = "polygons")) (decide (parms.unpack_class = 0))
        (_Cook_rng parms group gdp) bound.rootPrims bound.variants bound.purposes
        (_Cook_times parms bound.times) tp calls gdp errs).traversedPrims = some final →
      ∃ c2 : TraverseCall, c2.traversal = "std:boundables" ∧ c2.result.ok = true ∧
        c2.prims = tp.map (fun pair => pair.1) ∧
        (_Cook_secondPass env parms t parms.unpack_traversal
          (decide (parms.unpack_geomtype = "polygons")) (decide (parms.unpack_class = 0))
          (_Cook_rng parms group gdp) bound.rootPrims bound.variants bound.purposes
          (_Cook_times parms bound.times) tp calls gdp errs).calls = calls ++ [c2] ∧
        final.length = c2.result.traversed.length ∧
        ∀ (k : Nat) (second : PrimIndexPair), c2.result.traversed[k]? = some second →
          ∃ inter : PrimIndexPair, UT_Array_at tp second.2 = some inter ∧
            final[k]? = some (second.1, inter.2) := by
    intro bound tp calls errs hfin
    rcases _Cook_secondPass_cases env parms t parms.unpack_traversal
      (decide (parms.unpack_geomtype = "polygons")) (decide (parms.unpack_class = 0))
      (_Cook_rng parms group gdp) bound.rootPrims bound.variants bound.purposes
      (_Cook_times parms bound.times) tp calls gdp errs _ rfl with h | h | h
    · exact absurd hcond h.1
    · rw [h.2.2.2.2.2.2.1] at hfin
      exact absurd hfin (by simp)
    · obtain ⟨_, _, pa, ta, _, _, c2, hc1, hc2, _, _, _, _, hcalls, hrest⟩ := h
      rcases hrest with hf | hf | ⟨hok, composed, hcomp, hrr⟩
      · rw [hf.2.2.1] at hfin
        exact absurd hfin (by simp)
      · rw [hf.2.2.2.2.1] at hfin
        exact absurd hfin (by simp)
      · rw [hrr, (_Cook_append_calls _ _ _ _ _ _ _ _ _ _ _ _).2] at hfin
        simp only [Option.some.injEq] at hfin
        subst hfin
        obtain ⟨hlen, hall⟩ := _Cook_composeIndices_some _ _ _ hcomp
        refine ⟨c2, hc1, hok, hc2, hcalls, hlen, ?_⟩
        intro k second hk
        obtain ⟨origin, ho, hc⟩ := hall k second hk
        obtain ⟨inter, hi, hio⟩ := UT_Array_at_map _ _ _ _ ho
        exact ⟨inter, hi, by rw [hc, hio]⟩
  rcases _Cook_cases env parms t group gdp errors _ rfl with h | h | h | h
  · rw [h.2.2.2.2.2.2.1] at hfinal
    exact absurd hfinal (by simp)
  · obtain ⟨posted, _, _, _, _, _, htp, _⟩ := h
    rw [htp] at hfinal
    exact absurd hfinal (by simp)
  · obtain ⟨bound, posted, hb, hn, c1, hc1, _, _, _, _, _, hrest⟩ := h
    rcases hrest with hf | ⟨hok, hr⟩
    · rw [hf.2.2.2.2.2.1] at hfinal
      exact absurd hfinal (by simp)
    · rw [hr] at hfinal
      obtain ⟨c2, g1, g2, g3, g4, g5, g6⟩ := key bound c1.result.traversed [c1] _ hfinal
      refine ⟨c1.result.traversed, c2, g1, g2, g3, Or.inr ⟨hn, c1, ?_, hc1, hok, rfl⟩, hrec,
        g5, g6⟩
      rw [hr, g4]
      rfl
  · obtain ⟨bound, posted, hb, hn, _, hr⟩ := h
    rw [hr] at hfinal
    obtain ⟨c2, g1, g2, g3, g4, g5, g6⟩ := key bound (_Cook_identityPairs bound.rootPrims) [] _
      hfinal
    refine ⟨_Cook_identityPairs bound.rootPrims, c2, g1, g2, g3,
      Or.inl ⟨hn, ?_, bound, posted, hb, rfl⟩, hrec, g5, g6⟩
    rw [hr, g4]
    rfl

theorem C3_origin_index_composition_witness :
    ∃ (first : List PrimIndexPair) (c2 : TraverseCall),
      c2.traversal = "std:boundables" ∧ c2.result.ok = true ∧
      c2.prims = first.map (fun pair => pair.1) ∧
      (((demoParms "std:components" "polygons").unpack_traversal = "none" ∧
          (_Cook demoEnv (demoParms "std:components" "polygons") 1 none demoDetail []).calls
            = [c2] ∧
          ∃ bound posted,
            demoEnv.BindPrims demoDetail
                (_Cook_rng (demoParms "std:components" "polygons") none demoDetail)
              = (some bound, posted) ∧
            first = _Cook_identityPairs bound.rootPrims) ∨
        ((demoParms "std:components" "polygons").unpack_traversal ≠ "none" ∧
          ∃ c1 : TraverseCall,
            (_Cook demoEnv (demoParms "std:components" "polygons") 1 none demoDetail []).calls
              = [c1, c2] ∧
            c1.traversal = (demoParms "std:components" "polygons").unpack_traversal ∧
            c1.result.ok = true ∧ first = c1.result.traversed)) ∧
      (∀ c ∈ (_Cook demoEnv (demoParms "std:components" "polygons") 1 none demoDetail []).calls,
        c.result = _Traverse demoEnv.FindTraversal c.traversal 1 c.prims c.times c.purposes
          c.skipRoot []) ∧
      [(demoPrim "/a/geo/geo", (0 : Int)), (demoPrim "/b/geo/geo", 1)].length
        = c2.result.traversed.length ∧
      ∀ (k : Nat) (second : PrimIndexPair), c2.result.traversed[k]? = some second →
        ∃ inter : PrimIndexPair, UT_Array_at first second.2 = some inter ∧
          [(demoPrim "/a/geo/geo", (0 : Int)), (demoPrim "/b/geo/geo", 1)][k]?
            = some (second.1, inter.2) :=
  C3_origin_index_composition demoEnv (demoParms "std:components" "polygons") 1 none demoDetail
    [] [(demoPrim "/a/geo/geo", 0), (demoPrim "/b/geo/geo", 1)] rfl (by decide) (by decide)

theorem _Traverse_traversed_valid {Opts : Type}
    (FindTraversal : String → Option (GusdUSD_Traverse Opts))
    (hengine : ∀ (name : String) (traverse : GusdUSD_Traverse Opts),
      FindTraversal name = some traverse →
      ∀ (prims : List UsdPrim) (times : GusdDefaultArray UsdTimeCode)
        (purposes : GusdDefaultArray GusdPurposeSet) (skipRoot : Bool) (opts : Option Opts),
        ∀ p ∈ (traverse.FindPrims prims times purposes [] skipRoot opts).traversed,
          0 ≤ p.2 ∧ p.2 < (prims.length : Int))
    (name : String) (time : fpreal) (prims : List UsdPrim)
    (times : GusdDefaultArray UsdTimeCode) (purposes : GusdDefaultArray GusdPurposeSet)
    (skipRoot : Bool) :
    ∀ p ∈ (_Traverse FindTraversal name time prims times purposes skipRoot []).traversed,
      0 ≤ p.2 ∧ p.2 < (prims.length : Int) := by
  intro p hp
  unfold _Traverse at hp
  cases hf : FindTraversal name with
  | none =>
    rw [hf] at hp
    exact absurd hp (List.not_mem_nil p)
  | some traverse =>
    rw [hf] at hp
    simp only [] at hp
    cases ho : traverse.CreateOpts with
    | none =>
      rw [ho] at hp
      exact hengine name traverse hf prims times purposes skipRoot none p hp
    | some opts =>
      rw [ho] at hp
      simp only [] at hp
      rcases hcfg : traverse.Configure opts time with ⟨configured, posted⟩
      rw [hcfg] at hp
      cases configured with
      | none => exact absurd hp (List.not_mem_nil p)
      | some cfg => exact hengine name traverse hf prims times purposes skipRoot (some cfg) p hp

theorem _Cook_finish_outcome {Opts : Type} (env : CookEnv Opts) (parms : Parms)
    (packedPrims : Bool) (rng : GA_Range) (rootPrims : List UsdPrim)
    (traversedPrims : List PrimIndexPair) (calls : List TraverseCall) (gdp : GU_Detail)
    (errors : List Diag) :
    (_Cook_finish env parms packedPrims rng rootPrims traversedPrims calls gdp errors).outcome
      ≠ Outcome.fault Fault.indicesRead := by
  unfold _Cook_finish
  split
  · split <;> simp
  · simp

theorem _Cook_append_outcome {Opts : Type} (env : CookEnv Opts) (parms : Parms)
    (unpackToPolygons packedPrims : Bool) (rng : GA_Range) (rootPrims : List UsdPrim)
    (variants : List SdfPath) (times : GusdDefaultArray UsdTimeCode)
    (traversedPrims : List PrimIndexPair) (calls : List TraverseCall) (gdp : GU_Detail)
    (errors : List Diag) :
    (_Cook_append env parms unpackToPolygons packedPrims rng rootPrims variants times
        traversedPrims calls gdp errors).outcome ≠ Outcome.fault Fault.indicesRead := by
  unfold _Cook_append
  simp only []
  split
  · exact _Cook_finish_outcome _ _ _ _ _ _ _ _ _
  · split
    · simp
    · split
      · simp
      · exact _Cook_finish_outcome _ _ _ _ _ _ _ _ _

/-- The second pass on an intermediate list whose origin indices are valid for `n` roots:
the lookup in `indices` stays in range and the composed origin indices are valid for `n`. -/
theorem _Cook_secondPass_integrity {Opts : Type} (env : CookEnv Opts)
    (hengine : ∀ (name : String) (traverse : GusdUSD_Traverse Opts),
      env.FindTraversal name = some traverse →
      ∀ (prims : List UsdPrim) (times : GusdDefaultArray UsdTimeCode)
        (purposes : GusdDefaultArray GusdPurposeSet) (skipRoot : Bool) (opts : Option Opts),
        ∀ p ∈ (traverse.FindPrims prims times purposes [] skipRoot opts).traversed,
          0 ≤ p.2 ∧ p.2 < (prims.length : Int))
    (parms : Parms) (t : fpreal) (traversal : String) (unpackToPolygons packedPrims : Bool)
    (rng : GA_Range) (rootPrims : List UsdPrim) (variants : List SdfPath)
    (purposes : GusdDefaultArray GusdPurposeSet) (times : GusdDefaultArray UsdTimeCode)
    (tp : List PrimIndexPair) (calls : List TraverseCall) (gdp : GU_Detail)
    (errors : List Diag) (n : Int) (htp : ∀ p ∈ tp, 0 ≤ p.2 ∧ p.2 < n) :
    (_Cook_secondPass env parms t traversal unpackToPolygons packedPrims rng rootPrims
        variants purposes times tp calls gdp errors).outcome
        ≠ Outcome.fault Fault.indicesRead ∧
      ∀ final, (_Cook_secondPass env parms t traversal unpackToPolygons packedPrims rng
          rootPrims variants purposes times tp calls gdp errors).traversedPrims = some final →
        ∀ p ∈ final, 0 ≤ p.2 ∧ p.2 < n := by
  rcases _Cook_secondPass_cases env parms t traversal unpackToPolygons packedPrims rng rootPrims
    variants purposes times tp calls gdp errors _ rfl with h | h | h
  · rw [h.2]
    refine ⟨_Cook_append_outcome _ _ _ _ _ _ _ _ _ _ _ _, ?_⟩
    intro final hfinal
    rw [(_Cook_append_calls _ _ _ _ _ _ _ _ _ _ _ _).2] at hfinal
    simp only [Option.some.injEq] at hfinal
    subst hfinal
    exact htp
  · obtain ⟨_, _, _, hout, _, _, htpn, _⟩ := h
    refine ⟨by rw [hout]; simp, ?_⟩
    intro final hfinal
    rw [htpn] at hfinal
    exact absurd hfinal (by simp)
  · obtain ⟨_, _, pa, ta, _, _, c2, _, _, _, _, _, hres, _, hrest⟩ := h
    have hvalid : ∀ p ∈ c2.result.traversed,
        0 ≤ p.2 ∧ p.2 < ((tp.map (fun pair => pair.2)).length : Int) := by
      intro p hp
      rw [hres] at hp
      have := _Traverse_traversed_valid env.FindTraversal hengine _ _ _ _ _ _ p hp
      simpa using this
    rcases hrest with hf | hf | ⟨_, composed, hcomp, hrr⟩
    · refine ⟨by rw [hf.2.2.2.2.2]; simp, ?_⟩
      intro final hfinal
      rw [hf.2.2.1] at hfinal
      exact absurd hfinal (by simp)
    · exfalso
      obtain ⟨composed, hcomp⟩ := _Cook_composeIndices_isSome _ _ hvalid
      rw [hf.2.1] at hcomp
      exact absurd hcomp (by simp)
    · rw [hrr]
      refine ⟨_Cook_append_outcome _ _ _ _ _ _ _ _ _ _ _ _, ?_⟩
      intro final hfinal
      rw [(_Cook_append_calls _ _ _ _ _ _ _ _ _ _ _ _).2] at hfinal
      simp only [Option.some.injEq] at hfinal
      subst hfinal
      intro q hq
      have hmem := _Cook_composeIndices_mem _ _ _ hcomp q hq
      rw [List.mem_map] at hmem
      obtain ⟨p, hp, hpq⟩ := hmem
      rw [← hpq]
      exact htp p hp

/-- C4: provided every `FindPrims` of the traversal table reports, for each result element,
an origin index that is valid for the root sequence it was given, a run of `_Cook` never
reads `indices(primsIndex)` out of range, and once the traversal part is complete (after
both passes when two are run) every element of `traversedPrims` has an origin index in
`[0, number of bound roots)`. -/
theorem C4_origin_index_integrity {Opts : Type} (env : CookEnv Opts) (parms : Parms)
    (t : fpreal) (group : Option (List GA_Offset)) (gdp : GU_Detail) (errors : List Diag)
    (hengine : ∀ (name : String) (traverse : GusdUSD_Traverse Opts),
      env.FindTraversal name = some traverse →
      ∀ (prims : List UsdPrim) (times : GusdDefaultArray UsdTimeCode)
        (purposes : GusdDefaultArray GusdPurposeSet) (skipRoot : Bool) (opts : Option Opts),
        ∀ p ∈ (traverse.FindPrims prims times purposes [] skipRoot opts).traversed,
          0 ≤ p.2 ∧ p.2 < (prims.length : Int)) :
    (_Cook env parms t group gdp errors).outcome ≠ Outcome.fault Fault.indicesRead ∧
      ∀ (bound : BoundPrims) (posted : List Diag) (final : List PrimIndexPair),
        env.BindPrims gdp (_Cook_rng parms group gdp) = (some bound, posted) →
        (_Cook env parms t group gdp errors).traversedPrims = some final →
        ∀ p ∈ final, 0 ≤ p.2 ∧ p.2 < (bound.rootPrims.length : Int) := by
  rcases _Cook_cases env parms t group gdp errors _ rfl with h | h | h | h
  · obtain ⟨_, _, hout, _, _, _, htp, _⟩ := h
    refine ⟨by rw [hout]; simp, ?_⟩
    intro bound posted final _ hfinal
    rw [htp] at hfinal
    exact absurd hfinal (by simp)
  · obtain ⟨posted, _, hout, _, _, _, htp, _⟩ := h
    refine ⟨by rw [hout]; simp, ?_⟩
    intro bound posted2 final _ hfinal
    rw [htp] at hfinal
    exact absurd hfinal (by simp)
  · obtain ⟨bound, posted, hb, _, c1, _, hc2, _, _, _, hres, hrest⟩ := h
    rcases hrest with hf | ⟨_, hr⟩
    · refine ⟨by rw [hf.2.1]; simp, ?_⟩
      intro bound2 posted2 final _ hfinal
      rw [hf.2.2.2.2.2.1] at hfinal
      exact absurd hfinal (by simp)
    · have hvalid : ∀ p ∈ c1.result.traversed,
          0 ≤ p.2 ∧ p.2 < (bound.rootPrims.length : Int) := by
        intro p hp
        rw [hres] at hp
        exact _Traverse_traversed_valid env.FindTraversal hengine _ _ _ _ _ _ p hp
      have hint := _Cook_secondPass_integrity env hengine parms t parms.unpack_traversal
        (decide (parms.unpack_geomtype = "polygons")) (decide (parms.unpack_class = 0))
        (_Cook_rng parms group gdp) bound.rootPrims bound.variants bound.purposes
        (_Cook_times parms bound.times) c1.result.traversed [c1] gdp
        (errors ++ posted ++ c1.result.errors) _ hvalid
      rw [← hr] at hint
      refine ⟨hint.1, ?_⟩
      intro bound2 posted2 final hb2 hfinal
      rw [hb] at hb2
      simp only [Prod.mk.injEq, Option.some.injEq] at hb2
      rw [← hb2.1]
      exact hint.2 final hfinal
  · obtain ⟨bound, posted, hb, _, _, hr⟩ := h
    have hint := _Cook_secondPass_integrity env hengine parms t parms.unpack_traversal
      (decide (parms.unpack_geomtype = "polygons")) (decide (parms.unpack_class = 0))
      (_Cook_rng parms group gdp) bound.rootPrims bound.variants bound.purposes
      (_Cook_times parms bound.times) (_Cook_identityPairs bound.rootPrims) [] gdp
      (errors ++ posted) _ (_Cook_identityPairs_snd bound.rootPrims)
    rw [← hr] at hint
    refine ⟨hint.1, ?_⟩
    intro bound2 posted2 final hb2 hfinal
    rw [hb] at hb2
    simp only [Prod.mk.injEq, Option.some.injEq] at hb2
    rw [← hb2.1]
    exact hint.2 final hfinal

/-- The policy of the concrete scene reports origin indices inside the roots it was given. -/
theorem demoEnv_engine_valid (name : String) (traverse : GusdUSD_Traverse Unit)
    (h : demoEnv.FindTraversal name = some traverse)
    (prims : List UsdPrim) (times : GusdDefaultArray UsdTimeCode)
    (purposes : GusdDefaultArray GusdPurposeSet) (skipRoot : Bool) (opts : Option Unit) :
    ∀ p ∈ (traverse.FindPrims prims times purposes [] skipRoot opts).traversed,
      0 ≤ p.2 ∧ p.2 < (prims.length : Int) := by
  have ht : traverse = demoTraverse := by
    unfold demoEnv at h
    simp only [] at h
    split at h
    · exact (Option.some.inj h).symm
    · exact absurd h (by simp)
  subst ht
  intro p hp
  simp only [demoTraverse, List.nil_append, List.mem_reverse] at hp
  obtain ⟨k, hk⟩ := List.getElem?_of_mem hp
  rw [List.getElem?_zipWith] at hk
  cases hr : (List.range prims.length)[k]? with
  | none => rw [hr] at hk; exact absurd hk (by simp)
  | some i =>
    cases hq : prims[k]? with
    | none => rw [hr, hq] at hk; exact absurd hk (by simp)
    | some root =>
      rw [hr, hq] at hk
      simp only [Option.some.injEq] at hk
      have hi : i < prims.length := by
        have := List.getElem?_mem hr
        exact List.mem_range.mp this
      rw [← hk]
      show (0 : Int) ≤ Int.ofNat i ∧ Int.ofNat i < (prims.length : Int)
      exact ⟨Int.ofNat_nonneg i, Int.ofNat_lt.mpr hi⟩

theorem C4_origin_index_integrity_witness :
    (_Cook demoEnv (demoParms "std:components" "polygons") 1 none demoDetail []).outcome
        ≠ Outcome.fault Fault.indicesRead ∧
      ∀ p ∈ [(demoPrim "/a/geo/geo", (0 : Int)), (demoPrim "/b/geo/geo", 1)],
        0 ≤ p.2 ∧ p.2 < (demoBound.rootPrims.length : Int) :=
  ⟨(C4_origin_index_integrity demoEnv (demoParms "std:components" "polygons") 1 none
      demoDetail [] demoEnv_engine_valid).1,
    (C4_origin_index_integrity demoEnv (demoParms "std:components" "polygons") 1 none
      demoDetail [] demoEnv_engine_valid).2 demoBound []
      [(demoPrim "/a/geo/geo", 0), (demoPrim "/b/geo/geo", 1)] rfl (by decide)⟩

open GusdGU_PackedUSD

/-! ### The packed primitive: transform and bounds -/

/-- A transform cache marked valid belongs to a resolved transformable prim: this holds
for the default-constructed handle and is kept by `resetCaches`, `getUsdPrim` and
`getUsdTransform`. -/
theorem transformCache_sound_kept (env : UsdEnv) (self : GusdGU_PackedUSD)
    (sev : UT_ErrorSeverity)
    (hsound : self.m_transformCacheValid = true →
      self.m_usdPrim.valid = true ∧ self.m_usdPrim.isXformable = true) :
    (init.m_transformCacheValid = true →
        init.m_usdPrim.valid = true ∧ init.m_usdPrim.isXformable = true) ∧
      ((resetCaches self).m_transformCacheValid = true →
        (resetCaches self).m_usdPrim.valid = true ∧
          (resetCaches self).m_usdPrim.isXformable = true) ∧
      ((self.getUsdPrim env sev).2.1.m_transformCacheValid = true →
        (self.getUsdPrim env sev).2.1.m_usdPrim.valid = true ∧
          (self.getUsdPrim env sev).2.1.m_usdPrim.isXformable = true) ∧
      ((self.getUsdTransform env).2.1.m_transformCacheValid = true →
        (self.getUsdTransform env).2.1.m_usdPrim.valid = true ∧
          (self.getUsdTransform env).2.1.m_usdPrim.isXformable = true) := by
  have hprim : (self.getUsdPrim env getUsdPrim_sev).2.1.m_transformCacheValid = true →
      (self.getUsdPrim env getUsdPrim_sev).2.1.m_usdPrim.valid = true ∧
        (self.getUsdPrim env getUsdPrim_sev).2.1.m_usdPrim.isXformable = true := by
    unfold getUsdPrim
    split
    · exact hsound
    · rename_i hv
      intro hflag
      exact absurd (hsound hflag).1 hv
  refine ⟨fun h => absurd h (by decide), fun h => absurd h (by simp [resetCaches]), ?_, ?_⟩
  · unfold getUsdPrim
    split
    · exact hsound
    · rename_i hv
      intro hflag
      exact absurd (hsound hflag).1 hv
  · by_cases hflag : self.m_transformCacheValid = true
    · have h1 : self.getUsdTransform env = (self.m_transformCache, self, []) := by
        simp [getUsdTransform, hflag]
      rw [h1]
      exact hsound
    · have held : (self.getUsdPrim env getUsdPrim_sev).2.1.m_usdPrim
          = (self.getUsdPrim env getUsdPrim_sev).1 := by
        unfold getUsdPrim
        split <;> rfl
      unfold getUsdTransform
      rw [if_neg hflag]
      generalize self.getUsdPrim env getUsdPrim_sev = r at hprim held ⊢
      obtain ⟨prim, self1, ev⟩ := r
      simp only at hprim held ⊢
      by_cases hv : prim.valid = true
      · by_cases hx : prim.isXformable = true
        · simp [hv, hx, held]
        · simp only [hv, hx, Bool.not_true, if_false]
          exact hprim
      · simp only [hv, Bool.not_eq_true] at hprim ⊢
        simp only [Bool.not_false, if_true]
        exact hprim

/-- C12: on a handle whose transform cache, when marked valid, belongs to a resolved
transformable prim (the state every operation of the handle keeps), `getUsdTransform`
returns the identity matrix when the prim cannot be resolved, and also when the prim
resolves but supports no transform. -/
theorem C12_unresolved_transform_identity (env : UsdEnv) (self : GusdGU_PackedUSD)
    (hsound : self.m_transformCacheValid = true →
      self.m_usdPrim.valid = true ∧ self.m_usdPrim.isXformable = true) :
    ((self.getUsdPrim env getUsdPrim_sev).1.valid = false →
        (self.getUsdTransform env).1 = 1) ∧
      ((self.getUsdPrim env getUsdPrim_sev).1.valid = true →
        (self.getUsdPrim env getUsdPrim_sev).1.isXformable = false →
        (self.getUsdTransform env).1 = 1) := by
  by_cases hflag : self.m_transformCacheValid = true
  · obtain ⟨hv, hx⟩ := hsound hflag
    have hprim : (self.getUsdPrim env getUsdPrim_sev).1 = self.m_usdPrim := by
      simp [getUsdPrim, hv]
    rw [hprim]
    constructor
    · intro h
      rw [hv] at h
      exact absurd h (by simp)
    · intro _ h
      rw [hx] at h
      exact absurd h (by simp)
  · constructor
    · intro h
      unfold getUsdTransform
      rw [if_neg hflag]
      simp [h]
    · intro h1 h2
      unfold getUsdTransform
      rw [if_neg hflag]
      simp [h1, h2]

theorem C12_unresolved_transform_identity_witness :
    ((demoFresh "missing.usd" "/geo").getUsdPrim demoUsdEnv getUsdPrim_sev).1.valid = false ∧
      ((demoFresh "missing.usd" "/geo").getUsdTransform demoUsdEnv).1 = 1 ∧
      ((demoFresh "a.usd" "/scope").getUsdPrim demoUsdEnv getUsdPrim_sev).1.valid = true ∧
      ((demoFresh "a.usd" "/scope").getUsdPrim demoUsdEnv getUsdPrim_sev).1.isXformable
        = false ∧
      ((demoFresh "a.usd" "/scope").getUsdTransform demoUsdEnv).1 = 1 :=
  ⟨by decide,
    (C12_unresolved_transform_identity demoUsdEnv (demoFresh "missing.usd" "/geo")
      (fun h => absurd h (by decide))).1 (by decide),
    by decide, by decide,
    (C12_unresolved_transform_identity demoUsdEnv (demoFresh "a.usd" "/scope")
      (fun h => absurd h (by decide))).2 (by decide) (by decide)⟩

/-- C13 (counterexample): on a handle whose file cannot be opened, `getBounds` returns
false with an invalid box, but on the way it raises the assertion "Invalid USD prim". -/
theorem C13_getBounds_unresolved_asserts :
    ((demoFresh "missing.usd" "/geo").getBounds demoUsdEnv).1 = false ∧
      ((demoFresh "missing.usd" "/geo").getBounds demoUsdEnv).2.1 = UT_BoundingBox.invalid ∧
      Event.utAssert "Invalid USD prim"
        ∈ ((demoFresh "missing.usd" "/geo").getBounds demoUsdEnv).2.2.2 := by
  decide

/-- C13 (amended): `getBounds` returns false with the box made invalid when the prim is
unresolvable, when it has no imageable interface, and when the bounds computation fails;
in the unresolvable case it first raises the assertion "Invalid USD prim" and carries on,
in the other two cases the only calls made are those of the resolution and, for an
imageable prim, the bounds computation. -/
theorem C13_getBounds_failure_path (env : UsdEnv) (self : GusdGU_PackedUSD) :
    ((self.getUsdPrim env getUsdPrim_sev).1.valid = false →
        (self.getBounds env).1 = false ∧ (self.getBounds env).2.1 = UT_BoundingBox.invalid ∧
        (self.getBounds env).2.2.2 =
          (self.getUsdPrim env getUsdPrim_sev).2.2 ++ [Event.utAssert "Invalid USD prim"]) ∧
      ((self.getUsdPrim env getUsdPrim_sev).1.valid = true →
        (self.getUsdPrim env getUsdPrim_sev).1.isImageable = false →
        (self.getBounds env).1 = false ∧ (self.getBounds env).2.1 = UT_BoundingBox.invalid ∧
        (self.getBounds env).2.2.2 = (self.getUsdPrim env getUsdPrim_sev).2.2) ∧
      ((self.getUsdPrim env getUsdPrim_sev).1.valid = true →
        (self.getUsdPrim env getUsdPrim_sev).1.isImageable = true →
        env.ComputeUntransformedBound (self.getUsdPrim env getUsdPrim_sev).1
          (self.getUsdPrim env getUsdPrim_sev).2.1.m_frame
          (env.GusdPurposeSetToTokens (self.getUsdPrim env getUsdPrim_sev).2.1.m_purposes)
          = none →
        (self.getBounds env).1 = false ∧ (self.getBounds env).2.1 = UT_BoundingBox.invalid ∧
        (self.getBounds env).2.2.2 = (self.getUsdPrim env getUsdPrim_sev).2.2 ++
          [Event.boundsCacheCompute (self.getUsdPrim env getUsdPrim_sev).1
            (self.getUsdPrim env getUsdPrim_sev).2.1.m_frame
            (env.GusdPurposeSetToTokens
              (self.getUsdPrim env getUsdPrim_sev).2.1.m_purposes)]) := by
  refine ⟨?_, ?_, ?_⟩
  · intro h
    simp [getBounds, isImageablePrim, h]
  · intro h1 h2
    simp [getBounds, isImageablePrim, h1, h2]
  · intro h1 h2 h3
    simp [getBounds, isImageablePrim, h1, h2, h3]

theorem C13_getBounds_failure_path_witness :
    ((demoFresh "a.usd" "/scope").getBounds demoUsdEnv).1 = false ∧
      ((demoFresh "a.usd" "/scope").getBounds demoUsdEnv).2.1 = UT_BoundingBox.invalid ∧
      ((demoFresh "a.usd" "/scope").getBounds demoUsdEnv).2.2.2 =
        ((demoFresh "a.usd" "/scope").getUsdPrim demoUsdEnv getUsdPrim_sev).2.2 ++
          [Event.boundsCacheCompute
            ((demoFresh "a.usd" "/scope").getUsdPrim demoUsdEnv getUsdPrim_sev).1
            ((demoFresh "a.usd" "/scope").getUsdPrim demoUsdEnv getUsdPrim_sev).2.1.m_frame
            (demoUsdEnv.GusdPurposeSetToTokens
              ((demoFresh "a.usd" "/scope").getUsdPrim demoUsdEnv
                getUsdPrim_sev).2.1.m_purposes)] :=
  (C13_getBounds_failure_path demoUsdEnv (demoFresh "a.usd" "/scope")).2.2 (by decide)
    (by decide) (by decide)

/-- C14 (counterexample): `/scope` resolves but supports no transform; after
`getUsdTransform` the transform cache is still not marked valid. -/
theorem C14_non_xformable_not_marked_valid :
    ((demoFresh "a.usd" "/scope").getUsdPrim demoUsdEnv getUsdPrim_sev).1.valid = true ∧
      ((demoFresh "a.usd" "/scope").getUsdTransform demoUsdEnv).1 = 1 ∧
      ((demoFresh "a.usd" "/scope").getUsdTransform demoUsdEnv).2.1.m_transformCacheValid
        = false := by
  refine ⟨by decide, ?_, by decide⟩
  simp [getUsdTransform, getUsdPrim, demoFresh, init, demoUsdEnv, demoScope, demoPrim,
    UsdPrim.empty]

theorem getUsdTransform_held_non_xformable (env : UsdEnv) (s : GusdGU_PackedUSD)
    (hflag : s.m_transformCacheValid = false) (hv : s.m_usdPrim.valid = true)
    (hx : s.m_usdPrim.isXformable = false) (hc : s.m_transformCache = 1) :
    s.getUsdTransform env = (1, s, []) := by
  cases s
  simp only at hflag hv hx hc
  subst hflag
  subst hc
  simp [getUsdTransform, getUsdPrim, hv, hx]

/-- C14 (amended): a valid transform cache is returned as it is, with no call made and the
handle unchanged; otherwise, when the prim resolves and supports transforms, the result of
the transform service is returned and stored and the cache is marked valid, so that the
repeated call returns it with no call made; when the prim resolves but supports no
transform, the identity is returned and stored while the validity flag stays false, so that
the repeated call computes the identity again, from the prim it holds and with no call
made. -/
theorem C14_getUsdTransform_caching (env : UsdEnv) (self : GusdGU_PackedUSD) :
    (self.m_transformCacheValid = true →
        self.getUsdTransform env = (self.m_transformCache, self, [])) ∧
      (self.m_transformCacheValid = false →
        (self.getUsdPrim env getUsdPrim_sev).1.valid = true →
        (self.getUsdPrim env getUsdPrim_sev).1.isXformable = true →
        (self.getUsdTransform env).1 =
            env.GetLocalToWorldTransform (self.getUsdPrim env getUsdPrim_sev).1 self.m_frame ∧
          (self.getUsdTransform env).2.1.m_transformCache = (self.getUsdTransform env).1 ∧
          (self.getUsdTransform env).2.1.m_transformCacheValid = true ∧
          (self.getUsdTransform env).2.1.getUsdTransform env =
            ((self.getUsdTransform env).1, (self.getUsdTransform env).2.1, [])) ∧
      (self.m_transformCacheValid = false →
        (self.getUsdPrim env getUsdPrim_sev).1.valid = true →
        (self.getUsdPrim env getUsdPrim_sev).1.isXformable = false →
        (self.getUsdTransform env).1 = 1 ∧
          (self.getUsdTransform env).2.1.m_transformCache = 1 ∧
          (self.getUsdTransform env).2.1.m_transformCacheValid = false ∧
          (self.getUsdTransform env).2.1.getUsdTransform env =
            (1, (self.getUsdTransform env).2.1, [])) := by
  refine ⟨?_, ?_, ?_⟩
  · intro h
    simp [getUsdTransform, h]
  · intro hflag hv hx
    have h1 : self.getUsdTransform env =
        (env.GetLocalToWorldTransform (self.getUsdPrim env getUsdPrim_sev).1
            (self.getUsdPrim env getUsdPrim_sev).2.1.m_frame,
          { (self.getUsdPrim env getUsdPrim_sev).2.1 with
            m_transformCache := env.GetLocalToWorldTransform
              (self.getUsdPrim env getUsdPrim_sev).1
              (self.getUsdPrim env getUsdPrim_sev).2.1.m_frame
            m_transformCacheValid := true },
          (self.getUsdPrim env getUsdPrim_sev).2.2 ++
            [Event.xformCacheGet (self.getUsdPrim env getUsdPrim_sev).1
              (self.getUsdPrim env getUsdPrim_sev).2.1.m_frame]) := by
      simp [getUsdTransform, hflag, hv, hx]
    have hframe : (self.getUsdPrim env getUsdPrim_sev).2.1.m_frame = self.m_frame := by
      unfold getUsdPrim
      split <;> rfl
    rw [h1]
    refine ⟨by rw [hframe], rfl, rfl, ?_⟩
    simp [getUsdTransform]
  · intro hflag hv hx
    have hflag1 : (self.getUsdPrim env getUsdPrim_sev).2.1.m_transformCacheValid = false := by
      unfold getUsdPrim
      split <;> simpa using hflag
    have hheld : (self.getUsdPrim env getUsdPrim_sev).2.1.m_usdPrim
        = (self.getUsdPrim env getUsdPrim_sev).1 := by
      unfold getUsdPrim
      split
      · rfl
      · rfl
    have h1 : self.getUsdTransform env =
        (1, { (self.getUsdPrim env getUsdPrim_sev).2.1 with m_transformCache := 1 },
          (self.getUsdPrim env getUsdPrim_sev).2.2) := by
      simp [getUsdTransform, hflag, hv, hx]
    rw [h1]
    refine ⟨rfl, rfl, hflag1, ?_⟩
    apply getUsdTransform_held_non_xformable
    · exact hflag1
    · show (self.getUsdPrim env getUsdPrim_sev).2.1.m_usdPrim.valid = true
      rw [hheld]; exact hv
    · show (self.getUsdPrim env getUsdPrim_sev).2.1.m_usdPrim.isXformable = false
      rw [hheld]; exact hx
    · rfl

theorem C14_getUsdTransform_caching_witness :
    ((demoFresh "a.usd" "/geo").getUsdTransform demoUsdEnv).1 =
        demoUsdEnv.GetLocalToWorldTransform
          ((demoFresh "a.usd" "/geo").getUsdPrim demoUsdEnv getUsdPrim_sev).1
          (demoFresh "a.usd" "/geo").m_frame ∧
      ((demoFresh "a.usd" "/geo").getUsdTransform demoUsdEnv).2.1.m_transformCache =
        ((demoFresh "a.usd" "/geo").getUsdTransform demoUsdEnv).1 ∧
      ((demoFresh "a.usd" "/geo").getUsdTransform demoUsdEnv).2.1.m_transformCacheValid
        = true ∧
      ((demoFresh "a.usd" "/geo").getUsdTransform demoUsdEnv).2.1.getUsdTransform demoUsdEnv =
        (((demoFresh "a.usd" "/geo").getUsdTransform demoUsdEnv).1,
          ((demoFresh "a.usd" "/geo").getUsdTransform demoUsdEnv).2.1, []) :=
  (C14_getUsdTransform_caching demoUsdEnv (demoFresh "a.usd" "/geo")).2.1 (by decide)
    (by decide) (by decide)

/-! ### The packed primitive: load and save -/

theorem resetCaches_attrs (s : GusdGU_PackedUSD) :
    (resetCaches s).m_fileName = s.m_fileName ∧ (resetCaches s).m_altFileName = s.m_altFileName ∧
      (resetCaches s).m_primPath = s.m_primPath ∧
      (resetCaches s).m_srcPrimPath = s.m_srcPrimPath ∧ (resetCaches s).m_index = s.m_index ∧
      (resetCaches s).m_frame = s.m_frame ∧ (resetCaches s).m_purposes = s.m_purposes ∧
      (resetCaches s).m_masterPathCacheValid = s.m_masterPathCacheValid ∧
      (resetCaches s).m_masterPathCache = s.m_masterPathCache :=
  ⟨rfl, rfl, rfl, rfl, rfl, rfl, rfl, rfl, rfl⟩

theorem resetCaches_caches (s : GusdGU_PackedUSD) :
    (resetCaches s).m_usdPrim = UsdPrim.empty ∧ (resetCaches s).m_transformCacheValid = false ∧
      (resetCaches s).m_gtPrimCache = none ∧ (resetCaches s).boxCache = UT_BoundingBox.invalid :=
  ⟨rfl, rfl, rfl, rfl⟩

theorem update_fileName_attrs (s : GusdGU_PackedUSD) (options : UT_Options) :
    (update_fileName s options).m_fileName =
        (match options.importOptionS "usdFileName" with
          | some v => v
          | none => match options.importOptionS "fileName" with
            | some v => v
            | none => s.m_fileName) ∧
      (update_fileName s options).m_altFileName = s.m_altFileName ∧
      (update_fileName s options).m_primPath = s.m_primPath ∧
      (update_fileName s options).m_srcPrimPath = s.m_srcPrimPath ∧
      (update_fileName s options).m_index = s.m_index ∧
      (update_fileName s options).m_frame = s.m_frame ∧
      (update_fileName s options).m_purposes = s.m_purposes ∧
      (update_fileName s options).m_masterPathCacheValid = s.m_masterPathCacheValid ∧
      (update_fileName s options).m_masterPathCache = s.m_masterPathCache := by
  unfold update_fileName
  generalize options.importOptionS "usdFileName" = o0
  generalize options.importOptionS "fileName" = o1
  cases o0 <;> cases o1 <;> exact ⟨rfl, rfl, rfl, rfl, rfl, rfl, rfl, rfl, rfl⟩

theorem update_altFileName_attrs (s : GusdGU_PackedUSD) (options : UT_Options) :
    (update_altFileName s options).m_fileName = s.m_fileName ∧
      (update_altFileName s options).m_altFileName =
        (match options.importOptionS "usdAltFileName" with
          | some v => v
          | none => match options.importOptionS "altFileName" with
            | some v => v
            | none => s.m_altFileName) ∧
      (update_altFileName s options).m_primPath = s.m_primPath ∧
      (update_altFileName s options).m_srcPrimPath = s.m_srcPrimPath ∧
      (update_altFileName s options).m_index = s.m_index ∧
      (update_altFileName s options).m_frame = s.m_frame ∧
      (update_altFileName s options).m_purposes = s.m_purposes ∧
      (update_altFileName s options).m_masterPathCacheValid = s.m_masterPathCacheValid ∧
      (update_altFileName s options).m_masterPathCache = s.m_masterPathCache := by
  unfold update_altFileName setAltFileName
  generalize options.importOptionS "usdAltFileName" = o0
  generalize options.importOptionS "altFileName" = o1
  cases o0 <;> cases o1 <;> simp only [] <;> (try split) <;> simp_all

theorem update_primPath_attrs (env : UsdEnv) (s : GusdGU_PackedUSD) (options : UT_Options) :
    (update_primPath env s options).m_fileName = s.m_fileName ∧
      (update_primPath env s options).m_altFileName = s.m_altFileName ∧
      (update_primPath env s options).m_primPath =
        (match options.importOptionS "usdPrimPath" with
          | some v => env.CreateSdfPath v s.m_primPath
          | none => match options.importOptionS "nodePath" with
            | some v => env.CreateSdfPath v s.m_primPath
            | none => s.m_primPath) ∧
      (update_primPath env s options).m_srcPrimPath = s.m_srcPrimPath ∧
      (update_primPath env s options).m_index = s.m_index ∧
      (update_primPath env s options).m_frame = s.m_frame ∧
      (update_primPath env s options).m_purposes = s.m_purposes ∧
      (update_primPath env s options).m_masterPathCacheValid = s.m_masterPathCacheValid ∧
      (update_primPath env s options).m_masterPathCache = s.m_masterPathCache := by
  unfold update_primPath
  generalize options.importOptionS "usdPrimPath" = o0
  generalize options.importOptionS "nodePath" = o1
  cases o0 <;> cases o1 <;> exact ⟨rfl, rfl, rfl, rfl, rfl, rfl, rfl, rfl, rfl⟩

theorem update_srcPrimPath_attrs (env : UsdEnv) (s : GusdGU_PackedUSD) (options : UT_Options) :
    (update_srcPrimPath env s options).m_fileName = s.m_fileName ∧
      (update_srcPrimPath env s options).m_altFileName = s.m_altFileName ∧
      (update_srcPrimPath env s options).m_primPath = s.m_primPath ∧
      (update_srcPrimPath env s options).m_srcPrimPath =
        (match options.importOptionS "usdSrcPrimPath" with
          | some v => env.CreateSdfPath v s.m_srcPrimPath
          | none => s.m_srcPrimPath) ∧
      (update_srcPrimPath env s options).m_index = s.m_index ∧
      (update_srcPrimPath env s options).m_frame = s.m_frame ∧
      (update_srcPrimPath env s options).m_purposes = s.m_purposes ∧
      (update_srcPrimPath env s options).m_masterPathCacheValid = s.m_masterPathCacheValid ∧
      (update_srcPrimPath env s options).m_masterPathCache = s.m_masterPathCache := by
  unfold update_srcPrimPath
  generalize options.importOptionS "usdSrcPrimPath" = o0
  cases o0 <;> exact ⟨rfl, rfl, rfl, rfl, rfl, rfl, rfl, rfl, rfl⟩

theorem update_index_attrs (s : GusdGU_PackedUSD) (options : UT_Options) :
    (update_index s options).m_fileName = s.m_fileName ∧
      (update_index s options).m_altFileName = s.m_altFileName ∧
      (update_index s options).m_primPath = s.m_primPath ∧
      (update_index s options).m_srcPrimPath = s.m_srcPrimPath ∧
      (update_index s options).m_index =
        (match options.importOptionI "usdIndex" with
          | some v => v
          | none => s.m_index) ∧
      (update_index s options).m_frame = s.m_frame ∧
      (update_index s options).m_purposes = s.m_purposes ∧
      (update_index s options).m_masterPathCacheValid = s.m_masterPathCacheValid ∧
      (update_index s options).m_masterPathCache = s.m_masterPathCache := by
  unfold update_index
  generalize options.importOptionI "usdIndex" = o0
  cases o0 <;> exact ⟨rfl, rfl, rfl, rfl, rfl, rfl, rfl, rfl, rfl⟩

theorem update_frame_attrs (s : GusdGU_PackedUSD) (options : UT_Options) :
    (update_frame s options).m_fileName = s.m_fileName ∧
      (update_frame s options).m_altFileName = s.m_altFileName ∧
      (update_frame s options).m_primPath = s.m_primPath ∧
      (update_frame s options).m_srcPrimPath = s.m_srcPrimPath ∧
      (update_frame s options).m_index = s.m_index ∧
      (update_frame s options).m_frame =
        (match options.importOptionF "usdFrame" with
          | some v => UsdTimeCode.Numeric v
          | none => match options.importOptionF "frame" with
            | some v => UsdTimeCode.Numeric v
            | none => s.m_frame) ∧
      (update_frame s options).m_purposes = s.m_purposes ∧
      (update_frame s options).m_masterPathCacheValid = s.m_masterPathCacheValid ∧
      (update_frame s options).m_masterPathCache = s.m_masterPathCache := by
  unfold update_frame
  generalize options.importOptionF "usdFrame" = o0
  generalize options.importOptionF "frame" = o1
  cases o0 <;> cases o1 <;> exact ⟨rfl, rfl, rfl, rfl, rfl, rfl, rfl, rfl, rfl⟩

theorem update_purposes_attrs (s : GusdGU_PackedUSD) (prim : Option GU_PrimPacked)
    (options : UT_Options) :
    (update_purposes s prim options).1.m_fileName = s.m_fileName ∧
      (update_purposes s prim options).1.m_altFileName = s.m_altFileName ∧
      (update_purposes s prim options).1.m_primPath = s.m_primPath ∧
      (update_purposes s prim options).1.m_srcPrimPath = s.m_srcPrimPath ∧
      (update_purposes s prim options).1.m_index = s.m_index ∧
      (update_purposes s prim options).1.m_frame = s.m_frame ∧
      (update_purposes s prim options).1.m_purposes =
        (match options.importOptionSArray "usdViewportPurpose" with
          | some v => GusdPurposeSetFromArray v ||| GUSD_PURPOSE_DEFAULT
          | none => s.m_purposes) ∧
      (update_purposes s prim options).1.m_masterPathCacheValid = s.m_masterPathCacheValid ∧
      (update_purposes s prim options).1.m_masterPathCache = s.m_masterPathCache := by
  unfold update_purposes
  generalize options.importOptionSArray "usdViewportPurpose" = o0
  cases o0 <;> exact ⟨rfl, rfl, rfl, rfl, rfl, rfl, rfl, rfl, rfl⟩

theorem update_eq (env : UsdEnv) (self : GusdGU_PackedUSD) (prim : Option GU_PrimPacked)
    (options : UT_Options) :
    (update env self prim options).1 =
      resetCaches (update_purposes (update_frame (update_index (update_srcPrimPath env
        (update_primPath env (update_altFileName (update_fileName self options) options)
          options) options) options) options) prim options).1 := rfl

/-- The identifying attributes and the master-path cache after `update`, each attribute by
the keys it is imported from. -/
theorem update_attrs (env : UsdEnv) (self : GusdGU_PackedUSD) (prim : Option GU_PrimPacked)
    (options : UT_Options) :
    (update env self prim options).1.m_fileName =
        (match options.importOptionS "usdFileName" with
          | some v => v
          | none => match options.importOptionS "fileName" with
            | some v => v
            | none => self.m_fileName) ∧
      (update env self prim options).1.m_altFileName =
        (match options.importOptionS "usdAltFileName" with
          | some v => v
          | none => match options.importOptionS "altFileName" with
            | some v => v
            | none => self.m_altFileName) ∧
      (update env self prim options).1.m_primPath =
        (match options.importOptionS "usdPrimPath" with
          | some v => env.CreateSdfPath v self.m_primPath
          | none => match options.importOptionS "nodePath" with
            | some v => env.CreateSdfPath v self.m_primPath
            | none => self.m_primPath) ∧
      (update env self prim options).1.m_srcPrimPath =
        (match options.importOptionS "usdSrcPrimPath" with
          | some v => env.CreateSdfPath v self.m_srcPrimPath
          | none => self.m_srcPrimPath) ∧
      (update env self prim options).1.m_index =
        (match options.importOptionI "usdIndex" with
          | some v => v
          | none => self.m_index) ∧
      (update env self prim options).1.m_frame =
        (match options.importOptionF "usdFrame" with
          | some v => UsdTimeCode.Numeric v
          | none => match options.importOptionF "frame" with
            | some v => UsdTimeCode.Numeric v
            | none => self.m_frame) ∧
      (update env self prim options).1.m_purposes =
        (match options.importOptionSArray "usdViewportPurpose" with
          | some v => GusdPurposeSetFromArray v ||| GUSD_PURPOSE_DEFAULT
          | none => self.m_purposes) ∧
      (update env self prim options).1.m_masterPathCacheValid =
        self.m_masterPathCacheValid ∧
      (update env self prim options).1.m_masterPathCache =
        self.m_masterPathCache := by
  rw [update_eq]
  refine ⟨?_, ?_, ?_, ?_, ?_, ?_, ?_, ?_, ?_⟩
  · rw [(resetCaches_attrs _).1, (update_purposes_attrs _ _ _).1, (update_frame_attrs _ _).1, (update_index_attrs _ _).1, (update_srcPrimPath_attrs _ _ _).1, (update_primPath_attrs _ _ _).1, (update_altFileName_attrs _ _).1, (update_fileName_attrs _ _).1]
  · rw [(resetCaches_attrs _).2.1, (update_purposes_attrs _ _ _).2.1, (update_frame_attrs _ _).2.1, (update_index_attrs _ _).2.1, (update_srcPrimPath_attrs _ _ _).2.1, (update_primPath_attrs _ _ _).2.1, (update_altFileName_attrs _ _).2.1, (update_fileName_attrs _ _).2.1]
  · rw [(resetCaches_attrs _).2.2.1, (update_purposes_attrs _ _ _).2.2.1, (update_frame_attrs _ _).2.2.1, (update_index_attrs _ _).2.2.1, (update_srcPrimPath_attrs _ _ _).2.2.1, (update_primPath_attrs _ _ _).2.2.1, (update_altFileName_attrs _ _).2.2.1, (update_fileName_attrs _ _).2.2.1]
  · rw [(resetCaches_attrs _).2.2.2.1, (update_purposes_attrs _ _ _).2.2.2.1, (update_frame_attrs _ _).2.2.2.1, (update_index_attrs _ _).2.2.2.1, (update_srcPrimPath_attrs _ _ _).2.2.2.1, (update_primPath_attrs _ _ _).2.2.2.1, (update_altFileName_attrs _ _).2.2.2.1, (update_fileName_attrs _ _).2.2.2.1]
  · rw [(resetCaches_attrs _).2.2.2.2.1, (update_purposes_attrs _ _ _).2.2.2.2.1, (update_frame_attrs _ _).2.2.2.2.1, (update_index_attrs _ _).2.2.2.2.1, (update_srcPrimPath_attrs _ _ _).2.2.2.2.1, (update_primPath_attrs _ _ _).2.2.2.2.1, (update_altFileName_attrs _ _).2.2.2.2.1, (update_fileName_attrs _ _).2.2.2.2.1]
  · rw [(resetCaches_attrs _).2.2.2.2.2.1, (update_purposes_attrs _ _ _).2.2.2.2.2.1, (update_frame_attrs _ _).2.2.2.2.2.1, (update_index_attrs _ _).2.2.2.2.2.1, (update_srcPrimPath_attrs _ _ _).2.2.2.2.2.1, (update_primPath_attrs _ _ _).2.2.2.2.2.1, (update_altFileName_attrs _ _).2.2.2.2.2.1, (update_fileName_attrs _ _).2.2.2.2.2.1]
  · rw [(resetCaches_attrs _).2.2.2.2.2.2.1, (update_purposes_attrs _ _ _).2.2.2.2.2.2.1, (update_frame_attrs _ _).2.2.2.2.2.2.1, (update_index_attrs _ _).2.2.2.2.2.2.1, (update_srcPrimPath_attrs _ _ _).2.2.2.2.2.2.1, (update_primPath_attrs _ _ _).2.2.2.2.2.2.1, (update_altFileName_attrs _ _).2.2.2.2.2.2.1, (update_fileName_attrs _ _).2.2.2.2.2.2.1]
  · rw [(resetCaches_attrs _).2.2.2.2.2.2.2.1, (update_purposes_attrs _ _ _).2.2.2.2.2.2.2.1, (update_frame_attrs _ _).2.2.2.2.2.2.2.1, (update_index_attrs _ _).2.2.2.2.2.2.2.1, (update_srcPrimPath_attrs _ _ _).2.2.2.2.2.2.2.1, (update_primPath_attrs _ _ _).2.2.2.2.2.2.2.1, (update_altFileName_attrs _ _).2.2.2.2.2.2.2.1, (update_fileName_attrs _ _).2.2.2.2.2.2.2.1]
  · rw [(resetCaches_attrs _).2.2.2.2.2.2.2.2, (update_purposes_attrs _ _ _).2.2.2.2.2.2.2.2, (update_frame_attrs _ _).2.2.2.2.2.2.2.2, (update_index_attrs _ _).2.2.2.2.2.2.2.2, (update_srcPrimPath_attrs _ _ _).2.2.2.2.2.2.2.2, (update_primPath_attrs _ _ _).2.2.2.2.2.2.2.2, (update_altFileName_attrs _ _).2.2.2.2.2.2.2.2, (update_fileName_attrs _ _).2.2.2.2.2.2.2.2]

/-- C17: `update` stores the file name imported from "usdFileName", or else from the legacy
"fileName"; the prim path from "usdPrimPath", or else from "nodePath"; the frame from
"usdFrame", or else from "frame".  When the current key can be imported its value is the
one stored whatever the legacy key holds, and a record with only the legacy keys loads the
same file name, prim path and frame as the record with the current keys. -/
theorem C17_update_legacy_keys (env : UsdEnv) (self : GusdGU_PackedUSD)
    (prim : Option GU_PrimPacked) (options : UT_Options) :
    (∀ v, options.importOptionS "usdFileName" = some v →
        (update env self prim options).1.m_fileName = v) ∧
      (options.importOptionS "usdFileName" = none →
        ∀ v, options.importOptionS "fileName" = some v →
          (update env self prim options).1.m_fileName = v) ∧
      (∀ v, options.importOptionS "usdPrimPath" = some v →
        (update env self prim options).1.m_primPath = env.CreateSdfPath v self.m_primPath) ∧
      (options.importOptionS "usdPrimPath" = none →
        ∀ v, options.importOptionS "nodePath" = some v →
          (update env self prim options).1.m_primPath
            = env.CreateSdfPath v self.m_primPath) ∧
      (∀ v, options.importOptionF "usdFrame" = some v →
        (update env self prim options).1.m_frame = UsdTimeCode.Numeric v) ∧
      (options.importOptionF "usdFrame" = none →
        ∀ v, options.importOptionF "frame" = some v →
          (update env self prim options).1.m_frame = UsdTimeCode.Numeric v) ∧
      (∀ (file path : String) (frame : fpreal),
        (update env self prim
            [("fileName", UT_OptionEntry.S file), ("nodePath", UT_OptionEntry.S path),
              ("frame", UT_OptionEntry.F frame)]).1.m_fileName =
          (update env self prim
            [("usdFileName", UT_OptionEntry.S file), ("usdPrimPath", UT_OptionEntry.S path),
              ("usdFrame", UT_OptionEntry.F frame)]).1.m_fileName ∧
        (update env self prim
            [("fileName", UT_OptionEntry.S file), ("nodePath", UT_OptionEntry.S path),
              ("frame", UT_OptionEntry.F frame)]).1.m_primPath =
          (update env self prim
            [("usdFileName", UT_OptionEntry.S file), ("usdPrimPath", UT_OptionEntry.S path),
              ("usdFrame", UT_OptionEntry.F frame)]).1.m_primPath ∧
        (update env self prim
            [("fileName", UT_OptionEntry.S file), ("nodePath", UT_OptionEntry.S path),
              ("frame", UT_OptionEntry.F frame)]).1.m_frame =
          (update env self prim
            [("usdFileName", UT_OptionEntry.S file), ("usdPrimPath", UT_OptionEntry.S path),
              ("usdFrame", UT_OptionEntry.F frame)]).1.m_frame ∧
        (update env self prim
            [("fileName", UT_OptionEntry.S file), ("nodePath", UT_OptionEntry.S path),
              ("frame", UT_OptionEntry.F frame)]).1.m_fileName = file ∧
        (update env self prim
            [("fileName", UT_OptionEntry.S file), ("nodePath", UT_OptionEntry.S path),
              ("frame", UT_OptionEntry.F frame)]).1.m_primPath
          = env.CreateSdfPath path self.m_primPath ∧
        (update env self prim
            [("fileName", UT_OptionEntry.S file), ("nodePath", UT_OptionEntry.S path),
              ("frame", UT_OptionEntry.F frame)]).1.m_frame = UsdTimeCode.Numeric frame) := by
  obtain ⟨h1, _, h3, _, _, h6, _⟩ := update_attrs env self prim options
  refine ⟨?_, ?_, ?_, ?_, ?_, ?_, ?_⟩
  · intro v hv
    rw [h1, hv]
  · intro hn v hv
    rw [h1, hn, hv]
  · intro v hv
    rw [h3, hv]
  · intro hn v hv
    rw [h3, hn, hv]
  · intro v hv
    rw [h6, hv]
  · intro hn v hv
    rw [h6, hn, hv]
  · intro file path frame
    obtain ⟨a1, _, a3, _, _, a6, _⟩ := update_attrs env self prim
      [("fileName", UT_OptionEntry.S file), ("nodePath", UT_OptionEntry.S path),
        ("frame", UT_OptionEntry.F frame)]
    obtain ⟨b1, _, b3, _, _, b6, _⟩ := update_attrs env self prim
      [("usdFileName", UT_OptionEntry.S file), ("usdPrimPath", UT_OptionEntry.S path),
        ("usdFrame", UT_OptionEntry.F frame)]
    rw [a1, a3, a6, b1, b3, b6]
    exact ⟨rfl, rfl, rfl, rfl, rfl, rfl⟩

theorem C17_update_legacy_keys_witness :
    (update demoUsdEnv demoHandle none
        [("usdFileName", UT_OptionEntry.S "new.usd"),
          ("fileName", UT_OptionEntry.S "old.usd")]).1.m_fileName = "new.usd" ∧
      (update demoUsdEnv demoHandle none
        [("nodePath", UT_OptionEntry.S "/legacy")]).1.m_primPath
          = demoUsdEnv.CreateSdfPath "/legacy" demoHandle.m_primPath ∧
      (update demoUsdEnv demoHandle none
        [("frame", UT_OptionEntry.F 7)]).1.m_frame = UsdTimeCode.Numeric 7 :=
  ⟨(C17_update_legacy_keys demoUsdEnv demoHandle none
      [("usdFileName", UT_OptionEntry.S "new.usd"),
        ("fileName", UT_OptionEntry.S "old.usd")]).1 "new.usd" rfl,
    (C17_update_legacy_keys demoUsdEnv demoHandle none
      [("nodePath", UT_OptionEntry.S "/legacy")]).2.2.2.1 rfl "/legacy" rfl,
    (C17_update_legacy_keys demoUsdEnv demoHandle none
      [("frame", UT_OptionEntry.F 7)]).2.2.2.2.2.1 rfl 7 rfl⟩

/-- C18: `save` writes nothing that depends on the resolved prim or on any cache (it gives
the same record whatever they hold), and after `update`, hence after `load`, the resolved
prim is empty, `isValid()` is false, and the next `getUsdPrim` looks the prim up in the
stage cache from the file name and prim path just loaded. -/
theorem C18_resolved_prim_not_serialized (env : UsdEnv) (self : GusdGU_PackedUSD)
    (prim : Option GU_PrimPacked) (options : UT_Options) :
    (∀ (usdPrim : UsdPrim) (xformValid : Bool) (xform : UT_Matrix4D) (masterValid : Bool)
        (master : String) (gt : GT_PrimitiveHandle) (box : UT_BoundingBox),
        save env { self with m_usdPrim := usdPrim, m_transformCacheValid := xformValid,
                             m_transformCache := xform, m_masterPathCacheValid := masterValid,
                             m_masterPathCache := master, m_gtPrimCache := gt,
                             boxCache := box } options = save env self options) ∧
      (update env self prim options).1.m_usdPrim = UsdPrim.empty ∧
      (update env self prim options).1.isValid = false ∧
      (load env self prim options).2.1.m_usdPrim = UsdPrim.empty ∧
      (load env self prim options).2.1.isValid = false ∧
      (∀ sev, ((update env self prim options).1.getUsdPrim env sev).1 =
          env.GetPrim (update env self prim options).1.m_fileName
            (env.GetPrimPathAndEditFromVariantsPath
              (update env self prim options).1.m_primPath).1
            (env.GetPrimPathAndEditFromVariantsPath
              (update env self prim options).1.m_primPath).2 sev ∧
        ((update env self prim options).1.getUsdPrim env sev).2.2 =
          [Event.stageCacheGetPrim (update env self prim options).1.m_fileName
            (env.GetPrimPathAndEditFromVariantsPath
              (update env self prim options).1.m_primPath).1
            (env.GetPrimPathAndEditFromVariantsPath
              (update env self prim options).1.m_primPath).2 sev]) := by
  have hprim : (update env self prim options).1.m_usdPrim = UsdPrim.empty := by
    rw [update_eq]
    rfl
  refine ⟨fun _ _ _ _ _ _ _ => rfl, hprim, ?_, hprim, ?_, ?_⟩
  · unfold isValid
    rw [hprim]
    rfl
  · show (update env self prim options).1.isValid = false
    unfold isValid
    rw [hprim]
    rfl
  · intro sev
    have hinv : (update env self prim options).1.m_usdPrim.valid = false := by
      rw [hprim]
      rfl
    unfold getUsdPrim
    simp [hinv]

/-- The record `save` writes into an empty `UT_Options`. -/
theorem save_empty (env : UsdEnv) (h : GusdGU_PackedUSD) :
    (save env h []).2 =
      [("usdFileName", UT_OptionEntry.S h.m_fileName),
        ("usdAltFileName", UT_OptionEntry.S h.m_altFileName),
        ("usdPrimPath", UT_OptionEntry.S h.m_primPath.text),
        ("usdSrcPrimPath", UT_OptionEntry.S h.m_srcPrimPath.text),
        ("usdIndex", UT_OptionEntry.I h.m_index),
        ("usdFrame", UT_OptionEntry.F (env.GetNumericTime h.m_frame)),
        ("usdViewportPurpose", UT_OptionEntry.SArray (getIntrinsicPurposes h))] := rfl

/-- The purposes named by `getIntrinsicPurposes` are those of the handle without the
default purpose, for a purpose set made of the four purpose bits. -/
theorem GusdPurposeSetFromArray_getIntrinsicPurposes (h : GusdGU_PackedUSD)
    (hp : h.m_purposes < 16) :
    GusdPurposeSetFromArray (getIntrinsicPurposes h) ||| GUSD_PURPOSE_DEFAULT
      = h.m_purposes ||| GUSD_PURPOSE_DEFAULT := by
  have key : ∀ p : Fin 16,
      GusdPurposeSetFromArray (getIntrinsicPurposes { init with m_purposes := p.val })
        ||| GUSD_PURPOSE_DEFAULT = p.val ||| GUSD_PURPOSE_DEFAULT := by
    decide
  have same : getIntrinsicPurposes h
      = getIntrinsicPurposes { init with m_purposes := h.m_purposes } := rfl
  rw [same]
  exact key ⟨h.m_purposes, hp⟩

/-- C16 as stated fails: a handle whose purpose set is `render` alone is saved with
"usdViewportPurpose" = ["render"], and loading that record into a fresh handle gives the
purposes `render | default`; a handle at the default time code is loaded back at a numeric
time. -/
theorem C16_round_trip_changes_purposes_and_default_frame :
    (save demoUsdEnv { init with m_purposes := GUSD_PURPOSE_RENDER } []).2
        = [("usdFileName", UT_OptionEntry.S ""), ("usdAltFileName", UT_OptionEntry.S ""),
            ("usdPrimPath", UT_OptionEntry.S ""), ("usdSrcPrimPath", UT_OptionEntry.S ""),
            ("usdIndex", UT_OptionEntry.I (-1)), ("usdFrame", UT_OptionEntry.F (1 / 2 ^ 126)),
            ("usdViewportPurpose", UT_OptionEntry.SArray ["render"])] ∧
      (load demoUsdEnv init none
        (save demoUsdEnv { init with m_purposes := GUSD_PURPOSE_RENDER } []).2).2.1.m_purposes
        = GUSD_PURPOSE_RENDER ||| GUSD_PURPOSE_DEFAULT ∧
      (load demoUsdEnv init none
        (save demoUsdEnv { init with m_purposes := GUSD_PURPOSE_RENDER } []).2).2.1.m_purposes
        ≠ ({ init with m_purposes := GUSD_PURPOSE_RENDER } : GusdGU_PackedUSD).m_purposes ∧
      (load demoUsdEnv init none
        (save demoUsdEnv { init with m_frame := UsdTimeCode.Default } []).2).2.1.m_frame
        = UsdTimeCode.Numeric 0 ∧
      (load demoUsdEnv init none
        (save demoUsdEnv { init with m_frame := UsdTimeCode.Default } []).2).2.1.m_frame
        ≠ ({ init with m_frame := UsdTimeCode.Default } : GusdGU_PackedUSD).m_frame := by
  refine ⟨rfl, ?_, ?_, ?_, ?_⟩
  · decide
  · decide
  · decide
  · decide

/-- A test of a purpose bit reads the low four bits of the purpose set only. -/
theorem purposes_land_mod (m k : Nat) (hk : 15 &&& k = k) : m &&& k = (m % 16) &&& k := by
  have h : m % 16 = m &&& 15 := (Nat.and_pow_two_sub_one_eq_mod m 4).symm
  rw [h, Nat.land_assoc, hk]

/-- The purpose set made of the array `getIntrinsicPurposes` writes, with the default
purpose added, is the `proxy`, `render` and `guide` bits of the handle with the default
purpose, for every purpose set. -/
theorem GusdPurposeSetFromArray_getIntrinsicPurposes_bits (h : GusdGU_PackedUSD) :
    GusdPurposeSetFromArray (getIntrinsicPurposes h) ||| GUSD_PURPOSE_DEFAULT
      = (h.m_purposes &&& (GUSD_PURPOSE_PROXY ||| GUSD_PURPOSE_RENDER ||| GUSD_PURPOSE_GUIDE))
        ||| GUSD_PURPOSE_DEFAULT := by
  have key : ∀ p : Fin 16,
      GusdPurposeSetFromArray (getIntrinsicPurposes { init with m_purposes := p.val })
        ||| GUSD_PURPOSE_DEFAULT
        = (p.val &&& (GUSD_PURPOSE_PROXY ||| GUSD_PURPOSE_RENDER ||| GUSD_PURPOSE_GUIDE))
          ||| GUSD_PURPOSE_DEFAULT := by
    decide
  have h2 : h.m_purposes &&& GUSD_PURPOSE_PROXY
      = (h.m_purposes % 16) &&& GUSD_PURPOSE_PROXY := purposes_land_mod _ _ (by decide)
  have h4 : h.m_purposes &&& GUSD_PURPOSE_RENDER
      = (h.m_purposes % 16) &&& GUSD_PURPOSE_RENDER := purposes_land_mod _ _ (by decide)
  have h8 : h.m_purposes &&& GUSD_PURPOSE_GUIDE
      = (h.m_purposes % 16) &&& GUSD_PURPOSE_GUIDE := purposes_land_mod _ _ (by decide)
  have h14 : h.m_purposes &&& (GUSD_PURPOSE_PROXY ||| GUSD_PURPOSE_RENDER ||| GUSD_PURPOSE_GUIDE)
      = (h.m_purposes % 16) &&&
        (GUSD_PURPOSE_PROXY ||| GUSD_PURPOSE_RENDER ||| GUSD_PURPOSE_GUIDE) :=
    purposes_land_mod _ _ (by decide)
  have same : getIntrinsicPurposes h
      = getIntrinsicPurposes { init with m_purposes := h.m_purposes % 16 } := by
    unfold getIntrinsicPurposes
    simp only [h2, h4, h8]
  rw [same, h14]
  exact key ⟨h.m_purposes % 16, Nat.mod_lt _ (by decide)⟩

/-- C16, amended: for every handle `h`, `save` into an empty record emits exactly the keys
usdFileName, usdAltFileName, usdPrimPath, usdSrcPrimPath, usdIndex, usdFrame,
usdViewportPurpose, in this order; loading that record into a fresh handle gives the same
file name, alternate file name and index, the paths `CreateSdfPath` makes of the saved path
strings, the frame `GetNumericTime(frame of h)` as a numeric time, and the purposes
`proxy`, `render`, `guide` of `h` together with the default purpose.  Hence the prim path,
the source prim path, the frame and the purpose set loaded are those of `h` when,
respectively, the path of `h` is what `CreateSdfPath` makes of its string, the frame of `h`
is numeric, and the purpose set of `h` is made of the four purpose bits and includes the
default purpose. -/
theorem C16_save_load_round_trip (env : UsdEnv) (h : GusdGU_PackedUSD)
    (prim : Option GU_PrimPacked) :
    (save env h []).1 = true ∧
      (save env h []).2.map Prod.fst =
        ["usdFileName", "usdAltFileName", "usdPrimPath", "usdSrcPrimPath", "usdIndex",
          "usdFrame", "usdViewportPurpose"] ∧
      (load env init prim (save env h []).2).1 = true ∧
      (load env init prim (save env h []).2).2.1.m_fileName = h.m_fileName ∧
      (load env init prim (save env h []).2).2.1.m_altFileName = h.m_altFileName ∧
      (load env init prim (save env h []).2).2.1.m_primPath
        = env.CreateSdfPath h.m_primPath.text SdfPath.EmptyPath ∧
      (load env init prim (save env h []).2).2.1.m_srcPrimPath
        = env.CreateSdfPath h.m_srcPrimPath.text SdfPath.EmptyPath ∧
      (load env init prim (save env h []).2).2.1.m_index = h.m_index ∧
      (load env init prim (save env h []).2).2.1.m_frame
        = UsdTimeCode.Numeric (env.GetNumericTime h.m_frame) ∧
      (load env init prim (save env h []).2).2.1.m_purposes
        = GusdPurposeSetFromArray (getIntrinsicPurposes h) ||| GUSD_PURPOSE_DEFAULT ∧
      (load env init prim (save env h []).2).2.1.m_purposes
        = (h.m_purposes &&&
            (GUSD_PURPOSE_PROXY ||| GUSD_PURPOSE_RENDER ||| GUSD_PURPOSE_GUIDE))
          ||| GUSD_PURPOSE_DEFAULT ∧
      (env.CreateSdfPath h.m_primPath.text SdfPath.EmptyPath = h.m_primPath →
        (load env init prim (save env h []).2).2.1.m_primPath = h.m_primPath) ∧
      (env.CreateSdfPath h.m_srcPrimPath.text SdfPath.EmptyPath = h.m_srcPrimPath →
        (load env init prim (save env h []).2).2.1.m_srcPrimPath = h.m_srcPrimPath) ∧
      (UsdTimeCode.Numeric (env.GetNumericTime h.m_frame) = h.m_frame →
        (load env init prim (save env h []).2).2.1.m_frame = h.m_frame) ∧
      (h.m_purposes < 16 → h.m_purposes ||| GUSD_PURPOSE_DEFAULT = h.m_purposes →
        (load env init prim (save env h []).2).2.1.m_purposes = h.m_purposes) := by
  obtain ⟨a1, a2, a3, a4, a5, a6, a7, _, _⟩ := update_attrs env init prim (save env h []).2
  have e1 : (save env h []).2.importOptionS "usdFileName" = some h.m_fileName := by
    rw [save_empty]
    rfl
  have e2 : (save env h []).2.importOptionS "usdAltFileName" = some h.m_altFileName := by
    rw [save_empty]
    rfl
  have e3 : (save env h []).2.importOptionS "usdPrimPath" = some h.m_primPath.text := by
    rw [save_empty]
    rfl
  have e4 : (save env h []).2.importOptionS "usdSrcPrimPath"
      = some h.m_srcPrimPath.text := by
    rw [save_empty]
    rfl
  have e5 : (save env h []).2.importOptionI "usdIndex" = some h.m_index := by
    rw [save_empty]
    rfl
  have e6 : (save env h []).2.importOptionF "usdFrame"
      = some (env.GetNumericTime h.m_frame) := by
    rw [save_empty]
    rfl
  have e7 : (save env h []).2.importOptionSArray "usdViewportPurpose"
      = some (getIntrinsicPurposes h) := by
    rw [save_empty]
    rfl
  rw [e1] at a1
  rw [e2] at a2
  rw [e3] at a3
  rw [e4] at a4
  rw [e5] at a5
  rw [e6] at a6
  rw [e7] at a7
  refine ⟨rfl, rfl, rfl, a1, a2, a3, a4, a5, a6, a7, ?_, ?_, ?_, ?_, ?_⟩
  · exact a7.trans (GusdPurposeSetFromArray_getIntrinsicPurposes_bits h)
  · intro hpath
    exact a3.trans hpath
  · intro hsrc
    exact a4.trans hsrc
  · intro hframe
    exact a6.trans hframe
  · intro hbits hdefault
    exact a7.trans ((GusdPurposeSetFromArray_getIntrinsicPurposes h hbits).trans hdefault)

theorem C16_save_load_round_trip_witness :
    ((load demoUsdEnv init (some demoPacked) (save demoUsdEnv demoHandle []).2).2.1.m_primPath
        = demoHandle.m_primPath ∧
      (load demoUsdEnv init (some demoPacked) (save demoUsdEnv demoHandle []).2).2.1.m_frame
        = demoHandle.m_frame ∧
      (load demoUsdEnv init (some demoPacked) (save demoUsdEnv demoHandle []).2).2.1.m_purposes
        = demoHandle.m_purposes) ∧
      (load demoUsdEnv init none
        (save demoUsdEnv { init with m_purposes := GUSD_PURPOSE_RENDER } []).2).2.1.m_purposes
        = (GUSD_PURPOSE_RENDER &&&
            (GUSD_PURPOSE_PROXY ||| GUSD_PURPOSE_RENDER ||| GUSD_PURPOSE_GUIDE))
          ||| GUSD_PURPOSE_DEFAULT ∧
      (load demoUsdEnv init none
        (save demoUsdEnv { init with m_frame := UsdTimeCode.Default } []).2).2.1.m_frame
        = UsdTimeCode.Numeric (demoUsdEnv.GetNumericTime UsdTimeCode.Default) :=
  have h := C16_save_load_round_trip demoUsdEnv demoHandle (some demoPacked)
  ⟨⟨h.2.2.2.2.2.2.2.2.2.2.2.1 (by decide), h.2.2.2.2.2.2.2.2.2.2.2.2.2.1 (by decide),
      h.2.2.2.2.2.2.2.2.2.2.2.2.2.2 (by decide) (by decide)⟩,
    (C16_save_load_round_trip demoUsdEnv { init with m_purposes := GUSD_PURPOSE_RENDER }
      none).2.2.2.2.2.2.2.2.2.2.1,
    (C16_save_load_round_trip demoUsdEnv { init with m_frame := UsdTimeCode.Default }
      none).2.2.2.2.2.2.2.2.1⟩

/-! ### The packed primitive: the instance key and the master-path cache -/

theorem stagePtrString_append_ne (stage : Nat) (t : String) :
    stagePtrString stage ++ t ≠ "" := by
  intro h
  have h2 := congrArg String.data h
  unfold stagePtrString at h2
  simp only [String.data_append] at h2
  simp at h2

/-- With the master-path cache not marked valid, `getInstanceKey` on an empty key writes
f, n, t, p from the attributes and the prim resolved by `getUsdPrim`: n is the prim path
for an unresolvable prim and for a prim that is neither an instance nor an instance proxy,
and the stage text followed by the master's path (the path in the master) for an instance
(an instance proxy). -/
theorem getInstanceKey_unset_master (env : UsdEnv) (self : GusdGU_PackedUSD)
    (hflag : self.m_masterPathCacheValid = false) :
    (getInstanceKey env self []).1 = true ∧
      (getInstanceKey env self []).2.1 =
        [("f", UT_OptionEntry.S self.m_fileName),
          ("n", UT_OptionEntry.S
            (if (getUsdPrim env self getUsdPrim_sev).1.valid = true then
              if (getUsdPrim env self getUsdPrim_sev).1.isInstance = true then
                stagePtrString (getUsdPrim env self getUsdPrim_sev).1.stage ++
                  (getUsdPrim env self getUsdPrim_sev).1.masterPath.text
              else if (getUsdPrim env self getUsdPrim_sev).1.isInstanceProxy = true then
                stagePtrString (getUsdPrim env self getUsdPrim_sev).1.stage ++
                  (getUsdPrim env self getUsdPrim_sev).1.primInMasterPath.text
              else self.m_primPath.text
            else self.m_primPath.text)),
          ("t", UT_OptionEntry.F (env.GetNumericTime self.m_frame)),
          ("p", UT_OptionEntry.I (self.m_purposes : Int))] := by
  unfold getInstanceKey
  simp only [hflag]
  generalize getUsdPrim env self getUsdPrim_sev = r
  obtain ⟨prim, self1, ev⟩ := r
  by_cases hv : prim.valid = true
  · by_cases hi : prim.isInstance = true
    · have he := stagePtrString_append_ne prim.stage prim.masterPath.text
      simp [hv, hi, he, getInstanceKey_finish]
      rfl
    · by_cases hp : prim.isInstanceProxy = true
      · have he := stagePtrString_append_ne prim.stage prim.primInMasterPath.text
        simp [hv, hi, hp, he, getInstanceKey_finish]
        rfl
      · simp [hv, hi, hp, getInstanceKey_finish]
        rfl
  · simp [hv]
    rfl

/-- C15 fails on a handle whose master-path key was cached before `update`: the handle on
the instance `/inst` caches the key of its master; `update` to the prim path `/geo` (not an
instance) leaves `m_masterPathCacheValid` true; `getInstanceKey` then makes no stage lookup
and writes n = the old master key, where a fresh handle on `/geo` gets n = "/geo". -/
theorem C15_getInstanceKey_stale_master_after_update :
    (getInstanceKey demoUsdEnv (demoFresh "a.usd" "/inst") []).2.1 =
        [("f", UT_OptionEntry.S "a.usd"), ("n", UT_OptionEntry.S "0x1/__Master_1"),
          ("t", UT_OptionEntry.F 1), ("p", UT_OptionEntry.I 3)] ∧
      (update demoUsdEnv (getInstanceKey demoUsdEnv (demoFresh "a.usd" "/inst") []).2.2.1 none
          [("usdPrimPath", UT_OptionEntry.S "/geo")]).1.m_primPath = ⟨"/geo"⟩ ∧
      (update demoUsdEnv (getInstanceKey demoUsdEnv (demoFresh "a.usd" "/inst") []).2.2.1 none
          [("usdPrimPath", UT_OptionEntry.S "/geo")]).1.m_usdPrim = UsdPrim.empty ∧
      (update demoUsdEnv (getInstanceKey demoUsdEnv (demoFresh "a.usd" "/inst") []).2.2.1 none
          [("usdPrimPath", UT_OptionEntry.S "/geo")]).1.m_masterPathCacheValid = true ∧
      (getInstanceKey demoUsdEnv
          (update demoUsdEnv (getInstanceKey demoUsdEnv (demoFresh "a.usd" "/inst") []).2.2.1
            none [("usdPrimPath", UT_OptionEntry.S "/geo")]).1 []).2.1 =
        [("f", UT_OptionEntry.S "a.usd"), ("n", UT_OptionEntry.S "0x1/__Master_1"),
          ("t", UT_OptionEntry.F 1), ("p", UT_OptionEntry.I 3)] ∧
      (getInstanceKey demoUsdEnv
          (update demoUsdEnv (getInstanceKey demoUsdEnv (demoFresh "a.usd" "/inst") []).2.2.1
            none [("usdPrimPath", UT_OptionEntry.S "/geo")]).1 []).2.2.2 = [] ∧
      (demoUsdEnv.GetPrim "a.usd" ⟨"/geo"⟩ none getUsdPrim_sev).isInstance = false ∧
      (demoUsdEnv.GetPrim "a.usd" ⟨"/geo"⟩ none getUsdPrim_sev).isInstanceProxy = false ∧
      (getInstanceKey demoUsdEnv (demoFresh "a.usd" "/geo") []).2.1 =
        [("f", UT_OptionEntry.S "a.usd"), ("n", UT_OptionEntry.S "/geo"),
          ("t", UT_OptionEntry.F 1), ("p", UT_OptionEntry.I 3)] := by
  refine ⟨?_, ?_, ?_, ?_, ?_, ?_, ?_, ?_, ?_⟩ <;> decide

/-- After `setFileName`, `setPrimPath` or `setFrame` with a value different from the held
one, the handle holds the prim looked up from the new attributes and the master-path cache
is not marked valid. -/
theorem setters_reset_master_flag (env : UsdEnv) (self : GusdGU_PackedUSD)
    (prim : GU_PrimPacked) :
    (∀ fileName, fileName ≠ self.m_fileName →
        (setFileName env self prim fileName).1.m_masterPathCacheValid = false ∧
        (setFileName env self prim fileName).1.m_usdPrim =
          env.GetPrim fileName (env.GetPrimPathAndEditFromVariantsPath self.m_primPath).1
            (env.GetPrimPathAndEditFromVariantsPath self.m_primPath).2 getUsdPrim_sev) ∧
      (∀ path, path ≠ self.m_primPath →
        (setPrimPath env self prim path).1.m_masterPathCacheValid = false ∧
        (setPrimPath env self prim path).1.m_usdPrim =
          env.GetPrim self.m_fileName (env.GetPrimPathAndEditFromVariantsPath path).1
            (env.GetPrimPathAndEditFromVariantsPath path).2 getUsdPrim_sev) ∧
      (∀ frame, frame ≠ self.m_frame →
        (setFrame env self prim frame).1.m_masterPathCacheValid = false ∧
        (setFrame env self prim frame).1.m_usdPrim =
          env.GetPrim self.m_fileName
            (env.GetPrimPathAndEditFromVariantsPath self.m_primPath).1
            (env.GetPrimPathAndEditFromVariantsPath self.m_primPath).2 getUsdPrim_sev) := by
  refine ⟨?_, ?_, ?_⟩
  · intro v hv
    simp only [setFileName, hv, ne_eq, not_false_eq_true, if_true, updateTransform,
      getUsdTransform, getUsdPrim, resetCaches, UsdPrim.empty]
    constructor <;> (simp; split <;> [rfl; (split <;> rfl)])
  · intro v hv
    simp only [setPrimPath, hv, ne_eq, not_false_eq_true, if_true, updateTransform,
      getUsdTransform, getUsdPrim, resetCaches, UsdPrim.empty]
    constructor <;> (simp; split <;> [rfl; (split <;> rfl)])
  · intro v hv
    simp only [setFrame, hv, ne_eq, not_false_eq_true, if_true, updateTransform,
      getUsdTransform, getUsdPrim, resetCaches, UsdPrim.empty]
    constructor <;> (simp; split <;> [rfl; (split <;> rfl)])

/-- C11 fails for `setPurposes`: `resetCaches` does not reset `m_masterPathCacheValid`, and
`setPurposes`, unlike the other three setters, does not go on to `getUsdPrim`.  On the
handle of the instance `/inst` with its master key cached, `setPurposes` with a different
purpose set drops the resolved prim, the transform flag, the bounding box and the
converted geometry but keeps the master-path cache marked valid, and the next
`getInstanceKey` is answered from that cache without a stage lookup; `setFrame` on the same
handle ends with the flag false.  On the handle whose prim path was since changed to
`/geo` by `update`, `getInstanceKey` after `setPurposes` still writes the key of the master
of `/inst`. -/
theorem C11_setPurposes_keeps_master_path_cache :
    (getInstanceKey demoUsdEnv (demoFresh "a.usd" "/inst") []).2.2.1.m_masterPathCacheValid
        = true ∧
      (getInstanceKey demoUsdEnv (demoFresh "a.usd" "/inst") []).2.2.1.m_masterPathCache
        = "0x1/__Master_1" ∧
      (getInstanceKey demoUsdEnv (demoFresh "a.usd" "/inst") []).2.2.1.m_purposes = 3 ∧
      (setPurposes (getInstanceKey demoUsdEnv (demoFresh "a.usd" "/inst") []).2.2.1
          (some demoPacked) 5).1.m_usdPrim = UsdPrim.empty ∧
      (setPurposes (getInstanceKey demoUsdEnv (demoFresh "a.usd" "/inst") []).2.2.1
          (some demoPacked) 5).1.m_transformCacheValid = false ∧
      (setPurposes (getInstanceKey demoUsdEnv (demoFresh "a.usd" "/inst") []).2.2.1
          (some demoPacked) 5).1.m_gtPrimCache = none ∧
      (setPurposes (getInstanceKey demoUsdEnv (demoFresh "a.usd" "/inst") []).2.2.1
          (some demoPacked) 5).1.boxCache = UT_BoundingBox.invalid ∧
      (setPurposes (getInstanceKey demoUsdEnv (demoFresh "a.usd" "/inst") []).2.2.1
          (some demoPacked) 5).1.m_masterPathCacheValid = true ∧
      (getInstanceKey demoUsdEnv
          (setPurposes (getInstanceKey demoUsdEnv (demoFresh "a.usd" "/inst") []).2.2.1
            (some demoPacked) 5).1 []).2.2.2 = [] ∧
      (setFrame demoUsdEnv (getInstanceKey demoUsdEnv (demoFresh "a.usd" "/inst") []).2.2.1
          demoPacked (UsdTimeCode.Numeric 2)).1.m_masterPathCacheValid = false ∧
      (setPurposes
          (update demoUsdEnv (getInstanceKey demoUsdEnv (demoFresh "a.usd" "/inst") []).2.2.1
            none [("usdPrimPath", UT_OptionEntry.S "/geo")]).1
          (some demoPacked) 5).1.m_primPath = ⟨"/geo"⟩ ∧
      (getInstanceKey demoUsdEnv
          (setPurposes
            (update demoUsdEnv
              (getInstanceKey demoUsdEnv (demoFresh "a.usd" "/inst") []).2.2.1
              none [("usdPrimPath", UT_OptionEntry.S "/geo")]).1
            (some demoPacked) 5).1 []).2.1 =
        [("f", UT_OptionEntry.S "a.usd"), ("n", UT_OptionEntry.S "0x1/__Master_1"),
          ("t", UT_OptionEntry.F 1), ("p", UT_OptionEntry.I 5)] := by
  refine ⟨?_, ?_, ?_, ?_, ?_, ?_, ?_, ?_, ?_, ?_, ?_, ?_⟩ <;> decide

/-! ### The constant-attribute pattern -/

theorem UT_String_tokenizeChars_ne_nil (sep : Char) (cs cur : List Char) :
    ∀ t ∈ UT_String_tokenizeChars sep cs cur, t ≠ [] := by
  induction cs generalizing cur with
  | nil =>
    intro t ht
    unfold UT_String_tokenizeChars at ht
    split at ht
    · simp at ht
    · simp at ht
      subst ht
      assumption
  | cons c cs ih =>
    intro t ht
    unfold UT_String_tokenizeChars at ht
    split at ht
    · split at ht
      · exact ih [] t ht
      · rcases List.mem_cons.1 ht with h | h
        · subst h
          assumption
        · exact ih [] t h
    · exact ih _ t ht

theorem UT_String_tokenize_ne_empty (pattern : String) :
    ∀ n ∈ UT_String_tokenize pattern, n ≠ "" := by
  intro n hn
  unfold UT_String_tokenize at hn
  obtain ⟨t, ht, rfl⟩ := List.mem_map.1 hn
  have := UT_String_tokenizeChars_ne_nil ' ' pattern.data [] t ht
  intro h
  apply this
  have := congrArg String.data h
  simpa using this

theorem UT_StringSet_insert_mem (set : UT_StringSet) (names : List String) (n : String) :
    n ∈ UT_StringSet_insert set names ↔ n ∈ set ∨ n ∈ names := by
  unfold UT_StringSet_insert
  induction names generalizing set with
  | nil => simp
  | cons a rest ih =>
    rw [List.foldl_cons, ih]
    by_cases ha : a ∈ set
    · simp only [ha, if_true, List.mem_cons]
      constructor
      · rintro (h | h)
        · exact Or.inl h
        · exact Or.inr (Or.inr h)
      · rintro (h | h | h)
        · exact Or.inl h
        · subst h
          exact Or.inl ha
        · exact Or.inr h
    · simp only [ha, if_false, List.mem_append, List.mem_singleton, List.mem_cons]
      tauto

theorem UT_StringSet_insert_nodup (set : UT_StringSet) (names : List String)
    (h : set.Nodup) : (UT_StringSet_insert set names).Nodup := by
  unfold UT_StringSet_insert
  induction names generalizing set with
  | nil => simpa using h
  | cons a rest ih =>
    rw [List.foldl_cons]
    apply ih
    by_cases ha : a ∈ set
    · simpa [ha] using h
    · simp only [ha, if_false]
      rw [List.nodup_append]
      refine ⟨h, List.nodup_singleton a, ?_⟩
      intro x hx hx2
      rw [List.mem_singleton] at hx2
      subst hx2
      exact ha hx

theorem lookup_filter_ne {β : Type} (l : List (String × β)) (name : String) :
    (l.filter (fun e => e.1 ≠ name)).lookup name = none := by
  induction l with
  | nil => rfl
  | cons e rest ih =>
    obtain ⟨k, v⟩ := e
    by_cases h : k = name
    · have hd : decide ((k, v).1 ≠ name) = false := by simp [h]
      rw [List.filter_cons_of_neg (by simp [h])]
      exact ih
    · rw [List.filter_cons_of_pos (by simp [h])]
      have h2 : (name == k) = false := by
        simp only [beq_eq_false_iff_ne, ne_eq]
        exact fun h3 => h h3.symm
      simp only [List.lookup, h2]
      exact ih

/-- What `Gusd_GetConstantAttribNames` does to the set and to the detail. -/
theorem Gusd_GetConstantAttribNames_spec (gdp : GU_Detail) (set : UT_StringSet) :
    (∀ n, n ∈ (Gusd_GetConstantAttribNames gdp set).2 ↔
        n ∈ set ∨ ∃ p, gdp.findDetailString theConstantAttribsName = some p ∧
          n ∈ UT_String_tokenize p) ∧
      (set.Nodup → (Gusd_GetConstantAttribNames gdp set).2.Nodup) ∧
      (Gusd_GetConstantAttribNames gdp set).1.findDetailString theConstantAttribsName
        = none := by
  unfold Gusd_GetConstantAttribNames
  cases h : gdp.findDetailString theConstantAttribsName with
  | none =>
    refine ⟨?_, ?_, ?_⟩
    · intro n
      simp
    · exact fun hn => hn
    · exact h
  | some p =>
    refine ⟨?_, ?_, ?_⟩
    · intro n
      simp only [UT_StringSet_insert_mem, Option.some.injEq, exists_eq_left']
    · exact fun hn => UT_StringSet_insert_nodup _ _ hn
    · exact lookup_filter_ne _ _

/-- What the loop of `Gusd_AccumulateConstantAttribs` does to the set and to the details. -/
theorem Gusd_AccumulateConstantAttribs_loop_spec (details : List GU_Detail)
    (set : UT_StringSet) :
    (∀ n, n ∈ (Gusd_AccumulateConstantAttribs_loop details set).2 ↔
        n ∈ set ∨ ∃ gdp ∈ details, ∃ p,
          gdp.findDetailString theConstantAttribsName = some p ∧
            n ∈ UT_String_tokenize p) ∧
      (set.Nodup → (Gusd_AccumulateConstantAttribs_loop details set).2.Nodup) ∧
      (∀ gdp ∈ (Gusd_AccumulateConstantAttribs_loop details set).1,
        gdp.findDetailString theConstantAttribsName = none) ∧
      (Gusd_AccumulateConstantAttribs_loop details set).1.length = details.length := by
  induction details generalizing set with
  | nil =>
    refine ⟨?_, fun h => h, ?_, rfl⟩
    · intro n
      simp [Gusd_AccumulateConstantAttribs_loop]
    · intro gdp hg
      simp [Gusd_AccumulateConstantAttribs_loop] at hg
  | cons gdp rest ih =>
    obtain ⟨g1, g2, g3⟩ := Gusd_GetConstantAttribNames_spec gdp set
    obtain ⟨i1, i2, i3, i4⟩ := ih (Gusd_GetConstantAttribNames gdp set).2
    refine ⟨?_, ?_, ?_, ?_⟩
    · intro n
      show n ∈ (Gusd_AccumulateConstantAttribs_loop rest
        (Gusd_GetConstantAttribNames gdp set).2).2 ↔ _
      rw [i1, g1]
      simp only [List.mem_cons, exists_eq_or_imp]
      rw [or_assoc]
    · intro hn
      exact i2 (g2 hn)
    · intro x hx
      have hx2 : x = (Gusd_GetConstantAttribNames gdp set).1 ∨
          x ∈ (Gusd_AccumulateConstantAttribs_loop rest
            (Gusd_GetConstantAttribNames gdp set).2).1 := List.mem_cons.1 hx
      rcases hx2 with h | h
      · rw [h]
        exact g3
      · exact i3 x h
    · show (Gusd_AccumulateConstantAttribs_loop rest
        (Gusd_GetConstantAttribNames gdp set).2).1.length + 1 = rest.length + 1
      rw [i4]

theorem String_intercalate_go_length (acc s : String) (l : List String) :
    acc.length ≤ (String.intercalate.go acc s l).length := by
  induction l generalizing acc with
  | nil => simp [String.intercalate.go]
  | cons a rest ih =>
    simp only [String.intercalate.go]
    refine le_trans ?_ (ih _)
    simp only [String.length_append]
    omega

theorem String_intercalate_eq_empty (s : String) (l : List String)
    (h : ∀ n ∈ l, n ≠ "") : String.intercalate s l = "" ↔ l = [] := by
  constructor
  · intro he
    cases l with
    | nil => rfl
    | cons a rest =>
      exfalso
      have ha : a ≠ "" := h a (List.mem_cons_self _ _)
      have hlen : 0 < a.length := by
        rcases Nat.eq_zero_or_pos a.length with h0 | h0
        · have hd : a.data = [] := List.length_eq_zero.1 h0
          exact absurd (String.ext hd) ha
        · exact h0
      have := String_intercalate_go_length a s rest
      have h2 : (String.intercalate s (a :: rest)).length = 0 := by
        rw [he]
        rfl
      simp only [String.intercalate] at h2
      omega
  · intro he
    subst he
    rfl

/-! ### The order of the concrete scene -/

theorem demoStrcmpLt_asymm (a b : List Char) :
    demoStrcmpLt a b = true → demoStrcmpLt b a = false := by
  induction a generalizing b with
  | nil =>
    cases b with
    | nil => simp [demoStrcmpLt]
    | cons y ys => simp [demoStrcmpLt]
  | cons x xs ih =>
    cases b with
    | nil => simp [demoStrcmpLt]
    | cons y ys =>
      simp only [demoStrcmpLt]
      intro h
      split at h
      · rename_i h1
        have h2 : ¬ y.toNat < x.toNat := by omega
        simp [h2, h1]
      · rename_i h1
        split at h
        · simp at h
        · rename_i h2
          simp only [h1, h2, if_false]
          exact ih ys h

theorem demoSortLE_total (a b : String) : demoSortLE a b = true ∨ demoSortLE b a = true := by
  unfold demoSortLE
  cases h : demoStrcmpLt b.data a.data with
  | false => exact Or.inl rfl
  | true =>
    right
    rw [demoStrcmpLt_asymm _ _ h]
    rfl

theorem demoStrcmpLt_negtrans (c b a : List Char) :
    demoStrcmpLt c a = true → demoStrcmpLt c b = true ∨ demoStrcmpLt b a = true := by
  induction c generalizing b a with
  | nil =>
    cases a with
    | nil => simp [demoStrcmpLt]
    | cons x xs =>
      cases b with
      | nil => simp [demoStrcmpLt]
      | cons y ys => simp [demoStrcmpLt]
  | cons z zs ih =>
    cases a with
    | nil => simp [demoStrcmpLt]
    | cons x xs =>
      cases b with
      | nil => simp [demoStrcmpLt]
      | cons y ys =>
        simp only [demoStrcmpLt]
        intro h
        by_cases h1 : z.toNat < y.toNat
        · simp [h1]
        · by_cases h2 : y.toNat < x.toNat
          · simp [h2]
          · by_cases h3 : z.toNat < x.toNat
            · exfalso
              omega
            · simp only [h3, if_false] at h
              by_cases h4 : x.toNat < z.toNat
              · simp [h4] at h
              · simp only [h4, if_false] at h
                have h5 : ¬ y.toNat < z.toNat := by omega
                have h6 : ¬ x.toNat < y.toNat := by omega
                simp only [h1, h2, h5, h6, if_false]
                exact ih ys xs h

theorem demoSortLE_trans (a b c : String) :
    demoSortLE a b = true → demoSortLE b c = true → demoSortLE a c = true := by
  unfold demoSortLE
  intro h1 h2
  cases h : demoStrcmpLt c.data a.data with
  | false => rfl
  | true =>
    rcases demoStrcmpLt_negtrans c.data b.data a.data h with h3 | h3
    · rw [h3] at h2
      exact absurd h2 (by decide)
    · rw [h3] at h1
      exact absurd h1 (by decide)

/-! ### `unpackPrim` and the constant-attribute pattern -/

theorem lookup_put {β : Type} (l : List (String × β)) (name : String) (value : β) :
    (if (l.lookup name).isSome then l.map (fun e => if e.1 = name then (name, value) else e)
      else l ++ [(name, value)]).lookup name = some value := by
  induction l with
  | nil => simp [List.lookup]
  | cons e rest ih =>
    obtain ⟨k, v⟩ := e
    by_cases h : name = k
    · subst h
      simp [List.lookup]
    · have h2 : (name == k) = false := by simpa using h
      have h3 : ¬ k = name := fun h4 => h h4.symm
      simp only [List.lookup, h2, List.map_cons, h3, if_false, List.cons_append]
      by_cases h5 : (List.lookup name rest).isSome = true
      · simp only [h5, if_true] at ih ⊢
        simp only [List.lookup, h2]
        exact ih
      · simp only [h5, if_false] at ih ⊢
        simp only [List.lookup, h2]
        exact ih

theorem setDetailString_find (gdp : GU_Detail) (name value : String) :
    (gdp.setDetailString name value).findDetailString name = some value := by
  unfold GU_Detail.setDetailString GU_Detail.findDetailString
  exact lookup_put gdp.detailStrings name value

theorem putStringTuple_detailStrings (gdp : GU_Detail) (name : String) (a : GA_ATIString) :
    (gdp.putStringTuple name a).detailStrings = gdp.detailStrings := rfl

theorem addStringTuple_detailStrings (validName : String → Bool) (gdp : GU_Detail)
    (name : String) :
    (gdp.addStringTuple validName name).1.detailStrings = gdp.detailStrings := by
  unfold GU_Detail.addStringTuple
  split
  · rfl
  · split <;> rfl

theorem setStringRange_detailStrings (gdp : GU_Detail) (name : String)
    (range : List GA_Offset) (str : String) :
    (gdp.setStringRange name range str).detailStrings = gdp.detailStrings := by
  unfold GU_Detail.setStringRange
  split <;> rfl

theorem Gusd_RecordVisibilityAttrib_detailStrings (uenv : UnpackEnv) (destgdp : GU_Detail)
    (primrange : List GA_Offset) (usdprim : UsdPrim) (timecode : UsdTimeCode) :
    (Gusd_RecordVisibilityAttrib uenv destgdp primrange usdprim timecode).detailStrings
      = destgdp.detailStrings := by
  unfold Gusd_RecordVisibilityAttrib
  simp only
  split
  · rfl
  · have h := addStringTuple_detailStrings uenv.validAttribName destgdp "usdvisibility"
    split
    · rfl
    · rename_i gdp1 attrib heq
      rw [heq] at h
      rw [setStringRange_detailStrings]
      exact h

theorem Gusd_RecordXformAttrib_detailStrings (uenv : UnpackEnv) (destgdp result : GU_Detail)
    (ptrange : List GA_Offset) (xform : UT_Matrix4D)
    (h : Gusd_RecordXformAttrib uenv destgdp ptrange xform = some result) :
    result.detailStrings = destgdp.detailStrings := by
  unfold Gusd_RecordXformAttrib at h
  simp only at h
  split at h
  · exact absurd h (by simp)
  · simp only [Option.some.injEq] at h
    rw [← h]

/-- The last three blocks of `unpackPrim` leave on the destination the accumulated
pattern, when there is one. -/
theorem unpackPrim_generic_constantAttribs (uenv : UnpackEnv) (self : GusdGU_PackedUSD)
    (destgdp : GU_Detail) (srcgdp : Option GU_Detail) (srcprimoff : GA_Offset)
    (prim : UsdPrim) (xform : UT_Matrix4D) (rparms : GT_RefineParms) (gtPrim : Nat)
    (result : GU_Detail)
    (h : unpackPrim_generic uenv self destgdp srcgdp srcprimoff prim xform rparms gtPrim
      = some result)
    (hne : (Gusd_AccumulateConstantAttribs uenv.sortLE destgdp
      (unpackPrim_details uenv prim xform rparms gtPrim)).1 ≠ "") :
    result.findDetailString theConstantAttribsName =
      some (Gusd_AccumulateConstantAttribs uenv.sortLE destgdp
        (unpackPrim_details uenv prim xform rparms gtPrim)).1 := by
  unfold unpackPrim_generic at h
  simp only at h
  split at h
  · exact absurd h (by simp)
  · split at h
    · exact absurd h (by simp)
    · rename_i destgdp2 _ destgdp3 _
      split at h
      · exact absurd h (by simp)
      · rename_i destgdp5 h5
        simp only [Option.some.injEq] at h
        rw [← h]
        unfold unpackPrim_visibility
        have hx : destgdp5.detailStrings =
            (unpackPrim_constantAttribs (Gusd_AccumulateConstantAttribs uenv.sortLE destgdp
              (unpackPrim_details uenv prim xform rparms gtPrim)).1 destgdp3).detailStrings := by
          unfold unpackPrim_xform at h5
          split at h5
          · exact Gusd_RecordXformAttrib_detailStrings _ _ _ _ _ h5
          · simp only [Option.some.injEq] at h5
            rw [← h5]
        have hfind : destgdp5.findDetailString theConstantAttribsName =
            some (Gusd_AccumulateConstantAttribs uenv.sortLE destgdp
              (unpackPrim_details uenv prim xform rparms gtPrim)).1 := by
          unfold GU_Detail.findDetailString
          rw [hx]
          unfold unpackPrim_constantAttribs
          rw [if_pos hne]
          exact setDetailString_find _ _ _
        split
        · unfold GU_Detail.findDetailString
          rw [Gusd_RecordVisibilityAttrib_detailStrings]
          exact hfind
        · exact hfind

/-- C19: `Gusd_AccumulateConstantAttribs` returns the names of a list joined by single
blanks, where the list is sorted by the order of `UT_StringArray::sort()` (any total and
transitive order), holds no name twice, and holds exactly the names that are tokens of the
"usdconfigconstantattribs" pattern of the destination or of one of the details; the
pattern returned is empty iff there is no such name; afterwards neither the destination
nor any detail has the attribute; and `unpackPrim` ends with the destination holding the
attribute with the pattern returned, when that is not empty. -/
theorem C19_accumulate_constant_attribs (sortLE : String → String → Bool)
    (htotal : ∀ a b, sortLE a b = true ∨ sortLE b a = true)
    (htrans : ∀ a b c, sortLE a b = true → sortLE b c = true → sortLE a c = true)
    (destgdp : GU_Detail) (details : List GU_Detail) :
    (∃ names : List String,
        (Gusd_AccumulateConstantAttribs sortLE destgdp details).1
          = String.intercalate " " names ∧
        names.Sorted (fun a b => sortLE a b = true) ∧
        names.Nodup ∧
        (∀ n, n ∈ names ↔
          (∃ p, destgdp.findDetailString theConstantAttribsName = some p ∧
            n ∈ UT_String_tokenize p) ∨
          (∃ gdp ∈ details, ∃ p, gdp.findDetailString theConstantAttribsName = some p ∧
            n ∈ UT_String_tokenize p)) ∧
        ((Gusd_AccumulateConstantAttribs sortLE destgdp details).1 = "" ↔ names = [])) ∧
      (Gusd_AccumulateConstantAttribs sortLE destgdp details).2.1.findDetailString
        theConstantAttribsName = none ∧
      (∀ gdp ∈ (Gusd_AccumulateConstantAttribs sortLE destgdp details).2.2,
        gdp.findDetailString theConstantAttribsName = none) ∧
      (Gusd_AccumulateConstantAttribs sortLE destgdp details).2.2.length = details.length ∧
      (∀ (uenv : UnpackEnv) (self : GusdGU_PackedUSD) (dest : GU_Detail)
          (srcgdp : Option GU_Detail) (srcprimoff : GA_Offset) (prim : UsdPrim)
          (xform : UT_Matrix4D) (rparms : GT_RefineParms) (gtPrim : Nat) (result : GU_Detail),
        unpackPrim_generic uenv self dest srcgdp srcprimoff prim xform rparms gtPrim
            = some result →
        (Gusd_AccumulateConstantAttribs uenv.sortLE dest
          (unpackPrim_details uenv prim xform rparms gtPrim)).1 ≠ "" →
        result.findDetailString theConstantAttribsName =
          some (Gusd_AccumulateConstantAttribs uenv.sortLE dest
            (unpackPrim_details uenv prim xform rparms gtPrim)).1) := by
  obtain ⟨g1, g2, g3⟩ := Gusd_GetConstantAttribNames_spec destgdp []
  obtain ⟨l1, l2, l3, l4⟩ :=
    Gusd_AccumulateConstantAttribs_loop_spec details (Gusd_GetConstantAttribNames destgdp []).2
  have hmem : ∀ n, n ∈ (Gusd_AccumulateConstantAttribs_loop details
        (Gusd_GetConstantAttribNames destgdp []).2).2 ↔
      (∃ p, destgdp.findDetailString theConstantAttribsName = some p ∧
        n ∈ UT_String_tokenize p) ∨
      (∃ gdp ∈ details, ∃ p, gdp.findDetailString theConstantAttribsName = some p ∧
        n ∈ UT_String_tokenize p) := by
    intro n
    rw [l1, g1]
    simp
  haveI : IsTotal String (fun a b => sortLE a b = true) := ⟨htotal⟩
  haveI : IsTrans String (fun a b => sortLE a b = true) := ⟨htrans⟩
  have hperm := List.perm_insertionSort (fun a b => sortLE a b = true)
    (Gusd_AccumulateConstantAttribs_loop details (Gusd_GetConstantAttribNames destgdp []).2).2
  have hpat : (Gusd_AccumulateConstantAttribs sortLE destgdp details).1 =
      String.intercalate " " (List.insertionSort (fun a b => sortLE a b = true)
        (Gusd_AccumulateConstantAttribs_loop details
          (Gusd_GetConstantAttribNames destgdp []).2).2) := by
    unfold Gusd_AccumulateConstantAttribs
    simp only
    split
    · rfl
    · rename_i hnil
      have hnil2 : (Gusd_AccumulateConstantAttribs_loop details
          (Gusd_GetConstantAttribNames destgdp []).2).2 = [] := by
        simpa using hnil
      rw [hnil2]
      rfl
  have hmem2 : ∀ n, n ∈ List.insertionSort (fun a b => sortLE a b = true)
        (Gusd_AccumulateConstantAttribs_loop details
          (Gusd_GetConstantAttribNames destgdp []).2).2 ↔
      (∃ p, destgdp.findDetailString theConstantAttribsName = some p ∧
        n ∈ UT_String_tokenize p) ∨
      (∃ gdp ∈ details, ∃ p, gdp.findDetailString theConstantAttribsName = some p ∧
        n ∈ UT_String_tokenize p) := by
    intro n
    rw [hperm.mem_iff]
    exact hmem n
  refine ⟨⟨_, hpat, List.sorted_insertionSort _ _, ?_, hmem2, ?_⟩, g3, l3, l4, ?_⟩
  · exact hperm.nodup_iff.2 (l2 (g2 List.nodup_nil))
  · rw [hpat]
    apply String_intercalate_eq_empty
    intro n hn
    rcases (hmem2 n).1 hn with ⟨p, _, hp⟩ | ⟨_, _, p, _, hp⟩
    · exact UT_String_tokenize_ne_empty p n hp
    · exact UT_String_tokenize_ne_empty p n hp
  · intro uenv self dest srcgdp srcprimoff prim xform rparms gtPrim result h hne
    exact unpackPrim_generic_constantAttribs uenv self dest srcgdp srcprimoff prim xform
      rparms gtPrim result h hne

theorem C19_accumulate_constant_attribs_witness :
    (Gusd_AccumulateConstantAttribs demoSortLE demoDest
        (demoUnpackEnv.makeGEO 1 none GT_RefineParms.init)).1 = "Alpha Cd P width" ∧
      (Gusd_AccumulateConstantAttribs demoSortLE demoDest
        (demoUnpackEnv.makeGEO 1 none GT_RefineParms.init)).2.1.findDetailString
          theConstantAttribsName = none ∧
      (unpackPrim_generic demoUnpackEnv (demoFresh "a.usd" "/geo") demoDest none 0
          (demoPrim "/geo") 1 GT_RefineParms.init 1).isSome = true ∧
      ∀ result,
        unpackPrim_generic demoUnpackEnv (demoFresh "a.usd" "/geo") demoDest none 0
          (demoPrim "/geo") 1 GT_RefineParms.init 1 = some result →
        result.findDetailString theConstantAttribsName = some "Alpha Cd P width" :=
  ⟨by decide,
    (C19_accumulate_constant_attribs demoSortLE demoSortLE_total demoSortLE_trans demoDest
      (demoUnpackEnv.makeGEO 1 none GT_RefineParms.init)).2.1,
    by decide,
    fun result h =>
      (C19_accumulate_constant_attribs demoSortLE demoSortLE_total demoSortLE_trans demoDest
        (demoUnpackEnv.makeGEO 1 none GT_RefineParms.init)).2.2.2.2 demoUnpackEnv
        (demoFresh "a.usd" "/geo") demoDest none 0 (demoPrim "/geo") 1 GT_RefineParms.init 1
        result h (by decide)⟩

theorem lookup_put_same {α β : Type} [DecidableEq α] (l : List (α × β)) (key : α)
    (value : β) :
    (if (l.lookup key).isSome then l.map (fun e => if e.1 = key then (key, value) else e)
      else l ++ [(key, value)]).lookup key = some value := by
  induction l with
  | nil => simp [List.lookup]
  | cons e rest ih =>
    obtain ⟨k, v⟩ := e
    by_cases h : key = k
    · subst h
      simp [List.lookup]
    · have h2 : (key == k) = false := by simpa using h
      have h3 : ¬ k = key := fun h4 => h h4.symm
      simp only [List.lookup, h2, List.map_cons, h3, if_false, List.cons_append]
      by_cases h5 : (List.lookup key rest).isSome = true
      · simp only [h5, if_true] at ih ⊢
        simp only [List.lookup, h2]
        exact ih
      · simp only [h5, if_false] at ih ⊢
        simp only [List.lookup, h2]
        exact ih

theorem lookup_map_put_other {α β : Type} [DecidableEq α] (l : List (α × β))
    (key other : α) (value : β) (hne : other ≠ key) :
    (l.map (fun e => if e.1 = key then (key, value) else e)).lookup other
      = l.lookup other := by
  induction l with
  | nil => rfl
  | cons e rest ih =>
    obtain ⟨k, v⟩ := e
    have h1 : (other == key) = false := by simpa using hne
    show List.lookup other ((if k = key then (key, value) else (k, v)) ::
      rest.map (fun e => if e.1 = key then (key, value) else e)) = _
    by_cases hk : k = key
    · rw [if_pos hk]
      have h2 : (other == k) = false := by
        rw [hk]
        exact h1
      simp only [List.lookup, h1, h2]
      exact ih
    · rw [if_neg hk]
      cases h3 : (other == k) with
      | true => simp only [List.lookup, h3]
      | false =>
        simp only [List.lookup, h3]
        exact ih

theorem lookup_append_put_other {α β : Type} [DecidableEq α] (l : List (α × β))
    (key other : α) (value : β) (hne : other ≠ key) :
    (l ++ [(key, value)]).lookup other = l.lookup other := by
  induction l with
  | nil =>
    have h2 : (other == key) = false := by simpa using hne
    simp [List.lookup, h2]
  | cons e rest ih =>
    obtain ⟨k, v⟩ := e
    cases h3 : (other == k) with
    | true => simp only [List.cons_append, List.lookup, h3]
    | false =>
      simp only [List.cons_append, List.lookup, h3]
      exact ih

theorem lookup_put_other {α β : Type} [DecidableEq α] (l : List (α × β)) (key other : α)
    (value : β) (hne : other ≠ key) :
    (if (l.lookup key).isSome then l.map (fun e => if e.1 = key then (key, value) else e)
      else l ++ [(key, value)]).lookup other = l.lookup other := by
  split
  · exact lookup_map_put_other l key other value hne
  · exact lookup_append_put_other l key other value hne

theorem GT_RefineParms_find_set_same (parms : GT_RefineParms) (key : GT_RefineKey)
    (value : GT_RefineValue) : (parms.set key value).find key = some value := by
  unfold GT_RefineParms.set GT_RefineParms.find
  have h := lookup_put_same parms.settings key value
  split
  · rename_i hs
    rw [if_pos hs] at h
    exact h
  · rename_i hs
    rw [if_neg hs] at h
    exact h

theorem GT_RefineParms_find_set_other (parms : GT_RefineParms) (key other : GT_RefineKey)
    (value : GT_RefineValue) (hne : other ≠ key) :
    (parms.set key value).find other = parms.find other := by
  unfold GT_RefineParms.set GT_RefineParms.find
  have h := lookup_put_other parms.settings key other value hne
  split
  · rename_i hs
    rw [if_pos hs] at h
    exact h
  · rename_i hs
    rw [if_neg hs] at h
    exact h

/-! ### `unpackGeometry` -/

/-- The settings of the parameters built by `unpackGeometry`, read through the three
`set` calls that are always made. -/
theorem unpackGeometry_rparms_find (primvarPattern : Option String) (translateSTtoUV : Bool)
    (nonTransformingPrimvarPattern : String) (refineParms : Option GT_RefineParms)
    (key : GT_RefineKey)
    (hk : key ≠ GT_RefineKey.GUSD_REFINE_PRIMVARPATTERN ∨ primvarPattern = none) :
    (unpackGeometry_rparms primvarPattern translateSTtoUV nonTransformingPrimvarPattern
      refineParms).find key =
    ((((refineParms.getD GT_RefineParms.init).setAllowPolySoup false).set
        GT_RefineKey.GUSD_REFINE_NONTRANSFORMINGPATTERN
        (GT_RefineValue.S nonTransformingPrimvarPattern)).set
          GT_RefineKey.GUSD_REFINE_TRANSLATESTTOUV
          (GT_RefineValue.B translateSTtoUV)).find key := by
  cases primvarPattern with
  | none => cases refineParms <;> rfl
  | some pattern =>
    rcases hk with hk | hk
    · cases refineParms with
      | none => exact GT_RefineParms_find_set_other _ _ _ _ hk
      | some parms => exact GT_RefineParms_find_set_other _ _ _ _ hk
    · exact absurd hk (by simp)

/-- C20: the refine parameters `unpackGeometry` hands to `unpackPrim` have polygon soups
switched off, hold the non-transforming pattern and the ST-to-UV flag given as arguments,
hold the primvar pattern given (the caller's setting when none is given), and agree with
the caller's parameters (with the empty parameters when the caller gives none) on every
other setting; and `unpackGeometry` on a resolvable prim is `unpackPrim` called with these
parameters, the resolved prim, the prim path of the handle and the transform. -/
theorem C20_unpackGeometry_forces_polysoup_off (primvarPattern : Option String)
    (translateSTtoUV : Bool) (nonTransformingPrimvarPattern : String)
    (refineParms : Option GT_RefineParms) :
    GT_RefineParms.getAllowPolySoup (some (unpackGeometry_rparms primvarPattern
        translateSTtoUV nonTransformingPrimvarPattern refineParms)) = false ∧
      (unpackGeometry_rparms primvarPattern translateSTtoUV nonTransformingPrimvarPattern
        refineParms).importS GT_RefineKey.GUSD_REFINE_NONTRANSFORMINGPATTERN
          = some nonTransformingPrimvarPattern ∧
      (unpackGeometry_rparms primvarPattern translateSTtoUV nonTransformingPrimvarPattern
        refineParms).find GT_RefineKey.GUSD_REFINE_TRANSLATESTTOUV
          = some (GT_RefineValue.B translateSTtoUV) ∧
      (∀ pattern, primvarPattern = some pattern →
        (unpackGeometry_rparms primvarPattern translateSTtoUV nonTransformingPrimvarPattern
          refineParms).importS GT_RefineKey.GUSD_REFINE_PRIMVARPATTERN = some pattern) ∧
      (primvarPattern = none →
        (unpackGeometry_rparms primvarPattern translateSTtoUV nonTransformingPrimvarPattern
          refineParms).find GT_RefineKey.GUSD_REFINE_PRIMVARPATTERN =
          (refineParms.getD GT_RefineParms.init).find
            GT_RefineKey.GUSD_REFINE_PRIMVARPATTERN) ∧
      (∀ key, key ≠ GT_RefineKey.allowPolySoup →
        key ≠ GT_RefineKey.GUSD_REFINE_NONTRANSFORMINGPATTERN →
        key ≠ GT_RefineKey.GUSD_REFINE_TRANSLATESTTOUV →
        key ≠ GT_RefineKey.GUSD_REFINE_PRIMVARPATTERN →
        (unpackGeometry_rparms primvarPattern translateSTtoUV nonTransformingPrimvarPattern
          refineParms).find key =
          (refineParms.getD GT_RefineParms.init).find key) ∧
      (∀ (uenv : UnpackEnv) (env : UsdEnv) (self : GusdGU_PackedUSD) (destgdp : GU_Detail)
          (srcgdp : Option GU_Detail) (srcprimoff : GA_Offset) (transform : UT_Matrix4D),
        (getUsdPrim env self getUsdPrim_sev).1.valid = true →
        unpackGeometry uenv env self destgdp srcgdp srcprimoff primvarPattern translateSTtoUV
            nonTransformingPrimvarPattern transform refineParms =
          (unpackPrim uenv env (getUsdPrim env self getUsdPrim_sev).2.1 destgdp srcgdp
              srcprimoff (getUsdPrim env self getUsdPrim_sev).1
              (getUsdPrim env self getUsdPrim_sev).2.1.m_primPath transform
              (unpackGeometry_rparms primvarPattern translateSTtoUV
                nonTransformingPrimvarPattern refineParms)).map
            (fun r => (r.1, r.2.1, (getUsdPrim env self getUsdPrim_sev).2.1,
              (getUsdPrim env self getUsdPrim_sev).2.2 ++ r.2.2))) := by
  have hfind := unpackGeometry_rparms_find primvarPattern translateSTtoUV
    nonTransformingPrimvarPattern refineParms
  refine ⟨?_, ?_, ?_, ?_, ?_, ?_, ?_⟩
  · unfold GT_RefineParms.getAllowPolySoup GT_RefineParms.getBool
    simp only
    rw [hfind _ (Or.inl (by decide)),
      GT_RefineParms_find_set_other _ _ _ _ (by decide),
      GT_RefineParms_find_set_other _ _ _ _ (by decide)]
    unfold GT_RefineParms.setAllowPolySoup
    rw [GT_RefineParms_find_set_same]
  · unfold GT_RefineParms.importS
    rw [hfind _ (Or.inl (by decide)),
      GT_RefineParms_find_set_other _ _ _ _ (by decide),
      GT_RefineParms_find_set_same]
  · rw [hfind _ (Or.inl (by decide)), GT_RefineParms_find_set_same]
  · intro pattern hp
    subst hp
    unfold GT_RefineParms.importS unpackGeometry_rparms
    simp only
    rw [GT_RefineParms_find_set_same]
  · intro hp
    rw [hfind _ (Or.inr hp),
      GT_RefineParms_find_set_other _ _ _ _ (by decide),
      GT_RefineParms_find_set_other _ _ _ _ (by decide)]
    unfold GT_RefineParms.setAllowPolySoup
    rw [GT_RefineParms_find_set_other _ _ _ _ (by decide)]
  · intro key h1 h2 h3 h4
    rw [hfind _ (Or.inl h4),
      GT_RefineParms_find_set_other _ _ _ _ h3,
      GT_RefineParms_find_set_other _ _ _ _ h2]
    unfold GT_RefineParms.setAllowPolySoup
    rw [GT_RefineParms_find_set_other _ _ _ _ h1]
  · intro uenv env self destgdp srcgdp srcprimoff transform hvalid
    unfold unpackGeometry
    generalize getUsdPrim env self getUsdPrim_sev = r at hvalid ⊢
    obtain ⟨usdPrim, self1, ev⟩ := r
    simp only at hvalid
    simp only [hvalid, not_true_eq_false, if_false]
    cases unpackPrim uenv env self1 destgdp srcgdp srcprimoff usdPrim self1.m_primPath
        transform (unpackGeometry_rparms primvarPattern translateSTtoUV
          nonTransformingPrimvarPattern refineParms) with
    | none => rfl
    | some res =>
      obtain ⟨ok, destgdp1, ev1⟩ := res
      rfl

theorem C20_unpackGeometry_forces_polysoup_off_witness :
    GT_RefineParms.getAllowPolySoup (some
        { settings := [(GT_RefineKey.allowPolySoup, GT_RefineValue.B true),
                       (GT_RefineKey.other "coarse", GT_RefineValue.I 1),
                       (GT_RefineKey.GUSD_REFINE_PRIMVARPATTERN, GT_RefineValue.S "Cd")] })
        = true ∧
      (unpackGeometry_rparms (some "*") true "rest" (some
        { settings := [(GT_RefineKey.allowPolySoup, GT_RefineValue.B true),
                       (GT_RefineKey.other "coarse", GT_RefineValue.I 1),
                       (GT_RefineKey.GUSD_REFINE_PRIMVARPATTERN, GT_RefineValue.S "Cd")] })
        ).importS GT_RefineKey.GUSD_REFINE_PRIMVARPATTERN = some "*" ∧
      (unpackGeometry_rparms (some "*") true "rest" (some
        { settings := [(GT_RefineKey.allowPolySoup, GT_RefineValue.B true),
                       (GT_RefineKey.other "coarse", GT_RefineValue.I 1),
                       (GT_RefineKey.GUSD_REFINE_PRIMVARPATTERN, GT_RefineValue.S "Cd")] })
        ).find (GT_RefineKey.other "coarse") = some (GT_RefineValue.I 1) ∧
      (unpackGeometry_rparms none true "rest" (some
        { settings := [(GT_RefineKey.allowPolySoup, GT_RefineValue.B true),
                       (GT_RefineKey.other "coarse", GT_RefineValue.I 1),
                       (GT_RefineKey.GUSD_REFINE_PRIMVARPATTERN, GT_RefineValue.S "Cd")] })
        ).find GT_RefineKey.GUSD_REFINE_PRIMVARPATTERN = some (GT_RefineValue.S "Cd") ∧
      unpackGeometry demoUnpackEnv demoUsdEnv (demoFresh "a.usd" "/geo") demoDest none 0
          (some "*") true "rest" 1 none =
        (unpackPrim demoUnpackEnv demoUsdEnv
            (getUsdPrim demoUsdEnv (demoFresh "a.usd" "/geo") getUsdPrim_sev).2.1 demoDest none
            0 (getUsdPrim demoUsdEnv (demoFresh "a.usd" "/geo") getUsdPrim_sev).1
            (getUsdPrim demoUsdEnv (demoFresh "a.usd" "/geo") getUsdPrim_sev).2.1.m_primPath 1
            (unpackGeometry_rparms (some "*") true "rest" none)).map
          (fun r => (r.1, r.2.1,
            (getUsdPrim demoUsdEnv (demoFresh "a.usd" "/geo") getUsdPrim_sev).2.1,
            (getUsdPrim demoUsdEnv (demoFresh "a.usd" "/geo") getUsdPrim_sev).2.2 ++ r.2.2)) :=
  ⟨by decide,
    (C20_unpackGeometry_forces_polysoup_off (some "*") true "rest" (some
      { settings := [(GT_RefineKey.allowPolySoup, GT_RefineValue.B true),
                     (GT_RefineKey.other "coarse", GT_RefineValue.I 1),
                     (GT_RefineKey.GUSD_REFINE_PRIMVARPATTERN, GT_RefineValue.S "Cd")] })
      ).2.2.2.1 "*" rfl,
    (C20_unpackGeometry_forces_polysoup_off (some "*") true "rest" (some
      { settings := [(GT_RefineKey.allowPolySoup, GT_RefineValue.B true),
                     (GT_RefineKey.other "coarse", GT_RefineValue.I 1),
                     (GT_RefineKey.GUSD_REFINE_PRIMVARPATTERN, GT_RefineValue.S "Cd")] })
      ).2.2.2.2.2.1 (GT_RefineKey.other "coarse") (by decide) (by decide) (by decide)
        (by decide),
    (C20_unpackGeometry_forces_polysoup_off none true "rest" (some
      { settings := [(GT_RefineKey.allowPolySoup, GT_RefineValue.B true),
                     (GT_RefineKey.other "coarse", GT_RefineValue.I 1),
                     (GT_RefineKey.GUSD_REFINE_PRIMVARPATTERN, GT_RefineValue.S "Cd")] })
      ).2.2.2.2.1 rfl,
    (C20_unpackGeometry_forces_polysoup_off (some "*") true "rest" none).2.2.2.2.2.2
      demoUnpackEnv demoUsdEnv (demoFresh "a.usd" "/geo") demoDest none 0 1 (by decide)⟩

/-! ### `unpackPrim`: a prim that cannot be converted -/

/-- C21: when `GusdPrimWrapper::defineForRead` gives no primitive, `unpackPrim` returns
false and leaves the destination as it was; it logs the diagnostic "Can't convert prim for
unpack" when the type name of the prim is neither `PxHairman` nor `PxProcArgs`, and logs
nothing when it is one of the two. -/
theorem C21_unconvertible_prim_policy (uenv : UnpackEnv) (env : UsdEnv)
    (self : GusdGU_PackedUSD) (destgdp : GU_Detail) (srcgdp : Option GU_Detail)
    (srcprimoff : GA_Offset) (prim : UsdPrim) (primPath : SdfPath) (xform : UT_Matrix4D)
    (rparms : GT_RefineParms)
    (hnone : uenv.defineForRead prim self.m_frame self.m_purposes = none) :
    ∃ ev, unpackPrim uenv env self destgdp srcgdp srcprimoff prim primPath xform rparms
        = some (false, destgdp, ev) ∧
      (ev ≠ [] ↔ (prim.typeName ≠ "PxHairman" ∧ prim.typeName ≠ "PxProcArgs")) ∧
      ((prim.typeName ≠ "PxHairman" ∧ prim.typeName ≠ "PxProcArgs") →
        ev = [Event.tfWarn ("Can't convert prim for unpack. " ++ prim.path.text
          ++ ". Type = " ++ prim.typeName ++ ".")]) := by
  unfold unpackPrim
  rw [hnone]
  simp only
  by_cases h : prim.typeName ≠ "PxHairman" ∧ prim.typeName ≠ "PxProcArgs"
  · rw [if_pos h]
    exact ⟨_, rfl, by simp [h], fun _ => rfl⟩
  · rw [if_neg h]
    exact ⟨[], rfl, by simp [h], fun h2 => absurd h2 h⟩

theorem C21_unconvertible_prim_policy_witness :
    unpackPrim demoUnpackEnv demoUsdEnv (demoFresh "a.usd" "/x") demoDest none 0
        { demoPrim "/x" with typeName := "Unknown" } ⟨"/x"⟩ 1 GT_RefineParms.init
        = some (false, demoDest,
          [Event.tfWarn "Can't convert prim for unpack. /x. Type = Unknown."]) ∧
      unpackPrim demoUnpackEnv demoUsdEnv (demoFresh "a.usd" "/x") demoDest none 0
        { demoPrim "/x" with typeName := "PxHairman" } ⟨"/x"⟩ 1 GT_RefineParms.init
        = some (false, demoDest, []) := by
  obtain ⟨ev1, h1, _, h1c⟩ := C21_unconvertible_prim_policy demoUnpackEnv demoUsdEnv
    (demoFresh "a.usd" "/x") demoDest none 0 { demoPrim "/x" with typeName := "Unknown" }
    ⟨"/x"⟩ 1 GT_RefineParms.init (by decide)
  obtain ⟨ev2, h2, h2b, _⟩ := C21_unconvertible_prim_policy demoUnpackEnv demoUsdEnv
    (demoFresh "a.usd" "/x") demoDest none 0 { demoPrim "/x" with typeName := "PxHairman" }
    ⟨"/x"⟩ 1 GT_RefineParms.init (by decide)
  have e1 := h1c (by decide)
  have e2 : ev2 = [] := by
    by_contra hne
    exact absurd (h2b.1 hne) (by decide)
  rw [h1, h2, e1, e2]
  exact ⟨rfl, rfl⟩

/-! ### The packed primitive: copies -/

/-- C25 as stated fails: the copy of a handle that holds a resolved prim, a valid transform
cache and a valid master-path cache holds them too; only the converted primitive is
dropped. -/
theorem C25_copy_keeps_resolved_prim_and_flags :
    demoHandle.m_usdPrim.valid = true ∧
      demoHandle.m_gtPrimCache = some 7 ∧
      (copy demoHandle).m_usdPrim.valid = true ∧
      (copy demoHandle).m_transformCacheValid = true ∧
      (copy demoHandle).m_masterPathCacheValid = true ∧
      (copy demoHandle).m_gtPrimCache = none := by
  decide

/-- C25, amended: the handle made by the copy constructor, and so by `copy()`, has the
identifying attributes of the source, the resolved prim of the source, its transform cache
and master-path cache with their validity flags, and no converted primitive. -/
theorem C25_copy_copies_caches_except_gt (src : GusdGU_PackedUSD) :
    copy src = initCopy src ∧
      (copy src).m_fileName = src.m_fileName ∧
      (copy src).m_altFileName = src.m_altFileName ∧
      (copy src).m_primPath = src.m_primPath ∧
      (copy src).m_srcPrimPath = src.m_srcPrimPath ∧
      (copy src).m_index = src.m_index ∧
      (copy src).m_frame = src.m_frame ∧
      (copy src).m_purposes = src.m_purposes ∧
      (copy src).m_usdPrim = src.m_usdPrim ∧
      (copy src).m_transformCacheValid = src.m_transformCacheValid ∧
      (copy src).m_transformCache = src.m_transformCache ∧
      (copy src).m_masterPathCacheValid = src.m_masterPathCacheValid ∧
      (copy src).m_masterPathCache = src.m_masterPathCache ∧
      (copy src).m_gtPrimCache = none :=
  ⟨rfl, rfl, rfl, rfl, rfl, rfl, rfl, rfl, rfl, rfl, rfl, rfl, rfl, rfl⟩

/-! ### The packed primitive: repeated resolution -/

/-- C26 as stated fails when the first resolution failed: the handle on a file that cannot
be opened holds no prim after the first `getUsdPrim`, and the second call looks the prim
up in the stage cache again. -/
theorem C26_failed_resolution_is_repeated :
    (getUsdPrim demoUsdEnv (demoFresh "missing.usd" "/geo") UT_ERROR_ABORT).1.valid = false ∧
      (getUsdPrim demoUsdEnv
        (getUsdPrim demoUsdEnv (demoFresh "missing.usd" "/geo") UT_ERROR_ABORT).2.1
        UT_ERROR_ABORT).2.2 =
        [Event.stageCacheGetPrim "missing.usd" ⟨"/geo"⟩ none UT_ERROR_ABORT] := by
  decide

/-- C26, amended: after a `getUsdPrim` that returned a valid prim, the next `getUsdPrim`
returns the same prim with no call made and the handle unchanged; after one that returned
an invalid prim, the next `getUsdPrim` makes the same stage-cache lookup again (with the
severity it is given) and returns what that lookup gives, which for the same severity is
the prim returned before. -/
theorem C26_getUsdPrim_repeated (env : UsdEnv) (self : GusdGU_PackedUSD)
    (sev sev2 : UT_ErrorSeverity) :
    ((getUsdPrim env self sev).1.valid = true →
        getUsdPrim env (getUsdPrim env self sev).2.1 sev2 =
          ((getUsdPrim env self sev).1, (getUsdPrim env self sev).2.1, [])) ∧
      ((getUsdPrim env self sev).1.valid = false →
        (getUsdPrim env self sev).2.2 =
            [Event.stageCacheGetPrim self.m_fileName
              (env.GetPrimPathAndEditFromVariantsPath self.m_primPath).1
              (env.GetPrimPathAndEditFromVariantsPath self.m_primPath).2 sev] ∧
          (getUsdPrim env (getUsdPrim env self sev).2.1 sev2).2.2 =
            [Event.stageCacheGetPrim self.m_fileName
              (env.GetPrimPathAndEditFromVariantsPath self.m_primPath).1
              (env.GetPrimPathAndEditFromVariantsPath self.m_primPath).2 sev2] ∧
          (getUsdPrim env (getUsdPrim env self sev).2.1 sev2).1 =
            env.GetPrim self.m_fileName
              (env.GetPrimPathAndEditFromVariantsPath self.m_primPath).1
              (env.GetPrimPathAndEditFromVariantsPath self.m_primPath).2 sev2 ∧
          (getUsdPrim env (getUsdPrim env self sev).2.1 sev).1 =
            (getUsdPrim env self sev).1) := by
  have held : (getUsdPrim env self sev).2.1.m_usdPrim = (getUsdPrim env self sev).1 := by
    unfold getUsdPrim
    split <;> rfl
  have hfile : (getUsdPrim env self sev).2.1.m_fileName = self.m_fileName := by
    unfold getUsdPrim
    split <;> rfl
  have hpath : (getUsdPrim env self sev).2.1.m_primPath = self.m_primPath := by
    unfold getUsdPrim
    split <;> rfl
  constructor
  · intro hv
    have hv2 : (getUsdPrim env self sev).2.1.m_usdPrim.valid = true := by
      rw [held]
      exact hv
    generalize (getUsdPrim env self sev) = r at held hv hv2 ⊢
    obtain ⟨prim, self1, ev⟩ := r
    simp only at held hv hv2 ⊢
    unfold getUsdPrim
    rw [if_pos hv2, held]
  · intro hv
    have hv2 : (getUsdPrim env self sev).2.1.m_usdPrim.valid = false := by
      rw [held]
      exact hv
    have hself : self.m_usdPrim.valid = false := by
      by_contra hne
      have hne2 : self.m_usdPrim.valid = true := by simpa using hne
      have : (getUsdPrim env self sev).1 = self.m_usdPrim := by
        unfold getUsdPrim
        rw [if_pos hne2]
      rw [this, hne2] at hv
      exact absurd hv (by simp)
    have hfirst : (getUsdPrim env self sev).1 =
        env.GetPrim self.m_fileName
          (env.GetPrimPathAndEditFromVariantsPath self.m_primPath).1
          (env.GetPrimPathAndEditFromVariantsPath self.m_primPath).2 sev := by
      unfold getUsdPrim
      simp [hself]
    have hsecond : ∀ s, getUsdPrim env (getUsdPrim env self sev).2.1 s =
        (env.GetPrim self.m_fileName
            (env.GetPrimPathAndEditFromVariantsPath self.m_primPath).1
            (env.GetPrimPathAndEditFromVariantsPath self.m_primPath).2 s,
          { (getUsdPrim env self sev).2.1 with
            m_masterPathCacheValid := false
            m_usdPrim := env.GetPrim self.m_fileName
              (env.GetPrimPathAndEditFromVariantsPath self.m_primPath).1
              (env.GetPrimPathAndEditFromVariantsPath self.m_primPath).2 s },
          [Event.stageCacheGetPrim self.m_fileName
            (env.GetPrimPathAndEditFromVariantsPath self.m_primPath).1
            (env.GetPrimPathAndEditFromVariantsPath self.m_primPath).2 s]) := by
      intro s
      generalize (getUsdPrim env self sev) = r at held hv2 hfile hpath ⊢
      obtain ⟨prim, self1, ev⟩ := r
      simp only at held hv2 hfile hpath ⊢
      unfold getUsdPrim
      simp [hv2, hfile, hpath]
    refine ⟨?_, ?_, ?_, ?_⟩
    · unfold getUsdPrim
      simp [hself]
    · rw [hsecond sev2]
    · rw [hsecond sev2]
    · rw [hsecond sev, hfirst]

theorem C26_getUsdPrim_repeated_witness :
    getUsdPrim demoUsdEnv (getUsdPrim demoUsdEnv (demoFresh "a.usd" "/geo") UT_ERROR_ABORT).2.1
        UT_ERROR_WARNING =
      ((getUsdPrim demoUsdEnv (demoFresh "a.usd" "/geo") UT_ERROR_ABORT).1,
        (getUsdPrim demoUsdEnv (demoFresh "a.usd" "/geo") UT_ERROR_ABORT).2.1, []) ∧
      (getUsdPrim demoUsdEnv
        (getUsdPrim demoUsdEnv (demoFresh "missing.usd" "/geo") UT_ERROR_ABORT).2.1
        UT_ERROR_ABORT).1 =
        (getUsdPrim demoUsdEnv (demoFresh "missing.usd" "/geo") UT_ERROR_ABORT).1 :=
  ⟨(C26_getUsdPrim_repeated demoUsdEnv (demoFresh "a.usd" "/geo") UT_ERROR_ABORT
      UT_ERROR_WARNING).1 (by decide),
    ((C26_getUsdPrim_repeated demoUsdEnv (demoFresh "missing.usd" "/geo") UT_ERROR_ABORT
      UT_ERROR_ABORT).2 (by decide)).2.2.2⟩

/-! ### The packed primitive: the instance key after `load` -/

/-- C27 fails: the handle on the instance `/inst` has cached the key of its master; `load`
of the record saved from a handle on `/scope` (not an instance) ends with `resetCaches`,
which leaves `m_masterPathCacheValid` true, so the next `getInstanceKey` makes no stage
lookup and returns the master key cached before the load as its path component; the same
happens when the record names a file that cannot be opened.  Had the prim been resolved
in between (here by `getUsdTransform`), the key would name `/scope`. -/
theorem C27_getInstanceKey_after_load_keeps_old_master :
    (getInstanceKey demoUsdEnv (demoFresh "a.usd" "/inst") []).2.2.1.m_masterPathCache
        = "0x1/__Master_1" ∧
      (save demoUsdEnv (demoFresh "a.usd" "/scope") []).2 =
        [("usdFileName", UT_OptionEntry.S "a.usd"), ("usdAltFileName", UT_OptionEntry.S ""),
          ("usdPrimPath", UT_OptionEntry.S "/scope"), ("usdSrcPrimPath", UT_OptionEntry.S ""),
          ("usdIndex", UT_OptionEntry.I (-1)), ("usdFrame", UT_OptionEntry.F 1),
          ("usdViewportPurpose", UT_OptionEntry.SArray ["proxy"])] ∧
      (load demoUsdEnv (getInstanceKey demoUsdEnv (demoFresh "a.usd" "/inst") []).2.2.1 none
          (save demoUsdEnv (demoFresh "a.usd" "/scope") []).2).2.1.m_primPath = ⟨"/scope"⟩ ∧
      (getInstanceKey demoUsdEnv
          (load demoUsdEnv (getInstanceKey demoUsdEnv (demoFresh "a.usd" "/inst") []).2.2.1
            none (save demoUsdEnv (demoFresh "a.usd" "/scope") []).2).2.1 []).2.1 =
        [("f", UT_OptionEntry.S "a.usd"), ("n", UT_OptionEntry.S "0x1/__Master_1"),
          ("t", UT_OptionEntry.F 1), ("p", UT_OptionEntry.I 3)] ∧
      (getInstanceKey demoUsdEnv
          (load demoUsdEnv (getInstanceKey demoUsdEnv (demoFresh "a.usd" "/inst") []).2.2.1
            none (save demoUsdEnv (demoFresh "a.usd" "/scope") []).2).2.1 []).2.2.2 = [] ∧
      (getInstanceKey demoUsdEnv
          (load demoUsdEnv (getInstanceKey demoUsdEnv (demoFresh "a.usd" "/inst") []).2.2.1
            none [("usdFileName", UT_OptionEntry.S "missing.usd")]).2.1 []).2.1 =
        [("f", UT_OptionEntry.S "missing.usd"), ("n", UT_OptionEntry.S "0x1/__Master_1"),
          ("t", UT_OptionEntry.F 1), ("p", UT_OptionEntry.I 3)] ∧
      (getInstanceKey demoUsdEnv
          (getUsdTransform demoUsdEnv
            (load demoUsdEnv (getInstanceKey demoUsdEnv (demoFresh "a.usd" "/inst") []).2.2.1
              none (save demoUsdEnv (demoFresh "a.usd" "/scope") []).2).2.1).2.1 []).2.1 =
        [("f", UT_OptionEntry.S "a.usd"), ("n", UT_OptionEntry.S "/scope"),
          ("t", UT_OptionEntry.F 1), ("p", UT_OptionEntry.I 3)] := by
  refine ⟨?_, ?_, ?_, ?_, ?_, ?_, ?_⟩ <;> decide

/-! ### The packed primitive: the setters that invalidate nothing -/

/-- C30: `setIndex` changes `m_index` only, `setSrcPrimPath` changes `m_srcPrimPath` only,
`setAltFileName` changes `m_altFileName` only; every other member of the handle, the
resolved prim, the caches and their validity flags included, is as before; and
`getInstanceKey` returns the same value and writes the same key after each of them, with
the same calls made. -/
theorem C30_non_invalidating_setters_frame (env : UsdEnv) (self : GusdGU_PackedUSD)
    (index : exint) (path : SdfPath) (fileName : String) (key : UT_Options) :
    setIndex self index = { self with m_index := index } ∧
      setSrcPrimPath self path = { self with m_srcPrimPath := path } ∧
      setAltFileName self fileName = { self with m_altFileName := fileName } ∧
      (getInstanceKey env (setIndex self index) key).1 = (getInstanceKey env self key).1 ∧
      (getInstanceKey env (setIndex self index) key).2.1 = (getInstanceKey env self key).2.1 ∧
      (getInstanceKey env (setIndex self index) key).2.2.2
        = (getInstanceKey env self key).2.2.2 ∧
      (getInstanceKey env (setSrcPrimPath self path) key).1
        = (getInstanceKey env self key).1 ∧
      (getInstanceKey env (setSrcPrimPath self path) key).2.1
        = (getInstanceKey env self key).2.1 ∧
      (getInstanceKey env (setSrcPrimPath self path) key).2.2.2
        = (getInstanceKey env self key).2.2.2 ∧
      (getInstanceKey env (setAltFileName self fileName) key).1
        = (getInstanceKey env self key).1 ∧
      (getInstanceKey env (setAltFileName self fileName) key).2.1
        = (getInstanceKey env self key).2.1 ∧
      (getInstanceKey env (setAltFileName self fileName) key).2.2.2
        = (getInstanceKey env self key).2.2.2 := by
  have h1 : setIndex self index = { self with m_index := index } := by
    unfold setIndex
    split
    · rfl
    · rename_i h
      have h2 : index = self.m_index := by simpa using h
      rw [h2]
  have h2 : setSrcPrimPath self path = { self with m_srcPrimPath := path } := by
    unfold setSrcPrimPath
    split
    · rfl
    · rename_i h
      have h2 : path = self.m_srcPrimPath := by simpa using h
      rw [h2]
  have h3 : setAltFileName self fileName = { self with m_altFileName := fileName } := by
    unfold setAltFileName
    split
    · rfl
    · rename_i h
      have h2 : fileName = self.m_altFileName := by simpa using h
      rw [h2]
  have key_of : ∀ other : GusdGU_PackedUSD,
      other.m_fileName = self.m_fileName → other.m_primPath = self.m_primPath →
      other.m_frame = self.m_frame → other.m_purposes = self.m_purposes →
      other.m_usdPrim = self.m_usdPrim →
      other.m_masterPathCacheValid = self.m_masterPathCacheValid →
      other.m_masterPathCache = self.m_masterPathCache →
      (getInstanceKey env other key).1 = (getInstanceKey env self key).1 ∧
        (getInstanceKey env other key).2.1 = (getInstanceKey env self key).2.1 ∧
        (getInstanceKey env other key).2.2.2 = (getInstanceKey env self key).2.2.2 := by
    intro other e1 e2 e3 e4 e5 e6 e7
    unfold getInstanceKey getInstanceKey_finish getUsdPrim
    simp only [e1, e2, e3, e4, e5, e6, e7]
    by_cases hm : self.m_masterPathCacheValid = true
    · simp [hm]
    · by_cases hv : self.m_usdPrim.valid = true
      · simp [hm, hv]
      · by_cases hg : (env.GetPrim self.m_fileName
            (env.GetPrimPathAndEditFromVariantsPath self.m_primPath).1
            (env.GetPrimPathAndEditFromVariantsPath self.m_primPath).2 getUsdPrim_sev).valid
            = true
        · simp [hm, hv, hg]
        · simp [hm, hv, hg]
  rw [h1, h2, h3]
  obtain ⟨a1, a2, a3⟩ := key_of { self with m_index := index } rfl rfl rfl rfl rfl rfl rfl
  obtain ⟨b1, b2, b3⟩ := key_of { self with m_srcPrimPath := path } rfl rfl rfl rfl rfl rfl rfl
  obtain ⟨c1, c2, c3⟩ := key_of { self with m_altFileName := fileName }
    rfl rfl rfl rfl rfl rfl rfl
  exact ⟨rfl, rfl, rfl, a1, a2, a3, b1, b2, b3, c1, c2, c3⟩

/-! ### `HUSD_PythonConverter::getSourceLayer` -/

/-- C29 fails for negative indices: with a lock on a valid stage with two source layers,
`getSourceLayerCount()` is 2 and `getSourceLayer(-1)` passes the test
`layerindex < layers.size()` and reads `layers(-1)`, outside the array; an index at or
above the count gives null. -/
theorem C29_getSourceLayer_negative_index_reads_out_of_range :
    demoConverter.getSourceLayerCount = 2 ∧
      demoConverter.getSourceLayer (fun layer => layer) (-1) = none ∧
      demoConverter.getSourceLayer (fun layer => layer) 2 = some none ∧
      demoConverter.getSourceLayer (fun layer => layer) 1 = some (some 12) := by
  decide

/-- What `getSourceLayer` does, by the index: below zero with a lock on a valid stage it
reads outside the array; from zero to below the number of source layers it returns the
object of that layer; otherwise, and without a lock, without data or with an invalid stage,
it returns null. -/
theorem getSourceLayer_cases (pyPtr : SdfLayerRefPtr → Nat) (self : HUSD_PythonConverter)
    (layerindex : Int) :
    (∀ lock outdata, self.myAnyLock = some lock → lock.constData = some outdata →
        outdata.isStageValid = true →
        (layerindex < 0 → self.getSourceLayer pyPtr layerindex = none) ∧
        (0 ≤ layerindex → layerindex < (outdata.sourceLayers.length : Int) →
          ∃ entry, outdata.sourceLayers[layerindex.toNat]? = some entry ∧
            self.getSourceLayer pyPtr layerindex = some (some (pyPtr entry.myLayer))) ∧
        ((outdata.sourceLayers.length : Int) ≤ layerindex →
          self.getSourceLayer pyPtr layerindex = some none)) ∧
      (self.myAnyLock = none → self.getSourceLayer pyPtr layerindex = some none) ∧
      (∀ lock, self.myAnyLock = some lock → lock.constData = none →
        self.getSourceLayer pyPtr layerindex = some none) ∧
      (∀ lock outdata, self.myAnyLock = some lock → lock.constData = some outdata →
        outdata.isStageValid = false → self.getSourceLayer pyPtr layerindex = some none) := by
  refine ⟨?_, ?_, ?_, ?_⟩
  · intro lock outdata hl hd hv
    refine ⟨?_, ?_, ?_⟩
    · intro hneg
      have hlt : layerindex < (outdata.sourceLayers.length : Int) := by omega
      have hat : UT_Array_at outdata.sourceLayers layerindex = none := by
        have hn : ¬ (0 ≤ layerindex) := by omega
        unfold UT_Array_at
        rw [if_neg hn]
      unfold HUSD_PythonConverter.getSourceLayer
      simp only [hl, hd, hv, if_true, hlt, hat]
    · intro h0 hlt
      have hn : layerindex.toNat < outdata.sourceLayers.length := by omega
      refine ⟨outdata.sourceLayers[layerindex.toNat], List.getElem?_eq_getElem hn, ?_⟩
      have hat : UT_Array_at outdata.sourceLayers layerindex
          = some outdata.sourceLayers[layerindex.toNat] := by
        unfold UT_Array_at
        rw [if_pos h0]
        exact List.getElem?_eq_getElem hn
      unfold HUSD_PythonConverter.getSourceLayer
      simp only [hl, hd, hv, if_true, hlt, hat]
    · intro hge
      have hlt : ¬ layerindex < (outdata.sourceLayers.length : Int) := by omega
      unfold HUSD_PythonConverter.getSourceLayer
      simp only [hl, hd, hv, if_true, hlt, if_false]
  · intro hl
    unfold HUSD_PythonConverter.getSourceLayer
    simp only [hl]
  · intro lock hl hd
    unfold HUSD_PythonConverter.getSourceLayer
    simp only [hl, hd]
  · intro lock outdata hl hd hv
    unfold HUSD_PythonConverter.getSourceLayer
    simp [hl, hd, hv]

/-! ### String attributes -/

theorem UT_Array_at_ofNat {T : Type} (arr : List T) (i : Nat) :
    UT_Array_at arr (Int.ofNat i) = arr[i]? := by
  have h0 : (0 : Int) ≤ Int.ofNat i := Int.ofNat_nonneg i
  unfold UT_Array_at
  rw [if_pos h0]
  rfl

theorem lookup_filter_other {β : Type} (l : List (GA_Offset × β)) (o other : GA_Offset)
    (hne : other ≠ o) :
    (l.filter (fun h => h.1 ≠ o)).lookup other = l.lookup other := by
  induction l with
  | nil => rfl
  | cons e rest ih =>
    obtain ⟨k, v⟩ := e
    by_cases hk : k = o
    · rw [List.filter_cons_of_neg (by simp [hk])]
      have h2 : (other == k) = false := by
        rw [hk]
        simpa using hne
      simp only [List.lookup, h2]
      exact ih
    · rw [List.filter_cons_of_pos (by simp [hk])]
      cases h3 : (other == k) with
      | true => simp only [List.lookup, h3]
      | false =>
        simp only [List.lookup, h3]
        exact ih

theorem getStringIndex_setStringIndex_same (a : GA_ATIString) (o : GA_Offset)
    (idx : GA_StringIndexType) : (a.setStringIndex o idx).getStringIndex o = idx := by
  simp [GA_ATIString.setStringIndex, GA_ATIString.getStringIndex, List.lookup]

theorem getStringIndex_setStringIndex_other (a : GA_ATIString) (o other : GA_Offset)
    (idx : GA_StringIndexType) (hne : other ≠ o) :
    (a.setStringIndex o idx).getStringIndex other = a.getStringIndex other := by
  have h2 : (other == o) = false := by simpa using hne
  unfold GA_ATIString.setStringIndex GA_ATIString.getStringIndex
  simp only [List.lookup, h2]
  rw [lookup_filter_other _ _ _ hne]

theorem lookupString_append (a : GA_ATIString) (str : String) (idx : GA_StringIndexType)
    (x : String) (h : a.lookupString idx = some x) :
    UT_Array_at (a.strings ++ [str]) idx = some x := by
  obtain ⟨h0, h1, h2⟩ := UT_Array_at_eq_some _ _ _ h
  unfold UT_Array_at
  rw [if_pos h0]
  have hlt : idx.toNat < a.strings.length := by
    rcases List.getElem?_eq_some_iff.1 h2 with ⟨hlt, _⟩
    exact hlt
  rw [List.getElem?_append_left hlt]
  exact h2

/-- `setString` at an element: the element holds the string, the other elements keep the
index they hold, and every string of the table keeps its index. -/
theorem setString_spec (a : GA_ATIString) (o : GA_Offset) (str : String) :
    (a.setString o str).get o = str ∧
      (((a.setString o str).getStringIndex o = GA_INVALID_STRING_INDEX ∧ str = "") ∨
        (a.setString o str).lookupString ((a.setString o str).getStringIndex o) = some str) ∧
      (∀ other, other ≠ o →
        (a.setString o str).getStringIndex other = a.getStringIndex other) ∧
      (∀ idx x, a.lookupString idx = some x → (a.setString o str).lookupString idx = some x) := by
  unfold GA_ATIString.setString
  by_cases he : str = ""
  · rw [if_pos he]
    refine ⟨?_, Or.inl ⟨getStringIndex_setStringIndex_same _ _ _, he⟩,
      fun other hne => getStringIndex_setStringIndex_other _ _ _ _ hne, fun idx x h => h⟩
    unfold GA_ATIString.get
    rw [getStringIndex_setStringIndex_same]
    rw [he]
    rfl
  · rw [if_neg he]
    simp only
    by_cases hi : a.strings.indexOf str < a.strings.length
    · rw [if_pos hi]
      have hlook : (a.setStringIndex o (a.strings.indexOf str : Int)).lookupString
          (a.strings.indexOf str : Int) = some str := by
        show UT_Array_at a.strings (Int.ofNat (a.strings.indexOf str)) = some str
        rw [UT_Array_at_ofNat, List.getElem?_eq_getElem hi]
        simp
      refine ⟨?_, Or.inr ?_,
        fun other hne => getStringIndex_setStringIndex_other _ _ _ _ hne, fun idx x h => h⟩
      · unfold GA_ATIString.get
        rw [getStringIndex_setStringIndex_same, hlook]
      · rw [getStringIndex_setStringIndex_same]
        exact hlook
    · rw [if_neg hi]
      have hlook : ({ a with strings := a.strings ++ [str] }.setStringIndex o
          (a.strings.length : Int)).lookupString (a.strings.length : Int) = some str := by
        show UT_Array_at (a.strings ++ [str]) (Int.ofNat a.strings.length) = some str
        rw [UT_Array_at_ofNat]
        simp
      refine ⟨?_, Or.inr ?_,
        fun other hne => getStringIndex_setStringIndex_other _ _ _ _ hne,
        fun idx x h => lookupString_append a str idx x h⟩
      · unfold GA_ATIString.get
        rw [getStringIndex_setStringIndex_same, hlook]
      · rw [getStringIndex_setStringIndex_same]
        exact hlook

/-- `setString` with one string over a list of elements. -/
theorem setString_fold_spec (range : List GA_Offset) (str : String) (a : GA_ATIString) :
    (∀ o ∈ range, (range.foldl (fun b o => b.setString o str) a).get o = str) ∧
      (∀ o, o ∉ range →
        (range.foldl (fun b o => b.setString o str) a).getStringIndex o
          = a.getStringIndex o) ∧
      (∀ idx x, a.lookupString idx = some x →
        (range.foldl (fun b o => b.setString o str) a).lookupString idx = some x) := by
  induction range generalizing a with
  | nil =>
    refine ⟨fun o ho => absurd ho (List.not_mem_nil o), fun o _ => rfl, fun idx x h => h⟩
  | cons first rest ih =>
    obtain ⟨s1, s2, s3, s4⟩ := setString_spec a first str
    obtain ⟨i1, i2, i3⟩ := ih (a.setString first str)
    simp only [List.foldl_cons]
    refine ⟨?_, ?_, ?_⟩
    · intro o ho
      by_cases hr : o ∈ rest
      · exact i1 o hr
      · have ho2 : o = first := by
          rcases List.mem_cons.1 ho with h | h
          · exact h
          · exact absurd h hr
        subst ho2
        unfold GA_ATIString.get
        rw [i2 o hr]
        rcases s2 with ⟨hidx, hs⟩ | hlook
        · rw [hidx, hs]
          have hnone : ∀ b : GA_ATIString, b.lookupString GA_INVALID_STRING_INDEX = none := by
            intro b
            unfold GA_ATIString.lookupString UT_Array_at
            rw [if_neg (by decide)]
          rw [hnone]
        · rw [i3 _ _ hlook]
    · intro o ho
      have h1 : o ∉ rest := fun h => ho (List.mem_cons_of_mem _ h)
      have h2 : o ≠ first := fun h => ho (by rw [h]; exact List.mem_cons_self _ _)
      rw [i2 o h1, s3 o h2]
    · intro idx x h
      exact i3 idx x (s4 idx x h)

/-! ### `_Cook`: deleting the old elements -/

/-- The offsets of a range whose root prim, at the same position, is valid. -/
theorem _Cook_delOffsets_spec (rootPrims : List UsdPrim) (offsets : List GA_Offset) (i : Nat)
    (acc : List GA_Offset) :
    (offsets.length + i ≤ rootPrims.length →
        _Cook_delOffsets rootPrims offsets (Int.ofNat i) acc =
          some (acc ++ ((offsets.zip (rootPrims.drop i)).filter
            (fun p => p.2.valid)).map (fun p => p.1))) ∧
      (rootPrims.length < offsets.length + i → i ≤ rootPrims.length →
        _Cook_delOffsets rootPrims offsets (Int.ofNat i) acc = none) := by
  induction offsets generalizing i acc with
  | nil =>
    constructor
    · intro _
      simp [_Cook_delOffsets]
    · intro h h2
      simp only [List.length_nil, Nat.zero_add] at h
      omega
  | cons offset rest ih =>
    have hstep : (Int.ofNat i : Int) + 1 = Int.ofNat (i + 1) := rfl
    constructor
    · intro h
      simp only [List.length_cons] at h
      have hi : i < rootPrims.length := by omega
      have hat : UT_Array_at rootPrims (Int.ofNat i) = some rootPrims[i] := by
        rw [UT_Array_at_ofNat]
        exact List.getElem?_eq_getElem hi
      have hdrop : rootPrims.drop i = rootPrims[i] :: rootPrims.drop (i + 1) :=
        List.drop_eq_getElem_cons hi
      unfold _Cook_delOffsets
      rw [hat]
      simp only
      rw [hstep, (ih (i + 1) _).1 (by omega), hdrop, List.zip_cons_cons, List.filter_cons]
      by_cases hv : rootPrims[i].valid = true
      · simp only [hv, if_true, List.map_cons, List.append_assoc, List.singleton_append]
      · simp only [hv, if_false]
        rfl
    · intro h h2
      simp only [List.length_cons] at h
      unfold _Cook_delOffsets
      by_cases hi : i < rootPrims.length
      · have hat : UT_Array_at rootPrims (Int.ofNat i) = some rootPrims[i] := by
          rw [UT_Array_at_ofNat]
          exact List.getElem?_eq_getElem hi
        rw [hat]
        simp only
        rw [hstep]
        exact (ih (i + 1) _).2 (by omega) (by omega)
      · have hat : UT_Array_at rootPrims (Int.ofNat i) = none := by
          rw [UT_Array_at_ofNat]
          exact List.getElem?_eq_none (by omega)
        rw [hat]

/-- What `_Cook_finish` leaves behind, by the `unpack_delold` parameter. -/
theorem _Cook_finish_delOffsets {Opts : Type} (env : CookEnv Opts) (parms : Parms)
    (packedPrims : Bool) (rng : GA_Range) (rootPrims : List UsdPrim)
    (traversedPrims : List PrimIndexPair) (calls : List TraverseCall) (gdp : GU_Detail)
    (errors : List Diag) :
    (parms.unpack_delold = 0 →
        (_Cook_finish env parms packedPrims rng rootPrims traversedPrims calls gdp
          errors).delOffsets = none) ∧
      (parms.unpack_delold ≠ 0 → rootPrims.length < rng.offsets.length →
        (_Cook_finish env parms packedPrims rng rootPrims traversedPrims calls gdp
          errors).delOffsets = none ∧
        (_Cook_finish env parms packedPrims rng rootPrims traversedPrims calls gdp
          errors).outcome = Outcome.fault Fault.rootPrimsRead) ∧
      (parms.unpack_delold ≠ 0 → rng.offsets.length ≤ rootPrims.length →
        (_Cook_finish env parms packedPrims rng rootPrims traversedPrims calls gdp
          errors).delOffsets =
            some (((rng.offsets.zip rootPrims).filter (fun p => p.2.valid)).map
              (fun p => p.1)) ∧
        (_Cook_finish env parms packedPrims rng rootPrims traversedPrims calls gdp
          errors).outcome = Outcome.returned (error errors) ∧
        (_Cook_finish env parms packedPrims rng rootPrims traversedPrims calls gdp
          errors).gdp = _Cook_postPass env parms
            (if packedPrims then
              env.destroyPrimitives gdp (((rng.offsets.zip rootPrims).filter
                (fun p => p.2.valid)).map (fun p => p.1)) true
            else
              env.destroyPoints gdp (((rng.offsets.zip rootPrims).filter
                (fun p => p.2.valid)).map (fun p => p.1)))) := by
  have hspec := _Cook_delOffsets_spec rootPrims rng.offsets 0 []
  simp only [Nat.add_zero, List.drop_zero, List.nil_append] at hspec
  have hzero : (Int.ofNat 0 : Int) = 0 := rfl
  rw [hzero] at hspec
  refine ⟨?_, ?_, ?_⟩
  · intro h
    unfold _Cook_finish
    simp [h]
  · intro h hlen
    unfold _Cook_finish
    rw [if_pos h, hspec.2 hlen (Nat.zero_le _)]
    exact ⟨rfl, rfl⟩
  · intro h hlen
    unfold _Cook_finish
    rw [if_pos h, hspec.1 hlen]
    exact ⟨rfl, rfl, rfl⟩

/-- A run of `_Cook_append` either ends in an out-of-range read of a source array, before
anything is deleted, or is a run of `_Cook_finish` on the detail with the new elements
appended. -/
theorem _Cook_append_cases {Opts : Type} (env : CookEnv Opts) (parms : Parms)
    (unpackToPolygons packedPrims : Bool) (rng : GA_Range) (rootPrims : List UsdPrim)
    (variants : List SdfPath) (times : GusdDefaultArray UsdTimeCode)
    (traversedPrims : List PrimIndexPair) (calls : List TraverseCall) (gdp : GU_Detail)
    (errors : List Diag) :
    ((_Cook_append env parms unpackToPolygons packedPrims rng rootPrims variants times
          traversedPrims calls gdp errors).outcome = Outcome.fault Fault.srcArrayRead ∧
        (_Cook_append env parms unpackToPolygons packedPrims rng rootPrims variants times
          traversedPrims calls gdp errors).delOffsets = none) ∨
      ∃ appended errors1,
        _Cook_append env parms unpackToPolygons packedPrims rng rootPrims variants times
          traversedPrims calls gdp errors =
        _Cook_finish env parms packedPrims rng rootPrims traversedPrims calls appended
          errors1 := by
  unfold _Cook_append
  simp only []
  split
  · exact Or.inr ⟨_, _, rfl⟩
  · split
    · exact Or.inl ⟨rfl, rfl⟩
    · split
      · exact Or.inl ⟨rfl, rfl⟩
      · exact Or.inr ⟨_, _, rfl⟩

/-- A run of `_Cook` that hands a list to `destroyPrimitives` or `destroyPoints` is a run of
`_Cook_finish` on the range and the root prims bound at the start. -/
theorem _Cook_reaches_finish {Opts : Type} (env : CookEnv Opts) (parms : Parms) (t : fpreal)
    (group : Option (List GA_Offset)) (gdp : GU_Detail) (errors : List Diag)
    (h : (_Cook env parms t group gdp errors).delOffsets ≠ none ∨
      (((_Cook env parms t group gdp errors).traversedPrims ≠ none) ∧
        (_Cook env parms t group gdp errors).outcome ≠ Outcome.fault Fault.srcArrayRead)) :
    ∃ bound posted, env.BindPrims gdp (_Cook_rng parms group gdp) = (some bound, posted) ∧
      ∃ traversedPrims calls appended errors1,
        _Cook env parms t group gdp errors =
          _Cook_finish env parms (decide (parms.unpack_class = 0)) (_Cook_rng parms group gdp)
            bound.rootPrims traversedPrims calls appended errors1 := by
  have happ : ∀ (r : CookResult) unpackToPolygons packedPrims rng rootPrims variants times
      tp calls g errs,
      r = _Cook_append env parms unpackToPolygons packedPrims rng rootPrims variants times
        tp calls g errs →
      (r.delOffsets ≠ none ∨
        (r.traversedPrims ≠ none ∧ r.outcome ≠ Outcome.fault Fault.srcArrayRead)) →
      ∃ traversedPrims calls appended errors1,
        r = _Cook_finish env parms packedPrims rng rootPrims traversedPrims calls appended
          errors1 := by
    intro r unpackToPolygons packedPrims rng rootPrims variants times tp calls g errs hr hd
    rcases _Cook_append_cases env parms unpackToPolygons packedPrims rng rootPrims variants
      times tp calls g errs with ⟨ho, hn⟩ | ⟨appended, errors1, he⟩
    · rw [← hr] at ho hn
      rcases hd with hd | hd
      · exact absurd hn hd
      · exact absurd ho hd.2
    · exact ⟨tp, calls, appended, errors1, hr.trans he⟩
  have hsec : ∀ (r : CookResult) traversal unpackToPolygons packedPrims rng rootPrims variants
      purposes times tp calls g errs,
      r = _Cook_secondPass env parms t traversal unpackToPolygons packedPrims rng rootPrims
        variants purposes times tp calls g errs →
      (r.delOffsets ≠ none ∨
        (r.traversedPrims ≠ none ∧ r.outcome ≠ Outcome.fault Fault.srcArrayRead)) →
      ∃ traversedPrims calls appended errors1,
        r = _Cook_finish env parms packedPrims rng rootPrims traversedPrims calls appended
          errors1 := by
    intro r traversal unpackToPolygons packedPrims rng rootPrims variants purposes times tp
      calls g errs hr hd
    rcases _Cook_secondPass_cases env parms t traversal unpackToPolygons packedPrims rng
      rootPrims variants purposes times tp calls g errs r hr with
      ⟨_, he⟩ | ⟨_, _, _, ho, _, _, htp, hn⟩ | ⟨_, _, pa, ta, _, _, c, _, _, _, _, _, _, _, hc⟩
    · exact happ r _ _ _ _ _ _ _ _ _ _ he hd
    · rcases hd with hd | hd
      · exact absurd hn hd
      · exact absurd htp hd.1
    · rcases hc with ⟨_, _, htp, hn, _, _⟩ | ⟨_, _, _, _, htp, hn⟩ | ⟨_, composed, _, he⟩
      · rcases hd with hd | hd
        · exact absurd hn hd
        · exact absurd htp hd.1
      · rcases hd with hd | hd
        · exact absurd hn hd
        · exact absurd htp hd.1
      · exact happ r _ _ _ _ _ _ _ _ _ _ he hd
  rcases _Cook_cases env parms t group gdp errors _ rfl with
    ⟨_, _, _, _, _, _, htp, hn⟩ | ⟨posted, _, _, _, _, _, htp, hn⟩ |
    ⟨bound, posted, hb, _, c, _, _, _, _, _, _, hc⟩ | ⟨bound, posted, hb, _, _, he⟩
  · rcases h with h | h
    · exact absurd hn h
    · exact absurd htp h.1
  · rcases h with h | h
    · exact absurd hn h
    · exact absurd htp h.1
  · rcases hc with ⟨_, _, _, _, _, htp, hn⟩ | ⟨_, he⟩
    · rcases h with h | h
      · exact absurd hn h
      · exact absurd htp h.1
    · exact ⟨bound, posted, hb, hsec _ _ _ _ _ _ _ _ _ _ _ _ _ he h⟩
  · exact ⟨bound, posted, hb, hsec _ _ _ _ _ _ _ _ _ _ _ _ _ he h⟩

/-- The elements picked by the delete loop: membership, order and what is left out. -/
theorem delOffsets_list_spec (offsets : List GA_Offset) (rootPrims : List UsdPrim)
    (hlen : offsets.length ≤ rootPrims.length) :
    List.Sublist (((offsets.zip rootPrims).filter (fun p => p.2.valid)).map (fun p => p.1))
        offsets ∧
      (∀ (i : Nat) (root : UsdPrim) (o : GA_Offset), rootPrims[i]? = some root →
        offsets[i]? = some o → root.valid = true →
        o ∈ ((offsets.zip rootPrims).filter (fun p => p.2.valid)).map (fun p => p.1)) ∧
      (offsets.Nodup → ∀ (i : Nat) (root : UsdPrim) (o : GA_Offset),
        rootPrims[i]? = some root → offsets[i]? = some o → root.valid = false →
        o ∉ ((offsets.zip rootPrims).filter (fun p => p.2.valid)).map (fun p => p.1)) := by
  refine ⟨?_, ?_, ?_⟩
  · have h1 : List.Sublist
        (((offsets.zip rootPrims).filter (fun p => p.2.valid)).map (fun p => p.1))
        ((offsets.zip rootPrims).map (fun p => p.1)) :=
      (List.filter_sublist _).map _
    have h2 : (offsets.zip rootPrims).map (fun p => p.1) = offsets :=
      List.map_fst_zip offsets rootPrims hlen
    rw [h2] at h1
    exact h1
  · intro i root o hr ho hv
    rw [List.mem_map]
    refine ⟨(o, root), ?_, rfl⟩
    rw [List.mem_filter]
    refine ⟨?_, by simpa using hv⟩
    rw [List.mem_iff_getElem?]
    exact ⟨i, List.getElem?_zip_eq_some.2 ⟨ho, hr⟩⟩
  · intro hnd i root o hr ho hv hmem
    rw [List.mem_map] at hmem
    obtain ⟨⟨o2, root2⟩, hp, ho2⟩ := hmem
    simp only at ho2
    subst ho2
    rw [List.mem_filter] at hp
    obtain ⟨hz, hv2⟩ := hp
    rw [List.mem_iff_getElem?] at hz
    obtain ⟨j, hj⟩ := hz
    obtain ⟨hj1, hj2⟩ := List.getElem?_zip_eq_some.1 hj
    simp only at hj1 hj2
    have hi : i < offsets.length := by
      rcases List.getElem?_eq_some_iff.1 ho with ⟨hlt, _⟩
      exact hlt
    have hij : i = j := List.getElem?_inj hi hnd (ho.trans hj1.symm)
    subst hij
    rw [hr] at hj2
    simp only [Option.some.injEq] at hj2
    subst hj2
    simp only at hv2
    rw [hv] at hv2
    exact absurd hv2 (by simp)

/-- C28: whenever `_Cook` hands a list of elements to `destroyPrimitives` or
`destroyPoints`, "unpack_delold" is on and the list holds exactly the elements of the
input range whose root prim, at the same position, is valid, in range order: an element
whose root prim is valid is in the list, an element whose root prim failed to bind is not
(the offsets of the range being distinct), and no element outside the input range, such as
an element appended by the run, is in it; the detail returned is the post-pass of what the
destroy call gives.  With "unpack_delold" on, a run that completes the traversal and ends
by returning hands over such a list; with it off nothing is handed over. -/
theorem C28_delold_removes_bound_roots {Opts : Type} (env : CookEnv Opts) (parms : Parms)
    (t : fpreal) (group : Option (List GA_Offset)) (gdp : GU_Detail) (errors : List Diag) :
    (∀ d, (_Cook env parms t group gdp errors).delOffsets = some d →
        parms.unpack_delold ≠ 0 ∧
        ∃ bound posted,
          env.BindPrims gdp (_Cook_rng parms group gdp) = (some bound, posted) ∧
          (_Cook_rng parms group gdp).offsets.length ≤ bound.rootPrims.length ∧
          d = (((_Cook_rng parms group gdp).offsets.zip bound.rootPrims).filter
            (fun p => p.2.valid)).map (fun p => p.1) ∧
          List.Sublist d (_Cook_rng parms group gdp).offsets ∧
          (∀ (i : Nat) (root : UsdPrim) (o : GA_Offset), bound.rootPrims[i]? = some root →
            (_Cook_rng parms group gdp).offsets[i]? = some o → root.valid = true → o ∈ d) ∧
          ((_Cook_rng parms group gdp).offsets.Nodup →
            ∀ (i : Nat) (root : UsdPrim) (o : GA_Offset), bound.rootPrims[i]? = some root →
              (_Cook_rng parms group gdp).offsets[i]? = some o → root.valid = false →
              o ∉ d) ∧
          (∀ o, o ∉ (_Cook_rng parms group gdp).offsets → o ∉ d) ∧
          ∃ appended,
            (_Cook env parms t group gdp errors).gdp = _Cook_postPass env parms
              (if decide (parms.unpack_class = 0) = true then
                env.destroyPrimitives appended d true
              else env.destroyPoints appended d)) ∧
      (parms.unpack_delold ≠ 0 →
        (_Cook env parms t group gdp errors).traversedPrims ≠ none →
        (∀ f, (_Cook env parms t group gdp errors).outcome ≠ Outcome.fault f) →
        ∃ d, (_Cook env parms t group gdp errors).delOffsets = some d) ∧
      (parms.unpack_delold = 0 →
        (_Cook env parms t group gdp errors).delOffsets = none) := by
  refine ⟨?_, ?_, ?_⟩
  · intro d hd
    obtain ⟨bound, posted, hb, tp, calls, appended, errors1, he⟩ :=
      _Cook_reaches_finish env parms t group gdp errors (Or.inl (by rw [hd]; simp))
    obtain ⟨f0, f1, f2⟩ := _Cook_finish_delOffsets env parms (decide (parms.unpack_class = 0))
      (_Cook_rng parms group gdp) bound.rootPrims tp calls appended errors1
    rw [he] at hd ⊢
    have hdel : parms.unpack_delold ≠ 0 := by
      intro h0
      rw [f0 h0] at hd
      exact absurd hd (by simp)
    have hlen : (_Cook_rng parms group gdp).offsets.length ≤ bound.rootPrims.length := by
      by_contra hlt
      rw [(f1 hdel (by omega)).1] at hd
      exact absurd hd (by simp)
    obtain ⟨g1, _, g3⟩ := f2 hdel hlen
    rw [g1, Option.some.injEq] at hd
    obtain ⟨s1, s2, s3⟩ := delOffsets_list_spec (_Cook_rng parms group gdp).offsets
      bound.rootPrims hlen
    refine ⟨hdel, bound, posted, hb, hlen, hd.symm, ?_, ?_, ?_, ?_, appended, ?_⟩
    · rw [← hd]
      exact s1
    · rw [← hd]
      exact s2
    · rw [← hd]
      exact s3
    · intro o ho hmem
      rw [← hd] at hmem
      exact ho (s1.subset hmem)
    · rw [g3, hd]
  · intro hdel htp hout
    obtain ⟨bound, posted, hb, tp, calls, appended, errors1, he⟩ :=
      _Cook_reaches_finish env parms t group gdp errors (Or.inr ⟨htp, hout _⟩)
    obtain ⟨_, f1, f2⟩ := _Cook_finish_delOffsets env parms (decide (parms.unpack_class = 0))
      (_Cook_rng parms group gdp) bound.rootPrims tp calls appended errors1
    by_cases hlen : (_Cook_rng parms group gdp).offsets.length ≤ bound.rootPrims.length
    · exact ⟨_, by rw [he]; exact (f2 hdel hlen).1⟩
    · have hfault := (f1 hdel (by omega)).2
      rw [← he] at hfault
      exact absurd hfault (hout _)
  · intro h0
    by_contra hne
    obtain ⟨bound, posted, hb, tp, calls, appended, errors1, he⟩ :=
      _Cook_reaches_finish env parms t group gdp errors (Or.inl hne)
    obtain ⟨f0, _, _⟩ := _Cook_finish_delOffsets env parms (decide (parms.unpack_class = 0))
      (_Cook_rng parms group gdp) bound.rootPrims tp calls appended errors1
    rw [he] at hne
    exact hne (f0 h0)

theorem C28_delold_removes_bound_roots_witness :
    (_Cook demoEnvPartial (demoParms "std:components" "packedprims") 1 none demoDetail
        []).delOffsets = some [0] ∧
      (_Cook_rng (demoParms "std:components" "packedprims") none demoDetail).offsets
        = [0, 1] ∧
      (demoParms "std:components" "packedprims").unpack_delold ≠ 0 ∧
      (1 : GA_Offset) ∉ [(0 : GA_Offset)] ∧
      (_Cook demoEnvPartial (demoParms "std:components" "packedprims") 1 none demoDetail
        []).gdp.primitives.map (fun prim => prim.offset) = [1, 100, 101] :=
  have hrun : (_Cook demoEnvPartial (demoParms "std:components" "packedprims") 1 none
      demoDetail []).delOffsets = some [0] := by decide
  have h := (C28_delold_removes_bound_roots demoEnvPartial
    (demoParms "std:components" "packedprims") 1 none demoDetail []).1 [0] hrun
  ⟨hrun, by decide, h.1,
    by
      obtain ⟨_, bound, posted, hb, _, _, _, _, hkept, _⟩ := h
      have hb2 : bound.rootPrims = [demoPrim "/a", UsdPrim.empty] := by
        have hb3 : demoEnvPartial.BindPrims demoDetail
            (_Cook_rng (demoParms "std:components" "packedprims") none demoDetail) =
            (some { demoBound with rootPrims := [demoPrim "/a", UsdPrim.empty] }, []) := rfl
        rw [hb3] at hb
        simp only [Prod.mk.injEq, Option.some.injEq] at hb
        rw [← hb.1]
      exact hkept (by decide) 1 UsdPrim.empty 1 (by rw [hb2]; rfl) (by decide) rfl,
    by decide⟩

/-! ### Primitive string attributes of a detail -/

theorem findStringTuple_putStringTuple_same (gdp : GU_Detail) (name : String)
    (a : GA_ATIString) : (gdp.putStringTuple name a).findStringTuple name = some a := by
  unfold GU_Detail.putStringTuple GU_Detail.findStringTuple
  exact lookup_put_same gdp.primitiveStrings name a

theorem findStringTuple_putStringTuple_other (gdp : GU_Detail) (name other : String)
    (a : GA_ATIString) (hne : other ≠ name) :
    (gdp.putStringTuple name a).findStringTuple other = gdp.findStringTuple other := by
  unfold GU_Detail.putStringTuple GU_Detail.findStringTuple
  exact lookup_put_other gdp.primitiveStrings name other a hne

theorem putStringTuple_primitives (gdp : GU_Detail) (name : String) (a : GA_ATIString) :
    (gdp.putStringTuple name a).primitives = gdp.primitives := rfl

/-- `addStringTuple`: the primitives stay; the other attributes stay; when it gives a
handle the attribute exists afterwards, as it was before or else empty. -/
theorem addStringTuple_spec (validName : String → Bool) (gdp : GU_Detail) (name : String) :
    (gdp.addStringTuple validName name).1.primitives = gdp.primitives ∧
      (∀ other, other ≠ name →
        (gdp.addStringTuple validName name).1.findStringTuple other
          = gdp.findStringTuple other) ∧
      ((gdp.addStringTuple validName name).2 = none →
        (gdp.addStringTuple validName name).1 = gdp) ∧
      (∀ attrib, (gdp.addStringTuple validName name).2 = some attrib →
        attrib = name ∧
        ((gdp.addStringTuple validName name).1.findStringTuple name = gdp.findStringTuple name ∨
          (gdp.findStringTuple name = none ∧
            (gdp.addStringTuple validName name).1.findStringTuple name
              = some { strings := [], handles := [] }))) := by
  cases hf : gdp.findStringTuple name with
  | some a =>
    have he : gdp.addStringTuple validName name = (gdp, some name) := by
      unfold GU_Detail.addStringTuple
      rw [hf]
    rw [he]
    refine ⟨rfl, fun _ _ => rfl, fun h => absurd h (by simp), ?_⟩
    intro attrib h
    simp only [Option.some.injEq] at h
    exact ⟨h.symm, Or.inl hf⟩
  | none =>
    by_cases hv : validName name = true
    · have he : gdp.addStringTuple validName name =
          (gdp.putStringTuple name { strings := [], handles := [] }, some name) := by
        unfold GU_Detail.addStringTuple
        rw [hf]
        simp only
        rw [if_pos hv]
      rw [he]
      refine ⟨rfl, fun other hne => findStringTuple_putStringTuple_other _ _ _ _ hne,
        fun h => absurd h (by simp), ?_⟩
      intro attrib h
      simp only [Option.some.injEq] at h
      exact ⟨h.symm, Or.inr ⟨rfl, findStringTuple_putStringTuple_same _ _ _⟩⟩
    · have he : gdp.addStringTuple validName name = (gdp, none) := by
        unfold GU_Detail.addStringTuple
        rw [hf]
        simp only
        rw [if_neg hv]
      rw [he]
      exact ⟨rfl, fun _ _ => rfl, fun _ => rfl, fun attrib h => absurd h (by simp)⟩

/-- When `addStringTuple` gives a handle, the attribute exists afterwards and every element
holds the index it held before, the invalid index when the attribute is new. -/
theorem addStringTuple_found (validName : String → Bool) (gdp : GU_Detail) (name : String)
    (attrib : String) (h : (gdp.addStringTuple validName name).2 = some attrib) :
    ∃ d, (gdp.addStringTuple validName name).1.findStringTuple name = some d ∧
      ∀ o, d.getStringIndex o =
        ((gdp.findStringTuple name).map (fun a => a.getStringIndex o)).getD
          GA_INVALID_STRING_INDEX := by
  cases hf : gdp.findStringTuple name with
  | some a =>
    have he : gdp.addStringTuple validName name = (gdp, some name) := by
      unfold GU_Detail.addStringTuple
      rw [hf]
    rw [he]
    exact ⟨a, hf, fun o => rfl⟩
  | none =>
    by_cases hv : validName name = true
    · have he : gdp.addStringTuple validName name =
          (gdp.putStringTuple name { strings := [], handles := [] }, some name) := by
        unfold GU_Detail.addStringTuple
        rw [hf]
        simp only
        rw [if_pos hv]
      rw [he]
      exact ⟨_, findStringTuple_putStringTuple_same _ _ _, fun o => rfl⟩
    · have he : gdp.addStringTuple validName name = (gdp, none) := by
        unfold GU_Detail.addStringTuple
        rw [hf]
        simp only
        rw [if_neg hv]
      rw [he] at h
      exact absurd h (by simp)

theorem setStringRange_primitives (gdp : GU_Detail) (name : String)
    (range : List GA_Offset) (str : String) :
    (gdp.setStringRange name range str).primitives = gdp.primitives := by
  unfold GU_Detail.setStringRange
  split <;> rfl

theorem setStringRange_other (gdp : GU_Detail) (name other : String)
    (range : List GA_Offset) (str : String) (hne : other ≠ name) :
    (gdp.setStringRange name range str).findStringTuple other
      = gdp.findStringTuple other := by
  unfold GU_Detail.setStringRange
  split
  · exact findStringTuple_putStringTuple_other _ _ _ _ hne
  · rfl

theorem setStringRange_same (gdp : GU_Detail) (name : String) (range : List GA_Offset)
    (str : String) (a : GA_ATIString) (h : gdp.findStringTuple name = some a) :
    (gdp.setStringRange name range str).findStringTuple name =
      some (range.foldl (fun b offset => b.setString offset str) a) := by
  unfold GU_Detail.setStringRange
  rw [h]
  exact findStringTuple_putStringTuple_same _ _ _

/-- Every offset of an index map lies below its offset size. -/
theorem GA_IndexMap_offsetSize_gt (offsets : List GA_Offset) :
    ∀ o ∈ offsets, o < GA_IndexMap_offsetSize offsets := by
  have key : ∀ (l : List Int) (init : Int),
      init ≤ l.foldl (fun size o => max size (o + 1)) init ∧
        ∀ o ∈ l, o < l.foldl (fun size o => max size (o + 1)) init := by
    intro l
    induction l with
    | nil =>
      intro init
      exact ⟨le_refl _, fun o ho => absurd ho (List.not_mem_nil o)⟩
    | cons first rest ih =>
      intro init
      obtain ⟨h1, h2⟩ := ih (max init (first + 1))
      simp only [List.foldl_cons]
      refine ⟨le_trans (le_max_left _ _) h1, ?_⟩
      intro o ho
      rcases List.mem_cons.1 ho with h | h
      · subst h
        have : o + 1 ≤ max init (o + 1) := le_max_right _ _
        omega
      · exact h2 o h
  intro o ho
  exact (key offsets 0).2 o ho

/-! ### `unpackPrim`: the path attributes -/

/-- What one stamping block of `unpackPrim` does to the detail. -/
theorem unpackPrim_stamp_spec (uenv : UnpackEnv) (rparms : GT_RefineParms)
    (key : GT_RefineKey) (primmarker : GA_IndexMap_Marker) (name str : String)
    (g result : GU_Detail)
    (h : unpackPrim_stamp uenv rparms key primmarker name str g = some result) :
    result.primitives = g.primitives ∧
      (∀ other, other ≠ name → result.findStringTuple other = g.findStringTuple other) ∧
      (GT_RefineParms.getBool (some rparms) key true = false → result = g) ∧
      (GT_RefineParms.getBool (some rparms) key true = true →
        ∀ o ∈ g.getIndexMap GA_ATTRIB_PRIMITIVE, primmarker.begin ≤ o →
          ∃ b, result.findStringTuple name = some b ∧ b.get o = str) ∧
      (∀ a, g.findStringTuple name = some a →
        ∃ b, result.findStringTuple name = some b ∧
          (∀ o, o < primmarker.begin → b.getStringIndex o = a.getStringIndex o) ∧
          (∀ idx x, a.lookupString idx = some x → b.lookupString idx = some x)) ∧
      (g.findStringTuple name = none →
        result.findStringTuple name = none ∨
          ∃ b, result.findStringTuple name = some b ∧
            ∀ o, o < primmarker.begin → b.getStringIndex o = GA_INVALID_STRING_INDEX) := by
  unfold unpackPrim_stamp at h
  by_cases hc : GT_RefineParms.getBool (some rparms) key true = true ∧
      primmarker.getBegin ≠ primmarker.getEnd (g.getIndexMap GA_ATTRIB_PRIMITIVE)
  · rw [if_pos hc] at h
    obtain ⟨a1, a2, a3, a4⟩ := addStringTuple_spec uenv.validAttribName g name
    generalize hadd : g.addStringTuple uenv.validAttribName name = added at h a1 a2 a3 a4
    obtain ⟨gdp1, attrib⟩ := added
    cases attrib with
    | none => exact absurd h (by simp)
    | some attrib =>
      simp only [Option.some.injEq] at h
      simp only at a1 a2 a3 a4
      obtain ⟨hname, hfind⟩ := a4 attrib rfl
      subst hname
      have hnotin : ∀ o, o < primmarker.begin →
          o ∉ primmarker.getRange (gdp1.getIndexMap GA_ATTRIB_PRIMITIVE) := by
        intro o ho hmem
        unfold GA_IndexMap_Marker.getRange at hmem
        rw [List.mem_filter] at hmem
        have : primmarker.begin ≤ o := by simpa using hmem.2
        exact absurd ho (not_lt.2 this)
      have hin : ∀ o ∈ g.getIndexMap GA_ATTRIB_PRIMITIVE, primmarker.begin ≤ o →
          o ∈ primmarker.getRange (gdp1.getIndexMap GA_ATTRIB_PRIMITIVE) := by
        intro o ho hb
        unfold GA_IndexMap_Marker.getRange
        rw [List.mem_filter]
        refine ⟨?_, by simpa using hb⟩
        unfold GU_Detail.getIndexMap at ho ⊢
        simp only at ho ⊢
        rw [a1]
        exact ho
      rw [← h]
      refine ⟨?_, ?_, ?_, ?_, ?_, ?_⟩
      · rw [setStringRange_primitives]
        exact a1
      · intro other hne
        rw [setStringRange_other _ _ _ _ _ hne]
        exact a2 other hne
      · intro hf
        rw [hc.1] at hf
        exact absurd hf (by simp)
      · intro _ o ho hb
        rcases hfind with hsame | ⟨_, hempty⟩
        · cases hg : gdp1.findStringTuple attrib with
          | none =>
            exfalso
            have hx := a4 attrib rfl
            unfold GU_Detail.addStringTuple at hadd
            rw [← hsame, hg] at hadd
            simp only at hadd
            split at hadd
            · have := congrArg Prod.fst hadd
              simp only at this
              rw [← this, findStringTuple_putStringTuple_same] at hg
              exact absurd hg (by simp)
            · have := congrArg Prod.snd hadd
              simp at this
          | some a0 =>
            refine ⟨_, setStringRange_same _ _ _ _ _ hg, ?_⟩
            exact (setString_fold_spec _ str a0).1 o (hin o ho hb)
        · refine ⟨_, setStringRange_same _ _ _ _ _ hempty, ?_⟩
          exact (setString_fold_spec _ str _).1 o (hin o ho hb)
      · intro a ha
        rcases hfind with hsame | ⟨hnone, _⟩
        · rw [ha] at hsame
          refine ⟨_, setStringRange_same _ _ _ _ _ hsame, ?_, ?_⟩
          · intro o ho
            exact (setString_fold_spec _ str a).2.1 o (hnotin o ho)
          · exact (setString_fold_spec _ str a).2.2
        · rw [ha] at hnone
          exact absurd hnone (by simp)
      · intro hn
        right
        rcases hfind with hsame | ⟨_, hempty⟩
        · exfalso
          rw [hn] at hsame
          unfold GU_Detail.addStringTuple at hadd
          rw [hn] at hadd
          simp only at hadd
          split at hadd
          · have := congrArg Prod.fst hadd
            simp only at this
            rw [← this, findStringTuple_putStringTuple_same] at hsame
            exact absurd hsame (by simp)
          · have := congrArg Prod.snd hadd
            simp at this
        · refine ⟨_, setStringRange_same _ _ _ _ _ hempty, ?_⟩
          intro o ho
          rw [(setString_fold_spec _ str _).2.1 o (hnotin o ho)]
          rfl
  · rw [if_neg hc] at h
    simp only [Option.some.injEq] at h
    subst h
    refine ⟨rfl, fun _ _ => rfl, fun _ => rfl, ?_, ?_, fun hn => Or.inl hn⟩
    · intro hb o ho hle
      exfalso
      have hend : primmarker.getBegin = primmarker.getEnd (g.getIndexMap GA_ATTRIB_PRIMITIVE) := by
        by_contra hne
        exact hc ⟨hb, hne⟩
      have hlt := GA_IndexMap_offsetSize_gt (g.getIndexMap GA_ATTRIB_PRIMITIVE) o ho
      unfold GA_IndexMap_Marker.getBegin GA_IndexMap_Marker.getEnd at hend
      rw [← hend] at hlt
      exact absurd hlt (not_lt.2 hle)
    · intro a ha
      exact ⟨a, ha, fun _ _ => rfl, fun _ _ hx => hx⟩

/-- The blocks of `unpackPrim` after the stamping leave the primitives and every primitive
string attribute other than "usdvisibility" as they are. -/
theorem unpackPrim_tail_spec (uenv : UnpackEnv) (self : GusdGU_PackedUSD)
    (rparms : GT_RefineParms) (ptmarker primmarker : GA_IndexMap_Marker) (prim : UsdPrim)
    (xform : UT_Matrix4D) (pattern : String) (g g5 : GU_Detail)
    (h : unpackPrim_xform uenv rparms ptmarker xform (unpackPrim_constantAttribs pattern g)
      = some g5) :
    (unpackPrim_visibility uenv self rparms primmarker prim g5).primitives = g.primitives ∧
      ∀ name, name ≠ "usdvisibility" →
        (unpackPrim_visibility uenv self rparms primmarker prim g5).findStringTuple name
          = g.findStringTuple name := by
  have h4 : (unpackPrim_constantAttribs pattern g).primitives = g.primitives ∧
      (unpackPrim_constantAttribs pattern g).primitiveStrings = g.primitiveStrings := by
    unfold unpackPrim_constantAttribs
    split
    · exact ⟨rfl, rfl⟩
    · exact ⟨rfl, rfl⟩
  have h5 : g5.primitives = g.primitives ∧ g5.primitiveStrings = g.primitiveStrings := by
    unfold unpackPrim_xform at h
    split at h
    · unfold Gusd_RecordXformAttrib at h
      simp only at h
      split at h
      · exact absurd h (by simp)
      · simp only [Option.some.injEq] at h
        rw [← h]
        exact h4
    · simp only [Option.some.injEq] at h
      rw [← h]
      exact h4
  have hvis : (unpackPrim_visibility uenv self rparms primmarker prim g5).primitives
        = g5.primitives ∧
      ∀ name, name ≠ "usdvisibility" →
        (unpackPrim_visibility uenv self rparms primmarker prim g5).findStringTuple name
          = g5.findStringTuple name := by
    unfold unpackPrim_visibility
    split
    · unfold Gusd_RecordVisibilityAttrib
      simp only
      split
      · exact ⟨rfl, fun _ _ => rfl⟩
      · obtain ⟨a1, a2, _, a4⟩ := addStringTuple_spec uenv.validAttribName g5 "usdvisibility"
        split
        · exact ⟨rfl, fun _ _ => rfl⟩
        · rename_i gdp1 attrib heq
          rw [heq] at a1 a2 a4
          simp only at a1 a2 a4
          obtain ⟨hname, _⟩ := a4 attrib rfl
          subst hname
          refine ⟨?_, ?_⟩
          · rw [setStringRange_primitives]
            exact a1
          · intro name hne
            rw [setStringRange_other _ _ _ _ _ hne]
            exact a2 name hne
    · exact ⟨rfl, fun _ _ => rfl⟩
  refine ⟨hvis.1.trans h5.1, ?_⟩
  intro name hne
  rw [hvis.2 name hne]
  unfold GU_Detail.findStringTuple
  rw [h5.2]

/-- C22: in the unpack `unpackPrim` does itself, with the primitives added being those at
the offsets from the primitive marker on: when the add-path setting is on (as by default),
every primitive added holds the file name of the handle in the path attribute, and when
the add-prim-path setting is on, every primitive added holds the path of the source prim
in the prim-path attribute; the primitives of the destination before the call lie below
the marker, and below the marker each of the two attributes keeps the string index every
element held after the merge (the invalid index when the attribute is new) and every string
of its table; when a setting is off the attribute is as the merge left it, created or
written by nothing in the call. -/
theorem C22_unpackPrim_stamps_paths (uenv : UnpackEnv) (self : GusdGU_PackedUSD)
    (destgdp : GU_Detail) (srcgdp : Option GU_Detail) (srcprimoff : GA_Offset)
    (prim : UsdPrim) (xform : UT_Matrix4D) (rparms : GT_RefineParms) (gtPrim : Nat)
    (result : GU_Detail)
    (h : unpackPrim_generic uenv self destgdp srcgdp srcprimoff prim xform rparms gtPrim
      = some result) :
    result.primitives =
        (unpackPrim_merged uenv destgdp srcgdp srcprimoff prim xform rparms gtPrim).primitives ∧
      (∀ p ∈ destgdp.primitives,
        p.offset < GA_IndexMap_offsetSize (destgdp.getIndexMap GA_ATTRIB_PRIMITIVE)) ∧
      (GT_RefineParms.getBool (some rparms) GT_RefineKey.GUSD_REFINE_ADDPATHATTRIB true = true →
        ∀ p ∈ result.primitives,
          GA_IndexMap_offsetSize (destgdp.getIndexMap GA_ATTRIB_PRIMITIVE) ≤ p.offset →
          ∃ b, result.findStringTuple GUSD_PATH_ATTR = some b ∧
            b.get p.offset = fileName self) ∧
      (GT_RefineParms.getBool (some rparms) GT_RefineKey.GUSD_REFINE_ADDPRIMPATHATTRIB true
          = true →
        ∀ p ∈ result.primitives,
          GA_IndexMap_offsetSize (destgdp.getIndexMap GA_ATTRIB_PRIMITIVE) ≤ p.offset →
          ∃ b, result.findStringTuple GUSD_PRIMPATH_ATTR = some b ∧
            b.get p.offset = prim.path.text) ∧
      (∀ name, name = GUSD_PATH_ATTR ∨ name = GUSD_PRIMPATH_ATTR →
        (∀ a, (unpackPrim_merged uenv destgdp srcgdp srcprimoff prim xform rparms
            gtPrim).findStringTuple name = some a →
          ∃ b, result.findStringTuple name = some b ∧
            (∀ o, o < GA_IndexMap_offsetSize (destgdp.getIndexMap GA_ATTRIB_PRIMITIVE) →
              b.getStringIndex o = a.getStringIndex o) ∧
            (∀ idx x, a.lookupString idx = some x → b.lookupString idx = some x)) ∧
        ((unpackPrim_merged uenv destgdp srcgdp srcprimoff prim xform rparms
            gtPrim).findStringTuple name = none →
          result.findStringTuple name = none ∨
            ∃ b, result.findStringTuple name = some b ∧
              ∀ o, o < GA_IndexMap_offsetSize (destgdp.getIndexMap GA_ATTRIB_PRIMITIVE) →
                b.getStringIndex o = GA_INVALID_STRING_INDEX)) ∧
      (GT_RefineParms.getBool (some rparms) GT_RefineKey.GUSD_REFINE_ADDPATHATTRIB true
          = false →
        result.findStringTuple GUSD_PATH_ATTR =
          (unpackPrim_merged uenv destgdp srcgdp srcprimoff prim xform rparms
            gtPrim).findStringTuple GUSD_PATH_ATTR) ∧
      (GT_RefineParms.getBool (some rparms) GT_RefineKey.GUSD_REFINE_ADDPRIMPATHATTRIB true
          = false →
        result.findStringTuple GUSD_PRIMPATH_ATTR =
          (unpackPrim_merged uenv destgdp srcgdp srcprimoff prim xform rparms
            gtPrim).findStringTuple GUSD_PRIMPATH_ATTR) := by
  have hne12 : GUSD_PATH_ATTR ≠ GUSD_PRIMPATH_ATTR := by decide
  have hne21 : GUSD_PRIMPATH_ATTR ≠ GUSD_PATH_ATTR := by decide
  have hv1 : GUSD_PATH_ATTR ≠ "usdvisibility" := by decide
  have hv2 : GUSD_PRIMPATH_ATTR ≠ "usdvisibility" := by decide
  have hbelow : ∀ p ∈ destgdp.primitives,
      p.offset < GA_IndexMap_offsetSize (destgdp.getIndexMap GA_ATTRIB_PRIMITIVE) := by
    intro p hp
    apply GA_IndexMap_offsetSize_gt
    unfold GU_Detail.getIndexMap
    exact List.mem_map_of_mem _ hp
  have hgen : unpackPrim_generic uenv self destgdp srcgdp srcprimoff prim xform rparms gtPrim =
      (match unpackPrim_stamp uenv rparms GT_RefineKey.GUSD_REFINE_ADDPATHATTRIB
          (GA_IndexMap_Marker.make (destgdp.getIndexMap GA_ATTRIB_PRIMITIVE))
          GUSD_PATH_ATTR (fileName self)
          (unpackPrim_merged uenv destgdp srcgdp srcprimoff prim xform rparms gtPrim) with
      | none => none
      | some destgdp2 =>
        match unpackPrim_stamp uenv rparms GT_RefineKey.GUSD_REFINE_ADDPRIMPATHATTRIB
            (GA_IndexMap_Marker.make (destgdp.getIndexMap GA_ATTRIB_PRIMITIVE))
            GUSD_PRIMPATH_ATTR prim.path.text destgdp2 with
        | none => none
        | some destgdp3 =>
          match unpackPrim_xform uenv rparms
              (GA_IndexMap_Marker.make (destgdp.getIndexMap GA_ATTRIB_POINT)) xform
              (unpackPrim_constantAttribs
                (Gusd_AccumulateConstantAttribs uenv.sortLE destgdp
                  (unpackPrim_details uenv prim xform rparms gtPrim)).1 destgdp3) with
          | none => none
          | some destgdp5 =>
            some (unpackPrim_visibility uenv self rparms
              (GA_IndexMap_Marker.make (destgdp.getIndexMap GA_ATTRIB_PRIMITIVE)) prim
              destgdp5)) := rfl
  rw [hgen] at h
  generalize unpackPrim_merged uenv destgdp srcgdp srcprimoff prim xform rparms gtPrim
    = merged at h ⊢
  cases h2 : unpackPrim_stamp uenv rparms GT_RefineKey.GUSD_REFINE_ADDPATHATTRIB
      (GA_IndexMap_Marker.make (destgdp.getIndexMap GA_ATTRIB_PRIMITIVE))
      GUSD_PATH_ATTR (fileName self) merged with
  | none =>
    rw [h2] at h
    exact absurd h (by simp)
  | some destgdp2 =>
    rw [h2] at h
    simp only at h
    cases h3 : unpackPrim_stamp uenv rparms GT_RefineKey.GUSD_REFINE_ADDPRIMPATHATTRIB
        (GA_IndexMap_Marker.make (destgdp.getIndexMap GA_ATTRIB_PRIMITIVE))
        GUSD_PRIMPATH_ATTR prim.path.text destgdp2 with
    | none =>
      rw [h3] at h
      exact absurd h (by simp)
    | some destgdp3 =>
      rw [h3] at h
      simp only at h
      cases h5 : unpackPrim_xform uenv rparms
          (GA_IndexMap_Marker.make (destgdp.getIndexMap GA_ATTRIB_POINT)) xform
          (unpackPrim_constantAttribs
            (Gusd_AccumulateConstantAttribs uenv.sortLE destgdp
              (unpackPrim_details uenv prim xform rparms gtPrim)).1 destgdp3) with
      | none =>
        rw [h5] at h
        exact absurd h (by simp)
      | some destgdp5 =>
        rw [h5] at h
        simp only [Option.some.injEq] at h
        obtain ⟨t1, t2⟩ := unpackPrim_tail_spec uenv self rparms _
          (GA_IndexMap_Marker.make (destgdp.getIndexMap GA_ATTRIB_PRIMITIVE)) prim xform _
          destgdp3 destgdp5 h5
        rw [h] at t1 t2
        obtain ⟨p1, p2, p3, p4, p5, p6⟩ := unpackPrim_stamp_spec _ _ _ _ _ _ _ _ h2
        obtain ⟨q1, q2, q3, q4, q5, q6⟩ := unpackPrim_stamp_spec _ _ _ _ _ _ _ _ h3
        have hbegin : (GA_IndexMap_Marker.make (destgdp.getIndexMap GA_ATTRIB_PRIMITIVE)).begin
            = GA_IndexMap_offsetSize (destgdp.getIndexMap GA_ATTRIB_PRIMITIVE) := rfl
        rw [hbegin] at p4 p5 p6 q4 q5 q6
        have hpath : result.findStringTuple GUSD_PATH_ATTR
            = destgdp2.findStringTuple GUSD_PATH_ATTR := by
          rw [t2 _ hv1, q2 _ hne12]
        have hprimpath : result.findStringTuple GUSD_PRIMPATH_ATTR
            = destgdp3.findStringTuple GUSD_PRIMPATH_ATTR := t2 _ hv2
        have hmid : destgdp2.findStringTuple GUSD_PRIMPATH_ATTR
            = merged.findStringTuple GUSD_PRIMPATH_ATTR := p2 _ hne21
        refine ⟨?_, hbelow, ?_, ?_, ?_, ?_, ?_⟩
        · rw [t1, q1, p1]
        · intro hon p hp hle
          rw [hpath]
          apply p4 hon p.offset _ hle
          unfold GU_Detail.getIndexMap
          simp only
          rw [t1, q1, p1] at hp
          exact List.mem_map_of_mem _ hp
        · intro hon p hp hle
          rw [hprimpath]
          apply q4 hon p.offset _ hle
          unfold GU_Detail.getIndexMap
          simp only
          rw [t1, q1] at hp
          exact List.mem_map_of_mem _ hp
        · intro name hname
          rcases hname with hname | hname
          · subst hname
            rw [hpath]
            exact ⟨p5, p6⟩
          · subst hname
            rw [hprimpath, ← hmid]
            exact ⟨q5, q6⟩
        · intro hoff
          rw [hpath, p3 hoff]
        · intro hoff
          rw [hprimpath, q3 hoff, hmid]

theorem C22_unpackPrim_stamps_paths_witness :
    (unpackPrim_merged demoUnpackEnv demoDest none 0 (demoPrim "/geo") 1 GT_RefineParms.init
        1).primitives.map (fun p => p.offset) = [0, 1, 2, 3] ∧
      ∃ result,
        unpackPrim_generic demoUnpackEnv (demoFresh "a.usd" "/geo") demoDest none 0
          (demoPrim "/geo") 1 GT_RefineParms.init 1 = some result ∧
        (∃ b, result.findStringTuple GUSD_PATH_ATTR = some b ∧ b.get 2 = "a.usd") ∧
        (∃ b, result.findStringTuple GUSD_PRIMPATH_ATTR = some b ∧ b.get 2 = "/geo") := by
  refine ⟨by decide, ?_⟩
  obtain ⟨result, h⟩ := Option.isSome_iff_exists.1
    (show (unpackPrim_generic demoUnpackEnv (demoFresh "a.usd" "/geo") demoDest none 0
      (demoPrim "/geo") 1 GT_RefineParms.init 1).isSome = true by decide)
  have t := C22_unpackPrim_stamps_paths demoUnpackEnv (demoFresh "a.usd" "/geo") demoDest
    none 0 (demoPrim "/geo") 1 GT_RefineParms.init 1 result h
  have hmem : ({ offset := 2, packedUSD := none } : GA_Primitive) ∈ result.primitives := by
    rw [t.1]
    decide
  exact ⟨result, h,
    t.2.2.1 (by decide) { offset := 2, packedUSD := none } hmem (by decide),
    t.2.2.2.1 (by decide) { offset := 2, packedUSD := none } hmem (by decide)⟩

/-! ### `_Cook`: the post-pass -/

theorem lookupString_invalid (a : GA_ATIString) :
    a.lookupString GA_INVALID_STRING_INDEX = none := by
  unfold GA_ATIString.lookupString UT_Array_at
  rw [if_neg (by decide)]

theorem get_eq_getD (a : GA_ATIString) (o : GA_Offset) :
    a.get o = (a.lookupString (a.getStringIndex o)).getD "" := by
  unfold GA_ATIString.get
  cases a.lookupString (a.getStringIndex o) <;> rfl

/-- An element that holds the invalid index for the empty string, or an index naming the
string, reads as that string. -/
theorem get_of_holds (a : GA_ATIString) (o : GA_Offset) (str : String)
    (h : (a.getStringIndex o = GA_INVALID_STRING_INDEX ∧ str = "") ∨
      a.lookupString (a.getStringIndex o) = some str) : a.get o = str := by
  rw [get_eq_getD]
  rcases h with ⟨h1, h2⟩ | h
  · rw [h1, lookupString_invalid, h2]
    rfl
  · rw [h]
    rfl

/-- What an element holds is kept when its index is kept and the table keeps its strings. -/
theorem holds_mono (a b : GA_ATIString) (o : GA_Offset) (str : String)
    (hidx : b.getStringIndex o = a.getStringIndex o)
    (htab : ∀ idx x, a.lookupString idx = some x → b.lookupString idx = some x)
    (h : (a.getStringIndex o = GA_INVALID_STRING_INDEX ∧ str = "") ∨
      a.lookupString (a.getStringIndex o) = some str) :
    (b.getStringIndex o = GA_INVALID_STRING_INDEX ∧ str = "") ∨
      b.lookupString (b.getStringIndex o) = some str := by
  rw [hidx]
  rcases h with h | h
  · exact Or.inl h
  · exact Or.inr (htab _ _ h)

/-- `setString` over a list of elements, each with the string `f` gives for it. -/
theorem setString_fold_var_spec (f : GA_Offset → String) (range : List GA_Offset)
    (a : GA_ATIString) :
    (∀ o ∈ range,
        ((range.foldl (fun d o => d.setString o (f o)) a).getStringIndex o
            = GA_INVALID_STRING_INDEX ∧ f o = "") ∨
          (range.foldl (fun d o => d.setString o (f o)) a).lookupString
            ((range.foldl (fun d o => d.setString o (f o)) a).getStringIndex o)
            = some (f o)) ∧
      (∀ o, o ∉ range →
        (range.foldl (fun d o => d.setString o (f o)) a).getStringIndex o
          = a.getStringIndex o) ∧
      (∀ idx x, a.lookupString idx = some x →
        (range.foldl (fun d o => d.setString o (f o)) a).lookupString idx = some x) := by
  induction range generalizing a with
  | nil =>
    refine ⟨fun o ho => absurd ho (List.not_mem_nil o), fun o _ => rfl, fun idx x h => h⟩
  | cons first rest ih =>
    obtain ⟨_, s2, s3, s4⟩ := setString_spec a first (f first)
    obtain ⟨i1, i2, i3⟩ := ih (a.setString first (f first))
    simp only [List.foldl_cons]
    refine ⟨?_, ?_, ?_⟩
    · intro o ho
      by_cases hr : o ∈ rest
      · exact i1 o hr
      · have ho2 : o = first := by
          rcases List.mem_cons.1 ho with h | h
          · exact h
          · exact absurd h hr
        subst ho2
        exact holds_mono _ _ o (f o) (i2 o hr) i3 s2
    · intro o ho
      have h1 : o ∉ rest := fun h => ho (List.mem_cons_of_mem _ h)
      have h2 : o ≠ first := fun h => ho (by rw [h]; exact List.mem_cons_self _ _)
      rw [i2 o h1, s3 o h2]
    · intro idx x h
      exact i3 idx x (s4 idx x h)

/-- `hpath.set(offset, str)` on a detail: an attribute that exists still exists, its
elements at other offsets keep their index, and its table keeps its strings. -/
theorem _Cook_set_spec (gdp : GU_Detail) (attrib : Option String) (offset : GA_Offset)
    (str : String) :
    (_Cook_set gdp attrib offset str).primitives = gdp.primitives ∧
      ∀ name a, gdp.findStringTuple name = some a →
        ∃ b, (_Cook_set gdp attrib offset str).findStringTuple name = some b ∧
          (∀ o, o ≠ offset → b.getStringIndex o = a.getStringIndex o) ∧
          (∀ idx x, a.lookupString idx = some x → b.lookupString idx = some x) := by
  unfold _Cook_set
  cases attrib with
  | none => exact ⟨rfl, fun name a ha => ⟨a, ha, fun _ _ => rfl, fun _ _ h => h⟩⟩
  | some target =>
    simp only
    cases ht : gdp.findStringTuple target with
    | none => exact ⟨rfl, fun name a ha => ⟨a, ha, fun _ _ => rfl, fun _ _ h => h⟩⟩
    | some c =>
      simp only
      refine ⟨rfl, ?_⟩
      intro name a ha
      by_cases hn : name = target
      · subst hn
        rw [ht] at ha
        simp only [Option.some.injEq] at ha
        subst ha
        obtain ⟨_, _, s3, s4⟩ := setString_spec c offset str
        exact ⟨_, findStringTuple_putStringTuple_same _ _ _, s3, s4⟩
      · refine ⟨a, ?_, fun _ _ => rfl, fun _ _ h => h⟩
        rw [findStringTuple_putStringTuple_other _ _ _ _ hn]
        exact ha

/-- The loop over the packed USD primitives: the primitives stay, and an attribute keeps
the index of every element at whose offset no packed USD primitive lies, and the strings
of its table. -/
theorem _Cook_packedLoop_spec (GetName : SdfPath → String) (pathAttrib nameAttrib : Option String)
    (prims : List GA_Primitive) (gdp : GU_Detail) :
    (_Cook_packedLoop GetName pathAttrib nameAttrib prims gdp).primitives = gdp.primitives ∧
      ∀ name a, gdp.findStringTuple name = some a →
        ∃ b, (_Cook_packedLoop GetName pathAttrib nameAttrib prims gdp).findStringTuple name
            = some b ∧
          (∀ o, (∀ q ∈ prims, q.offset = o → q.packedUSD = none) →
            b.getStringIndex o = a.getStringIndex o) ∧
          (∀ idx x, a.lookupString idx = some x → b.lookupString idx = some x) := by
  induction prims generalizing gdp with
  | nil => exact ⟨rfl, fun name a ha => ⟨a, ha, fun _ _ => rfl, fun _ _ h => h⟩⟩
  | cons prim rest ih =>
    unfold _Cook_packedLoop
    cases hp : prim.packedUSD with
    | none =>
      simp only
      obtain ⟨i1, i2⟩ := ih gdp
      refine ⟨i1, ?_⟩
      intro name a ha
      obtain ⟨b, hb, hidx, htab⟩ := i2 name a ha
      exact ⟨b, hb, fun o ho => hidx o (fun q hq => ho q (List.mem_cons_of_mem _ hq)), htab⟩
    | some packedUsd =>
      simp only
      obtain ⟨s1, s2⟩ := _Cook_set_spec gdp pathAttrib prim.offset packedUsd.primPath.text
      obtain ⟨t1, t2⟩ := _Cook_set_spec
        (_Cook_set gdp pathAttrib prim.offset packedUsd.primPath.text) nameAttrib prim.offset
        (GetName packedUsd.primPath)
      obtain ⟨i1, i2⟩ := ih (_Cook_set
        (_Cook_set gdp pathAttrib prim.offset packedUsd.primPath.text) nameAttrib prim.offset
        (GetName packedUsd.primPath))
      refine ⟨i1.trans (t1.trans s1), ?_⟩
      intro name a ha
      obtain ⟨b1, hb1, hidx1, htab1⟩ := s2 name a ha
      obtain ⟨b2, hb2, hidx2, htab2⟩ := t2 name b1 hb1
      obtain ⟨b3, hb3, hidx3, htab3⟩ := i2 name b2 hb2
      refine ⟨b3, hb3, ?_, fun idx x h => htab3 _ _ (htab2 _ _ (htab1 _ _ h))⟩
      intro o ho
      have hne : o ≠ prim.offset := by
        intro heq
        have := ho prim (List.mem_cons_self _ _) heq.symm
        rw [hp] at this
        exact absurd this (by simp)
      rw [hidx3 o (fun q hq => ho q (List.mem_cons_of_mem _ hq)), hidx2 o hne, hidx1 o hne]

/-- `pathAttrib->copy(primrange, *primPathAttrib, primrange)`: every element of the range
holds in the path attribute the string it holds in the prim-path attribute. -/
theorem _Cook_copyPath_spec (gdp : GU_Detail) (pathAttrib : String)
    (primrange : List GA_Offset) (src dst : GA_ATIString)
    (hne : pathAttrib ≠ GUSD_PRIMPATH_ATTR)
    (hsrc : gdp.findStringTuple GUSD_PRIMPATH_ATTR = some src)
    (hdst : gdp.findStringTuple pathAttrib = some dst) :
    (_Cook_copyPath gdp pathAttrib primrange).primitives = gdp.primitives ∧
      (∀ other, other ≠ pathAttrib →
        (_Cook_copyPath gdp pathAttrib primrange).findStringTuple other
          = gdp.findStringTuple other) ∧
      ∃ b, (_Cook_copyPath gdp pathAttrib primrange).findStringTuple pathAttrib = some b ∧
        ∀ o ∈ primrange,
          (b.getStringIndex o = GA_INVALID_STRING_INDEX ∧ src.get o = "") ∨
            b.lookupString (b.getStringIndex o) = some (src.get o) := by
  unfold _Cook_copyPath
  rw [if_neg hne, hsrc, hdst]
  simp only
  refine ⟨rfl, fun other ho => findStringTuple_putStringTuple_other _ _ _ _ ho,
    _, findStringTuple_putStringTuple_same _ _ _, ?_⟩
  exact (setString_fold_var_spec (fun o => src.get o) primrange dst).1

theorem lookup_cons_ne {β : Type} (l : List (GA_StringIndexType × β))
    (k other : GA_StringIndexType) (v : β) (hne : other ≠ k) :
    ((k, v) :: l).lookup other = l.lookup other := by
  have h2 : (other == k) = false := by simpa using hne
  simp only [List.lookup, h2]

theorem lookup_cons_same {β : Type} (l : List (GA_StringIndexType × β))
    (k : GA_StringIndexType) (v : β) : ((k, v) :: l).lookup k = some v := by
  simp [List.lookup]

/-- The name loop of the post-pass, started with a map from path indices to name indices
whose entries name the last component of the path: the name attribute keeps the strings of
its table and the index of every element that is outside the range or has no prim path;
every element of the range with a prim path holds the last component of that path, holds
the index the map gave for its path index, and holds the same index as every other element
with the same path index. -/
theorem _Cook_nameLoop_spec (nameAttrib : String) (hne : nameAttrib ≠ GUSD_PRIMPATH_ATTR)
    (src : GA_ATIString) (range : List GA_Offset) :
    ∀ (pathidxmap : List (GA_StringIndexType × GA_StringIndexType)) (gdp : GU_Detail)
      (n0 : GA_ATIString),
      gdp.findStringTuple GUSD_PRIMPATH_ATTR = some src →
      gdp.findStringTuple nameAttrib = some n0 →
      (∀ pi ni, pathidxmap.lookup pi = some ni →
        (ni = GA_INVALID_STRING_INDEX ∧ afterLastSlash ((src.lookupString pi).getD "") = "") ∨
          n0.lookupString ni = some (afterLastSlash ((src.lookupString pi).getD ""))) →
      (_Cook_nameLoop nameAttrib range pathidxmap gdp).primitives = gdp.primitives ∧
        (∀ other, other ≠ nameAttrib →
          (_Cook_nameLoop nameAttrib range pathidxmap gdp).findStringTuple other
            = gdp.findStringTuple other) ∧
        ∃ n1, (_Cook_nameLoop nameAttrib range pathidxmap gdp).findStringTuple nameAttrib
            = some n1 ∧
          (∀ idx x, n0.lookupString idx = some x → n1.lookupString idx = some x) ∧
          (∀ o, (o ∉ range ∨ src.getStringIndex o = GA_INVALID_STRING_INDEX) →
            n1.getStringIndex o = n0.getStringIndex o) ∧
          (∀ o ∈ range, src.getStringIndex o ≠ GA_INVALID_STRING_INDEX →
            (n1.getStringIndex o = GA_INVALID_STRING_INDEX ∧
                afterLastSlash (src.get o) = "") ∨
              n1.lookupString (n1.getStringIndex o) = some (afterLastSlash (src.get o))) ∧
          (∀ o ∈ range, src.getStringIndex o ≠ GA_INVALID_STRING_INDEX →
            ∀ ni, pathidxmap.lookup (src.getStringIndex o) = some ni →
              n1.getStringIndex o = ni) ∧
          (∀ o1 ∈ range, ∀ o2 ∈ range, src.getStringIndex o1 = src.getStringIndex o2 →
            src.getStringIndex o1 ≠ GA_INVALID_STRING_INDEX →
            n1.getStringIndex o1 = n1.getStringIndex o2) := by
  induction range with
  | nil =>
    intro pathidxmap gdp n0 hsrc hname hmap
    refine ⟨rfl, fun _ _ => rfl, n0, hname, fun _ _ h => h, fun _ _ => rfl, ?_, ?_, ?_⟩
    · intro o ho
      exact absurd ho (List.not_mem_nil o)
    · intro o ho
      exact absurd ho (List.not_mem_nil o)
    · intro o ho
      exact absurd ho (List.not_mem_nil o)
  | cons offset rest ih =>
    intro pathidxmap gdp n0 hsrc hname hmap
    by_cases hinv : src.getStringIndex offset = GA_INVALID_STRING_INDEX
    · -- the prim path is not set: the element is skipped
      have hstep : _Cook_nameLoop nameAttrib (offset :: rest) pathidxmap gdp =
          _Cook_nameLoop nameAttrib rest pathidxmap gdp := by
        rw [_Cook_nameLoop, hsrc, hname]
        simp only
        rw [if_pos hinv]
      rw [hstep]
      obtain ⟨i1, i2, n1, hn1, iT, iU, iV, iW1, iW2⟩ := ih pathidxmap gdp n0 hsrc hname hmap
      have hin : ∀ o ∈ offset :: rest, src.getStringIndex o ≠ GA_INVALID_STRING_INDEX →
          o ∈ rest := by
        intro o ho hv
        rcases List.mem_cons.1 ho with h | h
        · rw [h] at hv
          exact absurd hinv hv
        · exact h
      refine ⟨i1, i2, n1, hn1, iT, ?_, ?_, ?_, ?_⟩
      · intro o ho
        rcases ho with ho | ho
        · exact iU o (Or.inl (fun h => ho (List.mem_cons_of_mem _ h)))
        · exact iU o (Or.inr ho)
      · intro o ho hv
        exact iV o (hin o ho hv) hv
      · intro o ho hv
        exact iW1 o (hin o ho hv) hv
      · intro o1 ho1 o2 ho2 heq hv
        exact iW2 o1 (hin o1 ho1 hv) o2 (hin o2 ho2 (by rw [← heq]; exact hv)) heq hv
    · cases hlook : pathidxmap.lookup (src.getStringIndex offset) with
      | none =>
        -- a path index seen for the first time: the name is set and the index recorded
        have hstep : _Cook_nameLoop nameAttrib (offset :: rest) pathidxmap gdp =
            _Cook_nameLoop nameAttrib rest
              ((src.getStringIndex offset,
                (n0.setString offset (afterLastSlash
                  ((src.lookupString (src.getStringIndex offset)).getD ""))).getStringIndex
                  offset) :: pathidxmap)
              (gdp.putStringTuple nameAttrib
                (n0.setString offset (afterLastSlash
                  ((src.lookupString (src.getStringIndex offset)).getD "")))) := by
          rw [_Cook_nameLoop, hsrc, hname]
          simp only
          rw [if_neg hinv, hlook]
        rw [hstep]
        obtain ⟨_, s2, s3, s4⟩ := setString_spec n0 offset
          (afterLastSlash ((src.lookupString (src.getStringIndex offset)).getD ""))
        generalize hn : n0.setString offset
          (afterLastSlash ((src.lookupString (src.getStringIndex offset)).getD "")) = nset
          at s2 s3 s4 ⊢
        have hsrc1 : (gdp.putStringTuple nameAttrib nset).findStringTuple GUSD_PRIMPATH_ATTR
            = some src := by
          rw [findStringTuple_putStringTuple_other _ _ _ _ (fun h => hne h.symm)]
          exact hsrc
        have hname1 : (gdp.putStringTuple nameAttrib nset).findStringTuple nameAttrib
            = some nset := findStringTuple_putStringTuple_same _ _ _
        have hmap1 : ∀ pi ni,
            ((src.getStringIndex offset, nset.getStringIndex offset) :: pathidxmap).lookup pi
              = some ni →
            (ni = GA_INVALID_STRING_INDEX ∧
                afterLastSlash ((src.lookupString pi).getD "") = "") ∨
              nset.lookupString ni = some (afterLastSlash ((src.lookupString pi).getD "")) := by
          intro pi ni hl
          by_cases hpi : pi = src.getStringIndex offset
          · rw [hpi, lookup_cons_same] at hl
            simp only [Option.some.injEq] at hl
            rw [hpi, ← hl]
            exact s2
          · rw [lookup_cons_ne _ _ _ _ hpi] at hl
            rcases hmap pi ni hl with h | h
            · exact Or.inl h
            · exact Or.inr (s4 _ _ h)
        obtain ⟨i1, i2, n1, hn1, iT, iU, iV, iW1, iW2⟩ :=
          ih _ (gdp.putStringTuple nameAttrib nset) nset hsrc1 hname1 hmap1
        have hfirst : offset ∉ rest → n1.getStringIndex offset = nset.getStringIndex offset :=
          fun h => iU offset (Or.inl h)
        refine ⟨i1, ?_, n1, hn1, fun idx x h => iT _ _ (s4 _ _ h), ?_, ?_, ?_, ?_⟩
        · intro other ho
          rw [i2 other ho, findStringTuple_putStringTuple_other _ _ _ _ ho]
        · intro o ho
          have hoo : o ≠ offset := by
            rcases ho with ho | ho
            · exact fun h => ho (by rw [h]; exact List.mem_cons_self _ _)
            · exact fun h => hinv (by rw [← h]; exact ho)
          rw [← s3 o hoo]
          rcases ho with ho | ho
          · exact iU o (Or.inl (fun h => ho (List.mem_cons_of_mem _ h)))
          · exact iU o (Or.inr ho)
        · intro o ho hv
          by_cases hr : o ∈ rest
          · exact iV o hr hv
          · have ho2 : o = offset := by
              rcases List.mem_cons.1 ho with h | h
              · exact h
              · exact absurd h hr
            subst ho2
            rw [get_eq_getD]
            exact holds_mono _ _ o _ (hfirst hr) iT s2
        · intro o ho hv ni hl
          by_cases hr : o ∈ rest
          · apply iW1 o hr hv ni
            by_cases hpi : src.getStringIndex o = src.getStringIndex offset
            · rw [hpi, hlook] at hl
              exact absurd hl (by simp)
            · rw [lookup_cons_ne _ _ _ _ hpi]
              exact hl
          · have ho2 : o = offset := by
              rcases List.mem_cons.1 ho with h | h
              · exact h
              · exact absurd h hr
            subst ho2
            rw [hlook] at hl
            exact absurd hl (by simp)
        · intro o1 ho1 o2 ho2 heq hv
          have hv2 : src.getStringIndex o2 ≠ GA_INVALID_STRING_INDEX := by
            rw [← heq]
            exact hv
          have hkey : ∀ o ∈ offset :: rest, o ∉ rest →
              n1.getStringIndex o = nset.getStringIndex offset ∧ o = offset := by
            intro o ho hr
            have ho2 : o = offset := by
              rcases List.mem_cons.1 ho with h | h
              · exact h
              · exact absurd h hr
            subst ho2
            exact ⟨hfirst hr, rfl⟩
          have hrest : ∀ o ∈ rest, src.getStringIndex o = src.getStringIndex offset →
              n1.getStringIndex o = nset.getStringIndex offset := by
            intro o ho hsame
            apply iW1 o ho (by rw [hsame]; exact hinv)
            rw [hsame]
            exact lookup_cons_same _ _ _
          by_cases hr1 : o1 ∈ rest
          · by_cases hr2 : o2 ∈ rest
            · exact iW2 o1 hr1 o2 hr2 heq hv
            · obtain ⟨h2a, h2b⟩ := hkey o2 ho2 hr2
              rw [h2a]
              apply hrest o1 hr1
              rw [heq, h2b]
          · obtain ⟨h1a, h1b⟩ := hkey o1 ho1 hr1
            by_cases hr2 : o2 ∈ rest
            · rw [h1a]
              symm
              apply hrest o2 hr2
              rw [← heq, h1b]
            · obtain ⟨h2a, _⟩ := hkey o2 ho2 hr2
              rw [h1a, h2a]
      | some nameidx =>
        -- a path index seen before: the element gets the recorded name index
        have hstep : _Cook_nameLoop nameAttrib (offset :: rest) pathidxmap gdp =
            _Cook_nameLoop nameAttrib rest pathidxmap
              (gdp.putStringTuple nameAttrib (n0.setStringIndex offset nameidx)) := by
          rw [_Cook_nameLoop, hsrc, hname]
          simp only
          rw [if_neg hinv, hlook]
        rw [hstep]
        have hsrc1 : (gdp.putStringTuple nameAttrib
            (n0.setStringIndex offset nameidx)).findStringTuple GUSD_PRIMPATH_ATTR
            = some src := by
          rw [findStringTuple_putStringTuple_other _ _ _ _ (fun h => hne h.symm)]
          exact hsrc
        have hname1 : (gdp.putStringTuple nameAttrib
            (n0.setStringIndex offset nameidx)).findStringTuple nameAttrib
            = some (n0.setStringIndex offset nameidx) :=
          findStringTuple_putStringTuple_same _ _ _
        have htab : ∀ idx, (n0.setStringIndex offset nameidx).lookupString idx
            = n0.lookupString idx := fun _ => rfl
        have hmap1 : ∀ pi ni, pathidxmap.lookup pi = some ni →
            (ni = GA_INVALID_STRING_INDEX ∧
                afterLastSlash ((src.lookupString pi).getD "") = "") ∨
              (n0.setStringIndex offset nameidx).lookupString ni
                = some (afterLastSlash ((src.lookupString pi).getD "")) := by
          intro pi ni hl
          rw [htab]
          exact hmap pi ni hl
        obtain ⟨i1, i2, n1, hn1, iT, iU, iV, iW1, iW2⟩ :=
          ih _ (gdp.putStringTuple nameAttrib (n0.setStringIndex offset nameidx))
            (n0.setStringIndex offset nameidx) hsrc1 hname1 hmap1
        have hfirst : offset ∉ rest → n1.getStringIndex offset = nameidx := by
          intro h
          rw [iU offset (Or.inl h)]
          exact getStringIndex_setStringIndex_same _ _ _
        refine ⟨i1, ?_, n1, hn1, fun idx x h => iT _ _ (by rw [htab]; exact h), ?_, ?_, ?_, ?_⟩
        · intro other ho
          rw [i2 other ho, findStringTuple_putStringTuple_other _ _ _ _ ho]
        · intro o ho
          have hoo : o ≠ offset := by
            rcases ho with ho | ho
            · exact fun h => ho (by rw [h]; exact List.mem_cons_self _ _)
            · exact fun h => hinv (by rw [← h]; exact ho)
          rw [← getStringIndex_setStringIndex_other n0 offset o nameidx hoo]
          rcases ho with ho | ho
          · exact iU o (Or.inl (fun h => ho (List.mem_cons_of_mem _ h)))
          · exact iU o (Or.inr ho)
        · intro o ho hv
          by_cases hr : o ∈ rest
          · exact iV o hr hv
          · have ho2 : o = offset := by
              rcases List.mem_cons.1 ho with h | h
              · exact h
              · exact absurd h hr
            subst ho2
            rw [get_eq_getD, hfirst hr]
            rcases hmap _ _ hlook with h | h
            · exact Or.inl h
            · exact Or.inr (iT _ _ (by rw [htab]; exact h))
        · intro o ho hv ni hl
          by_cases hr : o ∈ rest
          · exact iW1 o hr hv ni hl
          · have ho2 : o = offset := by
              rcases List.mem_cons.1 ho with h | h
              · exact h
              · exact absurd h hr
            subst ho2
            rw [hlook] at hl
            simp only [Option.some.injEq] at hl
            rw [hfirst hr, hl]
        · intro o1 ho1 o2 ho2 heq hv
          have hkey : ∀ o ∈ offset :: rest, o ∉ rest →
              n1.getStringIndex o = nameidx ∧ o = offset := by
            intro o ho hr
            have ho2 : o = offset := by
              rcases List.mem_cons.1 ho with h | h
              · exact h
              · exact absurd h hr
            subst ho2
            exact ⟨hfirst hr, rfl⟩
          have hrest : ∀ o ∈ rest, src.getStringIndex o = src.getStringIndex offset →
              n1.getStringIndex o = nameidx := by
            intro o ho hsame
            apply iW1 o ho (by rw [hsame]; exact hinv)
            rw [hsame]
            exact hlook
          by_cases hr1 : o1 ∈ rest
          · by_cases hr2 : o2 ∈ rest
            · exact iW2 o1 hr1 o2 hr2 heq hv
            · obtain ⟨h2a, h2b⟩ := hkey o2 ho2 hr2
              rw [h2a]
              apply hrest o1 hr1
              rw [heq, h2b]
          · obtain ⟨h1a, h1b⟩ := hkey o1 ho1 hr1
            by_cases hr2 : o2 ∈ rest
            · rw [h1a]
              symm
              apply hrest o2 hr2
              rw [← heq, h1b]
            · obtain ⟨h2a, _⟩ := hkey o2 ho2 hr2
              rw [h1a, h2a]

theorem addStringTuple_valid (validName : String → Bool) (gdp : GU_Detail) (name : String)
    (hv : validName name = true) : (gdp.addStringTuple validName name).2 = some name := by
  unfold GU_Detail.addStringTuple
  cases gdp.findStringTuple name with
  | some a => rfl
  | none =>
    simp only
    rw [if_pos hv]

/-- The post-pass when the name attribute is requested and the prim-path attribute exists:
the copy into the path attribute (when there is one), the name loop, the loop over the
packed USD primitives. -/
theorem _Cook_postPass_eq {Opts : Type} (env : CookEnv Opts) (parms : Parms) (gdp : GU_Detail)
    (g1 g2 : GU_Detail) (pa : Option String) (src : GA_ATIString)
    (hnn : parms.unpack_nameattrib ≠ "")
    (h1 : (if parms.unpack_pathattrib ≠ "" then
        gdp.addStringTuple env.validAttribName parms.unpack_pathattrib else (gdp, none))
      = (g1, pa))
    (h2 : g1.addStringTuple env.validAttribName parms.unpack_nameattrib
      = (g2, some parms.unpack_nameattrib))
    (hsrc : g2.findStringTuple GUSD_PRIMPATH_ATTR = some src) :
    _Cook_postPass env parms gdp =
      _Cook_packedLoop env.GetName pa (some parms.unpack_nameattrib)
        (_Cook_nameLoop parms.unpack_nameattrib (g2.getIndexMap GA_ATTRIB_PRIMITIVE) []
          (pa.elim g2
            (fun name => _Cook_copyPath g2 name (g2.getIndexMap GA_ATTRIB_PRIMITIVE)))).primitives
        (_Cook_nameLoop parms.unpack_nameattrib (g2.getIndexMap GA_ATTRIB_PRIMITIVE) []
          (pa.elim g2
            (fun name => _Cook_copyPath g2 name (g2.getIndexMap GA_ATTRIB_PRIMITIVE)))) := by
  unfold _Cook_postPass
  simp only [h1, hnn, ne_eq, not_false_eq_true, if_true, h2, hsrc, Option.isSome_some,
    or_true]
  cases pa <;> rfl

/-- The name and path attributes after lines 485-566 of the post-pass, before the loop over
the packed USD primitives, when the name attribute is requested under a name of its own and
the prim-path attribute exists. -/
theorem _Cook_postPass_derive_spec {Opts : Type} (env : CookEnv Opts) (parms : Parms)
    (gdp : GU_Detail) (src : GA_ATIString)
    (hnn : parms.unpack_nameattrib ≠ "")
    (hnv : env.validAttribName parms.unpack_nameattrib = true)
    (hn1 : parms.unpack_nameattrib ≠ GUSD_PRIMPATH_ATTR)
    (hn2 : parms.unpack_pathattrib ≠ parms.unpack_nameattrib)
    (hp1 : parms.unpack_pathattrib ≠ GUSD_PRIMPATH_ATTR)
    (hsrc : gdp.findStringTuple GUSD_PRIMPATH_ATTR = some src) :
    ∃ (mid : GU_Detail) (pa : Option String) (n1 : GA_ATIString),
      _Cook_postPass env parms gdp =
        _Cook_packedLoop env.GetName pa (some parms.unpack_nameattrib) mid.primitives mid ∧
      mid.primitives = gdp.primitives ∧
      mid.findStringTuple parms.unpack_nameattrib = some n1 ∧
      (∀ p ∈ gdp.primitives, src.getStringIndex p.offset ≠ GA_INVALID_STRING_INDEX →
        (n1.getStringIndex p.offset = GA_INVALID_STRING_INDEX ∧
            afterLastSlash (src.get p.offset) = "") ∨
          n1.lookupString (n1.getStringIndex p.offset)
            = some (afterLastSlash (src.get p.offset))) ∧
      (∀ p ∈ gdp.primitives, src.getStringIndex p.offset = GA_INVALID_STRING_INDEX →
        n1.getStringIndex p.offset =
          ((gdp.findStringTuple parms.unpack_nameattrib).map
            (fun n0 => n0.getStringIndex p.offset)).getD GA_INVALID_STRING_INDEX) ∧
      (∀ p1 ∈ gdp.primitives, ∀ p2 ∈ gdp.primitives,
        src.getStringIndex p1.offset = src.getStringIndex p2.offset →
        src.getStringIndex p1.offset ≠ GA_INVALID_STRING_INDEX →
        n1.getStringIndex p1.offset = n1.getStringIndex p2.offset) ∧
      (parms.unpack_pathattrib ≠ "" →
        env.validAttribName parms.unpack_pathattrib = true →
        pa = some parms.unpack_pathattrib ∧
        ∃ b, mid.findStringTuple parms.unpack_pathattrib = some b ∧
          ∀ p ∈ gdp.primitives,
            (b.getStringIndex p.offset = GA_INVALID_STRING_INDEX ∧ src.get p.offset = "") ∨
              b.lookupString (b.getStringIndex p.offset) = some (src.get p.offset)) := by
  -- the two attributes are added
  have hadd1 : ∃ g1 pa,
      (if parms.unpack_pathattrib ≠ "" then
        gdp.addStringTuple env.validAttribName parms.unpack_pathattrib else (gdp, none))
        = (g1, pa) ∧
      g1.primitives = gdp.primitives ∧
      (∀ other, other ≠ parms.unpack_pathattrib →
        g1.findStringTuple other = gdp.findStringTuple other) ∧
      (pa = none ∨ (pa = some parms.unpack_pathattrib ∧
        ∃ dst, g1.findStringTuple parms.unpack_pathattrib = some dst)) ∧
      (parms.unpack_pathattrib ≠ "" → env.validAttribName parms.unpack_pathattrib = true →
        pa = some parms.unpack_pathattrib) := by
    by_cases hpn : parms.unpack_pathattrib ≠ ""
    · rw [if_pos hpn]
      obtain ⟨a1, a2, _, a4⟩ := addStringTuple_spec env.validAttribName gdp
        parms.unpack_pathattrib
      refine ⟨(gdp.addStringTuple env.validAttribName parms.unpack_pathattrib).1,
        (gdp.addStringTuple env.validAttribName parms.unpack_pathattrib).2, rfl, a1, a2,
        ?_, ?_⟩
      · cases hpa : (gdp.addStringTuple env.validAttribName parms.unpack_pathattrib).2 with
        | none => exact Or.inl rfl
        | some attrib =>
          obtain ⟨hname, _⟩ := a4 attrib hpa
          obtain ⟨d, hd, _⟩ := addStringTuple_found env.validAttribName gdp
            parms.unpack_pathattrib attrib hpa
          exact Or.inr ⟨by rw [hname], d, hd⟩
      · intro _ hv
        exact addStringTuple_valid _ _ _ hv
    · rw [if_neg hpn]
      exact ⟨gdp, none, rfl, rfl, fun _ _ => rfl, Or.inl rfl, fun h => absurd h hpn⟩
  obtain ⟨g1, pa, h1, g1prims, g1other, hpa, hpasome⟩ := hadd1
  obtain ⟨b1, b2, _, _⟩ := addStringTuple_spec env.validAttribName g1 parms.unpack_nameattrib
  have hna := addStringTuple_valid env.validAttribName g1 parms.unpack_nameattrib hnv
  obtain ⟨n0, hn0find, hn0idx1⟩ := addStringTuple_found env.validAttribName g1
    parms.unpack_nameattrib _ hna
  generalize hg2 : g1.addStringTuple env.validAttribName parms.unpack_nameattrib = added2
    at b1 b2 hna hn0find
  obtain ⟨g2, na⟩ := added2
  simp only at b1 b2 hna hn0find
  subst hna
  have hsrc2 : g2.findStringTuple GUSD_PRIMPATH_ATTR = some src := by
    rw [b2 _ (fun h => hn1 h.symm), g1other _ (fun h => hp1 h.symm)]
    exact hsrc
  have hpost := _Cook_postPass_eq env parms gdp g1 g2 pa src hnn h1 hg2 hsrc2
  have hn0idx : ∀ o, n0.getStringIndex o =
      ((gdp.findStringTuple parms.unpack_nameattrib).map
        (fun a => a.getStringIndex o)).getD GA_INVALID_STRING_INDEX := by
    intro o
    rw [hn0idx1 o, g1other _ (fun h => hn2 h.symm)]
  have hrange : ∀ p ∈ gdp.primitives, p.offset ∈ g2.getIndexMap GA_ATTRIB_PRIMITIVE := by
    intro p hp
    unfold GU_Detail.getIndexMap
    simp only
    rw [b1, g1prims]
    exact List.mem_map_of_mem _ hp
  -- the copy into the path attribute
  have hA : (pa.elim g2 (fun name => _Cook_copyPath g2 name
        (g2.getIndexMap GA_ATTRIB_PRIMITIVE))).primitives = g2.primitives ∧
      (pa.elim g2 (fun name => _Cook_copyPath g2 name
        (g2.getIndexMap GA_ATTRIB_PRIMITIVE))).findStringTuple GUSD_PRIMPATH_ATTR
        = some src ∧
      (pa.elim g2 (fun name => _Cook_copyPath g2 name
        (g2.getIndexMap GA_ATTRIB_PRIMITIVE))).findStringTuple parms.unpack_nameattrib
        = some n0 ∧
      (pa = some parms.unpack_pathattrib →
        ∃ b, (pa.elim g2 (fun name => _Cook_copyPath g2 name
            (g2.getIndexMap GA_ATTRIB_PRIMITIVE))).findStringTuple parms.unpack_pathattrib
            = some b ∧
          ∀ o ∈ g2.getIndexMap GA_ATTRIB_PRIMITIVE,
            (b.getStringIndex o = GA_INVALID_STRING_INDEX ∧ src.get o = "") ∨
              b.lookupString (b.getStringIndex o) = some (src.get o)) := by
    rcases hpa with hnone | ⟨hsome, dst, hdst⟩
    · subst hnone
      exact ⟨rfl, hsrc2, hn0find, fun h => absurd h (by simp)⟩
    · subst hsome
      have hdst2 : g2.findStringTuple parms.unpack_pathattrib = some dst := by
        rw [b2 _ hn2]
        exact hdst
      obtain ⟨c1, c2, b, hb, hbv⟩ := _Cook_copyPath_spec g2 parms.unpack_pathattrib
        (g2.getIndexMap GA_ATTRIB_PRIMITIVE) src dst hp1 hsrc2 hdst2
      refine ⟨c1, ?_, ?_, fun _ => ⟨b, hb, hbv⟩⟩
      · show (_Cook_copyPath g2 parms.unpack_pathattrib
          (g2.getIndexMap GA_ATTRIB_PRIMITIVE)).findStringTuple GUSD_PRIMPATH_ATTR = some src
        rw [c2 _ (fun h => hp1 h.symm)]
        exact hsrc2
      · show (_Cook_copyPath g2 parms.unpack_pathattrib
          (g2.getIndexMap GA_ATTRIB_PRIMITIVE)).findStringTuple parms.unpack_nameattrib
          = some n0
        rw [c2 _ (fun h => hn2 h.symm)]
        exact hn0find
  obtain ⟨A1, A2, A3, A4⟩ := hA
  generalize pa.elim g2 (fun name => _Cook_copyPath g2 name
    (g2.getIndexMap GA_ATTRIB_PRIMITIVE)) = gdpA at hpost A1 A2 A3 A4
  -- the name loop
  obtain ⟨L1, L2, n1, hn1find, LT, LU, LV, _, LW2⟩ := _Cook_nameLoop_spec
    parms.unpack_nameattrib hn1 src (g2.getIndexMap GA_ATTRIB_PRIMITIVE) [] gdpA n0 A2 A3
    (fun pi ni h => absurd h (by simp [List.lookup]))
  generalize _Cook_nameLoop parms.unpack_nameattrib (g2.getIndexMap GA_ATTRIB_PRIMITIVE) []
    gdpA = gdp3 at hpost L1 L2 hn1find
  have hprims3 : gdp3.primitives = gdp.primitives := by
    rw [L1, A1, b1, g1prims]
  refine ⟨gdp3, pa, n1, hpost, hprims3, hn1find, ?_, ?_, ?_, ?_⟩
  · intro p hp hv
    exact LV _ (hrange p hp) hv
  · intro p hp hv
    rw [LU _ (Or.inr hv), hn0idx]
  · intro p1 hp1' p2 hp2' heq hv
    exact LW2 _ (hrange p1 hp1') _ (hrange p2 hp2') heq hv
  · intro hpn hpv
    obtain ⟨b, hb, hbv⟩ := A4 (hpasome hpn hpv)
    refine ⟨hpasome hpn hpv, b, ?_, fun p hp => hbv _ (hrange p hp)⟩
    rw [L2 _ hn2]
    exact hb

/-- The name and path attributes after the post-pass, at the primitives at whose offset no
packed USD primitive lies, when the name attribute is requested under a name of its own
and the prim-path attribute exists. -/
theorem _Cook_postPass_spec {Opts : Type} (env : CookEnv Opts) (parms : Parms)
    (gdp : GU_Detail) (src : GA_ATIString)
    (hnn : parms.unpack_nameattrib ≠ "")
    (hnv : env.validAttribName parms.unpack_nameattrib = true)
    (hn1 : parms.unpack_nameattrib ≠ GUSD_PRIMPATH_ATTR)
    (hn2 : parms.unpack_pathattrib ≠ parms.unpack_nameattrib)
    (hp1 : parms.unpack_pathattrib ≠ GUSD_PRIMPATH_ATTR)
    (hsrc : gdp.findStringTuple GUSD_PRIMPATH_ATTR = some src) :
    (∃ n, (_Cook_postPass env parms gdp).findStringTuple parms.unpack_nameattrib = some n ∧
        (∀ p ∈ gdp.primitives,
          (∀ q ∈ gdp.primitives, q.offset = p.offset → q.packedUSD = none) →
          src.getStringIndex p.offset ≠ GA_INVALID_STRING_INDEX →
          n.get p.offset = afterLastSlash (src.get p.offset)) ∧
        (∀ p ∈ gdp.primitives,
          (∀ q ∈ gdp.primitives, q.offset = p.offset → q.packedUSD = none) →
          src.getStringIndex p.offset = GA_INVALID_STRING_INDEX →
          n.getStringIndex p.offset =
            ((gdp.findStringTuple parms.unpack_nameattrib).map
              (fun n0 => n0.getStringIndex p.offset)).getD GA_INVALID_STRING_INDEX) ∧
        (∀ p1 ∈ gdp.primitives, ∀ p2 ∈ gdp.primitives,
          (∀ q ∈ gdp.primitives, q.offset = p1.offset → q.packedUSD = none) →
          (∀ q ∈ gdp.primitives, q.offset = p2.offset → q.packedUSD = none) →
          src.getStringIndex p1.offset = src.getStringIndex p2.offset →
          src.getStringIndex p1.offset ≠ GA_INVALID_STRING_INDEX →
          n.getStringIndex p1.offset = n.getStringIndex p2.offset)) ∧
      (parms.unpack_pathattrib ≠ "" →
        env.validAttribName parms.unpack_pathattrib = true →
        ∃ q, (_Cook_postPass env parms gdp).findStringTuple parms.unpack_pathattrib = some q ∧
          ∀ p ∈ gdp.primitives,
            (∀ r ∈ gdp.primitives, r.offset = p.offset → r.packedUSD = none) →
            q.get p.offset = src.get p.offset) := by
  obtain ⟨mid, pa, n1, hpost, hprims, hn1find, D1, D2, D3, D4⟩ :=
    _Cook_postPass_derive_spec env parms gdp src hnn hnv hn1 hn2 hp1 hsrc
  obtain ⟨_, P2⟩ := _Cook_packedLoop_spec env.GetName pa (some parms.unpack_nameattrib)
    mid.primitives mid
  rw [hprims] at P2
  rw [hpost, hprims]
  constructor
  · obtain ⟨n2, hn2find, Pidx, Ptab⟩ := P2 _ n1 hn1find
    refine ⟨n2, hn2find, ?_, ?_, ?_⟩
    · intro p hp hnp hv
      apply get_of_holds
      exact holds_mono n1 n2 p.offset _ (Pidx _ hnp) Ptab (D1 p hp hv)
    · intro p hp hnp hv
      rw [Pidx _ hnp, D2 p hp hv]
    · intro p1 hp1' p2 hp2' hnp1 hnp2 heq hv
      rw [Pidx _ hnp1, Pidx _ hnp2]
      exact D3 p1 hp1' p2 hp2' heq hv
  · intro hpn hpv
    obtain ⟨_, b, hb, hbv⟩ := D4 hpn hpv
    obtain ⟨q, hqfind, Qidx, Qtab⟩ := P2 _ b hb
    refine ⟨q, hqfind, ?_⟩
    intro p hp hnp
    apply get_of_holds
    exact holds_mono b q p.offset _ (Qidx _ hnp) Qtab (hbv p hp)

/-- C24: in the post-pass of `_Cook`, with the name attribute requested under a name that
can be used and differs from the names of the path and prim-path attributes: after the
name loop (lines 528-565) all primitives whose prim-path attribute holds the same valid
string index hold one and the same string index in the name attribute, the index stored
for that path index when its first primitive was named; the loop over the packed USD
primitives that follows keeps the index of every primitive at whose offset no packed USD
primitive lies, so that the same holds of those in the detail returned. -/
theorem C24_postPass_name_dedup {Opts : Type} (env : CookEnv Opts) (parms : Parms)
    (gdp : GU_Detail) (src : GA_ATIString)
    (hnn : parms.unpack_nameattrib ≠ "")
    (hnv : env.validAttribName parms.unpack_nameattrib = true)
    (hn1 : parms.unpack_nameattrib ≠ GUSD_PRIMPATH_ATTR)
    (hn2 : parms.unpack_pathattrib ≠ parms.unpack_nameattrib)
    (hp1 : parms.unpack_pathattrib ≠ GUSD_PRIMPATH_ATTR)
    (hsrc : gdp.findStringTuple GUSD_PRIMPATH_ATTR = some src) :
    (∃ mid pa n1,
        _Cook_postPass env parms gdp =
          _Cook_packedLoop env.GetName pa (some parms.unpack_nameattrib) mid.primitives mid ∧
        mid.primitives = gdp.primitives ∧
        mid.findStringTuple parms.unpack_nameattrib = some n1 ∧
        ∀ p1 ∈ gdp.primitives, ∀ p2 ∈ gdp.primitives,
          src.getStringIndex p1.offset = src.getStringIndex p2.offset →
          src.getStringIndex p1.offset ≠ GA_INVALID_STRING_INDEX →
          n1.getStringIndex p1.offset = n1.getStringIndex p2.offset) ∧
      ∃ n, (_Cook_postPass env parms gdp).findStringTuple parms.unpack_nameattrib = some n ∧
        ∀ p1 ∈ gdp.primitives, ∀ p2 ∈ gdp.primitives,
          (∀ r ∈ gdp.primitives, r.offset = p1.offset → r.packedUSD = none) →
          (∀ r ∈ gdp.primitives, r.offset = p2.offset → r.packedUSD = none) →
          src.getStringIndex p1.offset = src.getStringIndex p2.offset →
          src.getStringIndex p1.offset ≠ GA_INVALID_STRING_INDEX →
          n.getStringIndex p1.offset = n.getStringIndex p2.offset := by
  obtain ⟨mid, pa, n1, hpost, hprims, hn1find, _, _, D3, _⟩ :=
    _Cook_postPass_derive_spec env parms gdp src hnn hnv hn1 hn2 hp1 hsrc
  obtain ⟨⟨n, hn, _, _, hsame⟩, _⟩ :=
    _Cook_postPass_spec env parms gdp src hnn hnv hn1 hn2 hp1 hsrc
  exact ⟨⟨mid, pa, n1, hpost, hprims, hn1find, D3⟩, n, hn, hsame⟩

theorem C24_postPass_name_dedup_witness :
    (∃ n, (_Cook_postPass demoEnv (demoParms "std:components" "polygons")
        demoUnpacked).findStringTuple "name" = some n ∧
        n.getStringIndex 0 = n.getStringIndex 1) ∧
      ((_Cook_postPass demoEnv (demoParms "std:components" "polygons")
        demoUnpacked).findStringTuple "name").map (fun n => n.strings)
        = some ["b", "top", "geo"] := by
  obtain ⟨_, n, hn, hsame⟩ := C24_postPass_name_dedup demoEnv
    (demoParms "std:components" "polygons") demoUnpacked
    { strings := ["/a/b", "top"], handles := [(0, 0), (1, 0), (2, 1)] }
    (by decide) (by decide) (by decide) (by decide) (by decide) rfl
  exact ⟨⟨n, hn, hsame { offset := 0, packedUSD := none } (by decide)
    { offset := 1, packedUSD := none } (by decide) (by decide) (by decide) (by decide)
    (by decide)⟩, by decide⟩

end HoudiniUsdBridge
